import Mathlib

/-!
# iSEG tissue catalog (`iSeg/TissueInfos.cpp`): embedding and properties

The static state of `TissueInfos` (the vector `tissueInfosVector`, the map
`tissueTypeMap`) and the file-static `_selection` are passed explicitly.

Conventions of the embedding.

* `std::string` is a list of bytes; a `float` is the four bytes of its object
  representation (the code only copies floats, compares one with `1.2345f` and
  writes or reads them raw).
* `tissues_size_t`, `TISSUES_SIZE_MAX` and the constructor `TissueInfo()` are
  declared in headers outside this development; they are the fields of
  `Platform`.  Integers are natural numbers, reduced modulo the width of their
  C++ type where the code converts.
* Integers in files are little endian (the object representation on the
  machines iSEG runs on).
* Functions that loop on a `tissues_size_t` counter or index a vector return
  an `Option`: `none` stands for "no defined result" (the counter wraps and
  the loop never ends, or an index is out of range).
-/

namespace iseg

/-! ## Data model -/

abbrev Byte := Fin 256

/-- A `float` object: the four bytes of its object representation, in memory order. -/
structure CFloat where
  b0 : Byte
  b1 : Byte
  b2 : Byte
  b3 : Byte
deriving DecidableEq, Repr

/-- The constant `0.5f` (IEEE 754 single precision `0x3F000000`, little endian). -/
def CFloat.half : CFloat := ⟨0, 0, 0, 63⟩

/-- The constant `1.2345f` (IEEE 754 single precision `0x3F9E0419`, little endian). -/
def CFloat.sentinel : CFloat := ⟨25, 4, 158, 63⟩

/-- The constant `0.0f`. -/
def CFloat.zero : CFloat := ⟨0, 0, 0, 0⟩

/-- The constant `1.0f` (`0x3F800000`). -/
def CFloat.one : CFloat := ⟨0, 0, 128, 63⟩

/-- The comparison `id == 1.2345f`: `1.2345f` is a finite non-zero value, so a float
compares equal to it exactly when it has the same bit pattern. -/
def CFloat.eqSentinel (x : CFloat) : Bool := decide (x = CFloat.sentinel)

structure Color where
  r : CFloat
  g : CFloat
  b : CFloat
deriving DecidableEq, Repr

/-- The record `TissueInfo`: `name`, `color`, `opac`, `locked`. -/
structure TissueInfo where
  name : List Byte
  color : Color
  opac : CFloat
  locked : Bool
deriving DecidableEq, Repr

/-- What the headers that are not part of this development fix: the size in bytes of
`tissues_size_t` (with `TISSUES_SIZE_MAX` its largest value) and the value of a
default-constructed `TissueInfo`. -/
structure Platform where
  sizeofTissuesSize : Nat
  defaultInfo : TissueInfo

/-- Number of values of `tissues_size_t`; conversion to `tissues_size_t` reduces modulo it. -/
def Platform.modulus (P : Platform) : Nat := 256 ^ P.sizeofTissuesSize

/-- The constant `TISSUES_SIZE_MAX`. -/
def TISSUES_SIZE_MAX (P : Platform) : Nat := P.modulus - 1

/-- The map `tissueTypeMap` (`std::map<std::string, tissues_size_t>`) as an association
list with at most one entry per key. -/
abbrev TissueTypeMapType := List (List Byte × Nat)

/-- `m.find(key)`: the mapped value, `none` for `end()`. -/
def TissueTypeMapType.find (m : TissueTypeMapType) (key : List Byte) : Option Nat :=
  m.lookup key

/-- `m.insert(std::make_pair(key, val))`: `std::map::insert` leaves the map unchanged when
the key is already present. -/
def TissueTypeMapType.insert (m : TissueTypeMapType) (key : List Byte) (val : Nat) :
    TissueTypeMapType :=
  if (m.lookup key).isSome then m else m ++ [(key, val)]

/-- `m.erase(key)`. -/
def TissueTypeMapType.erase (m : TissueTypeMapType) (key : List Byte) : TissueTypeMapType :=
  m.filter (fun e => e.1 != key)

/-- A `std::set<tissues_size_t>`: its elements in ascending order, as iteration visits them. -/
abbrev TissueSet := List Nat

/-- `s.insert(x)`. -/
def TissueSet.insert : TissueSet → Nat → TissueSet
  | [], x => [x]
  | y :: ys, x =>
    if x < y then x :: y :: ys
    else if x = y then y :: ys
    else y :: TissueSet.insert ys x

/-- `s.find(x) != s.end()`. -/
def TissueSet.has (s : TissueSet) (x : Nat) : Bool := s.contains x

/-- `s.erase(s.find(x))` for an element that was found. -/
def TissueSet.erase (s : TissueSet) (x : Nat) : TissueSet := s.filter (fun y => y != x)

/-- The static state of class `TissueInfos`. -/
structure TissueInfos where
  tissueInfosVector : List TissueInfo
  tissueTypeMap : TissueTypeMapType
deriving DecidableEq, Repr

/-- The collaborator `SlicesHandler`, as far as this code uses it: the calls of
`map_tissue_indices` it has received, each with its argument and with the static state of
`TissueInfos` at the moment of the call. -/
structure SlicesHandler where
  map_tissue_indices_calls : List (List Nat × TissueInfos)
deriving DecidableEq, Repr

/-- The call `handler3D->map_tissue_indices(idxMap)` made while the catalog state is `now`. -/
def SlicesHandler.map_tissue_indices (h : SlicesHandler) (idxMap : List Nat)
    (now : TissueInfos) : SlicesHandler :=
  { map_tissue_indices_calls := h.map_tissue_indices_calls ++ [(idxMap, now)] }

/-! ## Counters of type `tissues_size_t` -/

/-- The values of `t` in `for (tissues_size_t t = lo; t <= hi; ++t)` with `hi` a
`tissues_size_t`: when `hi` is `TISSUES_SIZE_MAX` the test never fails and the loop does not
end. -/
def countUpTo (P : Platform) (lo hi : Nat) : Option (List Nat) :=
  if hi < TISSUES_SIZE_MAX P then some (List.range' lo (hi + 1 - lo)) else none

/-- The values of `i` in `for (tissues_size_t i = 0; i < n; ++i)` with `n` a `size_t`:
when `n` exceeds `TISSUES_SIZE_MAX` the counter wraps to 0 before reaching `n`. -/
def countBelow (P : Platform) (n : Nat) : Option (List Nat) :=
  if n ≤ TISSUES_SIZE_MAX P then some (List.range n) else none

/-! ## Catalog store -/

/-- The lambda of `str_tolower`: `std::tolower` on an `unsigned char`, in the "C" locale. -/
def tolower (c : Byte) : Byte := if 65 ≤ c.val ∧ c.val ≤ 90 then c + 32 else c

/-- `str_tolower` (lines 36-42). -/
def str_tolower (s : List Byte) : List Byte := s.map tolower

/-- `TissueInfos::GetTissueCount` (lines 1012-1015):
`static_cast<tissues_size_t>(tissueInfosVector.size()) - 1`, returned as `tissues_size_t`. -/
def GetTissueCount (P : Platform) (st : TissueInfos) : Nat :=
  (st.tissueInfosVector.length % P.modulus + P.modulus - 1) % P.modulus

/-- `TissueInfos::GetTissueType` (lines 110-118). -/
def GetTissueType (st : TissueInfos) (tissuename : List Byte) : Nat :=
  match st.tissueTypeMap.find (str_tolower tissuename) with
  | some t => t
  | none => 0

/-- The body of the loop of `CreateTissueTypeMap` (line 1053). -/
def CreateTissueTypeMap.body (tissueInfosVector : List TissueInfo) (m : TissueTypeMapType)
    (type : Nat) : Option TissueTypeMapType := do
  let info ← tissueInfosVector[type]?
  pure (m.insert (str_tolower info.name) type)

/-- `TissueInfos::CreateTissueTypeMap` (lines 1048-1055). -/
def CreateTissueTypeMap (P : Platform) (st : TissueInfos) : Option TissueInfos := do
  let types ← countUpTo P 1 (GetTissueCount P st)
  let m ← types.foldlM (CreateTissueTypeMap.body st.tissueInfosVector) []
  pure { st with tissueTypeMap := m }

/-- The name index of `st` answers every lookup as the index that `CreateTissueTypeMap`
computes from `tissueInfosVector` does. -/
def NameIndexConsistent (P : Platform) (st : TissueInfos) : Prop :=
  ∃ st', CreateTissueTypeMap P st = some st' ∧
    ∀ key, st.tissueTypeMap.find key = st'.tissueTypeMap.find key

/-! ## Selection index -/

/-- `is_valid` (lines 1058-1061). -/
def is_valid (P : Platform) (st : TissueInfos) (i : Nat) : Bool :=
  decide (i ≤ GetTissueCount P st)

/-- `TissueInfos::GetSelectedTissues` (lines 1065-1070): `std::copy_if` of `_selection`
through an inserter into the empty set `r`. -/
def GetSelectedTissues (P : Platform) (st : TissueInfos) (_selection : TissueSet) : TissueSet :=
  _selection.foldl (fun r i => if is_valid P st i then TissueSet.insert r i else r) []

/-- `TissueInfos::SetSelectedTissues` (lines 1072-1079); the result is the new value of
`_selection`. -/
def SetSelectedTissues (P : Platform) (st : TissueInfos) (_selection : TissueSet)
    (sel : TissueSet) : TissueSet :=
  if sel.all (is_valid P st) then sel else _selection

/-! ## Reconciliation: `LoadTissuesReadable` once the records of the file are parsed -/

namespace LoadTissuesReadable

/-- Lines 803-808: `missingTissues` before any record of the file is looked at. -/
def initMissing (P : Platform) (st : TissueInfos) : Option TissueSet := do
  let types ← countUpTo P 0 (GetTissueCount P st)
  pure (types.foldl TissueSet.insert [])

/-- What each of the three record loops does with a parsed record `newTissueInfo`
(lines 855-863, 882-890 and 908-916): `push_back` on `newTissueInfosVec`, then erase from
`missingTissues` the old id the name resolves to. -/
def noteRecord (st : TissueInfos) (acc : List TissueInfo × TissueSet)
    (newTissueInfo : TissueInfo) : List TissueInfo × TissueSet :=
  let oldType := GetTissueType st newTissueInfo.name
  (acc.1 ++ [newTissueInfo],
    if decide (0 < oldType) && acc.2.has oldType then acc.2.erase oldType else acc.2)

/-- Lines 924-925: `newTissueInfosVec.insert(newTissueInfosVec.begin(),
tissueInfosVector[*riter])`. -/
def prependBody (tissueInfosVector : List TissueInfo) (newTissueInfosVec : List TissueInfo)
    (riter : Nat) : Option (List TissueInfo) := do
  let info ← tissueInfosVector[riter]?
  pure (info :: newTissueInfosVec)

/-- Lines 922-926: the reverse iteration over `missingTissues`. -/
def prependMissing (tissueInfosVector : List TissueInfo) (missingTissues : TissueSet)
    (newTissueInfosVec : List TissueInfo) : Option (List TissueInfo) :=
  missingTissues.reverse.foldlM (prependBody tissueInfosVector) newTissueInfosVec

/-- Lines 937-942: one pass of the loop over `newIdx`, on the pair (`idxMap`, `permute`). -/
def permutationBody (st : TissueInfos) (newTissueInfosVec : List TissueInfo)
    (acc : List Nat × Bool) (newIdx : Nat) : Option (List Nat × Bool) := do
  let info ← newTissueInfosVec[newIdx]?
  let oldIdx := GetTissueType st info.name
  if 0 < oldIdx ∧ oldIdx ≠ newIdx then
    if oldIdx < acc.1.length then pure (acc.1.set oldIdx newIdx, true) else none
  else pure acc

/-- The pass of the loop of lines 935-943 for `newIdx` executes `idxMap[oldIdx] = newIdx`. -/
def Assigns (st : TissueInfos) (newTissueInfosVec : List TissueInfo) (newIdx oldIdx : Nat) :
    Prop :=
  ∃ info, newTissueInfosVec[newIdx]? = some info ∧ GetTissueType st info.name = oldIdx ∧
    0 < oldIdx ∧ oldIdx ≠ newIdx

/-- Lines 929-943: `idxMap` (initialised to the identity on the old ids) and `permute`. -/
def permutation (P : Platform) (st : TissueInfos) (newTissueInfosVec : List TissueInfo) :
    Option (List Nat × Bool) := do
  let idxMap ← countBelow P st.tissueInfosVector.length
  let newIdxs ← countBelow P newTissueInfosVec.length
  newIdxs.foldlM (permutationBody st newTissueInfosVec) (idxMap, false)

/-- The old ids, ascending, that are the background id 0 or that no record of `cand`
resolves to through the name index. -/
def unmatchedIds (st : TissueInfos) (cand : List TissueInfo) : List Nat :=
  (List.range st.tissueInfosVector.length).filter
    (fun i => decide (i = 0) || cand.all (fun c => GetTissueType st c.name != i))

/-- The local variables of `LoadTissuesReadable` at line 944. -/
structure Locals where
  missingTissues : TissueSet
  removeTissuesRange : Nat
  newTissueInfosVec : List TissueInfo
  idxMap : List Nat
  permute : Bool
deriving DecidableEq, Repr

/-- Lines 803-943 for a file whose record loop parses the records `cand` (at most
`TISSUES_SIZE_MAX` of them, the bound `tc1` of the loop).  `removeTissuesRange` is
`static_cast<tissues_size_t>(missingTissues.size() - 1)`. -/
def locals (P : Platform) (st : TissueInfos) (cand : List TissueInfo) : Option Locals := do
  let missing0 ← initMissing P st
  let read := cand.foldl (noteRecord st) ([], missing0)
  let removeTissuesRange := (read.2.length + P.modulus - 1) % P.modulus
  let newTissueInfosVec ← prependMissing st.tissueInfosVector read.2 read.1
  let perm ← permutation P st newTissueInfosVec
  pure { missingTissues := read.2, removeTissuesRange := removeTissuesRange,
         newTissueInfosVec := newTissueInfosVec, idxMap := perm.1, permute := perm.2 }

/-- What `LoadTissuesReadable` leaves behind when it returns: its return value, the output
parameter `removeTissuesRange`, the static state and the state of `handler3D`. -/
structure Result where
  returned : Bool
  removeTissuesRange : Nat
  infos : TissueInfos
  handler3D : SlicesHandler
deriving DecidableEq, Repr

/-- Lines 803-954 for a file whose record loop parses the records `cand`. -/
def reconcile (P : Platform) (st : TissueInfos) (handler3D : SlicesHandler)
    (cand : List TissueInfo) : Option Result := do
  let l ← locals P st cand
  let handler3D := if l.permute then handler3D.map_tissue_indices l.idxMap st else handler3D
  let st1 : TissueInfos := { st with tissueInfosVector := l.newTissueInfosVec }
  let st2 ← CreateTissueTypeMap P st1
  pure { returned := true, removeTissuesRange := l.removeTissuesRange, infos := st2,
         handler3D := handler3D }

end LoadTissuesReadable

/-! ## Legacy binary codec -/

/-- The `w` bytes of the object representation of the unsigned value `n % 256 ^ w`. -/
def encodeLE : Nat → Nat → List Byte
  | 0, _ => []
  | w + 1, n => ⟨n % 256, Nat.mod_lt _ (by decide)⟩ :: encodeLE w (n / 256)

/-- The unsigned value whose object representation is the given bytes. -/
def decodeLE : List Byte → Nat
  | [] => 0
  | b :: bs => b.val + 256 * decodeLE bs

/-- The value of an `int` whose 32-bit pattern is `n`. -/
def toInt32 (n : Nat) : Int := if n < 2 ^ 31 then (n : Int) else (n : Int) - 2 ^ 32

/-- The conversion of an `int` to `size_t` (64 bits). -/
def toSizeT (i : Int) : Nat := if 0 ≤ i then i.toNat else (i + 2 ^ 64).toNat

/-- The four bytes `fwrite(&x, 1, sizeof(float), fp)` writes. -/
def CFloat.bytes (x : CFloat) : List Byte := [x.b0, x.b1, x.b2, x.b3]

/-- `fread(ptr, n, 1, fp)` that reads its `n` bytes completely: the bytes and the rest of the
stream; `none` when fewer than `n` bytes are left (the object then keeps an indeterminate
value, which the model does not follow). -/
def fread (n : Nat) (fp : List Byte) : Option (List Byte × List Byte) :=
  if n ≤ fp.length then some (fp.take n, fp.drop n) else none

/-- `fread` of an unsigned integer of `n` bytes. -/
def freadUnsigned (n : Nat) (fp : List Byte) : Option (Nat × List Byte) :=
  (fread n fp).map (fun p => (decodeLE p.1, p.2))

/-- `fread(&x, sizeof(float), 1, fp)`. -/
def freadFloat (fp : List Byte) : Option (CFloat × List Byte) :=
  match fp with
  | b0 :: b1 :: b2 :: b3 :: rest => some (⟨b0, b1, b2, b3⟩, rest)
  | _ => none

/-- Lines 346-355: the bytes `SaveTissues` writes for one tissue whose name is shorter than
2^31 bytes. -/
def SaveTissues.recordBytes (version : Nat) (info : TissueInfo) : List Byte :=
  info.color.r.bytes ++ info.color.g.bytes ++ info.color.b.bytes ++
    (if 5 ≤ version then info.opac.bytes else []) ++
    encodeLE 4 info.name.length ++ info.name

/-- Lines 346-355.  `size` is `static_cast<int>(name.length())`; for a name of 2^31 bytes or
more it is negative and the last `fwrite` has no defined result. -/
def SaveTissues.record (version : Nat) (info : TissueInfo) : Option (List Byte) :=
  if info.name.length < 2 ^ 31 then some (SaveTissues.recordBytes version info) else none

/-- Lines 343-356: the loop over the records after the background. -/
def SaveTissues.loop (version : Nat) : List TissueInfo → Option (List Byte)
  | [] => some []
  | info :: rest =>
    match SaveTissues.record version info, SaveTissues.loop version rest with
    | some bytes, some more => some (bytes ++ more)
    | _, _ => none

/-- `TissueInfos::SaveTissues` (lines 323-359): the bytes appended to `fp`.  `version` is an
`unsigned short`. -/
def SaveTissues (P : Platform) (st : TissueInfos) (version : Nat) : Option (List Byte) := do
  let bg ← st.tissueInfosVector[0]?
  let records ← SaveTissues.loop version (st.tissueInfosVector.drop 1)
  pure (encodeLE P.sizeofTissuesSize (GetTissueCount P st) ++
    (if 5 ≤ version then CFloat.sentinel.bytes ++ encodeLE 2 version else []) ++
    bg.color.r.bytes ++ bg.color.g.bytes ++ bg.color.b.bytes ++
    (if 5 ≤ version then bg.opac.bytes else []) ++
    records)

/-- `TissueInfos::SaveTissueLocks` (lines 510-521): the bytes appended to `fp`; `none` for
an empty vector, where `begin() + 1` is not a valid iterator. -/
def SaveTissueLocks (st : TissueInfos) : Option (List Byte) :=
  match st.tissueInfosVector with
  | [] => none
  | _ :: rest => some (rest.map (fun info => if info.locked then 1 else 0))

/-- Lines 528-533: the loop of `LoadTissueLocks` over the records after the background. -/
def LoadTissueLocks.loop : List TissueInfo → List Byte → Option (List TissueInfo × List Byte)
  | [], fp => some ([], fp)
  | info :: rest, fp =>
    match fp with
    | [] => none
    | dummy :: fp1 =>
      match LoadTissueLocks.loop rest fp1 with
      | none => none
      | some (rest1, fp2) => some ({ info with locked := decide (dummy ≠ 0) } :: rest1, fp2)

/-- `TissueInfos::LoadTissueLocks` (lines 523-536): the new state and the rest of the
stream; `none` when the vector is empty or the stream ends before the last flag. -/
def LoadTissueLocks (st : TissueInfos) (fp : List Byte) : Option (TissueInfos × List Byte) :=
  match st.tissueInfosVector with
  | [] => none
  | bg :: rest =>
    match LoadTissueLocks.loop rest fp with
    | none => none
    | some (rest1, fp1) =>
      some ({ st with tissueInfosVector := { bg with locked := false } :: rest1 }, fp1)

/-- What `LoadTissues` does to the buffer `char name[100]` and to control flow, in order. -/
inductive LoadEvent where
  /-- Line 593: `fread(&size, ...)` gave `size` this value. -/
  | readSize (size : Int)
  /-- Line 594: `fread(name, sizeof(char) * size, 1, fp)` stored this many bytes at
  `name[0]`, `name[1]`, ... -/
  | storeName (count : Nat)
  /-- Line 596: the `throw`. -/
  | throwError
  /-- Line 597: `name[size] = 0` stored a byte at this index. -/
  | storeTerminator (index : Int)
deriving DecidableEq, Repr

/-- How the record loop of `LoadTissues` (lines 577-600) ends. -/
inductive LoadTissues.Loop where
  /-- The loop ran to the end: the vector and the rest of the stream. -/
  | finished (tissueInfosVector : List TissueInfo) (fp : List Byte)
  /-- Line 596 threw: the vector at that moment. -/
  | threw (tissueInfosVector : List TissueInfo)
  /-- The stream ended inside a field, `size` was negative, or line 594 stored bytes beyond
  the end of `name`: the code goes on with indeterminate values or has no defined behaviour,
  which the model does not follow. -/
  | indeterminate
deriving DecidableEq, Repr

/-- Lines 580-593: the fields of a record up to `size`. -/
def LoadTissues.recordHead (opacVersion : Nat) (fp : List Byte) :
    Option (Color × CFloat × Int × List Byte) := do
  let (c0, fp) ← freadFloat fp
  let (c1, fp) ← freadFloat fp
  let (c2, fp) ← freadFloat fp
  let (opac, fp) ← if 5 ≤ opacVersion then freadFloat fp else pure (CFloat.half, fp)
  let (size, fp) ← freadUnsigned 4 fp
  pure (⟨c0, c1, c2⟩, opac, toInt32 size, fp)

/-- `std::string s(name)` after `name[size] = 0`: the bytes of `name` up to the first zero. -/
def cString (bytes : List Byte) : List Byte := bytes.takeWhile (fun b => b != 0)

/-- Lines 577-600: the record loop with `n` records still to read; `done` are the records
before the iterator, the records after it are still default-constructed.  The `fread` of
line 594 stores the bytes it gets, at most `size` of them, before line 595 looks at `size`:
when these are more than the 100 bytes of `name`, nothing is defined from there on. -/
def LoadTissues.loop (P : Platform) (opacVersion : Nat) :
    Nat → List TissueInfo → List Byte → List LoadEvent → LoadTissues.Loop × List LoadEvent
  | 0, done, fp, events => (.finished done fp, events)
  | n + 1, done, fp, events =>
    match LoadTissues.recordHead opacVersion fp with
    | none => (.indeterminate, events)
    | some (color, opac, size, fp1) =>
      let stored := min (toSizeT size) fp1.length
      let events1 := events ++ [LoadEvent.readSize size, LoadEvent.storeName stored]
      if 100 < stored then (.indeterminate, events1)
      else if 99 < size then
        (.threw (done ++ [{ P.defaultInfo with locked := false, color := color, opac := opac }]
            ++ List.replicate n P.defaultInfo),
          events1 ++ [LoadEvent.throwError])
      else if size < 0 ∨ fp1.length < size.toNat then
        (.indeterminate, events1 ++ [LoadEvent.storeTerminator size])
      else
        LoadTissues.loop P opacVersion n
          (done ++ [{ name := cString (fp1.take size.toNat), color := color, opac := opac,
                      locked := false }])
          (fp1.drop size.toNat) (events1 ++ [LoadEvent.storeTerminator size])

/-- Lines 541-574: the tissue count, the version found behind the sentinel (0 without
sentinel), the background record and the rest of the stream. -/
def LoadTissues.header (P : Platform) (fp : List Byte) (tissuesVersion : Int) :
    Option (Nat × Nat × TissueInfo × List Byte) := do
  let (tissuecount, fp) ←
    if 0 < tissuesVersion then freadUnsigned P.sizeofTissuesSize fp else freadUnsigned 1 fp
  let (id, fp) ← freadFloat fp
  let (opacVersion, c0, opac0, fp) ←
    if id.eqSentinel then do
      let (opacVersion, fp) ← freadUnsigned 2 fp
      let (c0, fp) ← freadFloat fp
      pure (opacVersion, c0, P.defaultInfo.opac, fp)
    else pure (0, id, CFloat.half, fp)
  let (c1, fp) ← freadFloat fp
  let (c2, fp) ← freadFloat fp
  let (opac, fp) ← if 5 ≤ opacVersion then freadFloat fp else pure (opac0, fp)
  pure (tissuecount, opacVersion,
    { P.defaultInfo with color := ⟨c0, c1, c2⟩, opac := opac }, fp)

/-- How a call of `LoadTissues` ends. -/
inductive LoadOutcome where
  /-- It returned: the static state and the rest of the stream. -/
  | returned (st : TissueInfos) (fp : List Byte)
  /-- It threw `std::runtime_error` (line 596): the static state at that moment. -/
  | threw (st : TissueInfos)
  /-- The stream ended inside a field, a name length was negative, or name bytes were
  stored beyond the end of `name`. -/
  | indeterminate
  /-- The loop of `CreateTissueTypeMap` (line 602) does not end. -/
  | hangs
deriving DecidableEq, Repr

/-- `TissueInfos::LoadTissues` (lines 538-605): how the call ends, and what it did to the
buffer `name` on the way. -/
def LoadTissues (P : Platform) (fp : List Byte) (tissuesVersion : Int) (st : TissueInfos) :
    LoadOutcome × List LoadEvent :=
  match LoadTissues.header P fp tissuesVersion with
  | none => (.indeterminate, [])
  | some (tissuecount, opacVersion, bg, fp1) =>
    match LoadTissues.loop P opacVersion tissuecount [bg] fp1 [] with
    | (.finished vec fp2, events) =>
      match CreateTissueTypeMap P { st with tissueInfosVector := vec } with
      | some st1 => (.returned st1 fp2, events)
      | none => (.hangs, events)
    | (.threw vec, events) => (.threw { st with tissueInfosVector := vec }, events)
    | (.indeterminate, events) => (.indeterminate, events)

/-- The store `ev` makes lies inside `char name[100]`. -/
def LoadEvent.inBounds : LoadEvent → Bool
  | .storeName count => decide (count ≤ 100)
  | .storeTerminator index => decide (0 ≤ index ∧ index < 100)
  | _ => true

/-! ## Catalog store: structural mutations -/

/-- The names and colours that `InitTissues` assigns to the ids 1 to 20, in id order; each
`float` literal is given by the bytes of the nearest single precision value. -/
def InitTissues.table1to20 : List (List Byte × CFloat × CFloat × CFloat) :=
  [
    -- 1: "Adrenal_gland", Color(0.338000f, 0.961000f, 0.725000f)
    ([65, 100, 114, 101, 110, 97, 108, 95, 103, 108, 97, 110, 100],
      ⟨86, 14, 173, 62⟩, ⟨25, 4, 118, 63⟩, ⟨154, 153, 57, 63⟩),
    -- 2: "Air_internal", Color(0.000000f, 0.000000f, 0.000000f)
    ([65, 105, 114, 95, 105, 110, 116, 101, 114, 110, 97, 108],
      ⟨0, 0, 0, 0⟩, ⟨0, 0, 0, 0⟩, ⟨0, 0, 0, 0⟩),
    -- 3: "Artery", Color(0.800000f, 0.000000f, 0.000000f)
    ([65, 114, 116, 101, 114, 121],
      ⟨205, 204, 76, 63⟩, ⟨0, 0, 0, 0⟩, ⟨0, 0, 0, 0⟩),
    -- 4: "Bladder", Color(0.529400f, 0.854900f, 0.011800f)
    ([66, 108, 97, 100, 100, 101, 114],
      ⟨194, 134, 7, 63⟩, ⟨186, 218, 90, 63⟩, ⟨202, 84, 65, 60⟩),
    -- 5: "Blood_vessel", Color(0.666700f, 0.003900f, 0.003900f)
    ([66, 108, 111, 111, 100, 95, 118, 101, 115, 115, 101, 108],
      ⟨218, 172, 42, 63⟩, ⟨36, 151, 127, 59⟩, ⟨36, 151, 127, 59⟩),
    -- 6: "Bone", Color(0.929412f, 0.839216f, 0.584314f)
    ([66, 111, 110, 101],
      ⟨242, 237, 109, 63⟩, ⟨220, 214, 86, 63⟩, ⟨154, 149, 21, 63⟩),
    -- 7: "Brain_grey_matter", Color(0.500000f, 0.500000f, 0.500000f)
    ([66, 114, 97, 105, 110, 95, 103, 114, 101, 121, 95, 109, 97, 116, 116, 101, 114],
      ⟨0, 0, 0, 63⟩, ⟨0, 0, 0, 63⟩, ⟨0, 0, 0, 63⟩),
    -- 8: "Brain_white_matter", Color(0.900000f, 0.900000f, 0.900000f)
    ([66, 114, 97, 105, 110, 95, 119, 104, 105, 116, 101, 95, 109, 97, 116, 116, 101, 114],
      ⟨102, 102, 102, 63⟩, ⟨102, 102, 102, 63⟩, ⟨102, 102, 102, 63⟩),
    -- 9: "Breast", Color(0.996000f, 0.741000f, 1.000000f)
    ([66, 114, 101, 97, 115, 116],
      ⟨219, 249, 126, 63⟩, ⟨45, 178, 61, 63⟩, ⟨0, 0, 128, 63⟩),
    -- 10: "Bronchi", Color(0.528000f, 0.592000f, 1.000000f)
    ([66, 114, 111, 110, 99, 104, 105],
      ⟨2, 43, 7, 63⟩, ⟨80, 141, 23, 63⟩, ⟨0, 0, 128, 63⟩),
    -- 11: "Bronchi_lumen", Color(0.368600f, 0.474500f, 0.635300f)
    ([66, 114, 111, 110, 99, 104, 105, 95, 108, 117, 109, 101, 110],
      ⟨36, 185, 188, 62⟩, ⟨170, 241, 242, 62⟩, ⟨5, 163, 34, 63⟩),
    -- 12: "Cartilage", Color(0.627000f, 0.988000f, 0.969000f)
    ([67, 97, 114, 116, 105, 108, 97, 103, 101],
      ⟨18, 131, 32, 63⟩, ⟨145, 237, 124, 63⟩, ⟨98, 16, 120, 63⟩),
    -- 13: "Cerebellum", Color(0.648000f, 0.599000f, 0.838000f)
    ([67, 101, 114, 101, 98, 101, 108, 108, 117, 109],
      ⟨84, 227, 37, 63⟩, ⟨16, 88, 25, 63⟩, ⟨43, 135, 86, 63⟩),
    -- 14: "Cerebrospinal_fluid", Color(0.474500f, 0.521600f, 0.854900f)
    ([67, 101, 114, 101, 98, 114, 111, 115, 112, 105, 110, 97, 108, 95, 102, 108, 117, 105, 100],
      ⟨170, 241, 242, 62⟩, ⟨148, 135, 5, 63⟩, ⟨186, 218, 90, 63⟩),
    -- 15: "Connective_tissue", Color(1.000000f, 0.705882f, 0.000000f)
    ([67, 111, 110, 110, 101, 99, 116, 105, 118, 101, 95, 116, 105, 115, 115, 117, 101],
      ⟨0, 0, 128, 63⟩, ⟨175, 180, 52, 63⟩, ⟨0, 0, 0, 0⟩),
    -- 16: "Diaphragm", Color(0.745000f, 0.188000f, 0.286000f)
    ([68, 105, 97, 112, 104, 114, 97, 103, 109],
      ⟨82, 184, 62, 63⟩, ⟨18, 131, 64, 62⟩, ⟨152, 110, 146, 62⟩),
    -- 17: "Ear_cartilage", Color(0.627000f, 0.988000f, 0.969000f)
    ([69, 97, 114, 95, 99, 97, 114, 116, 105, 108, 97, 103, 101],
      ⟨18, 131, 32, 63⟩, ⟨145, 237, 124, 63⟩, ⟨98, 16, 120, 63⟩),
    -- 18: "Ear_skin", Color(0.423500f, 0.611800f, 0.603900f)
    ([69, 97, 114, 95, 115, 107, 105, 110],
      ⟨254, 212, 216, 62⟩, ⟨237, 158, 28, 63⟩, ⟨49, 153, 26, 63⟩),
    -- 19: "Epididymis", Color(0.000000f, 0.359000f, 1.000000f)
    ([69, 112, 105, 100, 105, 100, 121, 109, 105, 115],
      ⟨0, 0, 0, 0⟩, ⟨217, 206, 183, 62⟩, ⟨0, 0, 128, 63⟩),
    -- 20: "Esophagus", Color(1.000000f, 0.585000f, 0.000000f)
    ([69, 115, 111, 112, 104, 97, 103, 117, 115],
      ⟨0, 0, 128, 63⟩, ⟨143, 194, 21, 63⟩, ⟨0, 0, 0, 0⟩)
  ]

/-- The names and colours that `InitTissues` assigns to the ids 21 to 40, in id order; each
`float` literal is given by the bytes of the nearest single precision value. -/
def InitTissues.table21to40 : List (List Byte × CFloat × CFloat × CFloat) :=
  [
    -- 21: "Esophagus_lumen", Color(1.000000f, 0.789000f, 0.635000f)
    ([69, 115, 111, 112, 104, 97, 103, 117, 115, 95, 108, 117, 109, 101, 110],
      ⟨0, 0, 128, 63⟩, ⟨231, 251, 73, 63⟩, ⟨92, 143, 34, 63⟩),
    -- 22: "Eye_lens", Color(0.007800f, 0.658800f, 0.996100f)
    ([69, 121, 101, 95, 108, 101, 110, 115],
      ⟨36, 151, 255, 59⟩, ⟨30, 167, 40, 63⟩, ⟨105, 0, 127, 63⟩),
    -- 23: "Eye_vitreous_humor", Color(0.331000f, 0.746000f, 0.937000f)
    ([69, 121, 101, 95, 118, 105, 116, 114, 101, 111, 117, 115, 95, 104, 117, 109, 111, 114],
      ⟨213, 120, 169, 62⟩, ⟨219, 249, 62, 63⟩, ⟨59, 223, 111, 63⟩),
    -- 24: "Fat", Color(0.984314f, 0.980392f, 0.215686f)
    ([70, 97, 116],
      ⟨1, 252, 123, 63⟩, ⟨248, 250, 122, 63⟩, ⟨202, 220, 92, 62⟩),
    -- 25: "Gallbladder", Color(0.258800f, 0.972500f, 0.274500f)
    ([71, 97, 108, 108, 98, 108, 97, 100, 100, 101, 114],
      ⟨111, 129, 132, 62⟩, ⟨195, 245, 120, 63⟩, ⟨68, 139, 140, 62⟩),
    -- 26: "Heart_lumen", Color(1.000000f, 0.000000f, 0.000000f)
    ([72, 101, 97, 114, 116, 95, 108, 117, 109, 101, 110],
      ⟨0, 0, 128, 63⟩, ⟨0, 0, 0, 0⟩, ⟨0, 0, 0, 0⟩),
    -- 27: "Heart_muscle", Color(1.000000f, 0.000000f, 0.239000f)
    ([72, 101, 97, 114, 116, 95, 109, 117, 115, 99, 108, 101],
      ⟨0, 0, 128, 63⟩, ⟨0, 0, 0, 0⟩, ⟨106, 188, 116, 62⟩),
    -- 28: "Hippocampus", Color(0.915000f, 0.188000f, 1.000000f)
    ([72, 105, 112, 112, 111, 99, 97, 109, 112, 117, 115],
      ⟨113, 61, 106, 63⟩, ⟨18, 131, 64, 62⟩, ⟨0, 0, 128, 63⟩),
    -- 29: "Hypophysis", Color(1.000000f, 0.000000f, 0.796000f)
    ([72, 121, 112, 111, 112, 104, 121, 115, 105, 115],
      ⟨0, 0, 128, 63⟩, ⟨0, 0, 0, 0⟩, ⟨168, 198, 75, 63⟩),
    -- 30: "Hypothalamus", Color(0.563000f, 0.239000f, 0.754000f)
    ([72, 121, 112, 111, 116, 104, 97, 108, 97, 109, 117, 115],
      ⟨197, 32, 16, 63⟩, ⟨106, 188, 116, 62⟩, ⟨37, 6, 65, 63⟩),
    -- 31: "Intervertebral_disc", Color(0.627500f, 0.988200f, 0.968600f)
    ([73, 110, 116, 101, 114, 118, 101, 114, 116, 101, 98, 114, 97, 108, 95, 100, 105, 115, 99],
      ⟨215, 163, 32, 63⟩, ⟨173, 250, 124, 63⟩, ⟨43, 246, 119, 63⟩),
    -- 32: "Kidney_cortex", Color(0.000000f, 0.754000f, 0.200000f)
    ([75, 105, 100, 110, 101, 121, 95, 99, 111, 114, 116, 101, 120],
      ⟨0, 0, 0, 0⟩, ⟨37, 6, 65, 63⟩, ⟨205, 204, 76, 62⟩),
    -- 33: "Kidney_medulla", Color(0.507000f, 1.000000f, 0.479000f)
    ([75, 105, 100, 110, 101, 121, 95, 109, 101, 100, 117, 108, 108, 97],
      ⟨193, 202, 1, 63⟩, ⟨0, 0, 128, 63⟩, ⟨125, 63, 245, 62⟩),
    -- 34: "Large_intestine", Color(1.000000f, 0.303000f, 0.176000f)
    ([76, 97, 114, 103, 101, 95, 105, 110, 116, 101, 115, 116, 105, 110, 101],
      ⟨0, 0, 128, 63⟩, ⟨209, 34, 155, 62⟩, ⟨88, 57, 52, 62⟩),
    -- 35: "Large_intestine_lumen", Color(0.817000f, 0.556000f, 0.570000f)
    ([76, 97, 114, 103, 101, 95, 105, 110, 116, 101, 115, 116, 105, 110, 101, 95, 108, 117, 109, 101, 110],
      ⟨233, 38, 81, 63⟩, ⟨4, 86, 14, 63⟩, ⟨133, 235, 17, 63⟩),
    -- 36: "Larynx", Color(0.937000f, 0.561000f, 0.950000f)
    ([76, 97, 114, 121, 110, 120],
      ⟨59, 223, 111, 63⟩, ⟨178, 157, 15, 63⟩, ⟨51, 51, 115, 63⟩),
    -- 37: "Liver", Color(0.478400f, 0.262700f, 0.141200f)
    ([76, 105, 118, 101, 114],
      ⟨216, 240, 244, 62⟩, ⟨157, 128, 134, 62⟩, ⟨188, 150, 16, 62⟩),
    -- 38: "Lung", Color(0.225000f, 0.676000f, 1.000000f)
    ([76, 117, 110, 103],
      ⟨102, 102, 102, 62⟩, ⟨86, 14, 45, 63⟩, ⟨0, 0, 128, 63⟩),
    -- 39: "Mandible", Color(0.929412f, 0.839216f, 0.584314f)
    ([77, 97, 110, 100, 105, 98, 108, 101],
      ⟨242, 237, 109, 63⟩, ⟨220, 214, 86, 63⟩, ⟨154, 149, 21, 63⟩),
    -- 40: "Marrow_red", Color(0.937300f, 0.639200f, 0.498000f)
    ([77, 97, 114, 114, 111, 119, 95, 114, 101, 100],
      ⟨229, 242, 111, 63⟩, ⟨156, 162, 35, 63⟩, ⟨219, 249, 254, 62⟩)
  ]

/-- The names and colours that `InitTissues` assigns to the ids 41 to 60, in id order; each
`float` literal is given by the bytes of the nearest single precision value. -/
def InitTissues.table41to60 : List (List Byte × CFloat × CFloat × CFloat) :=
  [
    -- 41: "Marrow_white", Color(0.921600f, 0.788200f, 0.486300f)
    ([77, 97, 114, 114, 111, 119, 95, 119, 104, 105, 116, 101],
      ⟨250, 237, 107, 63⟩, ⟨122, 199, 73, 63⟩, ⟨80, 252, 248, 62⟩),
    -- 42: "Meniscus", Color(0.577000f, 0.338000f, 0.754000f)
    ([77, 101, 110, 105, 115, 99, 117, 115],
      ⟨70, 182, 19, 63⟩, ⟨86, 14, 173, 62⟩, ⟨37, 6, 65, 63⟩),
    -- 43: "Midbrain", Color(0.490200f, 0.682400f, 0.509800f)
    ([77, 105, 100, 98, 114, 97, 105, 110],
      ⟨127, 251, 250, 62⟩, ⟨196, 177, 46, 63⟩, ⟨65, 130, 2, 63⟩),
    -- 44: "Muscle", Color(0.745098f, 0.188235f, 0.286275f)
    ([77, 117, 115, 99, 108, 101],
      ⟨190, 190, 62, 63⟩, ⟨173, 192, 64, 62⟩, ⟨163, 146, 146, 62⟩),
    -- 45: "Nail", Color(0.873000f, 0.887000f, 0.880000f)
    ([78, 97, 105, 108],
      ⟨238, 124, 95, 63⟩, ⟨111, 18, 99, 63⟩, ⟨174, 71, 97, 63⟩),
    -- 46: "Mucosa", Color(1.000000f, 0.631373f, 0.745098f)
    ([77, 117, 99, 111, 115, 97],
      ⟨0, 0, 128, 63⟩, ⟨169, 161, 33, 63⟩, ⟨190, 190, 62, 63⟩),
    -- 47: "Nerve", Color(0.000000f, 0.754000f, 0.479000f)
    ([78, 101, 114, 118, 101],
      ⟨0, 0, 0, 0⟩, ⟨37, 6, 65, 63⟩, ⟨125, 63, 245, 62⟩),
    -- 48: "Ovary", Color(0.718000f, 0.000000f, 1.000000f)
    ([79, 118, 97, 114, 121],
      ⟨217, 206, 55, 63⟩, ⟨0, 0, 0, 0⟩, ⟨0, 0, 128, 63⟩),
    -- 49: "Pancreas", Color(0.506000f, 0.259000f, 0.808000f)
    ([80, 97, 110, 99, 114, 101, 97, 115],
      ⟨55, 137, 1, 63⟩, ⟨166, 155, 132, 62⟩, ⟨23, 217, 78, 63⟩),
    -- 50: "Patella", Color(0.929412f, 0.839216f, 0.584314f)
    ([80, 97, 116, 101, 108, 108, 97],
      ⟨242, 237, 109, 63⟩, ⟨220, 214, 86, 63⟩, ⟨154, 149, 21, 63⟩),
    -- 51: "Penis", Color(0.000000f, 0.000000f, 1.000000f)
    ([80, 101, 110, 105, 115],
      ⟨0, 0, 0, 0⟩, ⟨0, 0, 0, 0⟩, ⟨0, 0, 128, 63⟩),
    -- 52: "Pharynx", Color(0.368600f, 0.474500f, 0.635300f)
    ([80, 104, 97, 114, 121, 110, 120],
      ⟨36, 185, 188, 62⟩, ⟨170, 241, 242, 62⟩, ⟨5, 163, 34, 63⟩),
    -- 53: "Prostate", Color(0.190000f, 0.190000f, 1.000000f)
    ([80, 114, 111, 115, 116, 97, 116, 101],
      ⟨92, 143, 66, 62⟩, ⟨92, 143, 66, 62⟩, ⟨0, 0, 128, 63⟩),
    -- 54: "Scrotum", Color(0.366000f, 0.549000f, 1.000000f)
    ([83, 99, 114, 111, 116, 117, 109],
      ⟨90, 100, 187, 62⟩, ⟨68, 139, 12, 63⟩, ⟨0, 0, 128, 63⟩),
    -- 55: "Skin", Color(0.746000f, 0.613000f, 0.472000f)
    ([83, 107, 105, 110],
      ⟨219, 249, 62, 63⟩, ⟨145, 237, 28, 63⟩, ⟨252, 169, 241, 62⟩),
    -- 56: "Skull", Color(0.929412f, 0.839216f, 0.584314f)
    ([83, 107, 117, 108, 108],
      ⟨242, 237, 109, 63⟩, ⟨220, 214, 86, 63⟩, ⟨154, 149, 21, 63⟩),
    -- 57: "Small_intestine", Color(1.000000f, 0.775000f, 0.690000f)
    ([83, 109, 97, 108, 108, 95, 105, 110, 116, 101, 115, 116, 105, 110, 101],
      ⟨0, 0, 128, 63⟩, ⟨102, 102, 70, 63⟩, ⟨215, 163, 48, 63⟩),
    -- 58: "Small_intestine_lumen", Color(1.000000f, 0.474500f, 0.635300f)
    ([83, 109, 97, 108, 108, 95, 105, 110, 116, 101, 115, 116, 105, 110, 101, 95, 108, 117, 109, 101, 110],
      ⟨0, 0, 128, 63⟩, ⟨170, 241, 242, 62⟩, ⟨5, 163, 34, 63⟩),
    -- 59: "Spinal_cord", Color(0.000000f, 0.732000f, 0.662000f)
    ([83, 112, 105, 110, 97, 108, 95, 99, 111, 114, 100],
      ⟨0, 0, 0, 0⟩, ⟨90, 100, 59, 63⟩, ⟨213, 120, 41, 63⟩),
    -- 60: "Spleen", Color(0.682400f, 0.964700f, 0.788200f)
    ([83, 112, 108, 101, 101, 110],
      ⟨196, 177, 46, 63⟩, ⟨148, 246, 118, 63⟩, ⟨122, 199, 73, 63⟩)
  ]

/-- The names and colours that `InitTissues` assigns to the ids 61 to 82, in id order; each
`float` literal is given by the bytes of the nearest single precision value. -/
def InitTissues.table61to82 : List (List Byte × CFloat × CFloat × CFloat) :=
  [
    -- 61: "Stomach", Color(1.000000f, 0.500000f, 0.000000f)
    ([83, 116, 111, 109, 97, 99, 104],
      ⟨0, 0, 128, 63⟩, ⟨0, 0, 0, 63⟩, ⟨0, 0, 0, 0⟩),
    -- 62: "Stomach_lumen", Color(1.000000f, 0.738000f, 0.503000f)
    ([83, 116, 111, 109, 97, 99, 104, 95, 108, 117, 109, 101, 110],
      ⟨0, 0, 128, 63⟩, ⟨145, 237, 60, 63⟩, ⟨156, 196, 0, 63⟩),
    -- 63: "SAT", Color(1.000000f, 0.796079f, 0.341176f)
    ([83, 65, 84],
      ⟨0, 0, 128, 63⟩, ⟨213, 203, 75, 63⟩, ⟨159, 174, 174, 62⟩),
    -- 64: "Teeth", Color(0.976471f, 0.960784f, 0.905882f)
    ([84, 101, 101, 116, 104],
      ⟨1, 250, 121, 63⟩, ⟨241, 245, 117, 63⟩, ⟨226, 231, 103, 63⟩),
    -- 65: "Tendon_Ligament", Color(0.945098f, 0.960784f, 0.972549f)
    ([84, 101, 110, 100, 111, 110, 95, 76, 105, 103, 97, 109, 101, 110, 116],
      ⟨241, 241, 113, 63⟩, ⟨241, 245, 117, 63⟩, ⟨249, 248, 120, 63⟩),
    -- 66: "Testis", Color(0.000000f, 0.606000f, 1.000000f)
    ([84, 101, 115, 116, 105, 115],
      ⟨0, 0, 0, 0⟩, ⟨209, 34, 27, 63⟩, ⟨0, 0, 128, 63⟩),
    -- 67: "Thalamus", Color(0.000000f, 0.415000f, 0.549000f)
    ([84, 104, 97, 108, 97, 109, 117, 115],
      ⟨0, 0, 0, 0⟩, ⟨225, 122, 212, 62⟩, ⟨68, 139, 12, 63⟩),
    -- 68: "Thymus", Color(0.439200f, 0.733300f, 0.549000f)
    ([84, 104, 121, 109, 117, 115],
      ⟨211, 222, 224, 62⟩, ⟨140, 185, 59, 63⟩, ⟨68, 139, 12, 63⟩),
    -- 69: "Thyroid_gland", Color(0.321600f, 0.023500f, 0.298000f)
    ([84, 104, 121, 114, 111, 105, 100, 95, 103, 108, 97, 110, 100],
      ⟨193, 168, 164, 62⟩, ⟨18, 131, 192, 60⟩, ⟨117, 147, 152, 62⟩),
    -- 70: "Tongue", Color(0.800000f, 0.400000f, 0.400000f)
    ([84, 111, 110, 103, 117, 101],
      ⟨205, 204, 76, 63⟩, ⟨205, 204, 204, 62⟩, ⟨205, 204, 204, 62⟩),
    -- 71: "Trachea", Color(0.183000f, 1.000000f, 1.000000f)
    ([84, 114, 97, 99, 104, 101, 97],
      ⟨90, 100, 59, 62⟩, ⟨0, 0, 128, 63⟩, ⟨0, 0, 128, 63⟩),
    -- 72: "Trachea_lumen", Color(0.613000f, 1.000000f, 1.000000f)
    ([84, 114, 97, 99, 104, 101, 97, 95, 108, 117, 109, 101, 110],
      ⟨145, 237, 28, 63⟩, ⟨0, 0, 128, 63⟩, ⟨0, 0, 128, 63⟩),
    -- 73: "Ureter_Urethra", Color(0.376500f, 0.607800f, 0.007800f)
    ([85, 114, 101, 116, 101, 114, 95, 85, 114, 101, 116, 104, 114, 97],
      ⟨156, 196, 192, 62⟩, ⟨200, 152, 27, 63⟩, ⟨36, 151, 255, 59⟩),
    -- 74: "Uterus", Color(0.894000f, 0.529000f, 1.000000f)
    ([85, 116, 101, 114, 117, 115],
      ⟨47, 221, 100, 63⟩, ⟨139, 108, 7, 63⟩, ⟨0, 0, 128, 63⟩),
    -- 75: "Vagina", Color(0.608000f, 0.529000f, 1.000000f)
    ([86, 97, 103, 105, 110, 97],
      ⟨227, 165, 27, 63⟩, ⟨139, 108, 7, 63⟩, ⟨0, 0, 128, 63⟩),
    -- 76: "Vein", Color(0.000000f, 0.329000f, 1.000000f)
    ([86, 101, 105, 110],
      ⟨0, 0, 0, 0⟩, ⟨176, 114, 168, 62⟩, ⟨0, 0, 128, 63⟩),
    -- 77: "Vertebrae", Color(0.929412f, 0.839216f, 0.584314f)
    ([86, 101, 114, 116, 101, 98, 114, 97, 101],
      ⟨242, 237, 109, 63⟩, ⟨220, 214, 86, 63⟩, ⟨154, 149, 21, 63⟩),
    -- 78: "Pinealbody", Color(1.000000f, 0.000000f, 0.000000f)
    ([80, 105, 110, 101, 97, 108, 98, 111, 100, 121],
      ⟨0, 0, 128, 63⟩, ⟨0, 0, 0, 0⟩, ⟨0, 0, 0, 0⟩),
    -- 79: "Pons", Color(0.000000f, 0.710000f, 0.700000f)
    ([80, 111, 110, 115],
      ⟨0, 0, 0, 0⟩, ⟨143, 194, 53, 63⟩, ⟨51, 51, 51, 63⟩),
    -- 80: "Medulla_oblongata", Color(0.370000f, 0.670000f, 0.920000f)
    ([77, 101, 100, 117, 108, 108, 97, 95, 111, 98, 108, 111, 110, 103, 97, 116, 97],
      ⟨164, 112, 189, 62⟩, ⟨31, 133, 43, 63⟩, ⟨31, 133, 107, 63⟩),
    -- 81: "Cornea", Color(0.686275f, 0.000000f, 1.000000f)
    ([67, 111, 114, 110, 101, 97],
      ⟨184, 175, 47, 63⟩, ⟨0, 0, 0, 0⟩, ⟨0, 0, 128, 63⟩),
    -- 82: "Eye_Sclera", Color(1.000000f, 0.000000f, 0.780392f)
    ([69, 121, 101, 95, 83, 99, 108, 101, 114, 97],
      ⟨0, 0, 128, 63⟩, ⟨0, 0, 0, 0⟩, ⟨197, 199, 71, 63⟩)
  ]

/-- The names and colours that `InitTissues` assigns to the ids 1 to 82 (lines 155-318). -/
def InitTissues.table : List (List Byte × CFloat × CFloat × CFloat) :=
  InitTissues.table1to20 ++ InitTissues.table21to40 ++ InitTissues.table41to60 ++ InitTissues.table61to82

/-- `TissueInfos::InitTissues` (lines 150-321): `clear()`, `resize(83)`, the assignments of
the table, `CreateTissueTypeMap()`. -/
def InitTissues (P : Platform) (st : TissueInfos) : Option TissueInfos :=
  CreateTissueTypeMap P
    { st with
      tissueInfosVector := P.defaultInfo ::
        InitTissues.table.map (fun e =>
          { P.defaultInfo with name := e.1, color := ⟨e.2.1, e.2.2.1, e.2.2.2⟩ }) }

/-- `TissueInfos::AddTissue` (lines 1017-1021). -/
def AddTissue (P : Platform) (st : TissueInfos) (tissue : TissueInfo) : TissueInfos :=
  let pushed : TissueInfos := { st with tissueInfosVector := st.tissueInfosVector ++ [tissue] }
  { pushed with
    tissueTypeMap := pushed.tissueTypeMap.insert (str_tolower tissue.name)
      (GetTissueCount P pushed) }

/-- `tissueInfosVector.erase(tissueInfosVector.begin() + tissuetype)`; `none` when the
iterator is not one of an element. -/
def eraseAt (tissueInfosVector : List TissueInfo) (tissuetype : Nat) :
    Option (List TissueInfo) :=
  if tissuetype < tissueInfosVector.length then some (tissueInfosVector.eraseIdx tissuetype)
  else none

/-- `TissueInfos::RemoveTissue` (lines 1023-1028). -/
def RemoveTissue (P : Platform) (st : TissueInfos) (tissuetype : Nat) : Option TissueInfos := do
  let vec ← eraseAt st.tissueInfosVector tissuetype
  CreateTissueTypeMap P { st with tissueInfosVector := vec }

/-- `TissueInfos::RemoveTissues` (lines 1030-1039): the reverse iteration over the set, then
`CreateTissueTypeMap()`. -/
def RemoveTissues (P : Platform) (st : TissueInfos) (tissuetypes : TissueSet) :
    Option TissueInfos := do
  let vec ← tissuetypes.reverse.foldlM eraseAt st.tissueInfosVector
  CreateTissueTypeMap P { st with tissueInfosVector := vec }

/-- `TissueInfos::RemoveAllTissues` (lines 1041-1046). -/
def RemoveAllTissues (P : Platform) (_st : TissueInfos) : TissueInfos :=
  { tissueInfosVector := [P.defaultInfo], tissueTypeMap := [] }

/-- `TissueInfos::SetTissueName` (lines 130-135); `none` when `tissuetype` is not an index of
the vector. -/
def SetTissueName (st : TissueInfos) (tissuetype : Nat) (val : List Byte) :
    Option TissueInfos := do
  let info ← st.tissueInfosVector[tissuetype]?
  let erased := st.tissueTypeMap.erase (str_tolower info.name)
  pure { tissueInfosVector := st.tissueInfosVector.set tissuetype { info with name := val },
         tissueTypeMap := erased.insert (str_tolower val) tissuetype }

/-- The records of a vector whose ids, counted from `first`, are not in `S`, in their order. -/
def recordsNotIn (S : TissueSet) : Nat → List TissueInfo → List TissueInfo
  | _, [] => []
  | first, info :: rest =>
    if first ∈ S then recordsNotIn S (first + 1) rest
    else info :: recordsNotIn S (first + 1) rest

/-- Two bytes are the same letter in different case, or equal. -/
def sameLetter (a b : Byte) : Prop :=
  a = b ∨ (65 ≤ a.val ∧ a.val ≤ 90 ∧ b.val = a.val + 32) ∨
    (65 ≤ b.val ∧ b.val ≤ 90 ∧ a.val = b.val + 32)

/-- Two strings differ only in letter case. -/
def differOnlyInCase (s s' : List Byte) : Prop := List.Forall₂ sameLetter s s'

/-! ## Hierarchical-store codec: `LoadTissuesHDF` -/

/-- The collaborator `HDF5Reader`, as far as `LoadTissuesHDF` uses it: whether `open`
succeeds, the names `getGroupInfo("/Tissues")` returns, and what the `read` calls find.  A
`read` that returns 0 is `none` and leaves its destination as it was; a successful read of
an `rgbo` data set delivers four floats.  The data sets of a tissue group are addressed by
the group's name. -/
structure HDF5Reader where
  opens : Bool
  groupInfo : List (List Byte)
  bkg_rgbo : Option (CFloat × CFloat × CFloat × CFloat)
  index : List Byte → Option Int
  rgbo : List Byte → Option (CFloat × CFloat × CFloat × CFloat)

/-- The string "version". -/
def strVersion : List Byte := [118, 101, 114, 115, 105, 111, 110]

/-- The string "bkg_rgbo". -/
def strBkgRgbo : List Byte := [98, 107, 103, 95, 114, 103, 98, 111]

/-- The string "Tissue1". -/
def strTissue1 : List Byte := [84, 105, 115, 115, 117, 101, 49]

/-- The record that lines 627-632 write at index 1 when no tissue is counted. -/
def tissue1Info : TissueInfo :=
  { name := strTissue1, color := ⟨CFloat.one, CFloat.zero, CFloat.zero⟩, opac := CFloat.half,
    locked := false }

/-- The local variables of `LoadTissuesHDF` in its loop: `ok`, `index` (`none` while it has
never been assigned), `rgbo`, and the static vector. -/
structure LoadTissuesHDF.Locals where
  ok : Bool
  index : Option Int
  rgbo : CFloat × CFloat × CFloat × CFloat
  tissueInfosVector : List TissueInfo

/-- `ok = ok && (read(dest, ...) != 0)`: the read is made only while `ok` holds; the new `ok`
and the new value of the destination. -/
def guardedRead {α : Type} (ok : Bool) (dest : α) (read : Option α) : Bool × α :=
  if ok then
    match read with
    | some v => (true, v)
    | none => (false, dest)
  else (false, dest)

/-- Lines 645-664: one pass of the loop over the group names. -/
def LoadTissuesHDF.body (reader : HDF5Reader) (s : LoadTissuesHDF.Locals) (it : List Byte) :
    Option LoadTissuesHDF.Locals :=
  if cString it = strVersion then some s
  else if cString it = strBkgRgbo then
    let r := guardedRead s.ok s.rgbo reader.bkg_rgbo
    match s.tissueInfosVector with
    | [] => none
    | bg :: rest =>
      some { s with
        ok := r.1, rgbo := r.2,
        tissueInfosVector :=
          { bg with color := ⟨r.2.1, r.2.2.1, r.2.2.2.1⟩, opac := r.2.2.2.2 } :: rest }
  else
    let ri := guardedRead s.ok s.index ((reader.index it).map some)
    let rc := guardedRead ri.1 s.rgbo (reader.rgbo it)
    match ri.2 with
    | none => none
    | some index =>
      if 0 ≤ index ∧ index.toNat < s.tissueInfosVector.length then
        some { ok := rc.1, index := some index, rgbo := rc.2,
               tissueInfosVector := s.tissueInfosVector.set index.toNat
                 { name := cString it, color := ⟨rc.2.1, rc.2.2.1, rc.2.2.2.1⟩,
                   opac := rc.2.2.2.2, locked := false } }
      else none

/-- The name is neither "version" nor "bkg_rgbo": the loop of `LoadTissuesHDF` treats the
group as a tissue (the last branch, lines 654-664). -/
def isTissueGroup (it : List Byte) : Bool :=
  cString it != strVersion && cString it != strBkgRgbo

/-- The record that lines 658-663 store for the group `it` with the data set `rgbo`. -/
def hdfRecord (it : List Byte) (rgbo : CFloat × CFloat × CFloat × CFloat) : TissueInfo :=
  { name := cString it, color := ⟨rgbo.1, rgbo.2.1, rgbo.2.2.1⟩, opac := rgbo.2.2.2,
    locked := false }

/-- The record `bg` after lines 649-652 have stored the data set `rgbo` in it. -/
def hdfBackground (rgbo : CFloat × CFloat × CFloat × CFloat) (bg : TissueInfo) : TissueInfo :=
  { bg with color := ⟨rgbo.1, rgbo.2.1, rgbo.2.2.1⟩, opac := rgbo.2.2.2 }

/-- What the loop of `LoadTissuesHDF` has made of the vector `before` when every read
succeeds and no two tissue groups of `groups` share a stored index: each tissue group's record
stands at its stored index, the other positions from 1 on are as before, and position 0 has
the background data set if "bkg_rgbo" is among the names. -/
def LoadTissuesHDF.Placed (reader : HDF5Reader) (groups : List (List Byte))
    (before after : List TissueInfo) : Prop :=
  after.length = before.length ∧
  (∀ g ∈ groups, isTissueGroup g = true → ∀ i c, reader.index g = some i →
    reader.rgbo g = some c → after[i.toNat]? = some (hdfRecord g c)) ∧
  (∀ p : Nat, 1 ≤ p →
    (∀ g ∈ groups, isTissueGroup g = true → reader.index g ≠ some (p : Int)) →
    after[p]? = before[p]?) ∧
  ((∃ g ∈ groups, cString g ≠ strVersion ∧ cString g = strBkgRgbo) →
    ∀ c, reader.bkg_rgbo = some c → after[0]? = (before[0]?).map (hdfBackground c)) ∧
  ((¬ ∃ g ∈ groups, cString g ≠ strVersion ∧ cString g = strBkgRgbo) →
    after[0]? = before[0]?)

/-- Lines 621-637: `static_cast<tissues_size_t>(tissues.size() - 2)` (in `size_t`, 64 bits)
and the vector before the loop. -/
def LoadTissuesHDF.initialVector (P : Platform) (groups : Nat) : List TissueInfo :=
  let tissuecount := ((groups + 2 ^ 64 - 2) % 2 ^ 64) % P.modulus
  if tissuecount = 0 then [P.defaultInfo, tissue1Info]
  else List.replicate (tissuecount + 1) P.defaultInfo

/-- `TissueInfos::LoadTissuesHDF` (lines 607-672): the return value and the static state;
`none` when an index is out of range or never read, or `CreateTissueTypeMap` does not end. -/
def LoadTissuesHDF (P : Platform) (reader : HDF5Reader) (st : TissueInfos) :
    Option (Bool × TissueInfos) :=
  if reader.opens then do
    let s ← reader.groupInfo.foldlM (LoadTissuesHDF.body reader)
      { ok := true, index := none, rgbo := (CFloat.zero, CFloat.zero, CFloat.zero, CFloat.zero),
        tissueInfosVector := LoadTissuesHDF.initialVector P reader.groupInfo.length }
    let st1 ← CreateTissueTypeMap P { st with tissueInfosVector := s.tissueInfosVector }
    pure (s.ok, st1)
  else some (false, st)

/-! ## Text tables: the `fscanf` calls of `LoadTissuesReadable` -/

/-- The value of the constant `EOF`. -/
def EOF : Int := -1

/-- `isspace` in the "C" locale: the space and the controls from horizontal tab to carriage
return. -/
def isspace (c : Byte) : Bool := decide (c.val = 32) || (decide (9 ≤ c.val) && decide (c.val ≤ 13))

/-- `isdigit`. -/
def isdigit (c : Byte) : Bool := decide (48 ≤ c.val) && decide (c.val ≤ 57)

/-- A white-space directive of `fscanf`, and the white space a `%d`, `%u`, `%f` or `%s`
conversion skips first: input is read up to the first byte that is not white space, which
stays unread. -/
def skipSpace (fp : List Byte) : List Byte := fp.dropWhile isspace

/-- The value of a run of decimal digits. -/
def digitsValue (digits : List Byte) : Nat := digits.foldl (fun n d => 10 * n + (d.val - 48)) 0

/-- How one conversion of `fscanf` ends, with the input left unread: an assignment, a
matching failure, or an input failure (the stream ended before any byte of the item). -/
inductive Conversion (α : Type) where
  | assigned (value : α) (fp : List Byte)
  | matchingFailure (fp : List Byte)
  | inputFailure (fp : List Byte)
deriving DecidableEq, Repr

/-- The sign and the digits of a `%d` or `%u` item after the white space: the item is the
longest run of input that is an optionally signed decimal integer or the start of one, so a
sign that no digit follows is read and the conversion fails.  The result is `negative`, the
digits (not empty) and the input left. -/
def scanDecimal (fp : List Byte) : Conversion (Bool × List Byte) :=
  match skipSpace fp with
  | [] => .inputFailure []
  | c :: rest =>
    let body := if c.val = 43 ∨ c.val = 45 then rest else c :: rest
    let digits := body.takeWhile isdigit
    if digits = [] then .matchingFailure body
    else .assigned (decide (c.val = 45), digits) (body.dropWhile isdigit)

/-- The conversion `%d` into an `int`.  A value that an `int` cannot hold has no defined
result. -/
def scanInt (fp : List Byte) : Option (Conversion Int) :=
  match scanDecimal fp with
  | .assigned (negative, digits) fp =>
    let value : Int := if negative then -(digitsValue digits : Int) else (digitsValue digits : Int)
    if -2 ^ 31 ≤ value ∧ value < 2 ^ 31 then some (.assigned value fp) else none
  | .matchingFailure fp => some (.matchingFailure fp)
  | .inputFailure fp => some (.inputFailure fp)

/-- The conversion `%u` into an `unsigned int`: a negative item is negated in the unsigned
type, as `strtoul` does.  A magnitude that an `unsigned int` cannot hold has no defined
result. -/
def scanUnsigned (fp : List Byte) : Option (Conversion Nat) :=
  match scanDecimal fp with
  | .assigned (negative, digits) fp =>
    let value := digitsValue digits
    if value < 2 ^ 32 then
      some (.assigned (if negative then (2 ^ 32 - value) % 2 ^ 32 else value) fp)
    else none
  | .matchingFailure fp => some (.matchingFailure fp)
  | .inputFailure fp => some (.inputFailure fp)

/-- The conversion `%s` into `char name[100]`: the bytes up to the next white space, then a
terminating zero.  An item of 100 bytes or more is written beyond the array: no defined
result. -/
def scanString (fp : List Byte) : Option (Conversion (List Byte)) :=
  match skipSpace fp with
  | [] => some (.inputFailure [])
  | c :: rest =>
    let item := (c :: rest).takeWhile (fun b => !isspace b)
    if item.length < 100 then
      some (.assigned item ((c :: rest).dropWhile (fun b => !isspace b)))
    else none

/-- What one call `fscanf(fp, "%d\t%s\t%d\t%d\t%d\t%d\n", &currLabel, name, &r, &g, &b, &a)`
does: the value it returns, the objects it has assigned, and the input left unread. -/
structure RowScan where
  res : Int
  currLabel : Option Int
  name : Option (List Byte)
  r : Option Int
  g : Option Int
  b : Option Int
  a : Option Int
  fp : List Byte
deriving DecidableEq, Repr

/-- One `%d` of the row format and what follows it.  When the conversion fails `fscanf`
returns the number of items assigned so far, or `EOF` on an input failure before the first
conversion. -/
def RowScan.int (s : RowScan) (store : RowScan → Int → RowScan)
    (next : RowScan → Option RowScan) : Option RowScan :=
  match scanInt s.fp with
  | none => none
  | some (.assigned value fp) => next { store s value with res := s.res + 1, fp := fp }
  | some (.matchingFailure fp) => some { s with fp := fp }
  | some (.inputFailure fp) => some { s with res := if s.res = 0 then EOF else s.res, fp := fp }

/-- The `%s` of the row format and what follows it. -/
def RowScan.string (s : RowScan) (next : RowScan → Option RowScan) : Option RowScan :=
  match scanString s.fp with
  | none => none
  | some (.assigned value fp) => next { s with res := s.res + 1, name := some value, fp := fp }
  | some (.matchingFailure fp) => some { s with fp := fp }
  | some (.inputFailure fp) => some { s with fp := fp }

/-- The call `fscanf(fp, "%d\t%s\t%d\t%d\t%d\t%d\n", &currLabel, name, &r, &g, &b, &a)` on
the input `fp`.  The `\t` directives read white space that the conversion after them skips
anyway; the final `\n` reads the white space after the sixth item. -/
def fscanfRow (fp : List Byte) : Option RowScan :=
  RowScan.int ⟨0, none, none, none, none, none, none, fp⟩
    (fun s x => { s with currLabel := some x }) fun s =>
  RowScan.string s fun s =>
  RowScan.int s (fun s x => { s with r := some x }) fun s =>
  RowScan.int s (fun s x => { s with g := some x }) fun s =>
  RowScan.int s (fun s x => { s with b := some x }) fun s =>
  RowScan.int s (fun s x => { s with a := some x }) fun s =>
  some { s with fp := skipSpace s.fp }

/-- What the later stages of the row scan keep, once one item has been assigned: they read
on, leave `currLabel` alone and return at least 1. -/
def Tame (next : RowScan → Option RowScan) : Prop :=
  ∀ s s', 1 ≤ s.res → next s = some s' →
    s'.fp.length ≤ s.fp.length ∧ s'.currLabel = s.currLabel ∧ 1 ≤ s'.res

/-- What the `float` arithmetic and the libraries that `LoadTissuesReadable` calls compute:
`x / 255.0f` for an `int` `x`; `float(rand()) / RAND_MAX` at the `n`-th call of `rand` since
the entry; the text of `(boost::format("DummyTissue%1") % dummyIdx).str()`, if the call
yields one; and the conversion `%f` on an input that starts after the white space, with the
input left, if it assigns. -/
structure CLibrary where
  div255 : Int → CFloat
  randomUnit : Nat → CFloat
  formatDummy : Nat → Option (List Byte)
  scanFloat : List Byte → Option (CFloat × List Byte)

namespace LoadTissuesReadable

/-- The objects the row format is scanned into; `name` is `none` while nothing has been
written to the array `char name[100]`. -/
structure Fields where
  currLabel : Int
  name : Option (List Byte)
  r : Int
  g : Int
  b : Int
  a : Int
deriving DecidableEq, Repr

/-- The objects after a call of `fscanf`: those it assigned are replaced. -/
def Fields.assign (v : Fields) (s : RowScan) : Fields :=
  { currLabel := s.currLabel.getD v.currLabel,
    name := match s.name with
      | some name => some name
      | none => v.name,
    r := s.r.getD v.r, g := s.g.getD v.g, b := s.b.getD v.b, a := s.a.getD v.a }

/-- A `bool` converted to `int`. -/
def boolToInt (x : Bool) : Int := if x then 1 else 0

/-- The expression `currLabel == r == g == b == a == 0` of line 769: `==` groups from the
left, and each comparison but the first compares the `bool` result of the one before,
converted to `int`, with the next operand. -/
def chainedEq (v : Fields) : Bool :=
  decide (boolToInt (decide (boolToInt (decide (boolToInt (decide (boolToInt
    (decide (v.currLabel = v.r)) = v.g)) = v.b)) = v.a)) = 0)

/-- The text "Unknown". -/
def strUnknown : List Byte := [85, 110, 107, 110, 111, 119, 110]

/-- The loop of lines 765-774, on `isFreeSurfer`, the scanned objects and the input.  The
condition reads `name` only when the chained comparison holds; reading it before anything
was written to it has no defined result.  A pass that does not end the loop has either read
input or left everything as it was, and then no later pass differs: the first argument
bounds the number of passes, and more bytes than the input has cannot be read. -/
def detect.loop : Nat → Bool → Fields → List Byte → Option (Bool × Fields × List Byte)
  | 0, _, _, _ => none
  | fuel + 1, isFreeSurfer, v, fp => do
    let s ← fscanfRow fp
    let v := v.assign s
    let isFreeSurfer ←
      if chainedEq v then
        v.name.map (fun name => isFreeSurfer || decide (cString name = strUnknown))
      else some isFreeSurfer
    if s.res ≠ EOF ∧ s.res ≠ 6 then detect.loop fuel isFreeSurfer v s.fp
    else pure (isFreeSurfer, v, s.fp)

/-- Lines 762-774: the detection of the FreeSurfer colour table format on the reopened
file. -/
def detect (content : List Byte) : Option (Bool × Fields × List Byte) :=
  detect.loop (content.length + 1) false
    { currLabel := 0, name := none, r := -1, g := -1, b := -1, a := -1 } content

/-- The loop of lines 785-792 on `labelMax`, a `tissues_size_t`: `std::max` is taken on
`int`, and the assignment converts back. -/
def largestLabel.loop (P : Platform) : Nat → Nat → Fields → List Byte → Option (Nat × Fields)
  | 0, _, _, _ => none
  | fuel + 1, labelMax, v, fp => do
    let s ← fscanfRow fp
    let v := v.assign s
    if s.res ≠ EOF then
      largestLabel.loop P fuel
        (if s.res = 6 then
          ((max (toInt32 (labelMax % 2 ^ 32)) v.currLabel) % (P.modulus : Int)).toNat
        else labelMax)
        v s.fp
    else pure (labelMax, v)

/-- The loop of lines 819-823. -/
def firstTissue.loop : Nat → Fields → List Byte → Option (Fields × List Byte)
  | 0, _, _ => none
  | fuel + 1, v, fp => do
    let s ← fscanfRow fp
    let v := v.assign s
    if s.res ≠ EOF ∧ (s.res ≠ 6 ∨ v.currLabel = 0) then firstTissue.loop fuel v s.fp
    else pure (v, s.fp)

/-- The loop of lines 840-844. -/
def nextTissue.loop : Nat → Fields → List Byte → Option (Fields × List Byte)
  | 0, _, _ => none
  | fuel + 1, v, fp => do
    let s ← fscanfRow fp
    let v := v.assign s
    if s.res ≠ EOF ∧ s.res ≠ 6 then nextTissue.loop fuel v s.fp
    else pure (v, s.fp)

/-- The comparison `currLabel == newTypeIdx + 1` of line 830: in `int` when
`tissues_size_t` is narrower than `int`, in `tissues_size_t` otherwise. -/
def labelIsNext (P : Platform) (currLabel : Int) (newTypeIdx : Nat) : Bool :=
  if P.sizeofTissuesSize < 4 then decide (currLabel = (newTypeIdx : Int) + 1)
  else decide (currLabel % (P.modulus : Int) = ((newTypeIdx : Int) + 1) % (P.modulus : Int))

/-- The variables of the loop of lines 826-864 that outlive a pass, with the number of
calls of `rand` so far. -/
structure Build where
  dummyIdx : Nat
  randCalls : Nat
  v : Fields
  fp : List Byte
  newTissueInfosVec : List TissueInfo
deriving DecidableEq, Repr

/-- The record of lines 832-836. -/
def tableRecord (lib : CLibrary) (v : Fields) (name : List Byte) : TissueInfo :=
  { name := cString name,
    color := ⟨lib.div255 v.r, lib.div255 v.g, lib.div255 v.b⟩,
    opac := lib.div255 v.a, locked := false }

/-- The record of lines 849-853. -/
def dummyRecord (lib : CLibrary) (randCalls : Nat) (name : List Byte) : TissueInfo :=
  { name := name,
    color := ⟨lib.randomUnit randCalls, lib.randomUnit (randCalls + 1),
      lib.randomUnit (randCalls + 2)⟩,
    opac := CFloat.half, locked := false }

/-- One pass of the loop of lines 826-864, up to the `push_back` of line 855 (what lines
857-863 do with the record is `noteRecord`). -/
def build.body (P : Platform) (lib : CLibrary) (s : Build) (newTypeIdx : Nat) :
    Option Build :=
  if labelIsNext P s.v.currLabel newTypeIdx then do
    let name ← s.v.name
    let newTissueInfo := tableRecord lib s.v name
    let next ← nextTissue.loop (s.fp.length + 1) s.v s.fp
    pure { s with v := next.1, fp := next.2,
                  newTissueInfosVec := s.newTissueInfosVec ++ [newTissueInfo] }
  else do
    let name ← lib.formatDummy s.dummyIdx
    let newTissueInfo := dummyRecord lib s.randCalls name
    pure { s with dummyIdx := (s.dummyIdx + 1) % P.modulus, randCalls := s.randCalls + 3,
                  newTissueInfosVec := s.newTissueInfosVec ++ [newTissueInfo] }

/-- The bound `tc1` of the record loops (lines 810-812) for the `unsigned int` `tc`. -/
def recordBound (P : Platform) (tc : Nat) : Nat :=
  if tc > TISSUES_SIZE_MAX P then TISSUES_SIZE_MAX P else tc % P.modulus

/-- Lines 783-801 and 815-865 after a positive detection that left the objects `v` and the
input `fp`: the largest label of the rest of the input, then, on the reopened file
`content`, the records of `newTissueInfosVec`. -/
def freeSurfer (P : Platform) (lib : CLibrary) (content : List Byte) (v : Fields)
    (fp : List Byte) : Option (List TissueInfo) := do
  let largest ← largestLabel.loop P (fp.length + 1) 0 v fp
  let tc := largest.1 % 2 ^ 32
  let first ← firstTissue.loop (content.length + 1) { largest.2 with currLabel := 0 } content
  let s ← (List.range (recordBound P tc)).foldlM (build.body P lib)
    { dummyIdx := 1, randCalls := 0, v := first.1, fp := first.2, newTissueInfosVec := [] }
  pure s.newTissueInfosVec

end LoadTissuesReadable
/-- The calls `fscanf(fp, "V%u\n", &tc)` (line 736) and `fscanf(fp, "N%u\n", &tc)` (line
753) for the letter given: the first byte has to be the letter; `some (tc, fp)` when the
call returns 1, with the input left after the white space that follows the number. -/
def fscanfHeader (letter : Byte) (fp : List Byte) : Option (Option (Nat × List Byte)) :=
  match fp with
  | [] => some none
  | c :: rest =>
    if c = letter then
      match scanUnsigned rest with
      | none => none
      | some (.assigned tc fp) => some (some (tc, skipSpace fp))
      | some (.matchingFailure _) => some none
      | some (.inputFailure _) => some none
    else some none

/-- The calls `fscanf(fp, "C%f %f %f %s\n", ...)` (line 872) and
`fscanf(fp, "C%f %f %f %f %s\n", ...)` (line 899) into a record with `locked = false`, and
with `opac = 0.5f` (line 880) where the format has no fourth number: `some (record, fp)`
when the call returns the number of its conversions. -/
def fscanfColor (lib : CLibrary) (withOpac : Bool) (fp : List Byte) :
    Option (Option (TissueInfo × List Byte)) :=
  match fp with
  | [] => some none
  | c :: rest =>
    if c.val = 67 then
      match lib.scanFloat (skipSpace rest) with
      | none => some none
      | some (c0, fp) =>
      match lib.scanFloat (skipSpace fp) with
      | none => some none
      | some (c1, fp) =>
      match lib.scanFloat (skipSpace fp) with
      | none => some none
      | some (c2, fp) =>
      match (if withOpac then lib.scanFloat (skipSpace fp) else some (CFloat.half, fp)) with
      | none => some none
      | some (opac, fp) =>
      match scanString fp with
      | none => none
      | some (.assigned name fp) =>
        some (some ({ name := cString name, color := ⟨c0, c1, c2⟩, opac := opac,
                      locked := false }, skipSpace fp))
      | some (.matchingFailure _) => some none
      | some (.inputFailure _) => some none
    else some none

namespace LoadTissuesReadable

/-- The loops of lines 868-891 and 895-917, with the number of passes left: `none` inside
when a record does not scan (lines 874-879 and 901-906). -/
def native.loop (lib : CLibrary) (withOpac : Bool) :
    Nat → List Byte → List TissueInfo → Option (Option (List TissueInfo))
  | 0, _, newTissueInfosVec => some (some newTissueInfosVec)
  | passes + 1, fp, newTissueInfosVec =>
    match fscanfColor lib withOpac fp with
    | none => none
    | some none => some none
    | some (some (newTissueInfo, fp)) =>
      native.loop lib withOpac passes fp (newTissueInfosVec ++ [newTissueInfo])

/-- How the reading of the file ends (lines 732-918, without `missingTissues`): the format
is not recognised (line 775), a record does not scan (lines 874 and 901), or all records
are in `newTissueInfosVec`. -/
inductive Parsed where
  | unknownFormat
  | badRecord
  | candidate (newTissueInfosVec : List TissueInfo)
deriving DecidableEq, Repr

/-- Lines 732-801 and 810-918 on the content of a file that can be opened (again, where the
code reopens it). -/
def parse (P : Platform) (lib : CLibrary) (content : List Byte) : Option Parsed := do
  let versioned ← fscanfHeader 86 content
  let version : Nat := match versioned with
    | some (tc, _) => tc % 65536
    | none => 0
  let fp : List Byte := match versioned with
    | some (_, fp) => fp
    | none => content
  match ← fscanfHeader 78 fp with
  | none =>
    let detected ← detect content
    if detected.1 then
      let newTissueInfosVec ← freeSurfer P lib content detected.2.1 detected.2.2
      pure (.candidate newTissueInfosVec)
    else pure .unknownFormat
  | some (tc, fp) =>
    match ← native.loop lib (decide (5 ≤ version)) (recordBound P tc) fp [] with
    | none => pure .badRecord
    | some newTissueInfosVec => pure (.candidate newTissueInfosVec)

end LoadTissuesReadable

/-- `TissueInfos::LoadTissuesReadable` (lines 717-956) on the content of the file, `none`
for a file that cannot be opened, and the value the caller holds in `removeTissuesRange`.
A record that does not scan is met after the loop of lines 804-808. -/
def LoadTissuesReadable (P : Platform) (lib : CLibrary) (file : Option (List Byte))
    (handler3D : SlicesHandler) (removeTissuesRange : Nat) (st : TissueInfos) :
    Option LoadTissuesReadable.Result :=
  let initAndFail : Option LoadTissuesReadable.Result :=
    (InitTissues P st).map fun infos =>
      { returned := false, removeTissuesRange := removeTissuesRange, infos := infos,
        handler3D := handler3D }
  match file with
  | none => initAndFail
  | some content =>
    match LoadTissuesReadable.parse P lib content with
    | none => none
    | some .unknownFormat => initAndFail
    | some .badRecord => (LoadTissuesReadable.initMissing P st).bind fun _ => initAndFail
    | some (.candidate newTissueInfosVec) =>
      LoadTissuesReadable.reconcile P st handler3D newTissueInfosVec

/-- A row of a colour table: the label, the name and the four colour columns. -/
structure Row where
  label : Int
  name : List Byte
  r : Int
  g : Int
  b : Int
  a : Int
deriving DecidableEq, Repr

/-- The call of `fscanf` that reads the row and leaves `fp`. -/
def Row.scan (row : Row) (fp : List Byte) : RowScan :=
  { res := 6, currLabel := some row.label, name := some row.name, r := some row.r,
    g := some row.g, b := some row.b, a := some row.a, fp := fp }

/-- The scanned objects after the row was read. -/
def Row.fields (row : Row) : LoadTissuesReadable.Fields :=
  { currLabel := row.label, name := some row.name, r := row.r, g := row.g, b := row.b,
    a := row.a }

/-- The input is a table of the rows given: call after call, `fscanf` with the row format
assigns the six objects of the next row, and after the last row only white space is
left. -/
inductive TableFile : List Byte → List Row → Prop where
  | done (fp : List Byte) (h : skipSpace fp = []) : TableFile fp []
  | row (fp rest : List Byte) (row : Row) (rows : List Row)
      (h : fscanfRow fp = some (row.scan rest)) (t : TableFile rest rows) :
      TableFile fp (row :: rows)

/-- The row `0 Unknown 0 0 0 0`. -/
def unknownRow : Row :=
  { label := 0, name := LoadTissuesReadable.strUnknown, r := 0, g := 0, b := 0, a := 0 }

/-- The largest label of the rows, 0 when there is none above 0. -/
def Row.largest (rows : List Row) : Int := rows.foldl (fun m row => max m row.label) 0

namespace LoadTissuesReadable

/-- The records for the labels 1 to `n` are the ones the table prescribes: at a label that
a row of the table has, the record of that row; at a label no row has, a placeholder, the
`j`-th one when `j` labels up to this one have no row, with the text the format call yields
for `j` and the three colour values drawn for it. -/
def Built (lib : CLibrary) (rows : List Row) (n : Nat) (vec : List TissueInfo) : Prop :=
  ∀ k : Nat, 1 ≤ k → k ≤ n →
    (∀ row ∈ rows, row.label = (k : Int) →
      vec[k - 1]? = some (tableRecord lib row.fields row.name)) ∧
    ((∀ row ∈ rows, row.label ≠ (k : Int)) →
      ∃ j name, j + (rows.filter (fun row => decide (row.label < (k : Int)))).length = k ∧
        lib.formatDummy j = some name ∧
        vec[k - 1]? = some (dummyRecord lib (3 * (j - 1)) name))

/-- The loop of lines 826-864 after the passes for the labels 1 to `n`, on a table with the
rows `rows`: the rows up to label `n` are used up, the next row is in the scanned objects
and the rows after it are still in the input. -/
def BuildInv (lib : CLibrary) (rows : List Row) (n : Nat) (s : Build) : Prop :=
  ∃ used pending, rows = used ++ pending ∧
    (∀ row ∈ used, row.label ≤ (n : Int)) ∧ (∀ row ∈ pending, (n : Int) < row.label) ∧
    s.newTissueInfosVec.length = n ∧ s.dummyIdx + used.length = n + 1 ∧
    s.randCalls + 3 * used.length = 3 * n ∧
    Built lib rows n s.newTissueInfosVec ∧
    (∀ row rest, pending = row :: rest → s.v = row.fields ∧ TableFile s.fp rest)

end LoadTissuesReadable

/-- `TissueInfos::GetTissueName` (lines 97-100); `none` when `tissuetype` is not an index of
the vector. -/
def GetTissueName (st : TissueInfos) (tissuetype : Nat) : Option (List Byte) :=
  (st.tissueInfosVector[tissuetype]?).map (fun info => info.name)

/-- The 32-bit pattern of a `float`. -/
def CFloat.bits (x : CFloat) : Nat := decodeLE x.bytes

/-- The value of the `float` lies between 0 and 1, both included: in IEEE 754 single
precision these are the patterns with a clear sign bit that, read as numbers, are at most
the pattern `0x3F800000` of `1.0f`. -/
def CFloat.inUnitInterval (x : CFloat) : Bool := decide (x.bits ≤ 0x3F800000)

/-! ## Hierarchical-store codec: the paths of `SaveTissuesHDF` -/

/-- Modelled from the spec: the class `TissueHierarchyItem`, "a hierarchy-tree provider
exposing children/parent/name/is-folder", whose declaration is not part of this
development.  An item has the name `GetName().toLocal8Bit()` gives, the flag
`GetIsFolder()` and the children `GetChildren()` in their order. -/
inductive TissueHierarchyItem where
  | mk (name : List Byte) (isFolder : Bool) (children : List TissueHierarchyItem)

/-- The accessor `GetName()`, as the bytes `toLocal8Bit()` gives. -/
def TissueHierarchyItem.GetName : TissueHierarchyItem → List Byte
  | .mk name _ _ => name

/-- The accessor `GetIsFolder()`. -/
def TissueHierarchyItem.GetIsFolder : TissueHierarchyItem → Bool
  | .mk _ isFolder _ => isFolder

/-- The accessor `GetChildren()`. -/
def TissueHierarchyItem.GetChildren : TissueHierarchyItem → List TissueHierarchyItem
  | .mk _ _ children => children

/-- A `TissueHierarchyItem*` that points below `hiearchy`: the item, and the items that
`GetParent()` gives one after the other, from the parent of the item up to the child of
`hiearchy` (the parent of an item is the item that has it among its children). -/
structure ItemPointer where
  item : TissueHierarchyItem
  ancestors : List TissueHierarchyItem

mutual
/-- `GetLeaves` (lines 362-378) on the item that `ancestors` leads to. -/
def GetLeaves.below (ancestors : List TissueHierarchyItem) :
    TissueHierarchyItem → List ItemPointer
  | .mk _ _ children => GetLeaves.loop ancestors children
/-- The loop of lines 365-376 over the children of the item that `ancestors` leads to. -/
def GetLeaves.loop (ancestors : List TissueHierarchyItem) :
    List TissueHierarchyItem → List ItemPointer
  | [] => []
  | item :: rest =>
    (if item.GetIsFolder then GetLeaves.below (item :: ancestors) item
      else [{ item := item, ancestors := ancestors }])
      ++ GetLeaves.loop ancestors rest
end

/-- `GetLeaves(hiearchy)` (lines 362-378). -/
def GetLeaves (hiearchy : TissueHierarchyItem) : List ItemPointer :=
  GetLeaves.below [] hiearchy

/-- The map of `BuildHiearchyMap` (`std::map<std::string, std::string>`) as an association
list with at most one entry per key. -/
abbrev HierarchyMap := List (List Byte × List Byte)

/-- `m.find(key)`. -/
def HierarchyMap.find (m : HierarchyMap) (key : List Byte) : Option (List Byte) :=
  m.lookup key

/-- `m.insert(std::make_pair(key, val))`: the map stays as it is when the key is present. -/
def HierarchyMap.insert (m : HierarchyMap) (key val : List Byte) : HierarchyMap :=
  if (m.lookup key).isSome then m else m ++ [(key, val)]

/-- `m[key]` as line 488 reads it: the empty string for a key that is not present. -/
def HierarchyMap.get (m : HierarchyMap) (key : List Byte) : List Byte :=
  (m.find key).getD []

/-- Lines 390-396: `parents`, from `current = item->GetParent()` until `current` is
`hiearchy`. -/
def BuildHiearchyMap.parents : List TissueHierarchyItem → List (List Byte)
  | [] => []
  | current :: up => cString current.GetName :: BuildHiearchyMap.parents up

/-- Lines 388-401: one pass of the loop over the leaves. -/
def BuildHiearchyMap.body (result : HierarchyMap) (item : ItemPointer) : HierarchyMap :=
  let parents := BuildHiearchyMap.parents item.ancestors
  let path := List.intercalate [47] parents
  let tissue := cString item.item.GetName
  result.insert tissue path

/-- `BuildHiearchyMap` (lines 380-404); `none` is the null pointer. -/
def BuildHiearchyMap (hiearchy : Option TissueHierarchyItem) : HierarchyMap :=
  match hiearchy with
  | none => []
  | some hiearchy => (GetLeaves hiearchy).foldl BuildHiearchyMap.body []

/-- The leaf hangs below the folders named `folders`, from the child of `root` down to the
parent of the leaf: one folder in the other. -/
inductive LeafAt : TissueHierarchyItem → List (List Byte) → TissueHierarchyItem → Prop where
  | here (root leaf : TissueHierarchyItem) (hmem : leaf ∈ root.GetChildren)
      (hleaf : leaf.GetIsFolder = false) : LeafAt root [] leaf
  | inside (root folder leaf : TissueHierarchyItem) (folders : List (List Byte))
      (hmem : folder ∈ root.GetChildren) (hfolder : folder.GetIsFolder = true)
      (h : LeafAt folder folders leaf) : LeafAt root (cString folder.GetName :: folders) leaf

/-! ## Default list: `LoadDefaultTissueList` -/

/-- The conversion `%s` into a `char` array of `capacity` bytes: the bytes up to the next
white space, then a terminating zero.  An item that does not fit is written beyond the
array: no defined result. -/
def scanStringInto (capacity : Nat) (fp : List Byte) : Option (Conversion (List Byte)) :=
  match skipSpace fp with
  | [] => some (.inputFailure [])
  | c :: rest =>
    let item := (c :: rest).takeWhile (fun b => !isspace b)
    if item.length < capacity then
      some (.assigned item ((c :: rest).dropWhile (fun b => !isspace b)))
    else none

/-- The call `fscanf(fp, "%s %f %f %f %f", name1, &rgb.r, &rgb.g, &rgb.b, &alpha)` of line
996 with `char name1[1000]`, and the record of lines 998-1002: `some (record, fp)` when the
call returns 5. -/
def fscanfDefault (lib : CLibrary) (fp : List Byte) :
    Option (Option (TissueInfo × List Byte)) :=
  match scanStringInto 1000 fp with
  | none => none
  | some (.assigned name1 fp) =>
    match lib.scanFloat (skipSpace fp) with
    | none => some none
    | some (r, fp) =>
    match lib.scanFloat (skipSpace fp) with
    | none => some none
    | some (g, fp) =>
    match lib.scanFloat (skipSpace fp) with
    | none => some none
    | some (b, fp) =>
    match lib.scanFloat (skipSpace fp) with
    | none => some none
    | some (alpha, fp) =>
      some (some ({ name := cString name1, color := ⟨r, g, b⟩, opac := alpha,
                    locked := false }, fp))
  | some (.matchingFailure _) => some none
  | some (.inputFailure _) => some none

/-- The loop of lines 996-1003 on `tissueInfosVector`.  A pass that does not end the loop
has read the bytes of a name: the first argument bounds the number of passes, and more
bytes than the input has cannot be read. -/
def LoadDefaultTissueList.loop (lib : CLibrary) :
    Nat → List Byte → List TissueInfo → Option (List TissueInfo)
  | 0, _, _ => none
  | fuel + 1, fp, tissueInfosVector =>
    match fscanfDefault lib fp with
    | none => none
    | some none => some tissueInfosVector
    | some (some (newTissueInfo, fp1)) =>
      LoadDefaultTissueList.loop lib fuel fp1 (tissueInfosVector ++ [newTissueInfo])

/-- `TissueInfos::LoadDefaultTissueList` (lines 980-1010) on the content of the file,
`none` for a file that cannot be opened: the value returned and the static state. -/
def LoadDefaultTissueList (P : Platform) (lib : CLibrary) (file : Option (List Byte))
    (st : TissueInfos) : Option (Bool × TissueInfos) :=
  match file with
  | none =>
    match InitTissues P st with
    | none => none
    | some st1 => (CreateTissueTypeMap P st1).map (fun st2 => (true, st2))
  | some content =>
    match LoadDefaultTissueList.loop lib (content.length + 1) content [P.defaultInfo] with
    | none => none
    | some tissueInfosVector =>
      (CreateTissueTypeMap P { st with tissueInfosVector := tissueInfosVector }).map
        (fun st2 => (true, st2))

/-! ## Text export: `SaveTissuesReadable` -/

/-- The decimal digits of `n`, most significant first; the first argument bounds their
number. -/
def fprintfUnsigned.digits : Nat → Nat → List Byte
  | 0, _ => []
  | fuel + 1, n =>
    if n < 10 then [Fin.ofNat (48 + n)]
    else fprintfUnsigned.digits fuel (n / 10) ++ [Fin.ofNat (48 + n % 10)]

/-- What `fprintf` writes for the conversion `%u`: the decimal digits of the number. -/
def fprintfUnsigned (n : Nat) : List Byte := fprintfUnsigned.digits (n + 1) n

/-- The line `fprintf(fp, "C%f %f %f %s\n", ...)` of lines 697-698, or
`fprintf(fp, "C%f %f %f %f %s\n", ...)` of lines 706-708 when `withOpac`, for one record.
`fprintfFloat` is what `fprintf` writes for the conversion `%f`; `%s` writes the bytes of
`name.c_str()`, those before the first zero. -/
def SaveTissuesReadable.line (fprintfFloat : CFloat → List Byte) (withOpac : Bool)
    (info : TissueInfo) : List Byte :=
  [67] ++ fprintfFloat info.color.r ++ [32] ++ fprintfFloat info.color.g ++ [32] ++
    fprintfFloat info.color.b ++ [32] ++
    (if withOpac then fprintfFloat info.opac ++ [32] else []) ++ cString info.name ++ [10]

/-- The loops of lines 694-699 and 703-709 over the records after the first. -/
def SaveTissuesReadable.lines (fprintfFloat : CFloat → List Byte) (withOpac : Bool) :
    List TissueInfo → List Byte
  | [] => []
  | info :: rest =>
    SaveTissuesReadable.line fprintfFloat withOpac info ++
      SaveTissuesReadable.lines fprintfFloat withOpac rest

/-- `TissueInfos::SaveTissuesReadable` (lines 674-715) for a file that can be opened and the
`unsigned short` `version`: the content written.  `none` for an empty vector, where
`tissueInfosVector.begin() + 1` is not an iterator of the vector. -/
def SaveTissuesReadable (P : Platform) (fprintfFloat : CFloat → List Byte) (st : TissueInfos)
    (version : Nat) : Option (List Byte) :=
  match st.tissueInfosVector with
  | [] => none
  | _ :: rest =>
    some ((if 5 ≤ version then [86] ++ fprintfUnsigned version ++ [10] else []) ++
      ([78] ++ fprintfUnsigned (GetTissueCount P st) ++ [10]) ++
      SaveTissuesReadable.lines fprintfFloat (decide (5 ≤ version)) rest)

/-- A name that the conversion `%s` into `char name[100]` reads back as `%s` wrote it: not
empty, shorter than 100 bytes, without a zero byte and without white space. -/
def plainName (name : List Byte) : Bool :=
  !name.isEmpty && decide (name.length < 100) && name.all (fun b => b != 0 && !isspace b)

/-- The text `fprintfFloat x` is read back by the conversion `%f` of `lib` as `y`: it starts
with a byte that is not white space, and the conversion reads it up to the blank that
follows it in a line of `SaveTissuesReadable`. -/
def ReadsBack (lib : CLibrary) (fprintfFloat : CFloat → List Byte) (x y : CFloat) : Prop :=
  (∃ c s, fprintfFloat x = c :: s ∧ isspace c = false) ∧
  ∀ rest, lib.scanFloat (fprintfFloat x ++ 32 :: rest) = some (y, 32 :: rest)

/-- The numbers of the line of the record `info` are read back by `lib` as the values that
`back` names. -/
def LineReadsBack (lib : CLibrary) (fprintfFloat : CFloat → List Byte)
    (back : CFloat → CFloat) (withOpac : Bool) (info : TissueInfo) : Prop :=
  ReadsBack lib fprintfFloat info.color.r (back info.color.r) ∧
  ReadsBack lib fprintfFloat info.color.g (back info.color.g) ∧
  ReadsBack lib fprintfFloat info.color.b (back info.color.b) ∧
  (withOpac = true → ReadsBack lib fprintfFloat info.opac (back info.opac))

/-- The record that `LoadTissuesReadable` parses from the line of `info`: the name, the
numbers as read back, the opacity `0.5f` where the line has none, and no lock. -/
def readBackRecord (back : CFloat → CFloat) (withOpac : Bool) (info : TissueInfo) :
    TissueInfo :=
  { name := info.name,
    color := ⟨back info.color.r, back info.color.g, back info.color.b⟩,
    opac := if withOpac then back info.opac else CFloat.half,
    locked := false }

/-- The self-export: `LoadTissuesReadable` on the file that `SaveTissuesReadable` has
written from the live catalog at the given version. -/
def reloadExport (P : Platform) (lib : CLibrary) (fprintfFloat : CFloat → List Byte)
    (st : TissueInfos) (version : Nat) (handler3D : SlicesHandler) (removeTissuesRange : Nat) :
    Option LoadTissuesReadable.Result :=
  (SaveTissuesReadable P fprintfFloat st version).bind fun content =>
    LoadTissuesReadable P lib (some content) handler3D removeTissuesRange st

/-! ## Concrete inputs used in the examples -/

/-- A platform with a two-byte `tissues_size_t` and an unnamed black default record. -/
def P16 : Platform :=
  { sizeofTissuesSize := 2,
    defaultInfo := { name := [], color := ⟨CFloat.zero, CFloat.zero, CFloat.zero⟩,
                     opac := CFloat.half, locked := false } }

/-- A record with the given name and lock flag, red and half opaque. -/
def mkInfo (name : List Byte) (locked : Bool) : TissueInfo :=
  { name := name, color := ⟨CFloat.one, CFloat.zero, CFloat.zero⟩, opac := CFloat.half,
    locked := locked }

/-- The background record of the examples. -/
def bgInfo : TissueInfo := P16.defaultInfo

/-- The catalog with the given records and the name index `CreateTissueTypeMap` builds. -/
def mkStore (vec : List TissueInfo) : TissueInfos :=
  match CreateTissueTypeMap P16 { tissueInfosVector := vec, tissueTypeMap := [] } with
  | some st => st
  | none => { tissueInfosVector := vec, tissueTypeMap := [] }

/-- The name "A". -/
def nameA : List Byte := [65]

/-- The name "B". -/
def nameB : List Byte := [66]

/-- The name "C". -/
def nameC : List Byte := [67]

/-- The name "a". -/
def namea : List Byte := [97]

/-- The live catalog [background, A (locked), B, C]. -/
def liveABC : TissueInfos :=
  mkStore [bgInfo, mkInfo nameA true, mkInfo nameB false, mkInfo nameC false]

/-- The live catalog [background, B, A, A]: two tissues share a name. -/
def liveBAA : TissueInfos :=
  mkStore [bgInfo, mkInfo nameB false, mkInfo nameA false, mkInfo nameA true]

/-- The live catalog [background, A, A]. -/
def liveAA : TissueInfos := mkStore [bgInfo, mkInfo nameA false, mkInfo nameA true]

/-- The live catalog [background, A]. -/
def liveA : TissueInfos := mkStore [bgInfo, mkInfo nameA true]

/-- A catalog whose background record is itself named "A", with one tissue "A". -/
def liveBgA : TissueInfos := mkStore [mkInfo nameA false, mkInfo nameA false]

/-- The static state in which `LoadTissues` leaves the catalog [background, A] when it throws
on `fullNameStream`: two records with the colours and opacities of the stream (all zero) and
default names, and the old name index. -/
def failedLoadState : TissueInfos :=
  { tissueInfosVector :=
      [⟨[], ⟨CFloat.zero, CFloat.zero, CFloat.zero⟩, CFloat.zero, false⟩,
       ⟨[], ⟨CFloat.zero, CFloat.zero, CFloat.zero⟩, CFloat.zero, false⟩],
    tissueTypeMap := [([97], 1)] }

/-- A colour and opacity as an `rgbo` data set: red, half opaque. -/
def rgboRed : CFloat × CFloat × CFloat × CFloat :=
  (CFloat.one, CFloat.zero, CFloat.zero, CFloat.half)

/-- A store with the groups "version", "bkg_rgbo", "A", "B" in which "A" and "B" both have
the stored index 1. -/
def readerSameIndex : HDF5Reader :=
  { opens := true, groupInfo := [strVersion, strBkgRgbo, nameA, nameB],
    bkg_rgbo := some rgboRed, index := fun _ => some 1, rgbo := fun _ => some rgboRed }

/-- A store with the groups "version", "bkg_rgbo", "A" in which "A" has the stored index 5. -/
def readerIndexFive : HDF5Reader :=
  { opens := true, groupInfo := [strVersion, strBkgRgbo, nameA],
    bkg_rgbo := some rgboRed, index := fun _ => some 5, rgbo := fun _ => some rgboRed }

/-- A store with the groups "B", "version", "A", "bkg_rgbo" in which "A" has the stored index
1 and "B" the stored index 2. -/
def readerBA : HDF5Reader :=
  { opens := true, groupInfo := [nameB, strVersion, nameA, strBkgRgbo],
    bkg_rgbo := some rgboRed,
    index := fun g => if g = nameA then some 1 else if g = nameB then some 2 else none,
    rgbo := fun _ => some rgboRed }

/-- A store whose enumeration of "/Tissues" has the given names and no readable data set. -/
def readerOnly (groups : List (List Byte)) : HDF5Reader :=
  { opens := true, groupInfo := groups, bkg_rgbo := some rgboRed,
    index := fun _ => none, rgbo := fun _ => none }

/-- The `float` with the given 32-bit pattern. -/
def CFloat.ofBits (bits : Nat) : CFloat :=
  ⟨Fin.ofNat bits, Fin.ofNat (bits / 2 ^ 8), Fin.ofNat (bits / 2 ^ 16), Fin.ofNat (bits / 2 ^ 24)⟩

/-- The number of binary digits of `n`, for `n` below `2 ^ fuel`. -/
def bitLength : Nat → Nat → Nat
  | 0, _ => 0
  | fuel + 1, n => if n = 0 then 0 else bitLength fuel (n / 2) + 1

/-- The bit pattern of the `float` nearest to the quotient `n / d` of two natural numbers,
`d` not 0 (IEEE 754 single precision, round to nearest, ties to even).  The result is `q`
units of `2 ^ (unit - 200)`, where 51 stands for the unit `2 ^ -149` of the subnormals. -/
def nearestFloatBits (n d : Nat) : Nat :=
  if n = 0 then 0
  else
    let unit := max (bitLength (n * 2 ^ 200) (n * 2 ^ 200 / d) - 24) 51
    let q := n * 2 ^ 200 / (d * 2 ^ unit)
    let rest := n * 2 ^ 200 % (d * 2 ^ unit)
    let up := decide (2 * rest > d * 2 ^ unit) || (decide (2 * rest = d * 2 ^ unit) && decide (q % 2 = 1))
    min ((unit - 51) * 2 ^ 23 + (if up then q + 1 else q)) 0x7F800000

/-- The value of the `float` that a natural number converts to (round to nearest, ties to
even; exact below `2 ^ 24`). -/
def nearestFloatNat (a : Nat) : Nat :=
  if a < 2 ^ 24 then a
  else
    let unit := 2 ^ (bitLength a a - 24)
    let q := a / unit
    let up := decide (2 * (a % unit) > unit) || (decide (2 * (a % unit) = unit) && decide (q % 2 = 1))
    (if up then q + 1 else q) * unit

/-- `x / 255.0f` for the `int` `x` in IEEE 754 single precision. -/
def exampleDiv255 (x : Int) : CFloat :=
  CFloat.ofBits ((if x < 0 then 2 ^ 31 else 0) + nearestFloatBits (nearestFloatNat x.natAbs) 255)

/-- The text "DummyTissue". -/
def strDummyTissue : List Byte := [68, 117, 109, 109, 121, 84, 105, 115, 115, 117, 101]

/-- The conversion `%f` of the examples on decimal notation without exponent: an optional
sign, digits, and optionally a point and digits, with a digit on one side of the point at
least.  Exponents, hexadecimal notation, infinities and NaNs do not occur in the
examples. -/
def exampleScanFloat (fp : List Byte) : Option (CFloat × List Byte) :=
  match fp with
  | [] => none
  | c :: rest =>
    let body := if c.val = 43 ∨ c.val = 45 then rest else c :: rest
    let whole := body.takeWhile isdigit
    let pointed := (body.dropWhile isdigit).head? = some 46
    let fraction := if pointed then ((body.dropWhile isdigit).drop 1).takeWhile isdigit else []
    let left := if pointed then ((body.dropWhile isdigit).drop 1).dropWhile isdigit
      else body.dropWhile isdigit
    if whole = [] ∧ fraction = [] then none
    else
      some (CFloat.ofBits ((if c.val = 45 then 2 ^ 31 else 0) +
        nearestFloatBits (digitsValue (whole ++ fraction)) (10 ^ fraction.length)), left)

/-- The library of the examples: IEEE 754 division, a sequence of values between 0 and 1 in
the place of the random numbers, and a format call that yields "DummyTissue" followed by
the number in decimal notation, as the caller expects of it. -/
def exampleLibrary : CLibrary :=
  { div255 := exampleDiv255,
    randomUnit := fun n => CFloat.ofBits (0x3E000000 + (n % 128) * 2 ^ 16),
    formatDummy := fun j =>
      some (strDummyTissue ++ (Nat.toDigits 10 j).map (fun c => (Fin.ofNat c.toNat : Byte))),
    scanFloat := exampleScanFloat }

/-- The table
```
0	Unknown	0	0	0	0
1	A	255	0	0	255
3	C	0	0	255	255
```
with tabs between the columns. -/
def tableGap : List Byte :=
  [48, 9, 85, 110, 107, 110, 111, 119, 110, 9, 48, 9, 48, 9, 48, 9, 48, 10] ++
  [49, 9, 65, 9, 50, 53, 53, 9, 48, 9, 48, 9, 50, 53, 53, 10] ++
  [51, 9, 67, 9, 48, 9, 48, 9, 50, 53, 53, 9, 50, 53, 53, 10]

/-- The table
```
0	Unknown	0	0	0	0
2	B	0	0	0	0
1	A	0	0	0	0
```
with tabs between the columns. -/
def tableBA : List Byte :=
  [48, 9, 85, 110, 107, 110, 111, 119, 110, 9, 48, 9, 48, 9, 48, 9, 48, 10] ++
  [50, 9, 66, 9, 48, 9, 48, 9, 48, 9, 48, 10] ++
  [49, 9, 65, 9, 48, 9, 48, 9, 48, 9, 48, 10]

/-- The table
```
0	Unknown	0	0	0	0
1	A	255	0	0	255
2	B	0	0	0	0
```
with tabs between the columns: no label up to the largest is missing. -/
def tableAB : List Byte :=
  [48, 9, 85, 110, 107, 110, 111, 119, 110, 9, 48, 9, 48, 9, 48, 9, 48, 10] ++
  [49, 9, 65, 9, 50, 53, 53, 9, 48, 9, 48, 9, 50, 53, 53, 10] ++
  [50, 9, 66, 9, 48, 9, 48, 9, 48, 9, 48, 10]

/-- The library of the examples with a format call that yields no text, as a format library
does that rejects the string "DummyTissue%1", whose directive is not closed, with an
exception. -/
def rejectingLibrary : CLibrary :=
  { exampleLibrary with formatDummy := fun _ => none }

/-- The table of the one row `1 A 255 0 0 255`. -/
def tableNoUnknown : List Byte := [49, 9, 65, 9, 50, 53, 53, 9, 48, 9, 48, 9, 50, 53, 53, 10]

/-- The table
```
1	A	255	0	0	255
0	Unknown	0	0	0	0
```
with tabs between the columns. -/
def tableUnknownSecond : List Byte :=
  [49, 9, 65, 9, 50, 53, 53, 9, 48, 9, 48, 9, 50, 53, 53, 10] ++
  [48, 9, 85, 110, 107, 110, 111, 119, 110, 9, 48, 9, 48, 9, 48, 9, 48, 10]

/-- The table of the one row `0 Unknown 25 5 25 0`. -/
def tableUnknownColoured : List Byte :=
  [48, 9, 85, 110, 107, 110, 111, 119, 110, 9, 50, 53, 9, 53, 9, 50, 53, 9, 48, 10]

/-- The row `1 A 255 0 0 255`. -/
def rowA : Row := { label := 1, name := nameA, r := 255, g := 0, b := 0, a := 255 }

/-- The row `3 C 0 0 255 255`. -/
def rowC : Row := { label := 3, name := nameC, r := 0, g := 0, b := 255, a := 255 }

/-- The row `2 B 0 0 0 0`. -/
def rowB0 : Row := { label := 2, name := nameB, r := 0, g := 0, b := 0, a := 0 }

/-- The row `1 A 0 0 0 0`. -/
def rowA0 : Row := { label := 1, name := nameA, r := 0, g := 0, b := 0, a := 0 }

/-- The row `0 Unknown 25 5 25 0`. -/
def rowUnknownColoured : Row :=
  { label := 0, name := LoadTissuesReadable.strUnknown, r := 25, g := 5, b := 25, a := 0 }

/-- The input
```
#
1	A	0	0	0	0
```
with tabs between the columns: a line that does not start with a number. -/
def commentLines : List Byte := [35, 10, 49, 9, 65, 9, 48, 9, 48, 9, 48, 9, 48, 10]

/-- The table of the row `0 Unknown 0 0 0 0` followed by `commentLines`. -/
def tableComment : List Byte :=
  [48, 9, 85, 110, 107, 110, 111, 119, 110, 9, 48, 9, 48, 9, 48, 9, 48, 10] ++ commentLines

/-- The leaf "L". -/
def leafL : TissueHierarchyItem := .mk [76] false []

/-- The tree of the root "R" with the folder "F1", in it the folder "F2", in it the leaf
"L". -/
def treeNested : TissueHierarchyItem :=
  .mk [82] true [.mk [70, 49] true [.mk [70, 50] true [leafL]]]

/-- The tree of the root "R" with the folder "F1", which holds the leaf "L", and another
leaf "L" directly under the root. -/
def treeTwice : TissueHierarchyItem :=
  .mk [82] true [.mk [70, 49] true [leafL], leafL]

/-- The default list
```
Skin 1.0 0.5 0.25 1
Fat 0 1 0 0.5
```
-/
def defaultListFile : List Byte :=
  [83, 107, 105, 110, 32, 49, 46, 48, 32, 48, 46, 53, 32, 48, 46, 50, 53, 32, 49, 10] ++
  [70, 97, 116, 32, 48, 32, 49, 32, 48, 32, 48, 46, 53, 10]

/-- The catalog of the background alone. -/
def liveBg : TissueInfos := mkStore [bgInfo]

/-- Six decimal digits for a number below a million. -/
def sixDigits (k : Nat) : List Byte :=
  [Fin.ofNat (48 + k / 100000 % 10), Fin.ofNat (48 + k / 10000 % 10),
   Fin.ofNat (48 + k / 1000 % 10), Fin.ofNat (48 + k / 100 % 10),
   Fin.ofNat (48 + k / 10 % 10), Fin.ofNat (48 + k % 10)]

/-- What `fprintf` writes for the conversion `%f` and a finite `float` (IEEE 754 single
precision): the value rounded to six decimals (to nearest, ties to even), as sign, whole
part, point and six digits. -/
def exampleFprintfFloat (x : CFloat) : List Byte :=
  let e := x.bits / 2 ^ 23 % 256
  let mantissa := if e = 0 then x.bits % 2 ^ 23 else 2 ^ 23 + x.bits % 2 ^ 23
  let exponent := if e = 0 then 1 else e
  let num := mantissa * 2 ^ (exponent - 150) * 10 ^ 6
  let den := 2 ^ (150 - exponent)
  let up := decide (2 * (num % den) > den) ||
    (decide (2 * (num % den) = den) && decide (num / den % 2 = 1))
  let scaled := if up then num / den + 1 else num / den
  (if x.bits / 2 ^ 31 = 1 then [45] else []) ++ fprintfUnsigned (scaled / 10 ^ 6) ++ [46] ++
    sixDigits (scaled % 10 ^ 6)

/-- The name "Brain stem". -/
def nameBrainStem : List Byte := [66, 114, 97, 105, 110, 32, 115, 116, 101, 109]

/-- The catalog [background, "Brain stem"]. -/
def liveBrainStem : TissueInfos := mkStore [bgInfo, mkInfo nameBrainStem false]

/-- The catalog [background, A] whose tissue has the red value `1.0f / 255`. -/
def liveFaint : TissueInfos :=
  mkStore [bgInfo, { mkInfo nameA false with color := ⟨exampleDiv255 1, CFloat.zero, CFloat.zero⟩ }]

/-- The live catalog [background, A, B], no tissue locked. -/
def liveAB : TissueInfos := mkStore [bgInfo, mkInfo nameA false, mkInfo nameB false]

/-- The name "Brain". -/
def nameBrain : List Byte := [66, 114, 97, 105, 110]

/-- The name "Fat". -/
def nameFat : List Byte := [70, 97, 116]

/-- The catalog [background, "Brain stem", "Fat"]. -/
def liveBrainStemFat : TissueInfos :=
  mkStore [bgInfo, mkInfo nameBrainStem false, mkInfo nameFat false]

/-- What `fprintf` writes for `%f` in a locale whose decimal separator is the comma. -/
def commaFprintfFloat (x : CFloat) : List Byte :=
  (exampleFprintfFloat x).map (fun b => if b = 46 then 44 else b)

/-- The catalog [background, ""]: the tissue has the empty name of a default-constructed
record. -/
def liveUnnamed : TissueInfos := mkStore [bgInfo, mkInfo [] false]

/-- The catalog [background, "A\0B"]: the name of the tissue has a zero byte. -/
def liveZeroByte : TissueInfos := mkStore [bgInfo, mkInfo [65, 0, 66] false]

/-- The catalog of the background and one tissue whose name is 100 times "A". -/
def liveLongName : TissueInfos := mkStore [bgInfo, mkInfo (List.replicate 100 65) false]

/-- A handler that has received no call. -/
def noCalls : SlicesHandler := { map_tissue_indices_calls := [] }

/-- A legacy binary stream for a two-byte `tissues_size_t`: tissue count 1, the sentinel
`1.2345f`, version 5, a background of four zero floats, then one record of four zero floats
that declares a name length of 140 and is followed by 140 bytes "A". -/
def overrunStream : List Byte :=
  [1, 0] ++ CFloat.sentinel.bytes ++ [5, 0] ++ List.replicate 16 0 ++
    List.replicate 16 0 ++ [140, 0, 0, 0] ++ List.replicate 140 65

/-- A legacy binary stream like `overrunStream` whose one record declares a name length of
100 and is followed by 100 bytes "A": the name bytes fill `name` exactly. -/
def fullNameStream : List Byte :=
  [1, 0] ++ CFloat.sentinel.bytes ++ [5, 0] ++ List.replicate 16 0 ++
    List.replicate 16 0 ++ [100, 0, 0, 0] ++ List.replicate 100 65

/-! ## Lemmas -/

open LoadTissuesReadable

theorem modulus_pos (P : Platform) : 0 < P.modulus := by
  unfold Platform.modulus; positivity

theorem GetTissueCount_eq (P : Platform) (st : TissueInfos)
    (h1 : 1 ≤ st.tissueInfosVector.length)
    (h2 : st.tissueInfosVector.length ≤ TISSUES_SIZE_MAX P) :
    GetTissueCount P st = st.tissueInfosVector.length - 1 := by
  have hM := modulus_pos P
  unfold TISSUES_SIZE_MAX at h2
  unfold GetTissueCount
  have h3 : st.tissueInfosVector.length % P.modulus = st.tissueInfosVector.length :=
    Nat.mod_eq_of_lt (by omega)
  rw [h3]
  have h4 : st.tissueInfosVector.length + P.modulus - 1
      = (st.tissueInfosVector.length - 1) + P.modulus := by omega
  rw [h4, Nat.add_mod_right]
  exact Nat.mod_eq_of_lt (by omega)

theorem TissueSet.insert_last (s : TissueSet) (x : Nat) (h : ∀ y ∈ s, y < x) :
    TissueSet.insert s x = s ++ [x] := by
  induction s with
  | nil => rfl
  | cons y ys ih =>
    have hy : y < x := h y (by simp)
    have hys : ∀ z ∈ ys, z < x := fun z hz => h z (by simp [hz])
    simp only [TissueSet.insert, List.cons_append]
    rw [if_neg (by omega), if_neg (by omega), ih hys]

theorem foldl_insert_range (a n : Nat) :
    (List.range' a n).foldl TissueSet.insert (List.range a) = List.range (a + n) := by
  induction n generalizing a with
  | zero => simp
  | succ n ih =>
    rw [List.range'_succ, List.foldl_cons, TissueSet.insert_last _ _ (by simp),
      ← List.range_succ, ih (a + 1)]
    congr 1; omega

theorem initMissing_eq (P : Platform) (st : TissueInfos)
    (h1 : 1 ≤ st.tissueInfosVector.length)
    (h2 : st.tissueInfosVector.length ≤ TISSUES_SIZE_MAX P) :
    initMissing P st = some (List.range st.tissueInfosVector.length) := by
  have hc := GetTissueCount_eq P st h1 h2
  unfold initMissing countUpTo
  rw [hc, if_pos (by omega)]
  have := foldl_insert_range 0 (st.tissueInfosVector.length - 1 + 1 - 0)
  simp only [List.range_zero, Nat.zero_add] at this
  simp only [Option.pure_def, Option.bind_eq_bind, Option.some_bind]
  rw [this]
  congr 2; omega

/-- True for an old id that no record of `cand` resolves to (the background id 0 always). -/
theorem ne_zero_or_ne (x o : Nat) (h : 0 < o) :
    (x != o) = (decide (x = 0) || (o != x)) := by
  by_cases hx : x = o
  · subst hx
    have : x ≠ 0 := by omega
    simp [this]
  · have h2 : o ≠ x := fun h => hx h.symm
    have e1 : (x != o) = true := by simpa using hx
    have e2 : (o != x) = true := by simpa using h2
    rw [e1, e2, Bool.or_true]

theorem noteRecord_snd (st : TissueInfos) (acc : List TissueInfo × TissueSet) (c : TissueInfo) :
    (noteRecord st acc c).2
      = acc.2.filter (fun i => decide (i = 0) || (GetTissueType st c.name != i)) := by
  unfold noteRecord
  simp only [TissueSet.has, TissueSet.erase]
  by_cases h0 : 0 < GetTissueType st c.name
  · by_cases hm : acc.2.contains (GetTissueType st c.name) = true
    · simp only [h0, hm, decide_True, Bool.and_self, if_true]
      apply List.filter_congr
      intro x _
      exact ne_zero_or_ne x _ h0
    · simp only [hm, Bool.and_false, Bool.false_eq_true, if_false]
      symm
      rw [List.filter_eq_self]
      intro x hx
      have : GetTissueType st c.name ≠ x := by
        intro he; apply hm; rw [he]; simpa using hx
      simp [this]
  · have hz : GetTissueType st c.name = 0 := by omega
    simp only [hz, lt_irrefl, decide_False, Bool.false_and, Bool.false_eq_true, if_false]
    symm
    rw [List.filter_eq_self]
    intro x _
    by_cases hx : x = 0
    · simp [hx]
    · simp [hx, Ne.symm hx]

theorem foldl_noteRecord (st : TissueInfos) (cand : List TissueInfo)
    (acc : List TissueInfo × TissueSet) :
    cand.foldl (noteRecord st) acc
      = (acc.1 ++ cand,
         acc.2.filter (fun i => decide (i = 0) ||
           cand.all (fun c => GetTissueType st c.name != i))) := by
  induction cand generalizing acc with
  | nil => simp
  | cons c cs ih =>
    rw [List.foldl_cons, ih, noteRecord_snd]
    have h1 : (noteRecord st acc c).1 = acc.1 ++ [c] := rfl
    rw [h1, List.filter_filter]
    refine Prod.ext (by simp) ?_
    apply List.filter_congr
    intro x _
    by_cases hx : x = 0
    · simp [hx]
    · simp [hx, Bool.and_comm]

theorem prependMissing_eq (v : List TissueInfo) (missing : TissueSet) (nv : List TissueInfo)
    (h : ∀ i ∈ missing, i < v.length) :
    prependMissing v missing nv = some (missing.filterMap (fun i => v[i]?) ++ nv) := by
  unfold prependMissing
  have key : ∀ (l : List Nat) (nv : List TissueInfo), (∀ i ∈ l, i < v.length) →
      l.foldlM (prependBody v) nv = some (l.reverse.filterMap (fun i => v[i]?) ++ nv) := by
    intro l
    induction l with
    | nil => intro nv _; rfl
    | cons a l ih =>
      intro nv hl
      have ha : a < v.length := hl a (by simp)
      have hstep : prependBody v nv a = some (v[a] :: nv) := by
        simp [prependBody, List.getElem?_eq_getElem ha]
      rw [List.foldlM_cons, hstep]
      simp only [Option.bind_eq_bind, Option.some_bind]
      rw [ih _ (fun i hi => hl i (by simp [hi]))]
      simp [List.filterMap_append, List.getElem?_eq_getElem ha]
  rw [key missing.reverse nv (by simpa using h), List.reverse_reverse]

theorem find_append_single (m : TissueTypeMapType) (k : List Byte) (v : Nat) (k' : List Byte) :
    TissueTypeMapType.find (m ++ [(k, v)]) k'
      = match m.find k' with
        | some x => some x
        | none => if k' = k then some v else none := by
  unfold TissueTypeMapType.find
  induction m with
  | nil =>
    by_cases h : k' = k
    · simp [List.lookup, h]
    · have hb : (k' == k) = false := by simpa using h
      simp [List.lookup, h, hb]
  | cons e m ih =>
    obtain ⟨a, b⟩ := e
    by_cases h : k' = a
    · subst h; simp [List.lookup]
    · have hb : (k' == a) = false := by simpa using h
      simp only [List.cons_append, List.lookup, hb]
      exact ih

theorem insert_find (m : TissueTypeMapType) (k : List Byte) (v : Nat) (k' : List Byte) :
    (m.insert k v).find k'
      = match m.find k' with
        | some x => some x
        | none => if k' = k then some v else none := by
  unfold TissueTypeMapType.insert
  by_cases h : (m.lookup k).isSome = true
  · rw [if_pos h]
    cases hk : m.find k' with
    | some x => rfl
    | none =>
      have : k' ≠ k := by
        intro e; subst e
        unfold TissueTypeMapType.find at hk
        rw [hk] at h; simp at h
      simp [this]
  · rw [if_neg h]
    exact find_append_single m k v k'

theorem foldlM_body_spec (v : List TissueInfo) (ts : List Nat) (m0 : TissueTypeMapType)
    (hts : ∀ type ∈ ts, type < v.length) :
    ∃ m, ts.foldlM (CreateTissueTypeMap.body v) m0 = some m ∧
      (∀ k i, m.find k = some i →
        m0.find k = some i ∨ (i ∈ ts ∧ ∃ t, v[i]? = some t ∧ str_tolower t.name = k)) ∧
      (∀ k i, m0.find k = some i → m.find k = some i) ∧
      (∀ type ∈ ts, ∀ t, v[type]? = some t → ∃ i, m.find (str_tolower t.name) = some i) := by
  induction ts generalizing m0 with
  | nil =>
    refine ⟨m0, rfl, fun k i h => Or.inl h, fun k i h => h, ?_⟩
    intro type h; simp at h
  | cons a ts ih =>
    have ha : a < v.length := hts a (by simp)
    have hstep : CreateTissueTypeMap.body v m0 a
        = some (m0.insert (str_tolower v[a].name) a) := by
      simp [CreateTissueTypeMap.body, List.getElem?_eq_getElem ha]
    obtain ⟨m, hm, h1, h2, h3⟩ :=
      ih (m0.insert (str_tolower v[a].name) a) (fun t ht => hts t (by simp [ht]))
    refine ⟨m, ?_, ?_, ?_, ?_⟩
    · rw [List.foldlM_cons, hstep]
      simpa using hm
    · intro k i hki
      rcases h1 k i hki with h | ⟨hi, t, ht, hk⟩
      · rw [insert_find] at h
        cases hk0 : m0.find k with
        | some x =>
          rw [hk0] at h
          left; simpa using h
        | none =>
          rw [hk0] at h
          right
          by_cases hkk : k = str_tolower v[a].name
          · simp only [hkk, if_true, Option.some.injEq] at h
            subst h
            exact ⟨by simp, v[a], List.getElem?_eq_getElem ha, hkk.symm⟩
          · simp [hkk] at h
      · right; exact ⟨by simp [hi], t, ht, hk⟩
    · intro k i hki
      apply h2
      rw [insert_find, hki]
    · intro type htype t ht
      rcases List.mem_cons.mp htype with rfl | hmem
      · rw [List.getElem?_eq_getElem ha] at ht
        have ht2 : v[type] = t := by simpa using ht
        subst ht2
        cases hk0 : m0.find (str_tolower v[type].name) with
        | some x =>
          exact ⟨x, h2 _ _ (by rw [insert_find, hk0])⟩
        | none =>
          exact ⟨type, h2 _ _ (by rw [insert_find, hk0]; simp)⟩
      · exact h3 type hmem t ht

theorem CreateTissueTypeMap_spec (P : Platform) (st : TissueInfos)
    (h1 : 1 ≤ st.tissueInfosVector.length)
    (h2 : st.tissueInfosVector.length ≤ TISSUES_SIZE_MAX P) :
    ∃ m, CreateTissueTypeMap P st
        = some { tissueInfosVector := st.tissueInfosVector, tissueTypeMap := m } ∧
      (∀ k i, m.find k = some i →
        1 ≤ i ∧ ∃ t, st.tissueInfosVector[i]? = some t ∧ str_tolower t.name = k) ∧
      (∀ i t, 1 ≤ i → st.tissueInfosVector[i]? = some t →
        ∃ j, m.find (str_tolower t.name) = some j) := by
  have hc := GetTissueCount_eq P st h1 h2
  have hts : ∀ type ∈ List.range' 1 (st.tissueInfosVector.length - 1),
      type < st.tissueInfosVector.length := by
    intro type ht
    rw [List.mem_range'_1] at ht
    omega
  obtain ⟨m, hm, s1, _, s3⟩ := foldlM_body_spec st.tissueInfosVector _ [] hts
  refine ⟨m, ?_, ?_, ?_⟩
  · unfold CreateTissueTypeMap countUpTo
    rw [hc, if_pos (by omega)]
    have e : st.tissueInfosVector.length - 1 + 1 - 1 = st.tissueInfosVector.length - 1 := by
      omega
    simp only [Option.pure_def, Option.bind_eq_bind, Option.some_bind, e, hm]
  · intro k i hki
    rcases s1 k i hki with h | ⟨hi, t, ht, hk⟩
    · simp [TissueTypeMapType.find] at h
    · rw [List.mem_range'_1] at hi
      exact ⟨hi.1, t, ht, hk⟩
  · intro i t hi ht
    have hlt : i < st.tissueInfosVector.length := by
      by_contra hge
      rw [List.getElem?_eq_none (by omega)] at ht
      cases ht
    exact s3 i (by rw [List.mem_range'_1]; omega) t ht

theorem consistent_length_pos (P : Platform) (st : TissueInfos)
    (hc : NameIndexConsistent P st) :
    1 ≤ st.tissueInfosVector.length := by
  obtain ⟨st', hst', _⟩ := hc
  by_contra h0
  have hz : st.tissueInfosVector.length = 0 := by omega
  have hM := modulus_pos P
  have hcnt : GetTissueCount P st = TISSUES_SIZE_MAX P := by
    unfold GetTissueCount TISSUES_SIZE_MAX
    rw [hz, Nat.zero_mod, Nat.zero_add]
    exact Nat.mod_eq_of_lt (by omega)
  unfold CreateTissueTypeMap countUpTo at hst'
  rw [hcnt, if_neg (by omega)] at hst'
  simp at hst'

theorem consistent_sound (P : Platform) (st : TissueInfos)
    (hc : NameIndexConsistent P st)
    (h2 : st.tissueInfosVector.length ≤ TISSUES_SIZE_MAX P)
    (n : List Byte) (h0 : 0 < GetTissueType st n) :
    ∃ t, st.tissueInfosVector[GetTissueType st n]? = some t ∧
      str_tolower t.name = str_tolower n := by
  have h1 := consistent_length_pos P st hc
  obtain ⟨m, hm, s1, _⟩ := CreateTissueTypeMap_spec P st h1 h2
  obtain ⟨st', hst', hfind⟩ := hc
  rw [hm] at hst'
  have hst'' : st' = { tissueInfosVector := st.tissueInfosVector, tissueTypeMap := m } := by
    simpa using hst'.symm
  subst hst''
  unfold GetTissueType at h0 ⊢
  cases hk : st.tissueTypeMap.find (str_tolower n) with
  | none => rw [hk] at h0; simp at h0
  | some i =>
    simp only
    have := s1 _ i (by rw [← hfind]; exact hk)
    exact this.2

theorem consistent_complete (P : Platform) (st : TissueInfos)
    (hc : NameIndexConsistent P st)
    (h2 : st.tissueInfosVector.length ≤ TISSUES_SIZE_MAX P)
    (i : Nat) (t : TissueInfo) (hi : 1 ≤ i) (ht : st.tissueInfosVector[i]? = some t) :
    0 < GetTissueType st t.name := by
  have h1 := consistent_length_pos P st hc
  obtain ⟨m, hm, s1, s2⟩ := CreateTissueTypeMap_spec P st h1 h2
  obtain ⟨st', hst', hfind⟩ := hc
  rw [hm] at hst'
  have hst'' : st' = { tissueInfosVector := st.tissueInfosVector, tissueTypeMap := m } := by
    simpa using hst'.symm
  subst hst''
  obtain ⟨j, hj⟩ := s2 i t hi ht
  have hj1 := (s1 _ j hj).1
  unfold GetTissueType
  rw [hfind, hj]
  exact hj1

theorem getElem?_lt_of_some {α : Type} (v : List α) (i : Nat) (t : α)
    (h : v[i]? = some t) : i < v.length := by
  by_contra hge
  rw [List.getElem?_eq_none (by omega)] at h
  cases h

theorem foldlM_permutationBody_spec (st : TissueInfos) (nv : List TissueInfo)
    (js : List Nat) (m : List Nat) (p : Bool)
    (hjs : ∀ j ∈ js, j < nv.length)
    (hrange : ∀ t ∈ nv, 0 < GetTissueType st t.name → GetTissueType st t.name < m.length) :
    ∃ m' p', js.foldlM (permutationBody st nv) (m, p) = some (m', p') ∧
      m'.length = m.length ∧
      (∀ i x, m'[i]? = some x →
        (m[i]? = some x ∧ ∀ j ∈ js, ¬ Assigns st nv j i) ∨
        (∃ j ∈ js, Assigns st nv j i ∧ x = j)) ∧
      (p' = true ↔ p = true ∨ ∃ j ∈ js, ∃ i, Assigns st nv j i) := by
  induction js generalizing m p with
  | nil =>
    refine ⟨m, p, rfl, rfl, ?_, ?_⟩
    · intro i x h
      left
      exact ⟨h, by simp⟩
    · simp
  | cons a js ih =>
    have ha : a < nv.length := hjs a (by simp)
    have hjs' : ∀ j ∈ js, j < nv.length := fun j hj => hjs j (by simp [hj])
    by_cases hw : 0 < GetTissueType st nv[a].name ∧ GetTissueType st nv[a].name ≠ a
    · -- the pass assigns
      have hr : GetTissueType st nv[a].name < m.length :=
        hrange _ (List.getElem_mem ha) hw.1
      have hstep : permutationBody st nv (m, p) a
          = some (m.set (GetTissueType st nv[a].name) a, true) := by
        simp only [permutationBody, List.getElem?_eq_getElem ha, Option.pure_def,
          Option.bind_eq_bind, Option.some_bind]
        rw [if_pos hw, if_pos hr]
      have hasg : Assigns st nv a (GetTissueType st nv[a].name) :=
        ⟨nv[a], List.getElem?_eq_getElem ha, rfl, hw.1, hw.2⟩
      obtain ⟨m', p', hf, hlen, hval, hp⟩ :=
        ih (m.set (GetTissueType st nv[a].name) a) true hjs'
          (by simpa using hrange)
      refine ⟨m', p', ?_, by simpa using hlen, ?_, ?_⟩
      · rw [List.foldlM_cons, hstep]
        simpa using hf
      · intro i x hx
        rcases hval i x hx with ⟨h1, h2⟩ | ⟨j, hj, hja, hxj⟩
        · by_cases hi : i = GetTissueType st nv[a].name
          · right
            subst hi
            rw [List.getElem?_set_self hr] at h1
            exact ⟨a, by simp, hasg, by simpa using h1.symm⟩
          · left
            rw [List.getElem?_set_ne (Ne.symm hi)] at h1
            refine ⟨h1, ?_⟩
            intro j hj
            rcases List.mem_cons.mp hj with rfl | hmem
            · rintro ⟨info, hinfo, hgt, _⟩
              rw [List.getElem?_eq_getElem ha] at hinfo
              have : nv[j] = info := by simpa using hinfo
              subst this
              exact hi hgt.symm
            · exact h2 j hmem
        · right
          exact ⟨j, by simp [hj], hja, hxj⟩
      · constructor
        · intro _
          right
          exact ⟨a, by simp, _, hasg⟩
        · intro _
          exact hp.mpr (Or.inl rfl)
    · -- the pass leaves `idxMap` and `permute` alone
      have hstep : permutationBody st nv (m, p) a = some (m, p) := by
        simp only [permutationBody, List.getElem?_eq_getElem ha, Option.pure_def,
          Option.bind_eq_bind, Option.some_bind]
        rw [if_neg hw]
      have hna : ∀ i, ¬ Assigns st nv a i := by
        rintro i ⟨info, hinfo, hgt, h0, hne⟩
        rw [List.getElem?_eq_getElem ha] at hinfo
        have : nv[a] = info := by simpa using hinfo
        subst this
        exact hw ⟨by rw [hgt]; exact h0, by rw [hgt]; exact hne⟩
      obtain ⟨m', p', hf, hlen, hval, hp⟩ := ih m p hjs' hrange
      refine ⟨m', p', ?_, hlen, ?_, ?_⟩
      · rw [List.foldlM_cons, hstep]
        simpa using hf
      · intro i x hx
        rcases hval i x hx with ⟨h1, h2⟩ | ⟨j, hj, hja, hxj⟩
        · left
          refine ⟨h1, ?_⟩
          intro j hj
          rcases List.mem_cons.mp hj with rfl | hmem
          · exact hna i
          · exact h2 j hmem
        · right
          exact ⟨j, by simp [hj], hja, hxj⟩
      · rw [hp]
        constructor
        · rintro (h | ⟨j, hj, i, hji⟩)
          · exact Or.inl h
          · exact Or.inr ⟨j, by simp [hj], i, hji⟩
        · rintro (h | ⟨j, hj, i, hji⟩)
          · exact Or.inl h
          · rcases List.mem_cons.mp hj with rfl | hmem
            · exact absurd hji (hna i)
            · exact Or.inr ⟨j, hmem, i, hji⟩

theorem unmatchedIds_lt (st : TissueInfos) (cand : List TissueInfo) :
    ∀ i ∈ unmatchedIds st cand, i < st.tissueInfosVector.length := by
  intro i hi
  unfold unmatchedIds at hi
  have := (List.mem_filter.mp hi).1
  simpa using this

theorem unmatchedIds_zero_mem (st : TissueInfos) (cand : List TissueInfo)
    (h1 : 1 ≤ st.tissueInfosVector.length) : 0 ∈ unmatchedIds st cand := by
  unfold unmatchedIds
  rw [List.mem_filter]
  exact ⟨by simp; omega, by simp⟩

theorem unmatchedIds_length_le (st : TissueInfos) (cand : List TissueInfo) :
    (unmatchedIds st cand).length ≤ st.tissueInfosVector.length := by
  unfold unmatchedIds
  calc _ ≤ (List.range st.tissueInfosVector.length).length := List.length_filter_le _ _
    _ = _ := List.length_range _

theorem filterMap_get_length (v : List TissueInfo) (l : List Nat)
    (h : ∀ i ∈ l, i < v.length) : (l.filterMap (fun i => v[i]?)).length = l.length := by
  induction l with
  | nil => rfl
  | cons a l ih =>
    have ha : a < v.length := h a (by simp)
    rw [List.filterMap_cons]
    simp only [List.getElem?_eq_getElem ha, List.length_cons]
    rw [ih (fun i hi => h i (by simp [hi]))]

theorem filterMap_get_getElem? (v : List TissueInfo) (l : List Nat)
    (h : ∀ i ∈ l, i < v.length) (k i : Nat) (hk : l[k]? = some i) :
    (l.filterMap (fun i => v[i]?))[k]? = v[i]? := by
  induction l generalizing k with
  | nil => simp at hk
  | cons a l ih =>
    have ha : a < v.length := h a (by simp)
    rw [List.filterMap_cons]
    simp only [List.getElem?_eq_getElem ha]
    cases k with
    | zero =>
      simp only [List.getElem?_cons_zero, Option.some.injEq] at hk
      subst hk
      simp [List.getElem?_eq_getElem ha]
    | succ k =>
      simp only [List.getElem?_cons_succ] at hk ⊢
      exact ih (fun i hi => h i (by simp [hi])) k hk

/-- All the facts about the local variables that the theorems below draw on. -/
theorem locals_spec (P : Platform) (st : TissueInfos) (cand : List TissueInfo)
    (h2 : st.tissueInfosVector.length ≤ TISSUES_SIZE_MAX P)
    (hsz : (unmatchedIds st cand).length + cand.length ≤ TISSUES_SIZE_MAX P)
    (hc : NameIndexConsistent P st) :
    ∃ l, locals P st cand = some l ∧
      l.missingTissues = unmatchedIds st cand ∧
      l.removeTissuesRange + 1 = (unmatchedIds st cand).length ∧
      l.newTissueInfosVec
        = (unmatchedIds st cand).filterMap (fun i => st.tissueInfosVector[i]?) ++ cand ∧
      l.idxMap.length = st.tissueInfosVector.length ∧
      (∀ i x, l.idxMap[i]? = some x →
        (x = i ∧ ∀ j, ¬ Assigns st l.newTissueInfosVec j i) ∨
        Assigns st l.newTissueInfosVec x i) ∧
      (l.permute = true ↔ ∃ j i, Assigns st l.newTissueInfosVec j i) := by
  have h1 := consistent_length_pos P st hc
  have hM := modulus_pos P
  have hlt := unmatchedIds_lt st cand
  have hlen := unmatchedIds_length_le st cand
  have hpos : 1 ≤ (unmatchedIds st cand).length :=
    List.length_pos_of_mem (unmatchedIds_zero_mem st cand h1)
  have hfold : cand.foldl (noteRecord st) ([], List.range st.tissueInfosVector.length)
      = (cand, unmatchedIds st cand) := by
    rw [foldl_noteRecord]; rfl
  have hnvlen : ((unmatchedIds st cand).filterMap (fun i => st.tissueInfosVector[i]?)
      ++ cand).length ≤ TISSUES_SIZE_MAX P := by
    rw [List.length_append, filterMap_get_length _ _ hlt]; omega
  have hrange : ∀ t ∈ (unmatchedIds st cand).filterMap (fun i => st.tissueInfosVector[i]?)
      ++ cand, 0 < GetTissueType st t.name →
      GetTissueType st t.name < (List.range st.tissueInfosVector.length).length := by
    intro t _ h0
    obtain ⟨t', ht', _⟩ := consistent_sound P st hc h2 t.name h0
    rw [List.length_range]
    exact getElem?_lt_of_some _ _ _ ht'
  obtain ⟨m', p', hf, hml, hval, hp⟩ := foldlM_permutationBody_spec st
    ((unmatchedIds st cand).filterMap (fun i => st.tissueInfosVector[i]?) ++ cand)
    (List.range ((unmatchedIds st cand).filterMap
      (fun i => st.tissueInfosVector[i]?) ++ cand).length)
    (List.range st.tissueInfosVector.length) false
    (fun j hj => by simpa using hj) hrange
  have hperm : permutation P st
      ((unmatchedIds st cand).filterMap (fun i => st.tissueInfosVector[i]?) ++ cand)
      = some (m', p') := by
    unfold permutation countBelow
    rw [if_pos h2, if_pos hnvlen]
    simpa using hf
  refine ⟨{ missingTissues := unmatchedIds st cand,
            removeTissuesRange := (unmatchedIds st cand).length - 1,
            newTissueInfosVec :=
              (unmatchedIds st cand).filterMap (fun i => st.tissueInfosVector[i]?) ++ cand,
            idxMap := m', permute := p' }, ?_, rfl, by simp only; omega, rfl, ?_, ?_, ?_⟩
  · unfold locals
    rw [initMissing_eq P st h1 h2]
    simp only [Option.pure_def, Option.bind_eq_bind, Option.some_bind, hfold]
    rw [prependMissing_eq _ _ _ hlt]
    simp only [Option.some_bind, hperm, Option.some.injEq, Locals.mk.injEq, and_true, true_and]
    unfold TISSUES_SIZE_MAX at h2
    have e : (unmatchedIds st cand).length + P.modulus - 1
        = ((unmatchedIds st cand).length - 1) + P.modulus := by omega
    rw [e, Nat.add_mod_right]
    exact Nat.mod_eq_of_lt (by omega)
  · simpa using hml
  · intro i x hx
    rcases hval i x hx with ⟨h3, h4⟩ | ⟨j, _, hja, hxj⟩
    · left
      have hi := getElem?_lt_of_some _ _ _ h3
      rw [List.getElem?_eq_getElem hi] at h3
      simp only [List.getElem_range, Option.some.injEq] at h3
      refine ⟨h3.symm, ?_⟩
      intro j hj
      have hjlt : j < ((unmatchedIds st cand).filterMap
          (fun i => st.tissueInfosVector[i]?) ++ cand).length := by
        obtain ⟨info, hinfo, _⟩ := hj
        exact getElem?_lt_of_some _ _ _ hinfo
      exact h4 j (by simpa using hjlt) hj
    · right
      subst hxj
      exact hja
  · simp only
    rw [hp]
    constructor
    · rintro (h | ⟨j, _, i, hji⟩)
      · cases h
      · exact ⟨j, i, hji⟩
    · rintro ⟨j, i, hji⟩
      right
      have hjlt : j < ((unmatchedIds st cand).filterMap
          (fun i => st.tissueInfosVector[i]?) ++ cand).length := by
        obtain ⟨info, hinfo, _⟩ := hji
        exact getElem?_lt_of_some _ _ _ hinfo
      exact ⟨j, by simpa using hjlt, i, hji⟩

theorem unmatchedIds_cons (st : TissueInfos) (cand : List TissueInfo)
    (h1 : 1 ≤ st.tissueInfosVector.length) :
    unmatchedIds st cand
      = 0 :: (List.range' 1 (st.tissueInfosVector.length - 1)).filter
          (fun i => decide (i = 0) || cand.all (fun c => GetTissueType st c.name != i)) := by
  unfold unmatchedIds
  obtain ⟨n, hn⟩ : ∃ n, st.tissueInfosVector.length = n + 1 :=
    ⟨st.tissueInfosVector.length - 1, by omega⟩
  rw [hn, List.range_eq_range', List.range'_succ]
  simp

/-- How `reconcile` is made of `locals`. -/
theorem reconcile_spec (P : Platform) (st : TissueInfos) (handler3D : SlicesHandler)
    (cand : List TissueInfo)
    (h2 : st.tissueInfosVector.length ≤ TISSUES_SIZE_MAX P)
    (hsz : (unmatchedIds st cand).length + cand.length ≤ TISSUES_SIZE_MAX P)
    (hc : NameIndexConsistent P st) :
    ∃ l r, locals P st cand = some l ∧ reconcile P st handler3D cand = some r ∧
      r.returned = true ∧
      r.removeTissuesRange = l.removeTissuesRange ∧
      r.infos.tissueInfosVector = l.newTissueInfosVec ∧
      CreateTissueTypeMap P
        { tissueInfosVector := l.newTissueInfosVec, tissueTypeMap := st.tissueTypeMap }
        = some r.infos ∧
      r.handler3D
        = (if l.permute then handler3D.map_tissue_indices l.idxMap st else handler3D) := by
  obtain ⟨l, hl, hmiss, hrange, hnv, _⟩ := locals_spec P st cand h2 hsz hc
  have h1 := consistent_length_pos P st hc
  have hlen : l.newTissueInfosVec.length = (unmatchedIds st cand).length + cand.length := by
    rw [hnv, List.length_append, filterMap_get_length _ _ (unmatchedIds_lt st cand)]
  have hpos : 1 ≤ (unmatchedIds st cand).length :=
    List.length_pos_of_mem (unmatchedIds_zero_mem st cand h1)
  obtain ⟨m, hm, _⟩ := CreateTissueTypeMap_spec P
    { tissueInfosVector := l.newTissueInfosVec, tissueTypeMap := st.tissueTypeMap }
    (by simp only; omega) (by simp only; omega)
  refine ⟨l, { returned := true, removeTissuesRange := l.removeTissuesRange,
               infos := { tissueInfosVector := l.newTissueInfosVec, tissueTypeMap := m },
               handler3D := if l.permute then handler3D.map_tissue_indices l.idxMap st
                            else handler3D },
    hl, ?_, rfl, rfl, rfl, hm, rfl⟩
  unfold reconcile
  rw [hl]
  simp only [Option.pure_def, Option.bind_eq_bind, Option.some_bind, hm]

/-! ## Reconciliation: what is carried over (C1) -/

theorem exists_candidate_of_not_unmatched (st : TissueInfos) (cand : List TissueInfo)
    (i : Nat) (hi : i < st.tissueInfosVector.length) (h : i ∉ unmatchedIds st cand) :
    1 ≤ i ∧ ∃ c ∈ cand, GetTissueType st c.name = i := by
  unfold unmatchedIds at h
  rw [List.mem_filter] at h
  simp only [List.mem_range, hi, true_and, Bool.or_eq_true, decide_eq_true_eq, List.all_eq_true,
    bne_iff_ne, ne_eq, not_or, not_forall, Decidable.not_not] at h
  obtain ⟨h0, c, hc, hg⟩ := h
  exact ⟨by omega, c, hc, hg⟩

theorem exists_resolving_position (st : TissueInfos) (cand : List TissueInfo)
    (i : Nat) (info : TissueInfo) (hinfo : st.tissueInfosVector[i]? = some info)
    (hres : GetTissueType st info.name = i) :
    ∃ (j : Nat) (info' : TissueInfo), ((unmatchedIds st cand).filterMap (fun i => st.tissueInfosVector[i]?)
        ++ cand)[j]? = some info' ∧ GetTissueType st info'.name = i := by
  have hi := getElem?_lt_of_some _ _ _ hinfo
  by_cases hmem : i ∈ unmatchedIds st cand
  · have : info ∈ (unmatchedIds st cand).filterMap (fun i => st.tissueInfosVector[i]?)
        ++ cand := by
      rw [List.mem_append, List.mem_filterMap]
      exact Or.inl ⟨i, hmem, hinfo⟩
    obtain ⟨j, hj⟩ := List.getElem?_of_mem this
    exact ⟨j, info, hj, hres⟩
  · obtain ⟨_, c, hcm, hg⟩ := exists_candidate_of_not_unmatched st cand i hi hmem
    have : c ∈ (unmatchedIds st cand).filterMap (fun i => st.tissueInfosVector[i]?)
        ++ cand := by simp [hcm]
    obtain ⟨j, hj⟩ := List.getElem?_of_mem this
    exact ⟨j, c, hj, hg⟩

/-- C2 as stated fails when two live tissues share a name: for the live catalog
[background, B, A, A] and the candidate [B] the remap table is [0, 3, 1, 3]; entry 3 stays
3, and position 3 of the new catalog holds "B" while old tissue 3 is named "A". -/
theorem remap_names_counterexample :
    ∃ l, locals P16 liveBAA [mkInfo nameB false] = some l ∧
      l.idxMap = [0, 3, 1, 3] ∧
      ∃ old new, liveBAA.tissueInfosVector[3]? = some old ∧
        l.newTissueInfosVec[3]? = some new ∧
        str_tolower new.name ≠ str_tolower old.name := by
  have h : (locals P16 liveBAA [mkInfo nameB false]).map
      (fun l => (l.idxMap, l.newTissueInfosVec[3]?))
      = some ([0, 3, 1, 3], some (mkInfo nameB false)) := by decide
  obtain ⟨l, hl, hv⟩ := Option.map_eq_some'.mp h
  simp only [Prod.mk.injEq] at hv
  exact ⟨l, hl, hv.1, mkInfo nameA true, mkInfo nameB false, by decide, hv.2, by decide⟩

/-- C2, amended. The remap table has one entry per old id and maps 0 to 0; for every old id
`i ≥ 1` whose own name the name index resolves to `i` (every `i` when the names are pairwise
distinct), the record at position `idxMap[i]` of the new catalog has the same lower-cased
name as old tissue `i`.  For the live catalog [background, A, B, C] and the candidate
[B, A, C] the table is [0, 2, 1, 3]. -/
theorem remap_names (P : Platform) (st : TissueInfos) (cand : List TissueInfo)
    (h2 : st.tissueInfosVector.length ≤ TISSUES_SIZE_MAX P)
    (hsz : (unmatchedIds st cand).length + cand.length ≤ TISSUES_SIZE_MAX P)
    (hc : NameIndexConsistent P st) :
    (∃ l, locals P st cand = some l ∧
      l.idxMap.length = st.tissueInfosVector.length ∧
      l.idxMap[0]? = some 0 ∧
      ∀ i info, 1 ≤ i → st.tissueInfosVector[i]? = some info →
        GetTissueType st info.name = i →
        ∃ (j : Nat) (info' : TissueInfo), l.idxMap[i]? = some j ∧ l.newTissueInfosVec[j]? = some info' ∧
          str_tolower info'.name = str_tolower info.name) ∧
    (locals P16 liveABC [mkInfo nameB false, mkInfo nameA false, mkInfo nameC false]).map
        (fun l => l.idxMap) = some [0, 2, 1, 3] := by
  refine ⟨?_, by decide⟩
  obtain ⟨l, hl, _, _, hnv, hlen, hval, _⟩ := locals_spec P st cand h2 hsz hc
  have h1 := consistent_length_pos P st hc
  have same : ∀ (i : Nat) (info : TissueInfo) (j : Nat) (info' : TissueInfo), st.tissueInfosVector[i]? = some info → 1 ≤ i →
      l.newTissueInfosVec[j]? = some info' → GetTissueType st info'.name = i →
      str_tolower info'.name = str_tolower info.name := by
    intro i info j info' hinfo hi hj hg
    obtain ⟨t, ht, hname⟩ := consistent_sound P st hc h2 info'.name (by omega)
    rw [hg, hinfo] at ht
    obtain rfl : info = t := by simpa using ht
    exact hname.symm
  refine ⟨l, hl, hlen, ?_, ?_⟩
  · have h0 : 0 < l.idxMap.length := by omega
    rcases hval 0 _ (List.getElem?_eq_getElem h0) with ⟨hx, _⟩ | ⟨_, _, _, hpos, _⟩
    · rw [List.getElem?_eq_getElem h0, hx]
    · omega
  · intro i info hi hinfo hres
    have hilt : i < l.idxMap.length := by
      rw [hlen]; exact getElem?_lt_of_some _ _ _ hinfo
    rcases hval i _ (List.getElem?_eq_getElem hilt) with ⟨hx, hno⟩ | hasg
    · obtain ⟨j, info', hj, hg⟩ := exists_resolving_position st cand i info hinfo hres
      rw [← hnv] at hj
      have hji : i = j := by
        by_contra hne
        exact hno j ⟨info', hj, hg, by omega, hne⟩
      subst hji
      exact ⟨i, info', by rw [List.getElem?_eq_getElem hilt, hx], hj,
        same i info i info' hinfo hi hj hg⟩
    · obtain ⟨info', hj, hg, _, _⟩ := hasg
      exact ⟨_, info', List.getElem?_eq_getElem hilt, hj, same i info _ info' hinfo hi hj hg⟩

/-- Instance of the amended C2 at the live catalog [background, B, A, A] and the candidate
[B]: old tissue 2 ("A") resolves to itself and is remapped to position 1, which holds "A". -/
theorem remap_names_witness :
    liveBAA.tissueInfosVector.length ≤ TISSUES_SIZE_MAX P16 ∧
    NameIndexConsistent P16 liveBAA ∧
    ∃ l, locals P16 liveBAA [mkInfo nameB false] = some l ∧
      l.idxMap.length = 4 ∧ l.idxMap[0]? = some 0 ∧
      ∃ (j : Nat) (info' : TissueInfo), l.idxMap[2]? = some j ∧ l.newTissueInfosVec[j]? = some info' ∧
        str_tolower info'.name = str_tolower nameA := by
  have hcons : NameIndexConsistent P16 liveBAA := ⟨liveBAA, by decide, fun _ => rfl⟩
  obtain ⟨l, hl, hlen, h0, hnames⟩ :=
    (remap_names P16 liveBAA [mkInfo nameB false] (by decide) (by decide) hcons).1
  exact ⟨by decide, hcons, l, hl, hlen, h0,
    hnames 2 (mkInfo nameA false) (by decide) (by decide) (by decide)⟩

/-! ## Reconciliation: the notification of the volume owner (C3) -/

theorem permute_iff_not_identity (P : Platform) (st : TissueInfos) (cand : List TissueInfo)
    (h2 : st.tissueInfosVector.length ≤ TISSUES_SIZE_MAX P)
    (hsz : (unmatchedIds st cand).length + cand.length ≤ TISSUES_SIZE_MAX P)
    (hc : NameIndexConsistent P st) (l : Locals) (hl : locals P st cand = some l) :
    l.permute = true ↔ l.idxMap ≠ List.range st.tissueInfosVector.length := by
  obtain ⟨l', hl', _, _, _, hlen, hval, hp⟩ := locals_spec P st cand h2 hsz hc
  rw [hl] at hl'
  obtain rfl : l = l' := by simpa using hl'
  rw [hp]
  constructor
  · rintro ⟨j, i, hji⟩ heq
    obtain ⟨info, hinfo, hg, hpos, hne⟩ := hji
    obtain ⟨t, ht, _⟩ := consistent_sound P st hc h2 info.name (by omega)
    rw [hg] at ht
    have hi : i < st.tissueInfosVector.length := getElem?_lt_of_some _ _ _ ht
    have hget : l.idxMap[i]? = some i := by
      rw [heq]; exact List.getElem?_range hi
    rcases hval i i hget with ⟨_, hno⟩ | ⟨_, _, _, _, hne'⟩
    · exact hno j ⟨info, hinfo, hg, hpos, hne⟩
    · exact hne' rfl
  · intro hne
    by_contra hno
    apply hne
    apply List.ext_getElem?
    intro i
    by_cases hi : i < l.idxMap.length
    · rcases hval i _ (List.getElem?_eq_getElem hi) with ⟨hx, _⟩ | hasg
      · rw [List.getElem?_eq_getElem hi, hx, List.getElem?_range (by rw [← hlen]; exact hi)]
      · exact absurd ⟨_, i, hasg⟩ hno
    · rw [List.getElem?_eq_none (by omega),
        List.getElem?_eq_none (by rw [List.length_range, ← hlen]; omega)]

theorem resolves_self (P : Platform) (st : TissueInfos)
    (h2 : st.tissueInfosVector.length ≤ TISSUES_SIZE_MAX P)
    (hc : NameIndexConsistent P st)
    (hnd : (st.tissueInfosVector.tail.map (fun t => str_tolower t.name)).Nodup)
    (i : Nat) (info : TissueInfo) (hi : 1 ≤ i) (hinfo : st.tissueInfosVector[i]? = some info) :
    GetTissueType st info.name = i := by
  have hpos := consistent_complete P st hc h2 i info hi hinfo
  obtain ⟨t, ht, hname⟩ := consistent_sound P st hc h2 info.name hpos
  obtain ⟨a, ha⟩ : ∃ a, i = a + 1 := ⟨i - 1, by omega⟩
  obtain ⟨b, hb⟩ : ∃ b, GetTissueType st info.name = b + 1 :=
    ⟨GetTissueType st info.name - 1, by omega⟩
  rw [hb] at ht ⊢
  subst ha
  have hlt := getElem?_lt_of_some _ _ _ hinfo
  have e : (st.tissueInfosVector.tail.map (fun t => str_tolower t.name))[a]?
      = (st.tissueInfosVector.tail.map (fun t => str_tolower t.name))[b]? := by
    rw [List.getElem?_map, List.getElem?_map, List.getElem?_tail, List.getElem?_tail, hinfo, ht]
    simp [hname]
  have := List.getElem?_inj (by simp; omega) hnd e
  omega

theorem unmatchedIds_self (P : Platform) (st : TissueInfos)
    (h2 : st.tissueInfosVector.length ≤ TISSUES_SIZE_MAX P)
    (hc : NameIndexConsistent P st)
    (hnd : (st.tissueInfosVector.tail.map (fun t => str_tolower t.name)).Nodup) :
    unmatchedIds st st.tissueInfosVector.tail = [0] := by
  have h1 := consistent_length_pos P st hc
  rw [unmatchedIds_cons st _ h1]
  congr 1
  rw [List.filter_eq_nil_iff]
  intro i hi
  rw [List.mem_range'_1] at hi
  have hlt : i < st.tissueInfosVector.length := by omega
  have hres := resolves_self P st h2 hc hnd i _ hi.1 (List.getElem?_eq_getElem hlt)
  have hmem : st.tissueInfosVector[i] ∈ st.tissueInfosVector.tail := by
    rw [List.mem_iff_getElem?]
    exact ⟨i - 1, by
      rw [List.getElem?_tail, ← List.getElem?_eq_getElem]
      congr 1; omega⟩
  have h0 : i ≠ 0 := by omega
  simp only [h0, decide_False, Bool.false_or, List.all_eq_true, bne_iff_ne, ne_eq, not_forall,
    Decidable.not_not]
  exact ⟨_, hmem, hres⟩

/-! ## Selection index (C6, C7) -/

theorem TissueSet.mem_insert (s : TissueSet) (x i : Nat) :
    i ∈ TissueSet.insert s x ↔ i ∈ s ∨ i = x := by
  induction s with
  | nil => simp [TissueSet.insert]
  | cons y ys ih =>
    simp only [TissueSet.insert]
    by_cases h1 : x < y
    · rw [if_pos h1]
      simp only [List.mem_cons]
      tauto
    · rw [if_neg h1]
      by_cases h2 : x = y
      · rw [if_pos h2]
        simp only [List.mem_cons]
        subst h2
        tauto
      · rw [if_neg h2]
        simp only [List.mem_cons, ih]
        tauto

theorem foldl_copy_if_mem (valid : Nat → Bool) (S r : TissueSet) (i : Nat) :
    i ∈ S.foldl (fun r i => if valid i then TissueSet.insert r i else r) r
      ↔ i ∈ r ∨ (i ∈ S ∧ valid i = true) := by
  induction S generalizing r with
  | nil => simp
  | cons a S ih =>
    rw [List.foldl_cons, ih]
    by_cases ha : valid a = true
    · rw [if_pos ha, TissueSet.mem_insert]
      simp only [List.mem_cons]
      constructor
      · rintro ((h | h) | h)
        · exact Or.inl h
        · exact Or.inr ⟨Or.inl h, h ▸ ha⟩
        · exact Or.inr ⟨Or.inr h.1, h.2⟩
      · rintro (h | ⟨h | h, hv⟩)
        · exact Or.inl (Or.inl h)
        · exact Or.inl (Or.inr h)
        · exact Or.inr ⟨h, hv⟩
    · rw [if_neg ha]
      simp only [List.mem_cons]
      constructor
      · rintro (h | h)
        · exact Or.inl h
        · exact Or.inr ⟨Or.inr h.1, h.2⟩
      · rintro (h | ⟨h | h, hv⟩)
        · exact Or.inl h
        · exact absurd (h ▸ hv) ha
        · exact Or.inr ⟨h, hv⟩

theorem foldl_copy_if_sorted (valid : Nat → Bool) (S r : TissueSet)
    (hS : S.Sorted (· < ·)) (hr : ∀ x ∈ r, ∀ y ∈ S, x < y) :
    S.foldl (fun r i => if valid i then TissueSet.insert r i else r) r
      = r ++ S.filter valid := by
  induction S generalizing r with
  | nil => simp
  | cons a S ih =>
    have hS' : S.Sorted (· < ·) := hS.of_cons
    have haS : ∀ y ∈ S, a < y := fun y hy => List.rel_of_sorted_cons hS y hy
    rw [List.foldl_cons]
    by_cases ha : valid a = true
    · rw [if_pos ha, TissueSet.insert_last r a (fun x hx => hr x hx a (by simp)),
        ih _ hS', List.filter_cons_of_pos ha]
      · simp
      · intro x hx y hy
        rcases List.mem_append.mp hx with h | h
        · exact hr x h y (by simp [hy])
        · have : x = a := by simpa using h
          rw [this]; exact haS y hy
    · rw [if_neg ha, ih _ hS', List.filter_cons_of_neg ha]
      intro x hx y hy
      exact hr x hx y (by simp [hy])

/-- C6. `GetSelectedTissues` returns the stored selection filtered to the valid ids: for a
stored selection `S` (a `std::set`, so strictly ascending) and a catalog whose tissue count
is `m`, the result is the set of the `i` in `S` with `i ≤ m`, in order, and it is always a
value (no error); a stored {1, 2, 5} read against the catalog [background, A, B, C] of max
id 3 gives {1, 2}. -/
theorem GetSelectedTissues_filters (P : Platform) (st : TissueInfos) (S : TissueSet)
    (hS : S.Sorted (· < ·)) :
    GetSelectedTissues P st S = S.filter (fun i => decide (i ≤ GetTissueCount P st)) ∧
    (∀ i, i ∈ GetSelectedTissues P st S ↔ i ∈ S ∧ i ≤ GetTissueCount P st) ∧
    (GetSelectedTissues P st S).Sorted (· < ·) ∧
    (GetTissueCount P16 liveABC = 3 ∧ GetSelectedTissues P16 liveABC [1, 2, 5] = [1, 2]) := by
  have heq : GetSelectedTissues P st S
      = S.filter (fun i => decide (i ≤ GetTissueCount P st)) := by
    unfold GetSelectedTissues
    rw [foldl_copy_if_sorted _ S [] hS (by simp)]
    rfl
  refine ⟨heq, ?_, ?_, by decide⟩
  · intro i
    unfold GetSelectedTissues
    rw [foldl_copy_if_mem]
    simp [is_valid]
  · rw [heq]
    exact List.Sorted.filter _ hS

/-- Instance of C6: the stored selection {0, 3, 4, 9} read against the catalog
[background, A] (max id 1) gives {0}. -/
theorem GetSelectedTissues_filters_witness :
    List.Sorted (· < ·) [0, 3, 4, 9] ∧ GetSelectedTissues P16 liveA [0, 3, 4, 9] = [0] := by
  have h : List.Sorted (· < ·) [0, 3, 4, 9] := by decide
  refine ⟨h, ?_⟩
  rw [(GetSelectedTissues_filters P16 liveA [0, 3, 4, 9] h).1]
  decide

/-- C7. `SetSelectedTissues` is all or nothing: if every member of the proposed set is a
valid id (at most the tissue count) the stored selection becomes the proposed set, and if
some member is not valid the stored selection stays what it was; setting {1, 7} against the
catalog [background, A, B, C] of max id 3 leaves a stored {2} unchanged. -/
theorem SetSelectedTissues_all_or_nothing (P : Platform) (st : TissueInfos)
    (_selection sel : TissueSet) :
    ((∀ i ∈ sel, i ≤ GetTissueCount P st) → SetSelectedTissues P st _selection sel = sel) ∧
    ((∃ i ∈ sel, GetTissueCount P st < i) →
      SetSelectedTissues P st _selection sel = _selection) ∧
    SetSelectedTissues P16 liveABC [2] [1, 7] = [2] := by
  refine ⟨?_, ?_, by decide⟩
  · intro h
    unfold SetSelectedTissues
    rw [if_pos]
    rw [List.all_eq_true]
    intro i hi
    simpa [is_valid] using h i hi
  · rintro ⟨i, hi, hlt⟩
    unfold SetSelectedTissues
    rw [if_neg]
    rw [List.all_eq_true]
    intro h
    have := h i hi
    simp only [is_valid, decide_eq_true_eq] at this
    omega

/-- Instance of C7: against the catalog [background, A, B, C] the set {1, 3} replaces a
stored {2}, and the set {1, 4} is rejected. -/
theorem SetSelectedTissues_all_or_nothing_witness :
    SetSelectedTissues P16 liveABC [2] [1, 3] = [1, 3] ∧
    SetSelectedTissues P16 liveABC [2] [1, 4] = [2] := by
  have h := SetSelectedTissues_all_or_nothing P16 liveABC [2]
  exact ⟨(h [1, 3]).1 (by decide), (h [1, 4]).2.1 ⟨4, by decide, by decide⟩⟩

/-! ## Legacy binary codec: round trip (C8) -/

theorem encodeLE_length (w n : Nat) : (encodeLE w n).length = w := by
  induction w generalizing n with
  | zero => rfl
  | succ w ih => simp [encodeLE, ih]

theorem decodeLE_encodeLE (w n : Nat) : decodeLE (encodeLE w n) = n % 256 ^ w := by
  induction w generalizing n with
  | zero => simp [encodeLE, decodeLE, Nat.mod_one]
  | succ w ih =>
    simp only [encodeLE, decodeLE, ih]
    rw [pow_succ, Nat.mul_comm (256 ^ w) 256, Nat.mod_mul]

theorem fread_append (xs rest : List Byte) :
    fread xs.length (xs ++ rest) = some (xs, rest) := by
  unfold fread
  rw [if_pos (by simp)]
  simp

theorem freadUnsigned_encodeLE (w n : Nat) (rest : List Byte) :
    freadUnsigned w (encodeLE w n ++ rest) = some (n % 256 ^ w, rest) := by
  unfold freadUnsigned
  have := fread_append (encodeLE w n) rest
  rw [encodeLE_length] at this
  rw [this]
  simp [decodeLE_encodeLE]

theorem freadFloat_bytes (x : CFloat) (rest : List Byte) :
    freadFloat (x.bytes ++ rest) = some (x, rest) := by
  cases x
  rfl

theorem cString_of_no_zero (name : List Byte) (h : (0 : Byte) ∉ name) :
    cString name = name := by
  unfold cString
  rw [List.takeWhile_eq_self_iff]
  intro b hb
  have : b ≠ 0 := fun e => h (e ▸ hb)
  simpa using this

theorem toInt32_small (n : Nat) (h : n ≤ 99) : toInt32 (n % 256 ^ 4) = (n : Int) := by
  have h1 : n % 256 ^ 4 = n := Nat.mod_eq_of_lt (by norm_num; omega)
  rw [h1]
  unfold toInt32
  rw [if_pos (by norm_num; omega)]

theorem recordHead_recordBytes (version : Nat) (hv : 5 ≤ version) (info : TissueInfo)
    (hlen : info.name.length ≤ 99) (rest : List Byte) :
    LoadTissues.recordHead version (SaveTissues.recordBytes version info ++ rest)
      = some (info.color, info.opac, (info.name.length : Int), info.name ++ rest) := by
  unfold LoadTissues.recordHead SaveTissues.recordBytes
  simp only [List.append_assoc, if_pos hv, freadFloat_bytes, freadUnsigned_encodeLE,
    Option.pure_def, Option.bind_eq_bind, Option.some_bind, toInt32_small _ hlen]
theorem loop_round_trip (P : Platform) (version : Nat) (hv : 5 ≤ version)
    (records : List TissueInfo)
    (hnames : ∀ t ∈ records, t.name.length ≤ 99 ∧ (0 : Byte) ∉ t.name) :
    ∃ bytes, SaveTissues.loop version records = some bytes ∧
      ∀ (done : List TissueInfo) (tail : List Byte) (events : List LoadEvent),
        ∃ events', LoadTissues.loop P version records.length done (bytes ++ tail) events
          = (.finished (done ++ records.map (fun t => { t with locked := false })) tail,
              events') := by
  induction records with
  | nil => exact ⟨[], rfl, fun done tail events => ⟨events, by simp [LoadTissues.loop]⟩⟩
  | cons info rest ih =>
    obtain ⟨hlen, hzero⟩ := hnames info (by simp)
    have hrec : SaveTissues.record version info
        = some (SaveTissues.recordBytes version info) := by
      unfold SaveTissues.record
      rw [if_pos (by norm_num; omega)]
    obtain ⟨more, hmore, hloop⟩ := ih (fun t ht => hnames t (by simp [ht]))
    refine ⟨SaveTissues.recordBytes version info ++ more, ?_, ?_⟩
    · simp only [SaveTissues.loop, hrec, hmore]
    · intro done tail events
      obtain ⟨events', hloop'⟩ := hloop
        (done ++ [{ info with locked := false }]) tail
        (events ++ [LoadEvent.readSize (info.name.length : Int),
          LoadEvent.storeName (min (toSizeT (info.name.length : Int))
            (info.name ++ (more ++ tail)).length)]
          ++ [LoadEvent.storeTerminator (info.name.length : Int)])
      refine ⟨events', ?_⟩
      have hhead := recordHead_recordBytes version hv info hlen (more ++ tail)
      simp only [List.length_cons, LoadTissues.loop, List.append_assoc, hhead]
      have h0 : ¬ 100 < min (toSizeT (info.name.length : Int))
          (info.name ++ (more ++ tail)).length := by
        have hle := Nat.min_le_left (toSizeT (info.name.length : Int))
          (info.name ++ (more ++ tail)).length
        have hsz : toSizeT (info.name.length : Int) = info.name.length := by
          unfold toSizeT
          rw [if_pos (by omega)]
          rfl
        omega
      have h1 : ¬ (99 : Int) < (info.name.length : Int) := by omega
      have h2 : ¬ ((info.name.length : Int) < 0 ∨
          (info.name ++ (more ++ tail)).length < (info.name.length : Int).toNat) := by
        simp only [Int.toNat_ofNat, List.length_append]
        omega
      rw [if_neg h0, if_neg h1, if_neg h2]
      simp only [Int.toNat_ofNat, List.take_left', List.drop_left',
        cString_of_no_zero _ hzero]
      simp only [List.append_assoc, List.map_cons, List.singleton_append] at hloop' ⊢
      exact hloop'
theorem locks_round_trip (records : List TissueInfo) (tail : List Byte) :
    LoadTissueLocks.loop (records.map (fun t => { t with locked := false }))
        (records.map (fun info => if info.locked then (1 : Byte) else 0) ++ tail)
      = some (records, tail) := by
  induction records with
  | nil => rfl
  | cons info rest ih =>
    simp only [List.map_cons, List.cons_append, LoadTissueLocks.loop, ih]
    cases info with
    | mk name color opac locked => cases locked <;> simp

theorem header_round_trip (P : Platform) (st : TissueInfos) (bg : TissueInfo)
    (rest : List TissueInfo) (hvec : st.tissueInfosVector = bg :: rest)
    (h2 : st.tissueInfosVector.length ≤ TISSUES_SIZE_MAX P)
    (version : Nat) (hv : 5 ≤ version) (hv2 : version < 65536)
    (tissuesVersion : Int) (htv : 0 < tissuesVersion) (more : List Byte) :
    LoadTissues.header P
        (encodeLE P.sizeofTissuesSize (GetTissueCount P st) ++
          (CFloat.sentinel.bytes ++ encodeLE 2 version) ++
          bg.color.r.bytes ++ bg.color.g.bytes ++ bg.color.b.bytes ++ bg.opac.bytes ++ more)
        tissuesVersion
      = some (rest.length, version,
          { P.defaultInfo with color := bg.color, opac := bg.opac }, more) := by
  have h1 : 1 ≤ st.tissueInfosVector.length := by rw [hvec]; simp
  have hc := GetTissueCount_eq P st h1 h2
  have hcount : GetTissueCount P st % 256 ^ P.sizeofTissuesSize = rest.length := by
    rw [hc]
    have : st.tissueInfosVector.length - 1 = rest.length := by rw [hvec]; simp
    rw [this]
    apply Nat.mod_eq_of_lt
    have : rest.length + 1 ≤ TISSUES_SIZE_MAX P := by rw [hvec] at h2; simpa using h2
    unfold TISSUES_SIZE_MAX Platform.modulus at this
    omega
  have hver : version % 256 ^ 2 = version := Nat.mod_eq_of_lt (by norm_num; omega)
  have hs : CFloat.sentinel.eqSentinel = true := by decide
  unfold LoadTissues.header
  simp only [List.append_assoc, if_pos htv, freadUnsigned_encodeLE, freadFloat_bytes, hs,
    Option.pure_def, Option.bind_eq_bind, Option.some_bind, if_true, hcount, hver, if_pos hv]

/-- C8. Legacy binary round trip.  For a catalog with a background record whose size fits
the tissue id type and whose non-background names are at most 99 bytes long without a zero
byte, and a version from 5 on (an `unsigned short`): `SaveTissues` and `SaveTissueLocks`
write byte strings such that `LoadTissues` (with `tissuesVersion ≥ 1`, from any prior
state) returns having consumed exactly the bytes written, and `LoadTissueLocks` after it
consumes exactly the lock bytes; the result has the same tissue count, the same background
colour and opacity, and at every non-background id the same record (name, colour, opacity,
lock flag). -/
theorem binary_round_trip (P : Platform) (st st0 : TissueInfos) (version : Nat)
    (tissuesVersion : Int) (tail tail2 : List Byte)
    (h1 : 1 ≤ st.tissueInfosVector.length)
    (h2 : st.tissueInfosVector.length ≤ TISSUES_SIZE_MAX P)
    (hnames : ∀ t ∈ st.tissueInfosVector.tail, t.name.length ≤ 99 ∧ (0 : Byte) ∉ t.name)
    (hv : 5 ≤ version) (hv2 : version < 65536) (htv : 1 ≤ tissuesVersion) :
    ∃ bytes locks st1 events st2,
      SaveTissues P st version = some bytes ∧
      SaveTissueLocks st = some locks ∧
      LoadTissues P (bytes ++ tail) tissuesVersion st0 = (.returned st1 tail, events) ∧
      LoadTissueLocks st1 (locks ++ tail2) = some (st2, tail2) ∧
      GetTissueCount P st2 = GetTissueCount P st ∧
      (∃ bg bg', st.tissueInfosVector[0]? = some bg ∧ st2.tissueInfosVector[0]? = some bg' ∧
        bg'.color = bg.color ∧ bg'.opac = bg.opac) ∧
      (∀ i, 1 ≤ i → st2.tissueInfosVector[i]? = st.tissueInfosVector[i]?) := by
  obtain ⟨bg, rest, hvec⟩ : ∃ bg rest, st.tissueInfosVector = bg :: rest := by
    cases h : st.tissueInfosVector with
    | nil => rw [h] at h1; simp at h1
    | cons bg rest => exact ⟨bg, rest, rfl⟩
  have hnames' : ∀ t ∈ rest, t.name.length ≤ 99 ∧ (0 : Byte) ∉ t.name := by
    intro t ht; apply hnames; rw [hvec]; simpa using ht
  obtain ⟨recs, hrecs, hloop⟩ := loop_round_trip P version hv rest hnames'
  obtain ⟨events, hloop'⟩ := hloop
    [{ P.defaultInfo with color := bg.color, opac := bg.opac }] tail []
  have hlen : ({ P.defaultInfo with color := bg.color, opac := bg.opac } ::
      rest.map (fun t => { t with locked := false })).length = st.tissueInfosVector.length := by
    rw [hvec]; simp
  obtain ⟨m, hm, _⟩ := CreateTissueTypeMap_spec P
    { tissueInfosVector := { P.defaultInfo with color := bg.color, opac := bg.opac } ::
        rest.map (fun t => { t with locked := false }),
      tissueTypeMap := st0.tissueTypeMap }
    (by simp) (by simp only; rw [hlen]; exact h2)
  refine ⟨encodeLE P.sizeofTissuesSize (GetTissueCount P st) ++
      (CFloat.sentinel.bytes ++ encodeLE 2 version) ++
      bg.color.r.bytes ++ bg.color.g.bytes ++ bg.color.b.bytes ++ bg.opac.bytes ++ recs,
    rest.map (fun info => if info.locked then (1 : Byte) else 0),
    { tissueInfosVector := { P.defaultInfo with color := bg.color, opac := bg.opac } ::
        rest.map (fun t => { t with locked := false }), tissueTypeMap := m },
    events,
    { tissueInfosVector :=
        { P.defaultInfo with color := bg.color, opac := bg.opac, locked := false } :: rest,
      tissueTypeMap := m }, ?_, ?_, ?_, ?_, ?_, ?_, ?_⟩
  · unfold SaveTissues
    rw [hvec]
    simp only [List.getElem?_cons_zero, List.drop_succ_cons, List.drop_zero, hrecs,
      Option.pure_def, Option.bind_eq_bind, Option.some_bind, if_pos hv]
  · unfold SaveTissueLocks
    rw [hvec]
  · unfold LoadTissues
    have hh := header_round_trip P st bg rest hvec h2 version hv hv2 tissuesVersion
      (by omega) (recs ++ tail)
    simp only [List.append_assoc] at hh ⊢
    rw [hh]
    simp only [List.singleton_append] at hloop'
    simp only [hloop', hm]
  · unfold LoadTissueLocks
    simp only [locks_round_trip]
  · unfold GetTissueCount
    rw [hvec]
    simp
  · exact ⟨bg, { P.defaultInfo with color := bg.color, opac := bg.opac, locked := false },
      by rw [hvec]; simp, by simp, rfl, rfl⟩
  · intro i hi
    obtain ⟨k, rfl⟩ : ∃ k, i = k + 1 := ⟨i - 1, by omega⟩
    rw [hvec]
    simp
/-- Instance of C8: the catalog [background, A (locked), B, C] written at version 5 and read
back with `tissuesVersion = 1`, the streams continuing with other bytes. -/
theorem binary_round_trip_witness :
    (1 ≤ liveABC.tissueInfosVector.length ∧
      liveABC.tissueInfosVector.length ≤ TISSUES_SIZE_MAX P16 ∧
      ∀ t ∈ liveABC.tissueInfosVector.tail, t.name.length ≤ 99 ∧ (0 : Byte) ∉ t.name) ∧
    ∃ bytes locks st1 events st2,
      SaveTissues P16 liveABC 5 = some bytes ∧
      SaveTissueLocks liveABC = some locks ∧
      LoadTissues P16 (bytes ++ [7]) 1 liveA = (.returned st1 [7], events) ∧
      LoadTissueLocks st1 (locks ++ [9]) = some (st2, [9]) ∧
      GetTissueCount P16 st2 = GetTissueCount P16 liveABC ∧
      (∃ bg bg', liveABC.tissueInfosVector[0]? = some bg ∧
        st2.tissueInfosVector[0]? = some bg' ∧ bg'.color = bg.color ∧ bg'.opac = bg.opac) ∧
      (∀ i, 1 ≤ i → st2.tissueInfosVector[i]? = liveABC.tissueInfosVector[i]?) :=
  ⟨⟨by decide, by decide, by decide⟩,
    binary_round_trip P16 liveABC liveA 5 1 [7] [9] (by decide) (by decide) (by decide)
      (by decide) (by decide) (by decide)⟩

/-! ## Legacy binary codec: the name length guard (C9, C10) -/

/-- A store that is not in bounds ends the record loop without a defined result. -/
theorem loop_out_of_bounds (P : Platform) (opacVersion : Nat)
    (n : Nat) (done : List TissueInfo) (fp : List Byte) (events : List LoadEvent)
    (hev : ∀ ev ∈ events, ev.inBounds = true)
    (hbad : ∃ ev ∈ (LoadTissues.loop P opacVersion n done fp events).2, ev.inBounds = false) :
    (LoadTissues.loop P opacVersion n done fp events).1 = .indeterminate := by
  induction n generalizing done fp events with
  | zero =>
    obtain ⟨ev, hmem, hf⟩ := hbad
    have := hev ev hmem
    rw [hf] at this
    cases this
  | succ n ih =>
    unfold LoadTissues.loop at hbad ⊢
    cases hh : LoadTissues.recordHead opacVersion fp with
    | none => rfl
    | some head =>
      obtain ⟨color, opac, size, fp1⟩ := head
      rw [hh] at hbad
      simp only at hbad ⊢
      by_cases h0 : 100 < min (toSizeT size) fp1.length
      · rw [if_pos h0]
      · rw [if_neg h0] at hbad ⊢
        have hev1 : ∀ ev ∈ events ++ [LoadEvent.readSize size,
            LoadEvent.storeName (min (toSizeT size) fp1.length)], ev.inBounds = true := by
          intro ev hmem
          rcases List.mem_append.mp hmem with h | h
          · exact hev ev h
          · simp only [List.mem_cons, List.mem_singleton, List.not_mem_nil, or_false] at h
            rcases h with rfl | rfl
            · rfl
            · simp only [LoadEvent.inBounds, decide_eq_true_eq]
              omega
        by_cases h1 : 99 < size
        · rw [if_pos h1] at hbad
          obtain ⟨ev, hmem, hf⟩ := hbad
          simp only at hmem
          rcases List.mem_append.mp hmem with h | h
          · have := hev1 ev h
            rw [hf] at this
            cases this
          · simp only [List.mem_singleton] at h
            subst h
            cases hf
        · rw [if_neg h1] at hbad ⊢
          by_cases h2 : size < 0 ∨ fp1.length < size.toNat
          · rw [if_pos h2]
          · rw [if_neg h2] at hbad ⊢
            apply ih _ _ _ _ hbad
            intro ev hmem
            rcases List.mem_append.mp hmem with h | h
            · exact hev1 ev h
            · simp only [List.mem_singleton] at h
              subst h
              simp only [LoadEvent.inBounds, decide_eq_true_eq]
              omega

/-- Once the record loop has read a name length above 99, it ends in the `throw`, or without
a defined result after a store that is not in bounds. -/
theorem loop_long_name (P : Platform) (opacVersion : Nat) (size : Int) (hsize : 99 < size)
    (n : Nat) (done : List TissueInfo) (fp : List Byte) (events : List LoadEvent)
    (hev : LoadEvent.readSize size ∉ events)
    (hmem : LoadEvent.readSize size ∈ (LoadTissues.loop P opacVersion n done fp events).2) :
    (∃ vec, (LoadTissues.loop P opacVersion n done fp events).1 = .threw vec) ∨
    ((LoadTissues.loop P opacVersion n done fp events).1 = .indeterminate ∧
      ∃ ev ∈ (LoadTissues.loop P opacVersion n done fp events).2, ev.inBounds = false) := by
  induction n generalizing done fp events with
  | zero => exact absurd hmem hev
  | succ n ih =>
    unfold LoadTissues.loop at hmem ⊢
    cases hh : LoadTissues.recordHead opacVersion fp with
    | none =>
      rw [hh] at hmem
      exact absurd hmem hev
    | some head =>
      obtain ⟨color, opac, size', fp1⟩ := head
      rw [hh] at hmem
      simp only at hmem ⊢
      by_cases h0 : 100 < min (toSizeT size') fp1.length
      · rw [if_pos h0]
        refine Or.inr ⟨rfl, LoadEvent.storeName (min (toSizeT size') fp1.length), ?_, ?_⟩
        · simp
        · simp only [LoadEvent.inBounds, decide_eq_false_iff_not]
          omega
      · rw [if_neg h0] at hmem ⊢
        by_cases h1 : 99 < size'
        · rw [if_pos h1]
          exact Or.inl ⟨_, rfl⟩
        · rw [if_neg h1] at hmem ⊢
          have hne : size ≠ size' := by omega
          by_cases h2 : size' < 0 ∨ fp1.length < size'.toNat
          · rw [if_pos h2] at hmem
            simp only [List.mem_append, List.mem_cons, LoadEvent.readSize.injEq,
              List.mem_singleton, List.not_mem_nil, or_false] at hmem
            rcases hmem with (h | h | h) | h
            · exact absurd h hev
            · exact absurd h hne
            · cases h
            · cases h
          · rw [if_neg h2] at hmem ⊢
            apply ih _ _ _ _ hmem
            simp only [List.mem_append, List.mem_cons, LoadEvent.readSize.injEq,
              List.mem_singleton, List.not_mem_nil, or_false, not_or]
            exact ⟨⟨hev, hne, fun h => by cases h⟩, fun h => by cases h⟩

/-- C9 on the code. Whenever `LoadTissues` reads, for some tissue record, a name length
`size` greater than 99, the call does not return a decoded catalog; it ends in the `throw`
of line 596 when every store into `name` was in bounds (a length of exactly 100, or a stream
that ends within the first 100 name bytes), and it has no defined result when the `fread` of
line 594, which comes before the test, has stored more than 100 bytes (for example 140). -/
theorem LoadTissues_long_name (P : Platform) (fp : List Byte)
    (tissuesVersion : Int) (st : TissueInfos) (size : Int) (hsize : 99 < size)
    (hread : LoadEvent.readSize size ∈ (LoadTissues P fp tissuesVersion st).2) :
    ((∀ ev ∈ (LoadTissues P fp tissuesVersion st).2, ev.inBounds = true) →
      ∃ st', (LoadTissues P fp tissuesVersion st).1 = .threw st') ∧
    ((∃ ev ∈ (LoadTissues P fp tissuesVersion st).2, ev.inBounds = false) →
      (LoadTissues P fp tissuesVersion st).1 = .indeterminate) ∧
    (∀ st' rest, (LoadTissues P fp tissuesVersion st).1 ≠ .returned st' rest) := by
  unfold LoadTissues at hread ⊢
  cases hh : LoadTissues.header P fp tissuesVersion with
  | none =>
    rw [hh] at hread
    simp at hread
  | some head =>
    obtain ⟨tissuecount, opacVersion, bg, fp1⟩ := head
    rw [hh] at hread
    simp only at hread ⊢
    have key := loop_long_name P opacVersion size hsize tissuecount [bg] fp1 [] (by simp)
    have bad := loop_out_of_bounds P opacVersion tissuecount [bg] fp1 []
      (fun ev h => by cases h)
    cases hl : LoadTissues.loop P opacVersion tissuecount [bg] fp1 [] with
    | mk res events =>
      rw [hl] at hread key bad
      cases res with
      | threw vec =>
        simp only at bad
        refine ⟨fun _ => ⟨_, rfl⟩, fun h => ?_, fun _ _ h => by cases h⟩
        cases bad h
      | finished vec fp2 =>
        simp only at hread
        have hmem : LoadEvent.readSize size ∈ events := by
          cases hc : CreateTissueTypeMap P { st with tissueInfosVector := vec } with
          | none => rw [hc] at hread; exact hread
          | some st1 => rw [hc] at hread; exact hread
        rcases key hmem with ⟨vec', hv⟩ | ⟨hv, _⟩
        · cases hv
        · cases hv
      | indeterminate =>
        simp only at hread
        refine ⟨fun hall => ?_, fun _ => rfl, fun _ _ h => by cases h⟩
        rcases key hread with ⟨vec', hv⟩ | ⟨_, ev, hmem, hf⟩
        · cases hv
        · have := hall ev hmem
          rw [hf] at this
          cases this

set_option maxRecDepth 100000 in
/-- Instances of C9: on `overrunStream`, whose only record declares a name length of 140 and
has the 140 bytes, the name bytes are stored beyond the array and the call has no defined
result; on `fullNameStream`, whose only record declares a name length of 100, the call
throws. -/
theorem LoadTissues_long_name_witness :
    ((99 : Int) < 140 ∧
      LoadEvent.readSize 140 ∈ (LoadTissues P16 overrunStream 1 liveA).2 ∧
      LoadEvent.storeName 140 ∈ (LoadTissues P16 overrunStream 1 liveA).2 ∧
      (LoadTissues P16 overrunStream 1 liveA).1 = .indeterminate) ∧
    ((99 : Int) < 100 ∧
      LoadEvent.readSize 100 ∈ (LoadTissues P16 fullNameStream 1 liveA).2 ∧
      ∃ st', (LoadTissues P16 fullNameStream 1 liveA).1 = .threw st') :=
  ⟨⟨by decide, by decide, by decide,
      (LoadTissues_long_name P16 overrunStream 1 liveA 140 (by decide) (by decide)).2.1
        ⟨LoadEvent.storeName 140, by decide, by decide⟩⟩,
    ⟨by decide, by decide,
      (LoadTissues_long_name P16 fullNameStream 1 liveA 100 (by decide) (by decide)).1
        (by decide)⟩⟩

set_option maxRecDepth 100000 in
/-- C10 fails on the code: on `overrunStream` the `fread` of line 594 stores 140 bytes into
`char name[100]` (a store that is not in bounds) before the test of line 595 is reached;
the length is tested only after the name bytes are stored. -/
theorem LoadTissues_overrun_before_check :
    (LoadTissues P16 overrunStream 1 liveA).2
      = [LoadEvent.readSize 140, LoadEvent.storeName 140] ∧
    (LoadEvent.storeName 140).inBounds = false := by
  decide

/-! ## Legacy binary codec: what a failed load leaves behind (C11) -/

theorem loop_threw_length (P : Platform) (opacVersion : Nat) (n : Nat)
    (done : List TissueInfo) (fp : List Byte) (events : List LoadEvent)
    (vec : List TissueInfo)
    (h : (LoadTissues.loop P opacVersion n done fp events).1 = .threw vec) :
    vec.length = done.length + n ∧ vec.take done.length = done := by
  induction n generalizing done fp events with
  | zero => simp [LoadTissues.loop] at h
  | succ n ih =>
    unfold LoadTissues.loop at h
    cases hh : LoadTissues.recordHead opacVersion fp with
    | none => rw [hh] at h; simp at h
    | some head =>
      obtain ⟨color, opac, size, fp1⟩ := head
      rw [hh] at h
      simp only at h
      by_cases h0 : 100 < min (toSizeT size) fp1.length
      · rw [if_pos h0] at h; simp at h
      · rw [if_neg h0] at h
        by_cases h1 : 99 < size
        · rw [if_pos h1] at h
          simp only [LoadTissues.Loop.threw.injEq] at h
          subst h
          constructor
          · simp only [List.length_append, List.length_cons, List.length_replicate,
              List.length_nil]
            omega
          · simp [List.take_append_eq_append_take]
        · rw [if_neg h1] at h
          by_cases h2 : size < 0 ∨ fp1.length < size.toNat
          · rw [if_pos h2] at h; simp at h
          · rw [if_neg h2] at h
            obtain ⟨hl, ht⟩ := ih _ _ _ h
            constructor
            · rw [hl]; simp; omega
            · have := congrArg (List.take done.length) ht
              simpa [List.take_take, List.take_append_eq_append_take] using this

set_option maxRecDepth 100000 in
/-- C11 as stated fails: on `fullNameStream`, read into the catalog [background, A],
`LoadTissues` throws and leaves a vector that differs from the one before the call (two
records with the stream's colours and default names), while the name index still maps "a"
to 1. -/
theorem LoadTissues_failure_counterexample :
    ∃ st', (LoadTissues P16 fullNameStream 1 liveA).1 = .threw st' ∧
      st'.tissueInfosVector ≠ liveA.tissueInfosVector ∧
      st'.tissueInfosVector.map (fun t => t.name) = [[], []] ∧
      st'.tissueTypeMap = [([97], 1)] := by
  have h : (LoadTissues P16 fullNameStream 1 liveA).1 = .threw failedLoadState := by decide
  exact ⟨_, h, by decide, by decide, rfl⟩

/-- C11, amended. Whenever `LoadTissues` fails (throws), the name index is the one from
before the call, but the records are not: the vector has been cleared and resized to the
tissue count read from the stream plus one, its first record is the background decoded from
the stream; nothing of the old vector is restored. -/
theorem LoadTissues_failure_state (P : Platform) (fp : List Byte) (tissuesVersion : Int)
    (st st' : TissueInfos)
    (h : (LoadTissues P fp tissuesVersion st).1 = .threw st') :
    st'.tissueTypeMap = st.tissueTypeMap ∧
    ∃ tissuecount opacVersion bg fp1,
      LoadTissues.header P fp tissuesVersion = some (tissuecount, opacVersion, bg, fp1) ∧
      st'.tissueInfosVector.length = tissuecount + 1 ∧
      st'.tissueInfosVector[0]? = some bg := by
  unfold LoadTissues at h
  cases hh : LoadTissues.header P fp tissuesVersion with
  | none => rw [hh] at h; simp at h
  | some head =>
    obtain ⟨tissuecount, opacVersion, bg, fp1⟩ := head
    rw [hh] at h
    simp only at h
    cases hl : LoadTissues.loop P opacVersion tissuecount [bg] fp1 [] with
    | mk res events =>
      rw [hl] at h
      cases res with
      | finished vec fp2 =>
        simp only at h
        cases hc : CreateTissueTypeMap P { st with tissueInfosVector := vec } with
        | none => rw [hc] at h; simp at h
        | some st1 => rw [hc] at h; simp at h
      | indeterminate => simp at h
      | threw vec =>
        simp only [LoadOutcome.threw.injEq] at h
        subst h
        have hres : (LoadTissues.loop P opacVersion tissuecount [bg] fp1 []).1 = .threw vec := by
          rw [hl]
        obtain ⟨hlen, htake⟩ := loop_threw_length P opacVersion tissuecount [bg] fp1 [] vec hres
        refine ⟨rfl, tissuecount, opacVersion, bg, fp1, rfl, ?_, ?_⟩
        · simp only [hlen, List.length_singleton]; omega
        · have : (vec.take 1)[0]? = some bg := by
            simp only [List.length_singleton] at htake
            rw [htake]; rfl
          simpa [List.getElem?_take] using this

set_option maxRecDepth 100000 in
/-- Instance of the amended C11 on `fullNameStream` and the catalog [background, A]. -/
theorem LoadTissues_failure_state_witness :
    ∃ st', (LoadTissues P16 fullNameStream 1 liveA).1 = .threw st' ∧
      st'.tissueTypeMap = liveA.tissueTypeMap ∧ st'.tissueInfosVector.length = 2 := by
  have h : (LoadTissues P16 fullNameStream 1 liveA).1 = .threw failedLoadState := by decide
  obtain ⟨hmap, _⟩ := LoadTissues_failure_state P16 fullNameStream 1 liveA _ h
  exact ⟨_, h, hmap, rfl⟩

/-! ## Catalog store: removal (C17) -/

theorem CreateTissueTypeMap_vector_only (P : Platform) (v : List TissueInfo)
    (m1 m2 : TissueTypeMapType) :
    CreateTissueTypeMap P { tissueInfosVector := v, tissueTypeMap := m1 }
      = CreateTissueTypeMap P { tissueInfosVector := v, tissueTypeMap := m2 } := rfl

theorem recordsNotIn_cons_lt (S : TissueSet) (a first : Nat) (v : List TissueInfo)
    (h : a < first) : recordsNotIn (a :: S) first v = recordsNotIn S first v := by
  induction v generalizing first with
  | nil => rfl
  | cons x v ih =>
    have hne : first ≠ a := by omega
    simp only [recordsNotIn, List.mem_cons, hne, false_or]
    rw [ih (first + 1) (by omega)]

theorem recordsNotIn_length_le (S : TissueSet) (first : Nat) (v : List TissueInfo) :
    (recordsNotIn S first v).length ≤ v.length := by
  induction v generalizing first with
  | nil => simp [recordsNotIn]
  | cons x v ih =>
    simp only [recordsNotIn]
    split
    · have := ih (first + 1); simp only [List.length_cons]; omega
    · have := ih (first + 1); simp only [List.length_cons]; omega

theorem eraseIdx_recordsNotIn (S : TissueSet) (a first : Nat) (v : List TissueInfo)
    (hS : ∀ x ∈ S, a < x) (h1 : first ≤ a) (h2 : a < first + v.length) :
    a - first < (recordsNotIn S first v).length ∧
    (recordsNotIn S first v).eraseIdx (a - first) = recordsNotIn (a :: S) first v := by
  induction v generalizing first with
  | nil => simp at h2; omega
  | cons x v ih =>
    have hnot : first ∉ S := fun hm => by have := hS first hm; omega
    by_cases ha : a = first
    · subst ha
      simp only [recordsNotIn, hnot, if_false, Nat.sub_self, List.length_cons,
        List.eraseIdx_cons_zero, List.mem_cons, true_or, if_true]
      exact ⟨by omega, (recordsNotIn_cons_lt S a (a + 1) v (by omega)).symm⟩
    · have hlt : first < a := by omega
      obtain ⟨k, hk⟩ : ∃ k, a - first = k + 1 := ⟨a - first - 1, by omega⟩
      have hk' : a - (first + 1) = k := by omega
      obtain ⟨il, ie⟩ := ih (first + 1) (by omega) (by simp only [List.length_cons] at h2; omega)
      have hfa : ¬ first = a := by omega
      simp only [recordsNotIn, hnot, if_false, List.mem_cons, hfa, or_self, hk,
        List.length_cons, List.eraseIdx_cons_succ]
      rw [hk'] at il ie
      exact ⟨by omega, by rw [ie]⟩

theorem foldlM_eraseAt_sorted (S : TissueSet) (v : List TissueInfo)
    (hS : S.Sorted (· < ·)) (hlt : ∀ i ∈ S, i < v.length) :
    S.reverse.foldlM eraseAt v = some (recordsNotIn S 0 v) ∧
    (recordsNotIn S 0 v).length + S.length = v.length := by
  induction S with
  | nil =>
    have : ∀ (first : Nat) (v : List TissueInfo), recordsNotIn [] first v = v := by
      intro first v
      induction v generalizing first with
      | nil => rfl
      | cons x v ih => simp [recordsNotIn, ih]
    simp [this]
  | cons a S ih =>
    have hS' : S.Sorted (· < ·) := hS.of_cons
    have haS : ∀ y ∈ S, a < y := fun y hy => List.rel_of_sorted_cons hS y hy
    obtain ⟨hfold, hlen⟩ := ih hS' (fun i hi => hlt i (by simp [hi]))
    obtain ⟨il, ie⟩ := eraseIdx_recordsNotIn S a 0 v haS (by omega)
      (by have := hlt a (by simp); omega)
    simp only [Nat.sub_zero] at il ie
    constructor
    · rw [List.reverse_cons, List.foldlM_append, hfold]
      simp only [Option.bind_eq_bind, Option.some_bind, List.foldlM_cons, List.foldlM_nil,
        eraseAt, if_pos il, Option.pure_def, ie]
    · rw [← ie, List.length_eraseIdx, if_pos il]
      simp only [List.length_cons]
      omega

theorem foldlM_RemoveTissue (P : Platform) (l : List Nat) (hl : ∀ i ∈ l, 1 ≤ i)
    (st : TissueInfos) (h2 : st.tissueInfosVector.length ≤ TISSUES_SIZE_MAX P)
    (vec : List TissueInfo) (hfold : l.foldlM eraseAt st.tissueInfosVector = some vec) :
    ∃ st2, l.foldlM (RemoveTissue P) st = some st2 ∧ st2.tissueInfosVector = vec ∧
      (l ≠ [] → CreateTissueTypeMap P { st with tissueInfosVector := vec } = some st2) := by
  induction l generalizing st with
  | nil =>
    simp only [List.foldlM_nil, Option.pure_def, Option.some.injEq] at hfold
    exact ⟨st, rfl, hfold, fun h => absurd rfl h⟩
  | cons a l ih =>
    rw [List.foldlM_cons] at hfold
    cases he : eraseAt st.tissueInfosVector a with
    | none => rw [he] at hfold; simp at hfold
    | some v1 =>
      rw [he] at hfold
      simp only [Option.bind_eq_bind, Option.some_bind] at hfold
      have ha1 : 1 ≤ a := hl a (by simp)
      unfold eraseAt at he
      have halt : a < st.tissueInfosVector.length := by
        by_contra hge
        rw [if_neg hge] at he
        cases he
      rw [if_pos halt] at he
      have hv1 : v1 = st.tissueInfosVector.eraseIdx a := by simpa using he.symm
      have hlen1 : v1.length = st.tissueInfosVector.length - 1 := by
        rw [hv1, List.length_eraseIdx, if_pos halt]
      obtain ⟨m, hm, _⟩ := CreateTissueTypeMap_spec P
        { tissueInfosVector := v1, tissueTypeMap := st.tissueTypeMap }
        (by simp only; omega) (by simp only; omega)
      have hstep : RemoveTissue P st a
          = some { tissueInfosVector := v1, tissueTypeMap := m } := by
        unfold RemoveTissue eraseAt
        rw [if_pos halt]
        simp only [Option.bind_eq_bind, Option.some_bind, ← hv1]
        exact hm
      obtain ⟨st2, hst2, hvec, hcm⟩ := ih (fun i hi => hl i (by simp [hi]))
        { tissueInfosVector := v1, tissueTypeMap := m } (by simp only; omega) hfold
      refine ⟨st2, ?_, hvec, fun _ => ?_⟩
      · rw [List.foldlM_cons, hstep]
        simpa using hst2
      · by_cases hnil : l = []
        · subst hnil
          simp only [List.foldlM_nil, Option.pure_def, Option.some.injEq] at hfold hst2
          subst hfold
          rw [← hst2]
          exact hm
        · have := hcm hnil
          rw [← this]
          exact CreateTissueTypeMap_vector_only P vec _ _

/-- C17. For a catalog of at most `TISSUES_SIZE_MAX` records and a set `S` (a `std::set`, so
strictly ascending) of valid non-background ids, `RemoveTissues(S)` returns with the vector
made of exactly the records whose old id is not in `S`, in their order; the vector is
shorter by `|S|`, the tissue count smaller by `|S|`; and removing the ids of `S` one at a
time in descending order with `RemoveTissue` gives the same vector, and the same state when
`S` is not empty. -/
theorem RemoveTissues_spec (P : Platform) (st : TissueInfos) (S : TissueSet)
    (h2 : st.tissueInfosVector.length ≤ TISSUES_SIZE_MAX P)
    (hS : S.Sorted (· < ·))
    (hvalid : ∀ i ∈ S, 1 ≤ i ∧ i ≤ GetTissueCount P st) (h1 : 1 ≤ st.tissueInfosVector.length) :
    ∃ st' st'', RemoveTissues P st S = some st' ∧
      st'.tissueInfosVector = recordsNotIn S 0 st.tissueInfosVector ∧
      st'.tissueInfosVector.length + S.length = st.tissueInfosVector.length ∧
      GetTissueCount P st' + S.length = GetTissueCount P st ∧
      S.reverse.foldlM (RemoveTissue P) st = some st'' ∧
      st''.tissueInfosVector = st'.tissueInfosVector ∧
      (S ≠ [] → st'' = st') := by
  have hc := GetTissueCount_eq P st h1 h2
  have hlt : ∀ i ∈ S, i < st.tissueInfosVector.length := by
    intro i hi
    have := (hvalid i hi).2
    omega
  obtain ⟨hfold, hlen⟩ := foldlM_eraseAt_sorted S st.tissueInfosVector hS hlt
  have hpos : 1 ≤ (recordsNotIn S 0 st.tissueInfosVector).length := by
    cases hv : st.tissueInfosVector with
    | nil => rw [hv] at h1; simp at h1
    | cons x v =>
      have h0 : (0 : Nat) ∉ S := fun h => by have := (hvalid 0 h).1; omega
      simp [recordsNotIn, h0]
  obtain ⟨m, hm, _⟩ := CreateTissueTypeMap_spec P
    { tissueInfosVector := recordsNotIn S 0 st.tissueInfosVector,
      tissueTypeMap := st.tissueTypeMap }
    hpos (by simp only; omega)
  obtain ⟨st2, hst2, hvec2, hcm2⟩ := foldlM_RemoveTissue P S.reverse
    (fun i hi => (hvalid i (by simpa using hi)).1) st h2 _ hfold
  refine ⟨{ tissueInfosVector := recordsNotIn S 0 st.tissueInfosVector, tissueTypeMap := m },
    st2, ?_, rfl, hlen, ?_, hst2, hvec2, ?_⟩
  · unfold RemoveTissues
    rw [hfold]
    simpa using hm
  · rw [GetTissueCount_eq P _ hpos (by simp only; omega), hc]
    simp only
    omega
  · intro hne
    have := hcm2 (by simpa using hne)
    rw [hm] at this
    exact (Option.some.inj this).symm

/-- Instance of C17: removing {1, 3} from the catalog [background, A, B, C] leaves
[background, B]. -/
theorem RemoveTissues_spec_witness :
    liveABC.tissueInfosVector.length ≤ TISSUES_SIZE_MAX P16 ∧
    List.Sorted (· < ·) [1, 3] ∧
    (∀ i ∈ [1, 3], 1 ≤ i ∧ i ≤ GetTissueCount P16 liveABC) ∧
    ∃ st', RemoveTissues P16 liveABC [1, 3] = some st' ∧
      st'.tissueInfosVector = [bgInfo, mkInfo nameB false] ∧
      [3, 1].foldlM (RemoveTissue P16) liveABC = some st' := by
  have hv : ∀ i ∈ [1, 3], 1 ≤ i ∧ i ≤ GetTissueCount P16 liveABC := by decide
  obtain ⟨st', st'', h1, h2, _, _, h5, _, h7⟩ :=
    RemoveTissues_spec P16 liveABC [1, 3] (by decide) (by decide) hv (by decide)
  refine ⟨by decide, by decide, hv, st', h1, ?_, ?_⟩
  · rw [h2]; decide
  · rw [← h7 (by decide)]; exact h5

/-! ## Catalog store: adding a record and looking names up (C18, C19, C20) -/

theorem GetTissueType_of_find_none (st : TissueInfos) (s : List Byte)
    (h : st.tissueTypeMap.find (str_tolower s) = none) : GetTissueType st s = 0 := by
  unfold GetTissueType; rw [h]

theorem consistent_find_none (P : Platform) (st : TissueInfos)
    (hc : NameIndexConsistent P st)
    (h2 : st.tissueInfosVector.length ≤ TISSUES_SIZE_MAX P) (s : List Byte)
    (hno : ∀ j info, 1 ≤ j → st.tissueInfosVector[j]? = some info →
      str_tolower info.name ≠ str_tolower s) :
    st.tissueTypeMap.find (str_tolower s) = none := by
  have h1 := consistent_length_pos P st hc
  obtain ⟨m, hm, s1, _⟩ := CreateTissueTypeMap_spec P st h1 h2
  obtain ⟨st', hst', hfind⟩ := hc
  rw [hm] at hst'
  have hst'' : st' = { tissueInfosVector := st.tissueInfosVector, tissueTypeMap := m } := by
    simpa using hst'.symm
  subst hst''
  cases hk : st.tissueTypeMap.find (str_tolower s) with
  | none => rfl
  | some i =>
    obtain ⟨hi, t, ht, hname⟩ := s1 _ i (by rw [← hfind]; exact hk)
    exact absurd hname (hno i t hi ht)

/-- C18. `AddTissue(t)` appends: for a catalog with a background record and at most
`TISSUES_SIZE_MAX` records, the tissue count grows by exactly one, the record at the new
count is `t`, every record that existed keeps its id and its fields, and, when the name
index is consistent and no non-background tissue has the lower-cased name of `t`,
`GetTissueType(t.name)` is the new count. -/
theorem AddTissue_appends (P : Platform) (st : TissueInfos) (t : TissueInfo)
    (h1 : 1 ≤ st.tissueInfosVector.length)
    (h2 : st.tissueInfosVector.length ≤ TISSUES_SIZE_MAX P) :
    GetTissueCount P (AddTissue P st t) = GetTissueCount P st + 1 ∧
    (AddTissue P st t).tissueInfosVector[GetTissueCount P (AddTissue P st t)]? = some t ∧
    (∀ i, i < st.tissueInfosVector.length →
      (AddTissue P st t).tissueInfosVector[i]? = st.tissueInfosVector[i]?) ∧
    (NameIndexConsistent P st →
      (∀ j info, 1 ≤ j → st.tissueInfosVector[j]? = some info →
        str_tolower info.name ≠ str_tolower t.name) →
      GetTissueType (AddTissue P st t) t.name = GetTissueCount P (AddTissue P st t)) := by
  have hM := modulus_pos P
  have hc := GetTissueCount_eq P st h1 h2
  have hcount : GetTissueCount P (AddTissue P st t) = st.tissueInfosVector.length := by
    unfold GetTissueCount AddTissue
    simp only [List.length_append, List.length_singleton]
    unfold TISSUES_SIZE_MAX at h2
    by_cases hfull : st.tissueInfosVector.length + 1 = P.modulus
    · rw [hfull, Nat.mod_self, Nat.zero_add, Nat.mod_eq_of_lt (by omega)]
      omega
    · have e1 : (st.tissueInfosVector.length + 1) % P.modulus
          = st.tissueInfosVector.length + 1 := Nat.mod_eq_of_lt (by omega)
      have e2 : st.tissueInfosVector.length + 1 + P.modulus - 1
          = st.tissueInfosVector.length + P.modulus := by omega
      rw [e1, e2, Nat.add_mod_right]
      exact Nat.mod_eq_of_lt (by omega)
  refine ⟨by rw [hcount, hc]; omega, ?_, ?_, ?_⟩
  · rw [hcount]
    simp [AddTissue]
  · intro i hi
    simp only [AddTissue]
    exact List.getElem?_append_left hi
  · intro hcons hno
    have hnone := consistent_find_none P st hcons h2 t.name hno
    rw [hcount]
    unfold GetTissueType
    have hfind : (AddTissue P st t).tissueTypeMap.find (str_tolower t.name)
        = some st.tissueInfosVector.length := by
      have e : (AddTissue P st t).tissueTypeMap
          = st.tissueTypeMap.insert (str_tolower t.name)
              (GetTissueCount P (AddTissue P st t)) := rfl
      rw [e, insert_find, hnone, hcount]
      simp
    rw [hfind]

/-- Instance of C18: adding "B" to the catalog [background, A]. -/
theorem AddTissue_appends_witness :
    1 ≤ liveA.tissueInfosVector.length ∧
    liveA.tissueInfosVector.length ≤ TISSUES_SIZE_MAX P16 ∧
    GetTissueCount P16 (AddTissue P16 liveA (mkInfo nameB false)) = 2 ∧
    (AddTissue P16 liveA (mkInfo nameB false)).tissueInfosVector[2]?
      = some (mkInfo nameB false) ∧
    GetTissueType (AddTissue P16 liveA (mkInfo nameB false)) nameB = 2 := by
  obtain ⟨h1, h2, _, h4⟩ :=
    AddTissue_appends P16 liveA (mkInfo nameB false) (by decide) (by decide)
  have hcount : GetTissueCount P16 (AddTissue P16 liveA (mkInfo nameB false)) = 2 := by
    rw [h1]; decide
  refine ⟨by decide, by decide, hcount, ?_, ?_⟩
  · rw [← hcount]; exact h2
  · rw [← hcount]
    refine h4 ⟨liveA, by decide, fun _ => rfl⟩ ?_
    intro j info hj hinfo
    have hlt := getElem?_lt_of_some _ _ _ hinfo
    have hlen : liveA.tissueInfosVector.length = 2 := by decide
    have hj1 : j = 1 := by omega
    subst hj1
    have h1A : liveA.tissueInfosVector[1]? = some (mkInfo nameA true) := by decide
    rw [h1A] at hinfo
    obtain rfl : mkInfo nameA true = info := by simpa using hinfo
    decide

theorem tolower_sameLetter (a b : Byte) (h : sameLetter a b) : tolower a = tolower b := by
  rcases h with h | ⟨h1, h2, h3⟩ | ⟨h1, h2, h3⟩
  · rw [h]
  · have hb : b = a + 32 := by
      apply Fin.ext
      rw [h3, Fin.val_add]
      have : (32 : Fin 256).val = 32 := rfl
      rw [this]
      omega
    unfold tolower
    rw [if_pos (show 65 ≤ a.val ∧ a.val ≤ 90 from ⟨h1, h2⟩),
      if_neg (show ¬ (65 ≤ b.val ∧ b.val ≤ 90) by omega), hb]
  · have ha : a = b + 32 := by
      apply Fin.ext
      rw [h3, Fin.val_add]
      have : (32 : Fin 256).val = 32 := rfl
      rw [this]
      omega
    unfold tolower
    rw [if_neg (show ¬ (65 ≤ a.val ∧ a.val ≤ 90) by omega),
      if_pos (show 65 ≤ b.val ∧ b.val ≤ 90 from ⟨h1, h2⟩), ha]

theorem str_tolower_differOnlyInCase (s s' : List Byte) (h : differOnlyInCase s s') :
    str_tolower s = str_tolower s' := by
  unfold differOnlyInCase at h
  induction h with
  | nil => rfl
  | cons hab _ ih =>
    simp only [str_tolower, List.map_cons] at ih ⊢
    rw [tolower_sameLetter _ _ hab, ih]

theorem GetTissueType_congr (st : TissueInfos) (s s' : List Byte)
    (h : str_tolower s = str_tolower s') : GetTissueType st s = GetTissueType st s' := by
  unfold GetTissueType
  rw [h]

/-- C19. Lookup by name is case-insensitive and total.  `GetTissueType` is a function of the
lower-cased name, so two strings that differ only in letter case get the same answer; for a
catalog of at most `TISSUES_SIZE_MAX` records with a consistent (rebuilt) name index, if
tissue `i ≥ 1` is the only non-background tissue whose lower-cased name is that of `s` the
answer is `i`, and if no non-background tissue has that lower-cased name the answer is 0. -/
theorem GetTissueType_case_insensitive (P : Platform) (st : TissueInfos)
    (h2 : st.tissueInfosVector.length ≤ TISSUES_SIZE_MAX P)
    (hc : NameIndexConsistent P st) :
    (∀ s s', differOnlyInCase s s' → GetTissueType st s = GetTissueType st s') ∧
    (∀ s i info, 1 ≤ i → st.tissueInfosVector[i]? = some info →
      str_tolower info.name = str_tolower s →
      (∀ j info', 1 ≤ j → st.tissueInfosVector[j]? = some info' →
        str_tolower info'.name = str_tolower s → j = i) →
      GetTissueType st s = i) ∧
    (∀ s, (∀ j info, 1 ≤ j → st.tissueInfosVector[j]? = some info →
        str_tolower info.name ≠ str_tolower s) →
      GetTissueType st s = 0) := by
  refine ⟨?_, ?_, ?_⟩
  · intro s s' h
    exact GetTissueType_congr st s s' (str_tolower_differOnlyInCase s s' h)
  · intro s i info hi hinfo hname huniq
    have hpos := consistent_complete P st hc h2 i info hi hinfo
    rw [GetTissueType_congr st info.name s hname] at hpos
    obtain ⟨t, ht, htname⟩ := consistent_sound P st hc h2 s hpos
    exact huniq _ t hpos ht htname
  · intro s hno
    exact GetTissueType_of_find_none st s (consistent_find_none P st hc h2 s hno)

/-- Instance of C19 on the catalog [background, A, B, C]: "a" and "A" resolve to 1. -/
theorem GetTissueType_case_insensitive_witness :
    liveABC.tissueInfosVector.length ≤ TISSUES_SIZE_MAX P16 ∧
    NameIndexConsistent P16 liveABC ∧
    differOnlyInCase namea nameA ∧
    GetTissueType liveABC namea = GetTissueType liveABC nameA ∧
    GetTissueType liveABC nameA = 1 := by
  have hcons : NameIndexConsistent P16 liveABC := ⟨liveABC, by decide, fun _ => rfl⟩
  have hd : differOnlyInCase namea nameA :=
    List.Forall₂.cons (Or.inr (Or.inr ⟨by decide, by decide, by decide⟩)) List.Forall₂.nil
  obtain ⟨h1, _, _⟩ := GetTissueType_case_insensitive P16 liveABC (by decide) hcons
  exact ⟨by decide, hcons, hd, h1 _ _ hd, by decide⟩

/-! ### Duplicate names (C20) -/

theorem foldlM_body_first (v : List TissueInfo) (ts : List Nat) (m0 m : TissueTypeMapType)
    (hs : ts.Pairwise (· < ·)) (hts : ∀ type ∈ ts, type < v.length)
    (hm : ts.foldlM (CreateTissueTypeMap.body v) m0 = some m)
    (k : List Byte) (i : Nat) (hk : m.find k = some i) (h0 : m0.find k = none) :
    ∀ j ∈ ts, j < i → ∀ t, v[j]? = some t → str_tolower t.name ≠ k := by
  induction ts generalizing m0 with
  | nil => intro j hj; simp at hj
  | cons a ts ih =>
    have ha : a < v.length := hts a (by simp)
    have hts' : ∀ type ∈ ts, type < v.length := fun t ht => hts t (by simp [ht])
    have hstep : CreateTissueTypeMap.body v m0 a
        = some (m0.insert (str_tolower v[a].name) a) := by
      simp [CreateTissueTypeMap.body, List.getElem?_eq_getElem ha]
    rw [List.foldlM_cons, hstep] at hm
    simp only [Option.bind_eq_bind, Option.some_bind] at hm
    obtain ⟨m', hm', _, keep, _⟩ :=
      foldlM_body_spec v ts (m0.insert (str_tolower v[a].name) a) hts'
    rw [hm] at hm'
    obtain rfl : m = m' := by simpa using hm'
    have hfind1 := insert_find m0 (str_tolower v[a].name) a k
    rw [h0] at hfind1
    simp only at hfind1
    intro j hj hji t ht
    by_cases hka : k = str_tolower v[a].name
    · rw [if_pos hka] at hfind1
      have := keep k a hfind1
      rw [hk] at this
      obtain rfl : i = a := by simpa using this
      rcases List.mem_cons.mp hj with rfl | hmem
      · omega
      · have := List.rel_of_pairwise_cons hs hmem
        omega
    · rw [if_neg hka] at hfind1
      rcases List.mem_cons.mp hj with rfl | hmem
      · rw [List.getElem?_eq_getElem ha] at ht
        obtain rfl : v[j] = t := by simpa using ht
        exact fun h => hka h.symm
      · exact ih _ (List.Pairwise.of_cons hs) hts' hm hfind1 j hmem hji t ht

/-- C20 as stated fails: in the catalog [background, A, A] both tissues 1 and 2 are named
"A" and `GetTissueType("A")` is 1, the first id, not the last; and adding a second "A" to the
catalog [background, A] with `AddTissue` leaves `GetTissueType("A")` at 1 although the new
tissue has id 2. -/
theorem duplicate_names_counterexample :
    liveAA.tissueInfosVector.map (fun t => str_tolower t.name) = [[], [97], [97]] ∧
    GetTissueType liveAA nameA = 1 ∧
    GetTissueCount P16 (AddTissue P16 liveA (mkInfo nameA false)) = 2 ∧
    GetTissueType (AddTissue P16 liveA (mkInfo nameA false)) nameA = 1 := by
  decide

/-- C20, amended. When several tissues have the same lower-cased name, the name index
resolves the name to the first-inserted id, the lowest id that carries it: for a catalog of
at most `TISSUES_SIZE_MAX` records with a consistent (rebuilt) index, a non-zero answer of
`GetTissueType(s)` is the id of a tissue with the lower-cased name of `s`, and no
non-background tissue with a smaller id has that name; and `AddTissue` of a record whose name
already resolves leaves the answer at the earlier id. -/
theorem duplicate_names_first_wins (P : Platform) (st : TissueInfos)
    (h2 : st.tissueInfosVector.length ≤ TISSUES_SIZE_MAX P)
    (hc : NameIndexConsistent P st) :
    (∀ s, 0 < GetTissueType st s →
      (∃ info, st.tissueInfosVector[GetTissueType st s]? = some info ∧
        str_tolower info.name = str_tolower s) ∧
      ∀ j info', 1 ≤ j → j < GetTissueType st s → st.tissueInfosVector[j]? = some info' →
        str_tolower info'.name ≠ str_tolower s) ∧
    (∀ t, 0 < GetTissueType st t.name →
      GetTissueType (AddTissue P st t) t.name = GetTissueType st t.name) := by
  have h1 := consistent_length_pos P st hc
  refine ⟨?_, ?_⟩
  · intro s hpos
    refine ⟨consistent_sound P st hc h2 s hpos, ?_⟩
    obtain ⟨st', hst', hfind⟩ := hc
    have hcount := GetTissueCount_eq P st h1 h2
    have hcm := hst'
    unfold CreateTissueTypeMap countUpTo at hcm
    rw [hcount, if_pos (by omega)] at hcm
    simp only [Option.pure_def, Option.bind_eq_bind, Option.some_bind] at hcm
    cases hfold : (List.range' 1 (st.tissueInfosVector.length - 1 + 1 - 1)).foldlM
        (CreateTissueTypeMap.body st.tissueInfosVector) [] with
    | none => rw [hfold] at hcm; simp at hcm
    | some m =>
      rw [hfold] at hcm
      simp only [Option.some_bind, Option.some.injEq] at hcm
      subst hcm
      simp only at hfind
      intro j info' hj hlt hinfo'
      have hk : m.find (str_tolower s) = some (GetTissueType st s) := by
        rw [← hfind]
        unfold GetTissueType at hpos ⊢
        cases hx : st.tissueTypeMap.find (str_tolower s) with
        | none => rw [hx] at hpos; simp at hpos
        | some x => rfl
      have hjlen := getElem?_lt_of_some _ _ _ hinfo'
      exact foldlM_body_first st.tissueInfosVector _ [] m
        (List.pairwise_lt_range' 1 _) (by
          intro type ht
          rw [List.mem_range'_1] at ht
          omega) hfold _ _ hk rfl j (by rw [List.mem_range'_1]; omega) hlt info' hinfo'
  · intro t hpos
    have hsome : ∃ i, st.tissueTypeMap.find (str_tolower t.name) = some i := by
      unfold GetTissueType at hpos
      cases hx : st.tissueTypeMap.find (str_tolower t.name) with
      | none => rw [hx] at hpos; simp at hpos
      | some x => exact ⟨x, rfl⟩
    obtain ⟨i, hi⟩ := hsome
    have e : (AddTissue P st t).tissueTypeMap
        = st.tissueTypeMap.insert (str_tolower t.name)
            (GetTissueCount P (AddTissue P st t)) := rfl
    unfold GetTissueType
    rw [e, insert_find, hi]

/-- Instance of the amended C20 on the catalog [background, B, A, A]: "A" resolves to 2, the
lower of the two ids named "A". -/
theorem duplicate_names_first_wins_witness :
    liveBAA.tissueInfosVector.length ≤ TISSUES_SIZE_MAX P16 ∧
    NameIndexConsistent P16 liveBAA ∧
    GetTissueType liveBAA nameA = 2 ∧
    (∃ info, liveBAA.tissueInfosVector[2]? = some info ∧
      str_tolower info.name = str_tolower nameA) ∧
    GetTissueType (AddTissue P16 liveBAA (mkInfo nameA false)) nameA = 2 := by
  have hcons : NameIndexConsistent P16 liveBAA := ⟨liveBAA, by decide, fun _ => rfl⟩
  obtain ⟨h1, h2⟩ := duplicate_names_first_wins P16 liveBAA (by decide) hcons
  have hg : GetTissueType liveBAA nameA = 2 := by decide
  have ha := (h1 nameA (by rw [hg]; decide)).1
  rw [hg] at ha
  have hb : GetTissueType (AddTissue P16 liveBAA (mkInfo nameA false)) nameA
      = GetTissueType liveBAA nameA := h2 (mkInfo nameA false) (by decide)
  exact ⟨by decide, hcons, hg, ha, hb.trans hg⟩

/-! ## Hierarchical-store codec (C15, C16) -/

theorem P16_modulus : P16.modulus = 65536 := by
  unfold Platform.modulus P16; norm_num

theorem body_special (reader : HDF5Reader) (s : LoadTissuesHDF.Locals) (it : List Byte)
    (bg : TissueInfo) (rest : List TissueInfo) (hv : s.tissueInfosVector = bg :: rest)
    (hs : cString it = strVersion ∨ cString it = strBkgRgbo) :
    ∃ s' bg', LoadTissuesHDF.body reader s it = some s' ∧
      s'.tissueInfosVector = bg' :: rest := by
  unfold LoadTissuesHDF.body
  by_cases h1 : cString it = strVersion
  · rw [if_pos h1]
    exact ⟨s, bg, rfl, hv⟩
  · have h2 : cString it = strBkgRgbo := by tauto
    rw [if_neg h1, if_pos h2, hv]
    exact ⟨_, _, rfl, rfl⟩

theorem foldlM_special (reader : HDF5Reader) (groups : List (List Byte))
    (hs : ∀ g ∈ groups, cString g = strVersion ∨ cString g = strBkgRgbo)
    (s : LoadTissuesHDF.Locals) (bg : TissueInfo) (rest : List TissueInfo)
    (hv : s.tissueInfosVector = bg :: rest) :
    ∃ s' bg', groups.foldlM (LoadTissuesHDF.body reader) s = some s' ∧
      s'.tissueInfosVector = bg' :: rest := by
  induction groups generalizing s bg with
  | nil => exact ⟨s, bg, rfl, hv⟩
  | cons g groups ih =>
    obtain ⟨s1, bg1, hs1, hv1⟩ := body_special reader s g bg rest hv (hs g (by simp))
    obtain ⟨s2, bg2, hs2, hv2⟩ := ih (fun g hg => hs g (by simp [hg])) s1 bg1 hv1
    refine ⟨s2, bg2, ?_, hv2⟩
    rw [List.foldlM_cons, hs1]
    simpa using hs2

theorem CreateTissueTypeMap_none_of_full (P : Platform) (st : TissueInfos)
    (h : st.tissueInfosVector.length = P.modulus) : CreateTissueTypeMap P st = none := by
  have hM := modulus_pos P
  unfold CreateTissueTypeMap countUpTo GetTissueCount TISSUES_SIZE_MAX
  rw [h, Nat.mod_self, Nat.zero_add, Nat.mod_eq_of_lt (by omega), if_neg (by omega)]
  rfl

theorem LoadTissuesHDF_special (P : Platform) (reader : HDF5Reader) (st : TissueInfos)
    (hopen : reader.opens = true)
    (hs : ∀ g ∈ reader.groupInfo, cString g = strVersion ∨ cString g = strBkgRgbo)
    (tc : Nat) (htc : ((reader.groupInfo.length + 2 ^ 64 - 2) % 2 ^ 64) % P.modulus = tc)
    (hne : tc ≠ 0) :
    ∃ ok bg', LoadTissuesHDF P reader st
      = (CreateTissueTypeMap P
          { tissueInfosVector := bg' :: List.replicate tc P.defaultInfo,
            tissueTypeMap := st.tissueTypeMap }).map (fun st1 => (ok, st1)) := by
  have hinit : LoadTissuesHDF.initialVector P reader.groupInfo.length
      = P.defaultInfo :: List.replicate tc P.defaultInfo := by
    unfold LoadTissuesHDF.initialVector
    simp only [htc, if_neg hne, List.replicate_succ]
  obtain ⟨s', bg', hfold, hv⟩ := foldlM_special reader reader.groupInfo hs
    { ok := true, index := none, rgbo := (CFloat.zero, CFloat.zero, CFloat.zero, CFloat.zero),
      tissueInfosVector := LoadTissuesHDF.initialVector P reader.groupInfo.length }
    P.defaultInfo (List.replicate tc P.defaultInfo) (by rw [← hinit])
  refine ⟨s'.ok, bg', ?_⟩
  unfold LoadTissuesHDF
  rw [if_pos hopen, hfold]
  simp only [Option.pure_def, Option.bind_eq_bind, Option.some_bind, hv]
  cases CreateTissueTypeMap P
    { tissueInfosVector := bg' :: List.replicate tc P.defaultInfo,
      tissueTypeMap := st.tissueTypeMap } <;> rfl

/-- C16 as stated fails when "version" and "bkg_rgbo" are not both enumerated.  With only
"version" the code counts 65535 tissues (1 - 2 in `size_t`, cut to 16 bits), resizes to 65536
records, and `CreateTissueTypeMap` does not end; with an empty enumeration it returns a
catalog of 65535 default records, not the single "Tissue1". -/
theorem LoadTissuesHDF_no_tissue_counterexample :
    LoadTissuesHDF P16 (readerOnly [strVersion]) liveA = none ∧
    ∃ ok st', LoadTissuesHDF P16 (readerOnly []) liveA = some (ok, st') ∧
      st'.tissueInfosVector.length = 65535 := by
  constructor
  · obtain ⟨tc, htc⟩ : ∃ tc, tc = 65535 := ⟨_, rfl⟩
    obtain ⟨ok, bg', h⟩ := LoadTissuesHDF_special P16 (readerOnly [strVersion]) liveA rfl
      (by decide) tc (by
        rw [P16_modulus, htc]
        simp only [readerOnly, List.length_singleton]
        norm_num) (by omega)
    rw [h, CreateTissueTypeMap_none_of_full]
    · rfl
    · simp only [List.length_cons, List.length_replicate, P16_modulus]
      omega
  · obtain ⟨tc, htc⟩ : ∃ tc, tc = 65534 := ⟨_, rfl⟩
    obtain ⟨ok, bg', h⟩ := LoadTissuesHDF_special P16 (readerOnly []) liveA rfl
      (by intro g hg; simp [readerOnly] at hg) tc (by
        rw [P16_modulus, htc]
        simp only [readerOnly, List.length_nil]
        norm_num) (by omega)
    obtain ⟨m, hm, _⟩ := CreateTissueTypeMap_spec P16
      { tissueInfosVector := bg' :: List.replicate tc P16.defaultInfo,
        tissueTypeMap := liveA.tissueTypeMap }
      (by simp only [List.length_cons]; omega) (by
        unfold TISSUES_SIZE_MAX
        simp only [List.length_cons, List.length_replicate, P16_modulus]
        omega)
    refine ⟨ok, { tissueInfosVector := bg' :: List.replicate tc P16.defaultInfo,
                  tissueTypeMap := m }, ?_, ?_⟩
    · rw [h, hm]
      rfl
    · simp only [List.length_cons, List.length_replicate]
      omega

/-- C16, amended. If the enumeration of "/Tissues" consists of exactly two entries, each of
them "version" or "bkg_rgbo" (so that the code counts zero tissues), `LoadTissuesHDF` yields
a catalog with exactly one non-background tissue: "Tissue1", colour (1, 0, 0), opacity 0.5,
unlocked. -/
theorem LoadTissuesHDF_no_tissue (P : Platform) (reader : HDF5Reader) (st : TissueInfos)
    (hopen : reader.opens = true) (h2 : 2 ≤ TISSUES_SIZE_MAX P)
    (hlen : reader.groupInfo.length = 2)
    (hs : ∀ g ∈ reader.groupInfo, cString g = strVersion ∨ cString g = strBkgRgbo) :
    ∃ ok st' bg', LoadTissuesHDF P reader st = some (ok, st') ∧
      st'.tissueInfosVector = [bg', tissue1Info] ∧ GetTissueCount P st' = 1 := by
  have hinit : LoadTissuesHDF.initialVector P reader.groupInfo.length
      = [P.defaultInfo, tissue1Info] := by
    unfold LoadTissuesHDF.initialVector
    rw [hlen]
    have : ((2 + 2 ^ 64 - 2) % 2 ^ 64) % P.modulus = 0 := by
      rw [Nat.add_sub_cancel_left, Nat.mod_self, Nat.zero_mod]
    simp only [this, if_true]
  obtain ⟨s', bg', hfold, hv⟩ := foldlM_special reader reader.groupInfo hs
    { ok := true, index := none, rgbo := (CFloat.zero, CFloat.zero, CFloat.zero, CFloat.zero),
      tissueInfosVector := LoadTissuesHDF.initialVector P reader.groupInfo.length }
    P.defaultInfo [tissue1Info] (by rw [← hinit])
  obtain ⟨m, hm, _⟩ := CreateTissueTypeMap_spec P
    { tissueInfosVector := s'.tissueInfosVector, tissueTypeMap := st.tissueTypeMap }
    (by rw [hv]; simp) (by rw [hv]; simpa using h2)
  refine ⟨s'.ok, { tissueInfosVector := s'.tissueInfosVector, tissueTypeMap := m }, bg',
    ?_, hv, ?_⟩
  · unfold LoadTissuesHDF
    rw [if_pos hopen, hfold]
    simp only [Option.pure_def, Option.bind_eq_bind, Option.some_bind, hm]
  · rw [GetTissueCount_eq P _ (by simp only; rw [hv]; simp) (by
      simp only; rw [hv]; simpa using h2)]
    simp only
    rw [hv]
    rfl

set_option maxRecDepth 100000 in
/-- Instance of the amended C16: the enumeration "bkg_rgbo", "version". -/
theorem LoadTissuesHDF_no_tissue_witness :
    2 ≤ TISSUES_SIZE_MAX P16 ∧
    ∃ ok st' bg', LoadTissuesHDF P16 (readerOnly [strBkgRgbo, strVersion]) liveA
        = some (ok, st') ∧
      st'.tissueInfosVector = [bg', tissue1Info] ∧ GetTissueCount P16 st' = 1 :=
  ⟨by decide, LoadTissuesHDF_no_tissue P16 (readerOnly [strBkgRgbo, strVersion]) liveA rfl
    (by decide) rfl (by decide)⟩

theorem isTissueGroup_iff (g : List Byte) :
    isTissueGroup g = true ↔ cString g ≠ strVersion ∧ cString g ≠ strBkgRgbo := by
  simp [isTissueGroup]

theorem hdfBackground_idem (c : CFloat × CFloat × CFloat × CFloat) (bg : TissueInfo) :
    hdfBackground c (hdfBackground c bg) = hdfBackground c bg := rfl

theorem foldlM_body_placed (reader : HDF5Reader) (l : List (List Byte))
    (s : LoadTissuesHDF.Locals) (hok : s.ok = true)
    (c0 : CFloat × CFloat × CFloat × CFloat) (hbkg : reader.bkg_rgbo = some c0)
    (hreads : ∀ g ∈ l, isTissueGroup g = true → ∃ i c, reader.index g = some i ∧
      reader.rgbo g = some c ∧ 1 ≤ i ∧ i.toNat < s.tissueInfosVector.length)
    (hinj : ∀ g ∈ l, ∀ g' ∈ l, isTissueGroup g = true → isTissueGroup g' = true →
      reader.index g = reader.index g' → g = g')
    (hne : 1 ≤ s.tissueInfosVector.length) :
    ∃ s', l.foldlM (LoadTissuesHDF.body reader) s = some s' ∧ s'.ok = true ∧
      LoadTissuesHDF.Placed reader l s.tissueInfosVector s'.tissueInfosVector := by
  induction l generalizing s with
  | nil =>
    refine ⟨s, rfl, hok, rfl, ?_, fun _ _ _ => rfl, ?_, fun _ => rfl⟩
    · intro g hg; simp at hg
    · rintro ⟨g, hg, _⟩; simp at hg
  | cons g rest ih =>
    have hreads' : ∀ s1 : LoadTissuesHDF.Locals,
        s1.tissueInfosVector.length = s.tissueInfosVector.length →
        ∀ g ∈ rest, isTissueGroup g = true → ∃ i c, reader.index g = some i ∧
          reader.rgbo g = some c ∧ 1 ≤ i ∧ i.toNat < s1.tissueInfosVector.length := by
      intro s1 h1 g' hg' ht
      rw [h1]
      exact hreads g' (by simp [hg']) ht
    have hinj' : ∀ g ∈ rest, ∀ g' ∈ rest, isTissueGroup g = true → isTissueGroup g' = true →
        reader.index g = reader.index g' → g = g' :=
      fun a ha b hb => hinj a (by simp [ha]) b (by simp [hb])
    by_cases h1 : cString g = strVersion
    · -- "version"
      have hstep : LoadTissuesHDF.body reader s g = some s := by
        unfold LoadTissuesHDF.body; rw [if_pos h1]
      have hnt : ¬ isTissueGroup g = true := by
        rw [isTissueGroup_iff]; tauto
      obtain ⟨s', hf, hok', hlen', ht, hp, hb1, hb2⟩ := ih s hok (hreads' s rfl) hinj' hne
      refine ⟨s', ?_, hok', hlen', ?_, ?_, ?_, ?_⟩
      · rw [List.foldlM_cons, hstep]; simpa using hf
      · intro g' hg' hgt
        rcases List.mem_cons.mp hg' with rfl | hmem
        · exact absurd hgt hnt
        · exact ht g' hmem hgt
      · intro p hp1 hnone
        exact hp p hp1 (fun g' hg' => hnone g' (by simp [hg']))
      · rintro ⟨g', hg', hv, hb⟩
        rcases List.mem_cons.mp hg' with rfl | hmem
        · exact absurd h1 hv
        · exact hb1 ⟨g', hmem, hv, hb⟩
      · intro hnone
        exact hb2 (fun ⟨g', hg', hx⟩ => hnone ⟨g', by simp [hg'], hx⟩)
    · by_cases h2 : cString g = strBkgRgbo
      · -- "bkg_rgbo"
        obtain ⟨bg, tl, hv⟩ : ∃ bg tl, s.tissueInfosVector = bg :: tl := by
          cases hs : s.tissueInfosVector with
          | nil => rw [hs] at hne; simp at hne
          | cons bg tl => exact ⟨bg, tl, rfl⟩
        have hnt : ¬ isTissueGroup g = true := by
          rw [isTissueGroup_iff]; tauto
        have hstep : LoadTissuesHDF.body reader s g
            = some { s with ok := true, rgbo := c0,
                            tissueInfosVector := hdfBackground c0 bg :: tl } := by
          unfold LoadTissuesHDF.body
          rw [if_neg h1, if_pos h2, hv]
          simp only [guardedRead, hok, hbkg, if_true]
          rfl
        obtain ⟨s', hf, hok', hlen', ht, hp, hb1, hb2⟩ :=
          ih { s with ok := true, rgbo := c0,
                      tissueInfosVector := hdfBackground c0 bg :: tl } rfl
            (hreads' _ (by rw [hv]; rfl)) hinj' (by simp)
        simp only at hlen' ht hp hb1 hb2
        refine ⟨s', ?_, hok', ?_, ?_, ?_, ?_, ?_⟩
        · rw [List.foldlM_cons, hstep]; simpa using hf
        · rw [hlen', hv]; rfl
        · intro g' hg' hgt
          rcases List.mem_cons.mp hg' with rfl | hmem
          · exact absurd hgt hnt
          · exact ht g' hmem hgt
        · intro p hp1 hnone
          rw [hp p hp1 (fun g' hg' => hnone g' (by simp [hg'])), hv]
          obtain ⟨q, rfl⟩ : ∃ q, p = q + 1 := ⟨p - 1, by omega⟩
          simp
        · intro _ c hc
          rw [hbkg] at hc
          obtain rfl : c0 = c := by simpa using hc
          rw [hv]
          by_cases hex : ∃ g ∈ rest, cString g ≠ strVersion ∧ cString g = strBkgRgbo
          · rw [hb1 hex c0 hbkg]
            simp [hdfBackground_idem]
          · rw [hb2 hex]
            simp
        · intro hnone
          exact absurd ⟨g, by simp, h1, h2⟩ hnone
      · -- a tissue group
        have hgt : isTissueGroup g = true := by
          rw [isTissueGroup_iff]; exact ⟨h1, h2⟩
        obtain ⟨i, c, hi, hc, hi1, hilt⟩ := hreads g (by simp) hgt
        have hstep : LoadTissuesHDF.body reader s g
            = some { ok := true, index := some i, rgbo := c,
                     tissueInfosVector := s.tissueInfosVector.set i.toNat (hdfRecord g c) } := by
          unfold LoadTissuesHDF.body
          rw [if_neg h1, if_neg h2]
          simp only [guardedRead, hok, hi, hc, if_true, Option.map_some']
          rw [if_pos ⟨by omega, hilt⟩]
          rfl
        obtain ⟨s', hf, hok', hlen', ht, hp, hb1, hb2⟩ :=
          ih { ok := true, index := some i, rgbo := c,
               tissueInfosVector := s.tissueInfosVector.set i.toNat (hdfRecord g c) } rfl
            (hreads' _ (by simp)) hinj' (by simpa using hne)
        simp only at hlen' ht hp hb1 hb2
        have hi0 : i.toNat ≠ 0 := by omega
        refine ⟨s', ?_, hok', ?_, ?_, ?_, ?_, ?_⟩
        · rw [List.foldlM_cons, hstep]; simpa using hf
        · rw [hlen']; simp
        · intro g' hg' hgt' i' c' hi' hc'
          rcases List.mem_cons.mp hg' with rfl | hmem
          · rw [hi] at hi'
            obtain rfl : i = i' := by simpa using hi'
            rw [hc] at hc'
            obtain rfl : c = c' := by simpa using hc'
            by_cases hex : ∃ g'' ∈ rest, isTissueGroup g'' = true ∧ reader.index g'' = some i
            · obtain ⟨g'', hg'', hgt'', hi''⟩ := hex
              have : g' = g'' := hinj g' (by simp) g'' (by simp [hg'']) hgt hgt''
                (by rw [hi, hi''])
              subst this
              exact ht g' hg'' hgt i c hi hc
            · have hnone : ∀ g'' ∈ rest, isTissueGroup g'' = true →
                  reader.index g'' ≠ some ((i.toNat : Nat) : Int) := by
                intro g'' hg'' hgt'' hidx
                apply hex
                refine ⟨g'', hg'', hgt'', ?_⟩
                rw [hidx]
                congr 1
                omega
              rw [hp i.toNat (by omega) hnone]
              exact List.getElem?_set_self hilt
          · exact ht g' hmem hgt' i' c' hi' hc'
        · intro p hp1 hnone
          rw [hp p hp1 (fun g' hg' => hnone g' (by simp [hg']))]
          have hpi : i.toNat ≠ p := by
            intro he
            apply hnone g (by simp) hgt
            rw [hi]
            congr 1
            omega
          exact List.getElem?_set_ne hpi
        · rintro ⟨g', hg', hv', hb'⟩ c' hc'
          have hmem : g' ∈ rest := by
            rcases List.mem_cons.mp hg' with rfl | hmem
            · exact absurd hb' h2
            · exact hmem
          rw [hb1 ⟨g', hmem, hv', hb'⟩ c' hc']
          rw [List.getElem?_set_ne hi0]
        · intro hnone
          rw [hb2 (fun ⟨g', hg', hx⟩ => hnone ⟨g', by simp [hg'], hx⟩)]
          exact List.getElem?_set_ne hi0
theorem Placed_unique (reader reader' : HDF5Reader) (groups groups' : List (List Byte))
    (before vec vec' : List TissueInfo)
    (hidx : reader'.index = reader.index) (hrgbo : reader'.rgbo = reader.rgbo)
    (hbk : reader'.bkg_rgbo = reader.bkg_rgbo)
    (c0 : CFloat × CFloat × CFloat × CFloat) (hbkg : reader.bkg_rgbo = some c0)
    (hmem : ∀ g, g ∈ groups' ↔ g ∈ groups)
    (hreads : ∀ g ∈ groups, isTissueGroup g = true → ∃ i c, reader.index g = some i ∧
      reader.rgbo g = some c ∧ 1 ≤ i)
    (h : LoadTissuesHDF.Placed reader groups before vec)
    (h' : LoadTissuesHDF.Placed reader' groups' before vec') : vec = vec' := by
  obtain ⟨hl, ht, hp, hb1, hb2⟩ := h
  obtain ⟨hl', ht', hp', hb1', hb2'⟩ := h'
  rw [hidx, hrgbo] at ht'
  rw [hidx] at hp'
  rw [hbk] at hb1'
  apply List.ext_getElem?
  intro p
  by_cases hp0 : p = 0
  · subst hp0
    by_cases hex : ∃ g ∈ groups, cString g ≠ strVersion ∧ cString g = strBkgRgbo
    · have hex' : ∃ g ∈ groups', cString g ≠ strVersion ∧ cString g = strBkgRgbo := by
        obtain ⟨g, hg, hx⟩ := hex
        exact ⟨g, (hmem g).mpr hg, hx⟩
      rw [hb1 hex c0 hbkg, hb1' hex' c0 hbkg]
    · have hex' : ¬ ∃ g ∈ groups', cString g ≠ strVersion ∧ cString g = strBkgRgbo := by
        rintro ⟨g, hg, hx⟩
        exact hex ⟨g, (hmem g).mp hg, hx⟩
      rw [hb2 hex, hb2' hex']
  · by_cases hex : ∃ g ∈ groups, isTissueGroup g = true ∧ reader.index g = some (p : Int)
    · obtain ⟨g, hg, hgt, hi⟩ := hex
      obtain ⟨i, c, hi', hc, _⟩ := hreads g hg hgt
      have e1 := ht g hg hgt _ c hi hc
      have e2 := ht' g ((hmem g).mpr hg) hgt _ c hi hc
      simp only [Int.toNat_ofNat] at e1 e2
      rw [e1, e2]
    · have hn : ∀ g ∈ groups, isTissueGroup g = true → reader.index g ≠ some (p : Int) :=
        fun g hg hgt hi => hex ⟨g, hg, hgt, hi⟩
      have hn' : ∀ g ∈ groups', isTissueGroup g = true → reader.index g ≠ some (p : Int) :=
        fun g hg hgt hi => hex ⟨g, (hmem g).mp hg, hgt, hi⟩
      rw [hp p (by omega) hn, hp' p (by omega) hn']

theorem LoadTissuesHDF_placed (P : Platform) (reader : HDF5Reader) (st : TissueInfos)
    (c0 : CFloat × CFloat × CFloat × CFloat) (n : Nat)
    (hopen : reader.opens = true) (hbkg : reader.bkg_rgbo = some c0)
    (hsize : reader.groupInfo.length < 2 ^ 64)
    (hcount : reader.groupInfo.length = n + 2)
    (hpos : 1 ≤ n) (hfit : n + 1 ≤ TISSUES_SIZE_MAX P)
    (hreads : ∀ g ∈ reader.groupInfo, isTissueGroup g = true → ∃ i c,
      reader.index g = some i ∧ reader.rgbo g = some c ∧ 1 ≤ i ∧ i ≤ (n : Int))
    (hinj : ∀ g ∈ reader.groupInfo, ∀ g' ∈ reader.groupInfo, isTissueGroup g = true →
      isTissueGroup g' = true → reader.index g = reader.index g' → g = g') :
    ∃ vec m, LoadTissuesHDF P reader st
        = some (true, { tissueInfosVector := vec, tissueTypeMap := m }) ∧
      LoadTissuesHDF.Placed reader reader.groupInfo
        (List.replicate (n + 1) P.defaultInfo) vec ∧
      CreateTissueTypeMap P { tissueInfosVector := vec, tissueTypeMap := st.tissueTypeMap }
        = some { tissueInfosVector := vec, tissueTypeMap := m } := by
  have hM := modulus_pos P
  have htc : ((reader.groupInfo.length + 2 ^ 64 - 2) % 2 ^ 64) % P.modulus = n := by
    have e : reader.groupInfo.length + 2 ^ 64 - 2 = n + 2 ^ 64 := by omega
    have h64 : n < 2 ^ 64 := by omega
    rw [e, Nat.add_mod_right, Nat.mod_eq_of_lt h64]
    apply Nat.mod_eq_of_lt
    unfold TISSUES_SIZE_MAX at hfit
    omega
  have hinit : LoadTissuesHDF.initialVector P reader.groupInfo.length
      = List.replicate (n + 1) P.defaultInfo := by
    unfold LoadTissuesHDF.initialVector
    simp only [htc, if_neg (show ¬ n = 0 by omega)]
  obtain ⟨s', hfold, hok', hplaced⟩ := foldlM_body_placed reader reader.groupInfo
    { ok := true, index := none, rgbo := (CFloat.zero, CFloat.zero, CFloat.zero, CFloat.zero),
      tissueInfosVector := List.replicate (n + 1) P.defaultInfo }
    rfl c0 hbkg
    (by
      intro g hg hgt
      obtain ⟨i, c, hi, hc, h1, h2⟩ := hreads g hg hgt
      refine ⟨i, c, hi, hc, h1, ?_⟩
      simp only [List.length_replicate]
      omega)
    hinj (by simp only [List.length_replicate]; omega)
  simp only at hplaced
  have hlen : s'.tissueInfosVector.length = n + 1 := by
    rw [hplaced.1, List.length_replicate]
  obtain ⟨m, hm, _⟩ := CreateTissueTypeMap_spec P
    { tissueInfosVector := s'.tissueInfosVector, tissueTypeMap := st.tissueTypeMap }
    (by simp only; omega) (by simp only; omega)
  refine ⟨s'.tissueInfosVector, m, ?_, hplaced, hm⟩
  unfold LoadTissuesHDF
  rw [if_pos hopen, hinit, hfold]
  simp only [Option.pure_def, Option.bind_eq_bind, Option.some_bind, hm, hok']

/-- C15 as stated fails.  The code sizes the catalog by the number of enumerated names minus
two, not by the largest stored index: with the groups "version", "bkg_rgbo", "A", "B", both
of stored index 1, the catalog gets three records although the largest index plus one is two
(and "A" is overwritten by "B"); with the groups "version", "bkg_rgbo", "A", the stored
index 5 of "A" is not a position of the two-record catalog, so the write has no defined
result; and with the two names "version" and "bkg_rgbo" alone the catalog gets two records,
not the number of names minus two, plus one. -/
theorem LoadTissuesHDF_size_counterexample :
    (LoadTissuesHDF P16 readerSameIndex liveA).map
        (fun r => r.2.tissueInfosVector.map (fun t => t.name)) = some [[], nameB, []] ∧
    LoadTissuesHDF P16 readerIndexFive liveA = none ∧
    (LoadTissuesHDF P16 (readerOnly [strVersion, strBkgRgbo]) liveA).map
        (fun r => r.2.tissueInfosVector.length) = some 2 := by
  decide

/-- C15, amended. When the file opens, exactly two of the names enumerated under "/Tissues"
are not tissue groups and at least one is, the tissue groups plus the background fit the
tissue id type, every read succeeds, and the stored indices of the tissue groups are
pairwise different and lie between 1 and the number of tissue groups, `LoadTissuesHDF`
returns true with a catalog of the number of enumerated names minus two, plus one, records
(one per tissue group plus the background), each tissue group's name and rgbo stand at the
position of its stored index, and the result is the same for every order in which the names
are enumerated. -/
theorem LoadTissuesHDF_places_by_index (P : Platform) (reader : HDF5Reader)
    (st : TissueInfos) (c0 : CFloat × CFloat × CFloat × CFloat)
    (hopen : reader.opens = true) (hbkg : reader.bkg_rgbo = some c0)
    (hsize : reader.groupInfo.length < 2 ^ 64)
    (hcount : reader.groupInfo.length = (reader.groupInfo.filter isTissueGroup).length + 2)
    (hpos : 1 ≤ (reader.groupInfo.filter isTissueGroup).length)
    (hfit : (reader.groupInfo.filter isTissueGroup).length + 1 ≤ TISSUES_SIZE_MAX P)
    (hreads : ∀ g ∈ reader.groupInfo, isTissueGroup g = true → ∃ i c,
      reader.index g = some i ∧ reader.rgbo g = some c ∧ 1 ≤ i ∧
      i ≤ ((reader.groupInfo.filter isTissueGroup).length : Int))
    (hinj : ∀ g ∈ reader.groupInfo, ∀ g' ∈ reader.groupInfo, isTissueGroup g = true →
      isTissueGroup g' = true → reader.index g = reader.index g' → g = g') :
    ∃ st', LoadTissuesHDF P reader st = some (true, st') ∧
      st'.tissueInfosVector.length = reader.groupInfo.length - 2 + 1 ∧
      (∀ g ∈ reader.groupInfo, isTissueGroup g = true → ∀ i c, reader.index g = some i →
        reader.rgbo g = some c → st'.tissueInfosVector[i.toNat]? = some (hdfRecord g c)) ∧
      (∀ groups', groups'.Perm reader.groupInfo →
        LoadTissuesHDF P { reader with groupInfo := groups' } st = some (true, st')) := by
  obtain ⟨vec, m, hres, hplaced, hcm⟩ := LoadTissuesHDF_placed P reader st c0 _ hopen hbkg
    hsize hcount hpos hfit hreads hinj
  refine ⟨_, hres, ?_, hplaced.2.1, ?_⟩
  · simp only [hplaced.1, List.length_replicate, hcount]
    omega
  · intro groups' hperm
    have hmem : ∀ g, g ∈ groups' ↔ g ∈ reader.groupInfo := fun g => hperm.mem_iff
    have hflen : (groups'.filter isTissueGroup).length
        = (reader.groupInfo.filter isTissueGroup).length := (hperm.filter _).length_eq
    obtain ⟨vec', m', hres', hplaced', hcm'⟩ := LoadTissuesHDF_placed P
      { reader with groupInfo := groups' } st c0
      (reader.groupInfo.filter isTissueGroup).length hopen hbkg
      (by simp only; rw [hperm.length_eq]; exact hsize)
      (by simp only; rw [hperm.length_eq]; exact hcount)
      hpos hfit
      (fun g hg => hreads g ((hmem g).mp hg))
      (fun g hg g' hg' => hinj g ((hmem g).mp hg) g' ((hmem g').mp hg'))
    have hvec : vec = vec' := Placed_unique reader { reader with groupInfo := groups' }
      reader.groupInfo groups' _ vec vec' rfl rfl rfl c0 hbkg hmem
      (by
        intro g hg hgt
        obtain ⟨i, c, hi, hc, h1, _⟩ := hreads g hg hgt
        exact ⟨i, c, hi, hc, h1⟩)
      hplaced hplaced'
    subst hvec
    rw [hcm] at hcm'
    have hmm : m = m' := by simpa using hcm'
    subst hmm
    exact hres'

set_option maxRecDepth 100000 in
/-- Instance of the amended C15: the names "B", "version", "A", "bkg_rgbo" with the stored
indices 1 for "A" and 2 for "B" give the catalog [background, A, B]. -/
theorem LoadTissuesHDF_places_by_index_witness :
    (readerBA.groupInfo.length = (readerBA.groupInfo.filter isTissueGroup).length + 2) ∧
    ∃ st', LoadTissuesHDF P16 readerBA liveA = some (true, st') ∧
      st'.tissueInfosVector.length = 3 ∧
      st'.tissueInfosVector[1]? = some (hdfRecord nameA rgboRed) ∧
      st'.tissueInfosVector[2]? = some (hdfRecord nameB rgboRed) ∧
      LoadTissuesHDF P16
        { readerBA with groupInfo := [strVersion, strBkgRgbo, nameA, nameB] } liveA
        = some (true, st') := by
  have hreads : ∀ g ∈ readerBA.groupInfo, isTissueGroup g = true → ∃ i c,
      readerBA.index g = some i ∧ readerBA.rgbo g = some c ∧ 1 ≤ i ∧
      i ≤ ((readerBA.groupInfo.filter isTissueGroup).length : Int) := by
    intro g hg hgt
    have hg' : g = nameB ∨ g = strVersion ∨ g = nameA ∨ g = strBkgRgbo := by
      simpa [readerBA] using hg
    rcases hg' with rfl | rfl | rfl | rfl
    · exact ⟨2, rgboRed, by decide, rfl, by decide, by decide⟩
    · exact absurd hgt (by decide)
    · exact ⟨1, rgboRed, by decide, rfl, by decide, by decide⟩
    · exact absurd hgt (by decide)
  have hinj : ∀ g ∈ readerBA.groupInfo, ∀ g' ∈ readerBA.groupInfo, isTissueGroup g = true →
      isTissueGroup g' = true → readerBA.index g = readerBA.index g' → g = g' := by
    decide
  obtain ⟨st', hres, hlen, hrec, hperm⟩ :=
    LoadTissuesHDF_places_by_index P16 readerBA liveA rgboRed rfl rfl (by decide) (by decide)
      (by decide) (by decide) hreads hinj
  refine ⟨by decide, st', hres, hlen, ?_, ?_, ?_⟩
  · exact hrec nameA (by decide) (by decide) 1 rgboRed (by decide) rfl
  · exact hrec nameB (by decide) (by decide) 2 rgboRed (by decide) rfl
  · exact hperm [strVersion, strBkgRgbo, nameA, nameB] (by decide)

/-! ## Text tables: the row scan (C12, C13, C14) -/

theorem skipSpace_length_le (fp : List Byte) : (skipSpace fp).length ≤ fp.length :=
  (List.dropWhile_sublist isspace).length_le

theorem dropWhile_isdigit_length (body : List Byte) (hb : body.takeWhile isdigit ≠ []) :
    (body.dropWhile isdigit).length < body.length := by
  cases body with
  | nil => exact absurd rfl hb
  | cons d body =>
    by_cases hdig : isdigit d = true
    · rw [List.dropWhile_cons_of_pos hdig]
      have := (List.dropWhile_sublist isdigit (l := body)).length_le
      simp only [List.length_cons]
      omega
    · exact absurd (by simp [List.takeWhile, hdig]) hb

theorem scanDecimal_spec (fp : List Byte) :
    (∃ fp1, scanDecimal fp = .inputFailure fp1 ∧ skipSpace fp = [] ∧ fp1 = []) ∨
    (∃ fp1, scanDecimal fp = .matchingFailure fp1 ∧ fp1.length ≤ fp.length ∧
      skipSpace fp ≠ []) ∨
    (∃ x fp1, scanDecimal fp = .assigned x fp1 ∧ fp1.length < fp.length) := by
  have hs := skipSpace_length_le fp
  unfold scanDecimal
  cases hskip : skipSpace fp with
  | nil => exact Or.inl ⟨[], rfl, rfl, rfl⟩
  | cons c rest =>
    rw [hskip] at hs
    simp only [List.length_cons] at hs
    have hbody : (if c.val = 43 ∨ c.val = 45 then rest else c :: rest).length
        ≤ rest.length + 1 := by
      split
      · omega
      · simp
    simp only
    by_cases hd : (if c.val = 43 ∨ c.val = 45 then rest else c :: rest).takeWhile isdigit = []
    · rw [if_pos hd]
      exact Or.inr (Or.inl ⟨_, rfl, by omega, by simp⟩)
    · rw [if_neg hd]
      have := dropWhile_isdigit_length _ hd
      exact Or.inr (Or.inr ⟨_, _, rfl, by omega⟩)

theorem scanInt_assigned (fp fp1 : List Byte) (x : Int)
    (h : scanInt fp = some (.assigned x fp1)) :
    fp1.length < fp.length ∧ -2 ^ 31 ≤ x ∧ x < 2 ^ 31 := by
  unfold scanInt at h
  rcases scanDecimal_spec fp with ⟨fp2, h2, _⟩ | ⟨fp2, h2, _⟩ | ⟨y, fp2, h2, hlen⟩
  · rw [h2] at h
    exact absurd h (by simp)
  · rw [h2] at h
    exact absurd h (by simp)
  · rw [h2] at h
    obtain ⟨negative, digits⟩ := y
    dsimp only at h
    split_ifs at h
    all_goals
      simp only [Option.some.injEq, Conversion.assigned.injEq] at h
      obtain ⟨rfl, rfl⟩ := h
      exact ⟨hlen, by assumption⟩

theorem scanInt_failure_length (fp fp1 : List Byte)
    (h : scanInt fp = some (.matchingFailure fp1) ∨ scanInt fp = some (.inputFailure fp1)) :
    fp1.length ≤ fp.length := by
  unfold scanInt at h
  rcases scanDecimal_spec fp with ⟨fp2, h2, _, h3⟩ | ⟨fp2, h2, h3, _⟩ | ⟨y, fp2, h2, hlen⟩
  · rw [h2] at h
    simp only [Option.some.injEq, Conversion.inputFailure.injEq] at h
    rcases h with h | h
    · exact absurd h (by simp)
    · subst h
      subst h3
      simp
  · rw [h2] at h
    simp only [Option.some.injEq, Conversion.matchingFailure.injEq] at h
    rcases h with h | h
    · subst h
      exact h3
    · exact absurd h (by simp)
  · rw [h2] at h
    obtain ⟨negative, digits⟩ := y
    dsimp only at h
    rcases h with h | h <;> split_ifs at h <;> simp at h

theorem scanInt_eof (fp : List Byte) (h : skipSpace fp = []) :
    scanInt fp = some (.inputFailure []) := by
  unfold scanInt scanDecimal
  rw [h]

theorem scanString_length_le (fp fp1 : List Byte)
    (h : (∃ x, scanString fp = some (.assigned x fp1)) ∨
      scanString fp = some (.matchingFailure fp1) ∨
      scanString fp = some (.inputFailure fp1)) :
    fp1.length ≤ fp.length := by
  unfold scanString at h
  have hs := skipSpace_length_le fp
  cases hskip : skipSpace fp with
  | nil =>
    rw [hskip] at h
    simp only [Option.some.injEq, Conversion.inputFailure.injEq] at h
    rcases h with ⟨x, h⟩ | h | h
    · exact absurd h (by simp)
    · exact absurd h (by simp)
    · subst h
      simp
  | cons c0 rest =>
    rw [hskip] at h hs
    simp only at h
    have hdrop := (List.dropWhile_sublist (fun b => !isspace b) (l := c0 :: rest)).length_le
    split at h
    · simp only [Option.some.injEq, Conversion.assigned.injEq] at h
      rcases h with ⟨x, _, h⟩ | h | h
      · subst h
        omega
      · exact absurd h (by simp)
      · exact absurd h (by simp)
    · rcases h with ⟨x, h⟩ | h | h <;> exact absurd h (by simp)


theorem Tame_last : Tame (fun s => some { s with fp := skipSpace s.fp }) := by
  intro s s' hres h
  simp only [Option.some.injEq] at h
  subst h
  exact ⟨skipSpace_length_le _, rfl, hres⟩

theorem Tame_int (store : RowScan → Int → RowScan) (next : RowScan → Option RowScan)
    (hstore : ∀ s x, (store s x).currLabel = s.currLabel) (hnext : Tame next) :
    Tame (fun s => RowScan.int s store next) := by
  intro s s' hres h
  simp only [RowScan.int] at h
  cases hsi : scanInt s.fp with
  | none => rw [hsi] at h; exact absurd h (by simp)
  | some c =>
    rw [hsi] at h
    cases c with
    | assigned value fp1 =>
      simp only at h
      obtain ⟨h1, h2, h3⟩ := hnext _ _ (by simp only; omega) h
      simp only [hstore] at h1 h2
      exact ⟨by have := (scanInt_assigned _ _ _ hsi).1; omega, h2, h3⟩
    | matchingFailure fp1 =>
      simp only [Option.some.injEq] at h
      subst h
      exact ⟨scanInt_failure_length _ _ (Or.inl hsi), rfl, hres⟩
    | inputFailure fp1 =>
      simp only [Option.some.injEq] at h
      subst h
      refine ⟨scanInt_failure_length _ _ (Or.inr hsi), rfl, ?_⟩
      simp only
      rw [if_neg (by omega)]
      exact hres

theorem Tame_string (next : RowScan → Option RowScan) (hnext : Tame next) :
    Tame (fun s => RowScan.string s next) := by
  intro s s' hres h
  simp only [RowScan.string] at h
  cases hsi : scanString s.fp with
  | none => rw [hsi] at h; exact absurd h (by simp)
  | some c =>
    rw [hsi] at h
    cases c with
    | assigned value fp1 =>
      simp only at h
      obtain ⟨h1, h2, h3⟩ := hnext _ _ (by simp only; omega) h
      simp only at h1 h2
      exact ⟨by have := scanString_length_le _ _ (Or.inl ⟨_, hsi⟩); omega, h2, h3⟩
    | matchingFailure fp1 =>
      simp only [Option.some.injEq] at h
      subst h
      exact ⟨scanString_length_le _ _ (Or.inr (Or.inl hsi)), rfl, hres⟩
    | inputFailure fp1 =>
      simp only [Option.some.injEq] at h
      subst h
      exact ⟨scanString_length_le _ _ (Or.inr (Or.inr hsi)), rfl, hres⟩

/-- A call of the row scan that returns 1 or more has read a label that an `int` holds, and
has read at least one byte. -/
theorem fscanfRow_assigned (fp : List Byte) (s : RowScan) (h : fscanfRow fp = some s)
    (hres : 1 ≤ s.res) :
    s.fp.length < fp.length ∧
    ∃ x fp1, scanInt fp = some (.assigned x fp1) ∧ s.currLabel = some x ∧
      -2 ^ 31 ≤ x ∧ x < 2 ^ 31 := by
  have htame : Tame (fun s =>
      RowScan.string s fun s =>
      RowScan.int s (fun s x => { s with r := some x }) fun s =>
      RowScan.int s (fun s x => { s with g := some x }) fun s =>
      RowScan.int s (fun s x => { s with b := some x }) fun s =>
      RowScan.int s (fun s x => { s with a := some x }) fun s =>
      some { s with fp := skipSpace s.fp }) :=
    Tame_string _ (Tame_int _ _ (fun _ _ => rfl) (Tame_int _ _ (fun _ _ => rfl)
      (Tame_int _ _ (fun _ _ => rfl) (Tame_int _ _ (fun _ _ => rfl) Tame_last))))
  unfold fscanfRow at h
  simp only [RowScan.int] at h
  cases hsi : scanInt fp with
  | none => rw [hsi] at h; exact absurd h (by simp)
  | some c =>
    rw [hsi] at h
    cases c with
    | assigned value fp1 =>
      simp only at h
      obtain ⟨h1, h2, h3⟩ := htame _ _ (by simp only; omega) h
      simp only at h1 h2
      obtain ⟨hlen, hr⟩ := scanInt_assigned _ _ _ hsi
      exact ⟨by omega, value, fp1, rfl, h2, hr⟩
    | matchingFailure fp1 =>
      simp only [Option.some.injEq] at h
      subst h
      simp only at hres
      omega
    | inputFailure fp1 =>
      simp only [Option.some.injEq] at h
      subst h
      simp only [EOF] at hres
      omega

theorem fscanfRow_eof (fp : List Byte) (h : skipSpace fp = []) :
    fscanfRow fp = some ⟨EOF, none, none, none, none, none, none, []⟩ := by
  unfold fscanfRow
  simp only [RowScan.int, scanInt_eof fp h]
  rfl

theorem scanDecimal_other (c : Byte) (rest : List Byte) (h1 : isspace c = false)
    (h2 : ¬ (c.val = 43 ∨ c.val = 45)) (h3 : isdigit c = false) :
    scanDecimal (c :: rest) = .matchingFailure (c :: rest) := by
  unfold scanDecimal skipSpace
  rw [List.dropWhile_cons_of_neg (by simp [h1])]
  simp only [if_neg h2]
  rw [List.takeWhile_cons_of_neg (by simp [h3])]
  simp

/-- An input on which the row scan assigns its first item does not start with the letter of
a header. -/
theorem fscanfHeader_of_label (fp fp1 : List Byte) (x : Int)
    (h : scanInt fp = some (.assigned x fp1)) :
    fscanfHeader 86 fp = some none ∧ fscanfHeader 78 fp = some none := by
  cases fp with
  | nil => exact ⟨rfl, rfl⟩
  | cons c rest =>
    have hne : ∀ letter : Byte, letter = 86 ∨ letter = 78 → c ≠ letter := by
      intro letter hl hc
      subst hc
      rcases hl with rfl | rfl
      · rw [scanInt, scanDecimal_other _ _ (by decide) (by decide) (by decide)] at h
        simp at h
      · rw [scanInt, scanDecimal_other _ _ (by decide) (by decide) (by decide)] at h
        simp at h
    unfold fscanfHeader
    simp only [if_neg (hne 86 (Or.inl rfl)), if_neg (hne 78 (Or.inr rfl)), and_self]

theorem assign_scan (v : LoadTissuesReadable.Fields) (row : Row) (fp : List Byte) :
    v.assign (row.scan fp) = row.fields := rfl

theorem TableFile_row_length (fp rest : List Byte) (row : Row)
    (h : fscanfRow fp = some (row.scan rest)) : rest.length < fp.length :=
  (fscanfRow_assigned fp _ h (by simp [Row.scan])).1

theorem TableFile_row_label (fp rest : List Byte) (row : Row)
    (h : fscanfRow fp = some (row.scan rest)) : -2 ^ 31 ≤ row.label ∧ row.label < 2 ^ 31 := by
  obtain ⟨_, x, fp1, _, hx, hr⟩ := fscanfRow_assigned fp _ h (by simp [Row.scan])
  simp only [Row.scan, Option.some.injEq] at hx
  rw [hx]
  exact hr

theorem TableFile_header (fp : List Byte) (row : Row) (rows : List Row)
    (h : TableFile fp (row :: rows)) :
    fscanfHeader 86 fp = some none ∧ fscanfHeader 78 fp = some none := by
  cases h with
  | row _ rest _ _ hrow _ =>
    obtain ⟨_, x, fp1, hx, _⟩ := fscanfRow_assigned fp _ hrow (by simp [Row.scan])
    exact fscanfHeader_of_label fp fp1 x hx

theorem assign_eof (v : LoadTissuesReadable.Fields) :
    v.assign ⟨EOF, none, none, none, none, none, none, []⟩ = v := rfl

/-- Detection on an input whose first call of the row scan reads a whole row: the loop ends
after that call, and the row alone decides. -/
theorem detect_row (fp rest : List Byte) (row : Row)
    (h : fscanfRow fp = some (row.scan rest)) :
    detect fp = some (chainedEq row.fields && decide (cString row.name = strUnknown),
      row.fields, rest) := by
  unfold detect
  rw [detect.loop]
  simp only [h, Option.pure_def, Option.bind_eq_bind, Option.some_bind, assign_scan]
  cases hc : chainedEq row.fields <;> simp [Row.scan, Row.fields, EOF]

theorem nextTissue_eof (fuel : Nat) (v : Fields) (fp : List Byte) (h : skipSpace fp = []) :
    nextTissue.loop (fuel + 1) v fp = some (v, []) := by
  rw [nextTissue.loop]
  simp only [fscanfRow_eof fp h, Option.pure_def, Option.bind_eq_bind, Option.some_bind,
    assign_eof]
  simp

theorem nextTissue_row (fuel : Nat) (v : Fields) (fp rest : List Byte) (row : Row)
    (h : fscanfRow fp = some (row.scan rest)) :
    nextTissue.loop (fuel + 1) v fp = some (row.fields, rest) := by
  rw [nextTissue.loop]
  simp only [h, Option.pure_def, Option.bind_eq_bind, Option.some_bind, assign_scan]
  simp [Row.scan]

theorem firstTissue_only (fuel : Nat) (v : Fields) (fp rest : List Byte) (row0 : Row)
    (h : fscanfRow fp = some (row0.scan rest)) (h0 : row0.label = 0)
    (hrest : skipSpace rest = []) (hfuel : fp.length < fuel) :
    firstTissue.loop fuel v fp = some (row0.fields, []) := by
  have hlen := TableFile_row_length fp rest row0 h
  obtain ⟨fuel, rfl⟩ : ∃ f, fuel = f + 2 := ⟨fuel - 2, by omega⟩
  rw [firstTissue.loop]
  simp only [h, Option.pure_def, Option.bind_eq_bind, Option.some_bind, assign_scan]
  have hcont : (row0.scan rest).res ≠ EOF ∧
      ((row0.scan rest).res ≠ 6 ∨ row0.fields.currLabel = 0) := by
    simp [Row.scan, Row.fields, h0, EOF]
  rw [if_pos hcont, firstTissue.loop]
  simp only [Row.scan, fscanfRow_eof rest hrest, Option.pure_def, Option.bind_eq_bind,
    Option.some_bind, assign_eof]
  simp

theorem firstTissue_second (fuel : Nat) (v : Fields) (fp rest rest1 : List Byte)
    (row0 row1 : Row)
    (h : fscanfRow fp = some (row0.scan rest)) (h0 : row0.label = 0)
    (h1 : fscanfRow rest = some (row1.scan rest1)) (hne : row1.label ≠ 0)
    (hfuel : fp.length < fuel) :
    firstTissue.loop fuel v fp = some (row1.fields, rest1) := by
  have hlen := TableFile_row_length fp rest row0 h
  obtain ⟨fuel, rfl⟩ : ∃ f, fuel = f + 2 := ⟨fuel - 2, by omega⟩
  rw [firstTissue.loop]
  simp only [h, Option.pure_def, Option.bind_eq_bind, Option.some_bind, assign_scan]
  have hcont : (row0.scan rest).res ≠ EOF ∧
      ((row0.scan rest).res ≠ 6 ∨ row0.fields.currLabel = 0) := by
    simp [Row.scan, Row.fields, h0, EOF]
  rw [if_pos hcont, firstTissue.loop]
  simp only [Row.scan] at h1 ⊢
  simp only [h1, Option.pure_def, Option.bind_eq_bind, Option.some_bind]
  have hstop : ¬ ((6 : Int) ≠ EOF ∧ ((6 : Int) ≠ 6 ∨
      (Fields.assign row0.fields (row1.scan rest1)).currLabel = 0)) := by
    simp [assign_scan, Row.fields, hne]
  simp only [Row.scan] at hstop
  rw [if_neg hstop]
  rfl

theorem TableFile_labels (fp : List Byte) (rows : List Row) (h : TableFile fp rows) :
    ∀ row ∈ rows, -2 ^ 31 ≤ row.label ∧ row.label < 2 ^ 31 := by
  induction h with
  | done fp h => intro row hr; cases hr
  | row fp rest row rows h _ ih =>
    intro r hr
    rcases List.mem_cons.mp hr with rfl | hr
    · exact TableFile_row_label fp rest _ h
    · exact ih r hr

/-- The loop of lines 785-792 on a table: it ends at the end of the input, and every row
takes part in `labelMax`. -/
theorem largestLabel_table (P : Platform) (fp : List Byte) (rows : List Row)
    (h : TableFile fp rows) :
    ∀ (fuel labelMax : Nat) (v : Fields), fp.length < fuel →
      ∃ v', largestLabel.loop P fuel labelMax v fp
        = some (rows.foldl (fun m row =>
            ((max (toInt32 (m % 2 ^ 32)) row.label) % (P.modulus : Int)).toNat) labelMax,
          v') := by
  induction h with
  | done fp h =>
    intro fuel labelMax v hfuel
    obtain ⟨fuel, rfl⟩ : ∃ f, fuel = f + 1 := ⟨fuel - 1, by omega⟩
    rw [largestLabel.loop]
    simp only [fscanfRow_eof fp h, Option.pure_def, Option.bind_eq_bind, Option.some_bind,
      assign_eof]
    exact ⟨v, by simp⟩
  | row fp rest row rows h _ ih =>
    intro fuel labelMax v hfuel
    have hlen := TableFile_row_length fp rest row h
    obtain ⟨fuel, rfl⟩ : ∃ f, fuel = f + 1 := ⟨fuel - 1, by omega⟩
    rw [largestLabel.loop]
    simp only [h, Option.pure_def, Option.bind_eq_bind, Option.some_bind, assign_scan]
    have hres : (row.scan rest).res ≠ EOF := by simp [Row.scan, EOF]
    have h6 : (row.scan rest).res = 6 := rfl
    rw [if_pos hres, if_pos h6]
    obtain ⟨v', hv'⟩ := ih fuel
      ((max (toInt32 (labelMax % 2 ^ 32)) row.fields.currLabel % (P.modulus : Int)).toNat)
      row.fields (by show rest.length < fuel; omega)
    exact ⟨v', hv'⟩

theorem labelIsNext_eq (P : Platform) (l : Int) (n : Nat) (h0 : 0 ≤ l)
    (hl : l ≤ TISSUES_SIZE_MAX P) (hn : n + 1 ≤ TISSUES_SIZE_MAX P) :
    labelIsNext P l n = decide (l = (n : Int) + 1) := by
  have hM := modulus_pos P
  unfold labelIsNext
  split
  · rfl
  · have h1 : l % (P.modulus : Int) = l := by
      apply Int.emod_eq_of_lt h0
      unfold TISSUES_SIZE_MAX at hl
      omega
    have h2 : ((n : Int) + 1) % (P.modulus : Int) = (n : Int) + 1 := by
      apply Int.emod_eq_of_lt (by omega)
      unfold TISSUES_SIZE_MAX at hn
      omega
    rw [h1, h2]

theorem Built_snoc (lib : CLibrary) (rows : List Row) (n : Nat) (vec : List TissueInfo)
    (x : TissueInfo) (hlen : vec.length = n) (h : Built lib rows n vec)
    (hrow : ∀ row ∈ rows, row.label = ((n + 1 : Nat) : Int) →
      x = tableRecord lib row.fields row.name)
    (hdummy : (∀ row ∈ rows, row.label ≠ ((n + 1 : Nat) : Int)) →
      ∃ j name, j + (rows.filter (fun row => decide (row.label < ((n + 1 : Nat) : Int)))).length
          = n + 1 ∧
        lib.formatDummy j = some name ∧ x = dummyRecord lib (3 * (j - 1)) name) :
    Built lib rows (n + 1) (vec ++ [x]) := by
  intro k hk1 hk2
  by_cases hk : k ≤ n
  · have hget : (vec ++ [x])[k - 1]? = vec[k - 1]? :=
      List.getElem?_append_left (by omega)
    rw [hget]
    exact h k hk1 hk
  · have hkn : k = n + 1 := by omega
    subst hkn
    have hget : (vec ++ [x])[n + 1 - 1]? = some x := by
      rw [Nat.add_sub_cancel, ← hlen]
      simp
    rw [hget]
    constructor
    · intro row hr hl
      rw [hrow row hr hl]
    · intro hno
      obtain ⟨j, name, h1, h2, h3⟩ := hdummy hno
      exact ⟨j, name, h1, h2, by rw [h3]⟩

/-- Rows in ascending order of their labels, all above `a` and at most `b`, are at most
`b - a` rows. -/
theorem sorted_labels_length (rows : List Row) (a b : Int) (hab : a ≤ b)
    (hsorted : rows.Pairwise (fun x y => x.label < y.label))
    (hlo : ∀ row ∈ rows, a < row.label) (hhi : ∀ row ∈ rows, row.label ≤ b) :
    (rows.length : Int) ≤ b - a := by
  induction rows generalizing a with
  | nil => simp only [List.length_nil, Nat.cast_zero]; omega
  | cons row rest ih =>
    have h1 := hlo row (List.mem_cons_self _ _)
    have h2 := hhi row (List.mem_cons_self _ _)
    have hp := List.pairwise_cons.mp hsorted
    have := ih row.label h2 hp.2 (fun r hr => hp.1 r hr)
      (fun r hr => hhi r (List.mem_cons_of_mem _ hr))
    simp only [List.length_cons, Nat.cast_add, Nat.cast_one]
    omega

theorem build_step (P : Platform) (lib : CLibrary) (rows : List Row) (M n : Nat)
    (hsorted : rows.Pairwise (fun x y => x.label < y.label))
    (hpos : ∀ row ∈ rows, 1 ≤ row.label)
    (hM : ∀ row ∈ rows, row.label ≤ (M : Int))
    (hMmem : ∃ row ∈ rows, row.label = (M : Int))
    (hfit : M ≤ TISSUES_SIZE_MAX P)
    (hfmt : ∀ j, 1 ≤ j → j + rows.length ≤ M → ∃ name, lib.formatDummy j = some name)
    (hn : n < M) (s : Build) (hinv : BuildInv lib rows n s) :
    ∃ s', build.body P lib s n = some s' ∧ BuildInv lib rows (n + 1) s' := by
  have hMod := modulus_pos P
  obtain ⟨used, pending, hrows, hused, hpend, hlen, hdummy, hrand, hbuilt, hnext⟩ := hinv
  obtain ⟨rM, hrM, hrMl⟩ := hMmem
  have hpne : pending ≠ [] := by
    intro hp
    subst hp
    rw [List.append_nil] at hrows
    subst hrows
    have := hused rM hrM
    omega
  obtain ⟨row, rest, rfl⟩ := List.exists_cons_of_ne_nil hpne
  obtain ⟨hv, htab⟩ := hnext row rest rfl
  have hrowmem : row ∈ rows := by rw [hrows]; simp
  have hrowgt := hpend row (by simp)
  have hrowle := hM row hrowmem
  have hrestgt : ∀ r ∈ rest, row.label < r.label := by
    rw [hrows] at hsorted
    exact (List.pairwise_cons.mp (List.pairwise_append.mp hsorted).2.1).1
  have hnext_eq : labelIsNext P s.v.currLabel n = decide (row.label = (n : Int) + 1) := by
    rw [hv]
    exact labelIsNext_eq P row.label n (by omega) (by show row.label ≤ _; omega) (by omega)
  unfold build.body
  rw [hnext_eq]
  by_cases hcase : row.label = (n : Int) + 1
  · rw [decide_eq_true hcase]
    simp only [↓reduceIte, hv, Row.fields, Option.pure_def, Option.bind_eq_bind,
      Option.some_bind]
    have hnt : ∃ v' fp', nextTissue.loop (s.fp.length + 1) row.fields s.fp = some (v', fp') ∧
        ∀ row' rest', rest = row' :: rest' → v' = row'.fields ∧ TableFile fp' rest' := by
      cases htab with
      | done _ h =>
        exact ⟨_, _, nextTissue_eof _ _ _ h, fun row' rest' hc => by cases hc⟩
      | row _ rest2 row2 rows2 h t =>
        refine ⟨_, _, nextTissue_row _ _ _ _ _ h, ?_⟩
        intro row' rest' hc
        simp only [List.cons.injEq] at hc
        obtain ⟨rfl, rfl⟩ := hc
        exact ⟨rfl, t⟩
    obtain ⟨v', fp', hloop, hafter⟩ := hnt
    simp only [Row.fields] at hloop
    rw [hloop]
    simp only [Option.some_bind]
    refine ⟨_, rfl, used ++ [row], rest, ?_, ?_, ?_, ?_, ?_, ?_, ?_, ?_⟩
    · rw [hrows]; simp
    · intro r hr
      rcases List.mem_append.mp hr with hr | hr
      · have := hused r hr
        push_cast
        omega
      · simp only [List.mem_singleton] at hr
        subst hr
        push_cast
        omega
    · intro r hr
      have := hrestgt r hr
      push_cast
      omega
    · simp [hlen]
    · simp only [List.length_append, List.length_singleton]
      omega
    · simp only [List.length_append, List.length_singleton]
      omega
    · apply Built_snoc lib rows n _ _ hlen hbuilt
      · intro r hr hl
        have hrr : r = row := by
          rw [hrows] at hr
          rcases List.mem_append.mp hr with hr | hr
          · have := hused r hr
            push_cast at hl
            omega
          · rcases List.mem_cons.mp hr with hr | hr
            · exact hr
            · have := hrestgt r hr
              push_cast at hl
              omega
        subst hrr
        rfl
      · intro hno
        exact absurd (by push_cast; exact hcase) (hno row hrowmem)
    · exact hafter
  · rw [decide_eq_false hcase]
    simp only [Bool.false_eq_true, ↓reduceIte, Option.pure_def, Option.bind_eq_bind]
    have hsplit := List.pairwise_append.mp (hrows ▸ hsorted)
    have hulen := sorted_labels_length used 0 n (by omega) hsplit.1
      (fun r hr => by
        have := hpos r (by rw [hrows]; exact List.mem_append_left _ hr)
        omega)
      hused
    have hplen := sorted_labels_length (row :: rest) ((n : Int) + 1) M (by omega) hsplit.2.1
      (fun r hr => by
        rcases List.mem_cons.mp hr with hr | hr
        · subst hr; omega
        · have := hrestgt r hr
          omega)
      (fun r hr => hM r (by rw [hrows]; exact List.mem_append_right _ hr))
    have hrl : rows.length = used.length + (row :: rest).length := by
      rw [hrows, List.length_append]
    obtain ⟨name, hname⟩ := hfmt s.dummyIdx (by omega) (by omega)
    rw [hname]
    simp only [Option.some_bind]
    have hwrap : (s.dummyIdx + 1) % P.modulus = s.dummyIdx + 1 := by
      apply Nat.mod_eq_of_lt
      unfold TISSUES_SIZE_MAX at hfit
      omega
    refine ⟨_, rfl, used, row :: rest, hrows, ?_, ?_, ?_, ?_, ?_, ?_, ?_⟩
    · intro r hr
      have := hused r hr
      push_cast
      omega
    · intro r hr
      rcases List.mem_cons.mp hr with hr | hr
      · subst hr
        push_cast
        omega
      · have := hrestgt r hr
        push_cast
        omega
    · simp [hlen]
    · simp only [hwrap]
      omega
    · simp only
      omega
    · apply Built_snoc lib rows n _ _ hlen hbuilt
      · intro r hr hl
        exfalso
        rw [hrows] at hr
        rcases List.mem_append.mp hr with hr | hr
        · have := hused r hr
          push_cast at hl
          omega
        · rcases List.mem_cons.mp hr with hr | hr
          · subst hr
            push_cast at hl
            omega
          · have := hrestgt r hr
            push_cast at hl
            omega
      · intro _
        refine ⟨s.dummyIdx, name, ?_, hname, ?_⟩
        · have hfilter : rows.filter (fun r => decide (r.label < ((n + 1 : Nat) : Int)))
              = used := by
            rw [hrows, List.filter_append]
            have h1 : used.filter (fun r => decide (r.label < ((n + 1 : Nat) : Int))) = used := by
              apply List.filter_eq_self.mpr
              intro r hr
              have := hused r hr
              simp only [decide_eq_true_eq]
              push_cast
              omega
            have h2 : (row :: rest).filter
                (fun r => decide (r.label < ((n + 1 : Nat) : Int))) = [] := by
              apply List.filter_eq_nil_iff.mpr
              intro r hr
              simp only [decide_eq_true_eq]
              push_cast
              rcases List.mem_cons.mp hr with hr | hr
              · subst hr
                omega
              · have := hrestgt r hr
                omega
            rw [h1, h2, List.append_nil]
          rw [hfilter]
          omega
        · have : s.randCalls = 3 * (s.dummyIdx - 1) := by omega
          rw [this]
    · intro row' rest' hc
      simp only [List.cons.injEq] at hc
      obtain ⟨rfl, rfl⟩ := hc
      exact ⟨hv, htab⟩

theorem build_table (P : Platform) (lib : CLibrary) (rows : List Row) (M : Nat)
    (hsorted : rows.Pairwise (fun x y => x.label < y.label))
    (hM : ∀ row ∈ rows, row.label ≤ (M : Int))
    (hMmem : ∃ row ∈ rows, row.label = (M : Int))
    (hpos : ∀ row ∈ rows, 1 ≤ row.label)
    (hfit : M ≤ TISSUES_SIZE_MAX P)
    (hfmt : ∀ j, 1 ≤ j → j + rows.length ≤ M → ∃ name, lib.formatDummy j = some name)
    (s0 : Build) (h0 : BuildInv lib rows 0 s0) :
    ∀ n, n ≤ M → ∃ s, (List.range n).foldlM (build.body P lib) s0 = some s ∧
      BuildInv lib rows n s := by
  intro n
  induction n with
  | zero => intro _; exact ⟨s0, rfl, h0⟩
  | succ n ih =>
    intro hn
    obtain ⟨s, hs, hinv⟩ := ih (by omega)
    obtain ⟨s', hs', hinv'⟩ := build_step P lib rows M n hsorted hpos hM hMmem hfit hfmt
      (by omega) s hinv
    refine ⟨s', ?_, hinv'⟩
    rw [List.range_succ, List.foldlM_append, hs]
    simp only [Option.bind_eq_bind, Option.some_bind, List.foldlM_cons, List.foldlM_nil, hs']
    rfl

theorem foldl_max_spec (rows : List Row) :
    ∀ m : Int, m ≤ rows.foldl (fun m row => max m row.label) m ∧
      (∀ row ∈ rows, row.label ≤ rows.foldl (fun m row => max m row.label) m) ∧
      (rows.foldl (fun m row => max m row.label) m = m ∨
        ∃ row ∈ rows, row.label = rows.foldl (fun m row => max m row.label) m) := by
  induction rows with
  | nil =>
    intro m
    refine ⟨le_refl _, ?_, Or.inl rfl⟩
    intro row hr
    cases hr
  | cons r rows ih =>
    intro m
    obtain ⟨h1, h2, h3⟩ := ih (max m r.label)
    simp only [List.foldl_cons]
    refine ⟨le_trans (le_max_left _ _) h1, ?_, ?_⟩
    · intro row hr
      rcases List.mem_cons.mp hr with rfl | hr
      · exact le_trans (le_max_right _ _) h1
      · exact h2 row hr
    · rcases h3 with h3 | ⟨row, hr, h3⟩
      · rcases max_choice m r.label with hm | hm
        · left; rw [h3, hm]
        · right; exact ⟨r, List.mem_cons_self _ _, by rw [h3, hm]⟩
      · right; exact ⟨row, List.mem_cons_of_mem _ hr, h3⟩

/-- On labels that a `tissues_size_t` holds, `labelMax` is the largest label: neither
conversion of line 790 changes a value. -/
theorem foldl_labelMax (P : Platform) (rows : List Row)
    (hrange : ∀ row ∈ rows, 0 ≤ row.label ∧ row.label ≤ TISSUES_SIZE_MAX P ∧
      row.label < 2 ^ 31) :
    ∀ m : Nat, m ≤ TISSUES_SIZE_MAX P → m < 2 ^ 31 →
      ((rows.foldl (fun m row =>
          ((max (toInt32 (m % 2 ^ 32)) row.label) % (P.modulus : Int)).toNat) m : Nat) : Int)
        = rows.foldl (fun m row => max m row.label) (m : Int) := by
  have hMod := modulus_pos P
  induction rows with
  | nil => intro m _ _; rfl
  | cons r rows ih =>
    intro m hm1 hm2
    obtain ⟨hr0, hr1, hr2⟩ := hrange r (List.mem_cons_self _ _)
    simp only [List.foldl_cons]
    have e1 : toInt32 (m % 2 ^ 32) = (m : Int) := by
      rw [Nat.mod_eq_of_lt (by omega)]
      unfold toInt32
      rw [if_pos hm2]
    have hx0 : 0 ≤ max (m : Int) r.label := le_trans (by omega) (le_max_left _ _)
    have hx1 : max (m : Int) r.label ≤ TISSUES_SIZE_MAX P := max_le (by omega) hr1
    have hx2 : max (m : Int) r.label < 2 ^ 31 := max_lt (by omega) hr2
    have e2 : max (m : Int) r.label % (P.modulus : Int) = max (m : Int) r.label := by
      apply Int.emod_eq_of_lt hx0
      unfold TISSUES_SIZE_MAX at hx1
      omega
    rw [e1, e2]
    have e3 : (((max (m : Int) r.label).toNat : Nat) : Int) = max (m : Int) r.label :=
      Int.toNat_of_nonneg hx0
    rw [ih (fun row hr => hrange row (List.mem_cons_of_mem _ hr)) _ (by omega) (by omega), e3]

theorem recordBound_small (P : Platform) (tc : Nat) (h : tc ≤ TISSUES_SIZE_MAX P) :
    recordBound P tc = tc := by
  have hMod := modulus_pos P
  unfold recordBound
  rw [if_neg (by omega)]
  apply Nat.mod_eq_of_lt
  unfold TISSUES_SIZE_MAX at h
  omega

/-- The candidate of a detected table whose rows after the first come with ascending labels
between 1 and `TISSUES_SIZE_MAX`. -/
theorem freeSurfer_table (P : Platform) (lib : CLibrary) (content rest0 : List Byte)
    (row0 : Row) (rows : List Row)
    (h0 : fscanfRow content = some (row0.scan rest0)) (hl0 : row0.label = 0)
    (htab : TableFile rest0 rows)
    (hsorted : rows.Pairwise (fun x y => x.label < y.label))
    (hrange : ∀ row ∈ rows, 1 ≤ row.label ∧ row.label ≤ TISSUES_SIZE_MAX P)
    (hfmt : ∀ j, 1 ≤ j → j + rows.length ≤ (Row.largest rows).toNat →
      ∃ name, lib.formatDummy j = some name) :
    ∃ cand, freeSurfer P lib content row0.fields rest0 = some cand ∧
      cand.length = (Row.largest rows).toNat ∧
      Built lib rows (Row.largest rows).toNat cand := by
  have hlab := TableFile_labels rest0 rows htab
  obtain ⟨v', hlargest⟩ := largestLabel_table P rest0 rows htab (rest0.length + 1) 0
    row0.fields (by omega)
  have hfold := foldl_labelMax P rows
    (fun row hr => ⟨by have := (hrange row hr).1; omega, (hrange row hr).2, (hlab row hr).2⟩)
    0 (by omega) (by norm_num)
  obtain ⟨hge, hle, hmem⟩ := foldl_max_spec rows 0
  simp only [Nat.cast_zero] at hfold
  have hlargest0 : (0 : Int) ≤ Row.largest rows := hge
  generalize hMdef : rows.foldl (fun m row =>
    ((max (toInt32 (m % 2 ^ 32)) row.label) % (P.modulus : Int)).toNat) 0 = M at hlargest hfold
  have hMeq : (Row.largest rows).toNat = M := by
    unfold Row.largest
    rw [← hfold]
    simp
  have hMint : Row.largest rows = (M : Int) := by
    rw [← hMeq]
    exact (Int.toNat_of_nonneg hlargest0).symm
  rw [hMeq] at hfmt ⊢
  unfold freeSurfer
  rw [hlargest]
  simp only [Option.pure_def, Option.bind_eq_bind, Option.some_bind]
  cases htab with
  | done _ hend =>
    have hM0 : M = 0 := by
      have : Row.largest ([] : List Row) = 0 := rfl
      rw [this] at hMint
      omega
    subst hM0
    rw [firstTissue_only _ _ content rest0 row0 h0 hl0 hend (by omega)]
    have hb : recordBound P (0 % 2 ^ 32) = 0 := by
      rw [Nat.zero_mod]
      exact recordBound_small P 0 (Nat.zero_le _)
    rw [hb]
    refine ⟨[], rfl, rfl, ?_⟩
    intro k hk1 hk2
    omega
  | row _ rest1 row1 rows1 h1 htab1 =>
    have hr1 := hrange row1 (List.mem_cons_self _ _)
    rw [firstTissue_second _ _ content rest0 rest1 row0 row1 h0 hl0 h1 (by omega) (by omega)]
    have hMmem : ∃ row ∈ row1 :: rows1, row.label = (M : Int) := by
      rcases hmem with hz | ⟨row, hr, hrl⟩
      · have hz' : Row.largest (row1 :: rows1) = 0 := hz
        have := hle row1 (List.mem_cons_self _ _)
        have hz'' : Row.largest (row1 :: rows1) = List.foldl (fun m row => max m row.label) 0
            (row1 :: rows1) := rfl
        omega
      · exact ⟨row, hr, by rw [← hMint]; exact hrl⟩
    have hMle : ∀ row ∈ row1 :: rows1, row.label ≤ (M : Int) := by
      intro row hr
      rw [← hMint]
      exact hle row hr
    have hMfit : M ≤ TISSUES_SIZE_MAX P := by
      obtain ⟨row, hr, hrl⟩ := hMmem
      have := (hrange row hr).2
      omega
    have hM31 : M < 2 ^ 31 := by
      obtain ⟨row, hr, hrl⟩ := hMmem
      have := (hlab row hr).2
      omega
    have hb : recordBound P (M % 2 ^ 32) = M := by
      rw [Nat.mod_eq_of_lt (by omega)]
      exact recordBound_small P M hMfit
    rw [hb]
    simp only [Option.some_bind]
    obtain ⟨s, hs, hinv⟩ := build_table P lib (row1 :: rows1) M hsorted hMle hMmem
      (fun row hr => (hrange row hr).1) hMfit hfmt
      { dummyIdx := 1, randCalls := 0, v := row1.fields, fp := rest1, newTissueInfosVec := [] }
      (by
        refine ⟨[], row1 :: rows1, rfl, ?_, ?_, rfl, rfl, rfl, ?_, ?_⟩
        · intro row hr
          cases hr
        · intro row hr
          have := (hrange row hr).1
          simp only [Nat.cast_zero]
          omega
        · intro k hk1 hk2
          omega
        · intro row rest hc
          simp only [List.cons.injEq] at hc
          obtain ⟨rfl, rfl⟩ := hc
          exact ⟨rfl, htab1⟩)
      M (le_refl _)
    rw [hs]
    obtain ⟨_, _, _, _, _, hlen, _, _, hbuilt, _⟩ := hinv
    exact ⟨_, rfl, hlen, hbuilt⟩

/-- The reading of a table without header lines: detection on the first row, then the
candidate of `freeSurfer`. -/
theorem parse_table (P : Platform) (lib : CLibrary) (content rest0 : List Byte)
    (row0 : Row) (h0 : fscanfRow content = some (row0.scan rest0)) :
    parse P lib content =
      if (chainedEq row0.fields && decide (cString row0.name = strUnknown)) = true then
        (freeSurfer P lib content row0.fields rest0).map Parsed.candidate
      else some Parsed.unknownFormat := by
  obtain ⟨_, x, fp1, hx, _⟩ := fscanfRow_assigned content _ h0 (by simp [Row.scan])
  obtain ⟨hV, hN⟩ := fscanfHeader_of_label content fp1 x hx
  unfold parse
  simp only [hV, hN, detect_row content rest0 row0 h0, Option.pure_def, Option.bind_eq_bind,
    Option.some_bind]
  split
  · cases freeSurfer P lib content row0.fields rest0 <;> rfl
  · rfl

/-! ## Text tables: a table that is not recognised (C12) -/

theorem InitTissues_spec (P : Platform) (st : TissueInfos) (hP : 83 ≤ TISSUES_SIZE_MAX P) :
    ∃ infos, InitTissues P st = some infos ∧ infos.tissueInfosVector.length = 83 := by
  have hlen : (P.defaultInfo :: InitTissues.table.map (fun e =>
      { P.defaultInfo with name := e.1, color := ⟨e.2.1, e.2.2.1, e.2.2.2⟩ })).length = 83 := by
    simp only [List.length_cons, List.length_map]
    rfl
  obtain ⟨m, hm, _⟩ := CreateTissueTypeMap_spec P
    { st with
      tissueInfosVector := P.defaultInfo ::
        InitTissues.table.map (fun e =>
          { P.defaultInfo with name := e.1, color := ⟨e.2.1, e.2.2.1, e.2.2.2⟩ }) }
    (by rw [hlen]; omega) (by rw [hlen]; exact hP)
  exact ⟨_, hm, hlen⟩

/-- A table without header lines whose first row is not named "Unknown": the call ends at
line 780, after `InitTissues`. -/
theorem LoadTissuesReadable_unknownFormat (P : Platform) (lib : CLibrary)
    (content : List Byte) (row : Row) (rows : List Row) (handler3D : SlicesHandler)
    (removeTissuesRange : Nat) (st : TissueInfos)
    (htab : TableFile content (row :: rows)) (hname : cString row.name ≠ strUnknown) :
    LoadTissuesReadable P lib (some content) handler3D removeTissuesRange st
      = (InitTissues P st).map fun infos =>
          { returned := false, removeTissuesRange := removeTissuesRange, infos := infos,
            handler3D := handler3D } := by
  cases htab with
  | row _ rest _ _ hrow _ =>
    unfold LoadTissuesReadable
    simp only [parse_table P lib content rest row hrow, hname, decide_False, Bool.and_false,
      Bool.false_eq_true, if_false]

/-- C12 as stated fails: a rejected import does not leave the live catalog as it was.  For
the table of the one row `1 A 255 0 0 255` and the live catalog of the background and the
tissue "A", the call returns false and the catalog has become the default list of 83
records. -/
theorem LoadTissuesReadable_rejects_counterexample :
    ∃ r, LoadTissuesReadable P16 exampleLibrary (some tableNoUnknown) noCalls 0 liveA = some r ∧
      r.returned = false ∧ liveA.tissueInfosVector.length = 2 ∧
      r.infos.tissueInfosVector.length = 83 := by
  have htab : TableFile tableNoUnknown [rowA] :=
    TableFile.row _ [] rowA [] (by decide) (TableFile.done [] rfl)
  obtain ⟨infos, hinit, hlen⟩ := InitTissues_spec P16 liveA (by decide)
  refine ⟨{ returned := false, removeTissuesRange := 0, infos := infos, handler3D := noCalls },
    ?_, rfl, by decide, hlen⟩
  rw [LoadTissuesReadable_unknownFormat P16 exampleLibrary tableNoUnknown rowA [] noCalls 0
    liveA htab (by decide), hinit]
  rfl

/-- C12, amended. For every live catalog and every table file without header lines that
has a row and whose first row is not named "Unknown", `LoadTissuesReadable` rejects the
import: it returns false, leaves `removeTissuesRange` and the volume owner as they were,
and replaces the live catalog, records and name index, by the default list that
`InitTissues` builds (83 records). -/
theorem LoadTissuesReadable_rejects (P : Platform) (lib : CLibrary) (content : List Byte)
    (row : Row) (rows : List Row) (handler3D : SlicesHandler) (removeTissuesRange : Nat)
    (st : TissueInfos) (hP : 83 ≤ TISSUES_SIZE_MAX P)
    (htab : TableFile content (row :: rows)) (hname : cString row.name ≠ strUnknown) :
    ∃ infos, InitTissues P st = some infos ∧ infos.tissueInfosVector.length = 83 ∧
      LoadTissuesReadable P lib (some content) handler3D removeTissuesRange st
        = some { returned := false, removeTissuesRange := removeTissuesRange,
                 infos := infos, handler3D := handler3D } := by
  obtain ⟨infos, hinit, hlen⟩ := InitTissues_spec P st hP
  refine ⟨infos, hinit, hlen, ?_⟩
  rw [LoadTissuesReadable_unknownFormat P lib content row rows handler3D removeTissuesRange
    st htab hname, hinit]
  rfl

/-- Instance of the amended C12: the table of the rows `1 A 255 0 0 255` and
`0 Unknown 0 0 0 0`, in this order, on the live catalog of the background and "A". -/
theorem LoadTissuesReadable_rejects_witness :
    TableFile tableUnknownSecond [rowA, unknownRow] ∧
    ∃ infos, InitTissues P16 liveA = some infos ∧ infos.tissueInfosVector.length = 83 ∧
      LoadTissuesReadable P16 exampleLibrary (some tableUnknownSecond) noCalls 7 liveA
        = some { returned := false, removeTissuesRange := 7, infos := infos,
                 handler3D := noCalls } :=
  have htab : TableFile tableUnknownSecond [rowA, unknownRow] :=
    TableFile.row _ (tableUnknownSecond.drop 16) rowA _ (by decide)
      (TableFile.row _ [] unknownRow [] (by decide) (TableFile.done [] rfl))
  ⟨htab, LoadTissuesReadable_rejects P16 exampleLibrary tableUnknownSecond rowA [unknownRow]
    noCalls 7 liveA (by decide) htab (by decide)⟩

/-! ## Text tables: detection (C13) -/

/-- C13 as stated fails, in both of its parts.  The table of the rows `1 A 255 0 0 255` and
`0 Unknown 0 0 0 0`, in this order, has a row of label 0 named "Unknown" and is not
detected: the loop ends at the first row that scans.  The table of the one row
`0 Unknown 25 5 25 0` is not detected either: the colour columns take part in the test. -/
theorem detect_counterexample :
    TableFile tableUnknownSecond [rowA, unknownRow] ∧
    (detect tableUnknownSecond).map (fun d => d.1) = some false ∧
    TableFile tableUnknownColoured [rowUnknownColoured] ∧
    rowUnknownColoured.label = 0 ∧ cString rowUnknownColoured.name = strUnknown ∧
    (detect tableUnknownColoured).map (fun d => d.1) = some false := by
  refine ⟨TableFile.row _ (tableUnknownSecond.drop 16) rowA _ (by decide)
      (TableFile.row _ [] unknownRow [] (by decide) (TableFile.done [] rfl)), ?_,
    TableFile.row _ [] rowUnknownColoured [] (by decide) (TableFile.done [] rfl),
    rfl, by decide, ?_⟩
  · rw [detect_row tableUnknownSecond (tableUnknownSecond.drop 16) rowA (by decide)]
    decide
  · rw [detect_row tableUnknownColoured [] rowUnknownColoured (by decide)]
    decide

/-- C13, amended. On a table file that has a row, the first row decides the detection in
`LoadTissuesReadable`: it succeeds if the first row is `0 Unknown 0 0 0 0`, and it fails if
the first row is not named "Unknown"; the rows after the first do not influence the
decision. -/
theorem detect_first_row (fp : List Byte) (row : Row) (rows : List Row)
    (htab : TableFile fp (row :: rows)) :
    (row = unknownRow → (detect fp).map (fun d => d.1) = some true) ∧
    (cString row.name ≠ strUnknown → (detect fp).map (fun d => d.1) = some false) ∧
    (∀ fp' rows', TableFile fp' (row :: rows') →
      (detect fp').map (fun d => d.1) = (detect fp).map (fun d => d.1)) := by
  cases htab with
  | row _ rest _ _ hrow _ =>
    rw [detect_row fp rest row hrow]
    refine ⟨?_, ?_, ?_⟩
    · intro h
      subst h
      have hdet : (chainedEq unknownRow.fields &&
          decide (cString unknownRow.name = strUnknown)) = true := by decide
      simp only [Option.map_some', hdet]
    · intro h
      simp only [Option.map_some', h, decide_False, Bool.and_false]
    · intro fp' rows' htab'
      cases htab' with
      | row _ rest' _ _ hrow' _ =>
        rw [detect_row fp' rest' row hrow']
        rfl

/-- Instance of the amended C13: the table of the rows `0 Unknown 0 0 0 0`,
`1 A 255 0 0 255` and `3 C 0 0 255 255` is detected. -/
theorem detect_first_row_witness :
    TableFile tableGap [unknownRow, rowA, rowC] ∧
    (detect tableGap).map (fun d => d.1) = some true :=
  have htab : TableFile tableGap [unknownRow, rowA, rowC] :=
    TableFile.row _ (tableGap.drop 18) unknownRow _ (by decide)
      (TableFile.row _ (tableGap.drop 34) rowA _ (by decide)
        (TableFile.row _ [] rowC [] (by decide) (TableFile.done [] rfl)))
  ⟨htab, (detect_first_row tableGap unknownRow [rowA, rowC] htab).1 rfl⟩

/-! ## Text tables: the candidate of a detected table (C14) -/

/-- C14 as stated fails for rows that are not in label order, and where the format call
yields no text.  The table of the rows `0 Unknown 0 0 0 0`, `2 B 0 0 0 0` and `1 A 0 0 0 0`
is detected and has the largest label 2; with the library of the examples its candidate has
a placeholder in the first place, although the row of label 1 is in the file, and the row
"B" in the second; with a format call that yields no text there is no candidate at all.
The table of the rows `0 Unknown 0 0 0 0`, `1 A 255 0 0 255` and `3 C 0 0 255 255` is in
label order, and with a format call that yields no text the placeholder for label 2 cannot
be named: there is no candidate. -/
theorem candidate_order_counterexample :
    TableFile tableBA [unknownRow, rowB0, rowA0] ∧
    (detect tableBA).map (fun d => d.1) = some true ∧
    parse P16 exampleLibrary tableBA = some (.candidate
      [dummyRecord exampleLibrary 0 (strDummyTissue ++ [49]),
       tableRecord exampleLibrary rowB0.fields rowB0.name]) ∧
    parse P16 rejectingLibrary tableBA = none ∧
    TableFile tableGap [unknownRow, rowA, rowC] ∧
    (detect tableGap).map (fun d => d.1) = some true ∧
    parse P16 rejectingLibrary tableGap = none := by
  refine ⟨TableFile.row _ (tableBA.drop 18) unknownRow _ (by decide)
      (TableFile.row _ (tableBA.drop 30) rowB0 _ (by decide)
        (TableFile.row _ [] rowA0 [] (by decide) (TableFile.done [] rfl))), ?_, ?_, ?_,
    TableFile.row _ (tableGap.drop 18) unknownRow _ (by decide)
      (TableFile.row _ (tableGap.drop 34) rowA _ (by decide)
        (TableFile.row _ [] rowC [] (by decide) (TableFile.done [] rfl))), ?_, ?_⟩
  · decide
  · decide
  · decide
  · decide
  · decide

/-- C14, amended. On a positively detected table whose first row has the label 0 and whose
other rows come in ascending order of their labels, all between 1 and `TISSUES_SIZE_MAX`,
with largest label M, and with a format call that yields a text for the number of every
placeholder (the numbers from 1 to M minus the number of these rows; none when no label is
missing), the candidate built by `LoadTissuesReadable` has exactly M records, one per label
1..M in label order: for every k in 1..M, if a row with label k is present the k-th record
has that row's name, colour (r,g,b)/255 and opacity a/255, and otherwise it is a placeholder
with opacity 0.5 and the text the format call yields for j, where j counts the placeholders
from 1. -/
theorem candidate_of_ascending_table (P : Platform) (lib : CLibrary) (content : List Byte)
    (row0 : Row) (rows : List Row)
    (htab : TableFile content (row0 :: rows))
    (hdetected : (detect content).map (fun d => d.1) = some true)
    (hl0 : row0.label = 0)
    (hsorted : rows.Pairwise (fun x y => x.label < y.label))
    (hrange : ∀ row ∈ rows, 1 ≤ row.label ∧ row.label ≤ TISSUES_SIZE_MAX P)
    (hfmt : ∀ j, 1 ≤ j → j + rows.length ≤ (Row.largest rows).toNat →
      ∃ name, lib.formatDummy j = some name) :
    ∃ cand, parse P lib content = some (.candidate cand) ∧
      cand.length = (Row.largest rows).toNat ∧
      ∀ k : Nat, 1 ≤ k → k ≤ (Row.largest rows).toNat →
        (∀ row ∈ rows, row.label = (k : Int) →
          cand[k - 1]? = some { name := cString row.name,
                                color := ⟨lib.div255 row.r, lib.div255 row.g, lib.div255 row.b⟩,
                                opac := lib.div255 row.a, locked := false }) ∧
        ((∀ row ∈ rows, row.label ≠ (k : Int)) →
          ∃ j name,
            j + (rows.filter (fun row => decide (row.label < (k : Int)))).length = k ∧
            lib.formatDummy j = some name ∧
            cand[k - 1]? = some { name := name,
                                  color := ⟨lib.randomUnit (3 * (j - 1)),
                                    lib.randomUnit (3 * (j - 1) + 1),
                                    lib.randomUnit (3 * (j - 1) + 2)⟩,
                                  opac := CFloat.half, locked := false }) := by
  cases htab with
  | row _ rest0 _ _ hrow htab' =>
    rw [detect_row content rest0 row0 hrow] at hdetected
    simp only [Option.map_some', Option.some.injEq] at hdetected
    obtain ⟨cand, hcand, hlen, hbuilt⟩ := freeSurfer_table P lib content rest0 row0 rows hrow
      hl0 htab' hsorted hrange hfmt
    refine ⟨cand, ?_, hlen, hbuilt⟩
    rw [parse_table P lib content rest0 row0 hrow, if_pos hdetected, hcand]
    rfl

set_option maxRecDepth 100000 in
/-- Instances of the amended C14.  With the library of the examples, the table of the rows
`0 Unknown 0 0 0 0`, `1 A 255 0 0 255` and `3 C 0 0 255 255` gives the candidate of "A", of
the placeholder "DummyTissue1" and of "C".  With a format call that yields no text, the
table of the rows `0 Unknown 0 0 0 0`, `1 A 255 0 0 255` and `2 B 0 0 0 0`, in which no
label is missing, gives the candidate of "A" and of "B". -/
theorem candidate_of_ascending_table_witness :
    (TableFile tableGap [unknownRow, rowA, rowC] ∧
      ∃ cand, parse P16 exampleLibrary tableGap = some (.candidate cand) ∧
        cand.length = 3 ∧
        cand[0]? = some { name := nameA, color := ⟨CFloat.one, CFloat.zero, CFloat.zero⟩,
                          opac := CFloat.one, locked := false } ∧
        (∃ dummy, cand[1]? = some dummy ∧ dummy.name = strDummyTissue ++ [49] ∧
          dummy.opac = CFloat.half) ∧
        cand[2]? = some { name := nameC, color := ⟨CFloat.zero, CFloat.zero, CFloat.one⟩,
                          opac := CFloat.one, locked := false }) ∧
    (TableFile tableAB [unknownRow, rowA, rowB0] ∧
      ∃ cand, parse P16 rejectingLibrary tableAB = some (.candidate cand) ∧
        cand.length = 2 ∧
        cand[0]? = some { name := nameA, color := ⟨CFloat.one, CFloat.zero, CFloat.zero⟩,
                          opac := CFloat.one, locked := false } ∧
        cand[1]? = some { name := nameB, color := ⟨CFloat.zero, CFloat.zero, CFloat.zero⟩,
                          opac := CFloat.zero, locked := false }) := by
  have htab : TableFile tableGap [unknownRow, rowA, rowC] :=
    TableFile.row _ (tableGap.drop 18) unknownRow _ (by decide)
      (TableFile.row _ (tableGap.drop 34) rowA _ (by decide)
        (TableFile.row _ [] rowC [] (by decide) (TableFile.done [] rfl)))
  have htab2 : TableFile tableAB [unknownRow, rowA, rowB0] :=
    TableFile.row _ (tableAB.drop 18) unknownRow _ (by decide)
      (TableFile.row _ (tableAB.drop 34) rowA _ (by decide)
        (TableFile.row _ [] rowB0 [] (by decide) (TableFile.done [] rfl)))
  obtain ⟨cand, hparse, hlen, hrec⟩ := candidate_of_ascending_table P16 exampleLibrary tableGap
    unknownRow [rowA, rowC] htab (by decide) rfl (by decide) (by decide)
    (fun j _ _ => ⟨_, rfl⟩)
  have hM : (Row.largest [rowA, rowC]).toNat = 3 := by decide
  rw [hM] at hlen hrec
  have hM2 : (Row.largest [rowA, rowB0]).toNat = 2 := by decide
  obtain ⟨cand2, hparse2, hlen2, hrec2⟩ := candidate_of_ascending_table P16 rejectingLibrary
    tableAB unknownRow [rowA, rowB0] htab2 (by decide) rfl (by decide) (by decide)
    (fun j h1 h2 => by
      rw [hM2] at h2
      simp only [List.length_cons, List.length_nil] at h2
      omega)
  rw [hM2] at hlen2 hrec2
  refine ⟨⟨htab, cand, hparse, hlen, ?_, ?_, ?_⟩, htab2, cand2, hparse2, hlen2, ?_, ?_⟩
  · have h := (hrec 1 (by omega) (by omega)).1 rowA (by decide) rfl
    rw [h]
    decide
  · obtain ⟨j, name, hj, hname, hget⟩ := (hrec 2 (by omega) (by omega)).2 (by decide)
    have hj1 : j = 1 := by
      have hcount : ([rowA, rowC].filter (fun row => decide (row.label < ((2 : Nat) : Int)))).length
          = 1 := by decide
      omega
    subst hj1
    refine ⟨_, hget, ?_, rfl⟩
    have hn : exampleLibrary.formatDummy 1 = some (strDummyTissue ++ [49]) := by decide
    rw [hn] at hname
    exact (Option.some.inj hname).symm
  · have h := (hrec 3 (by omega) (by omega)).1 rowC (by decide) rfl
    rw [h]
    decide
  · have h := (hrec2 1 (by omega) (by omega)).1 rowA (by decide) rfl
    rw [h]
    decide
  · have h := (hrec2 2 (by omega) (by omega)).1 rowB0 (by decide) rfl
    rw [h]
    decide

/-! ## Text tables: a row that does not scan (C28) -/

theorem detect_stuck (fp : List Byte)
    (h : fscanfRow fp = some ⟨0, none, none, none, none, none, none, fp⟩) :
    ∀ (fuel : Nat) (isFreeSurfer : Bool) (v : Fields),
      detect.loop fuel isFreeSurfer v fp = none := by
  intro fuel
  induction fuel with
  | zero => intro _ _; rfl
  | succ fuel ih =>
    intro isFreeSurfer v
    rw [detect.loop]
    simp only [h, Option.pure_def, Option.bind_eq_bind, Option.some_bind]
    have hv : v.assign ⟨0, none, none, none, none, none, none, fp⟩ = v := rfl
    rw [hv]
    have hcont : (0 : Int) ≠ EOF ∧ (0 : Int) ≠ 6 := by decide
    by_cases hc : chainedEq v = true
    · rw [if_pos hc]
      cases hn : v.name with
      | none => rfl
      | some name =>
        simp only [Option.map_some', Option.some_bind, if_pos hcont]
        exact ih _ v
    · rw [if_neg hc]
      simp only [Option.some_bind, if_pos hcont]
      exact ih _ v

theorem largestLabel_stuck (P : Platform) (fp : List Byte)
    (h : fscanfRow fp = some ⟨0, none, none, none, none, none, none, fp⟩) :
    ∀ (fuel labelMax : Nat) (v : Fields), largestLabel.loop P fuel labelMax v fp = none := by
  intro fuel
  induction fuel with
  | zero => intro _ _; rfl
  | succ fuel ih =>
    intro labelMax v
    rw [largestLabel.loop]
    simp only [h, Option.pure_def, Option.bind_eq_bind, Option.some_bind]
    have hv : v.assign ⟨0, none, none, none, none, none, none, fp⟩ = v := rfl
    have hcont : (0 : Int) ≠ EOF := by decide
    have h6 : ¬ (0 : Int) = 6 := by decide
    rw [hv, if_pos hcont, if_neg h6]
    exact ih labelMax v

theorem firstTissue_stuck (fp : List Byte)
    (h : fscanfRow fp = some ⟨0, none, none, none, none, none, none, fp⟩) :
    ∀ (fuel : Nat) (v : Fields), firstTissue.loop fuel v fp = none := by
  intro fuel
  induction fuel with
  | zero => intro _; rfl
  | succ fuel ih =>
    intro v
    rw [firstTissue.loop]
    simp only [h, Option.pure_def, Option.bind_eq_bind, Option.some_bind]
    have hv : v.assign ⟨0, none, none, none, none, none, none, fp⟩ = v := rfl
    have hcont : (0 : Int) ≠ EOF ∧ ((0 : Int) ≠ 6 ∨ v.currLabel = 0) :=
      ⟨by decide, Or.inl (by decide)⟩
    rw [hv, if_pos hcont]
    exact ih v

theorem nextTissue_stuck (fp : List Byte)
    (h : fscanfRow fp = some ⟨0, none, none, none, none, none, none, fp⟩) :
    ∀ (fuel : Nat) (v : Fields), nextTissue.loop fuel v fp = none := by
  intro fuel
  induction fuel with
  | zero => intro _; rfl
  | succ fuel ih =>
    intro v
    rw [nextTissue.loop]
    simp only [h, Option.pure_def, Option.bind_eq_bind, Option.some_bind]
    have hv : v.assign ⟨0, none, none, none, none, none, none, fp⟩ = v := rfl
    have hcont : (0 : Int) ≠ EOF ∧ (0 : Int) ≠ 6 := by decide
    rw [hv, if_pos hcont]
    exact ih v

set_option maxRecDepth 100000 in
/-- C28 fails on the code.  On an input that starts with the line `#`, the row scan returns
0 and leaves the input and every object as they were, so no number of passes ends any of
the four scan loops; on the table of the row `0 Unknown 0 0 0 0` followed by such a line,
`LoadTissuesReadable` does not return: the loop of lines 785-792 never ends. -/
theorem table_scans_hang_on_comment :
    fscanfRow commentLines = some ⟨0, none, none, none, none, none, none, commentLines⟩ ∧
    (∀ (fuel : Nat) (isFreeSurfer : Bool) (v : Fields),
      detect.loop fuel isFreeSurfer v commentLines = none) ∧
    (∀ (fuel labelMax : Nat) (v : Fields),
      largestLabel.loop P16 fuel labelMax v commentLines = none) ∧
    (∀ (fuel : Nat) (v : Fields), firstTissue.loop fuel v commentLines = none) ∧
    (∀ (fuel : Nat) (v : Fields), nextTissue.loop fuel v commentLines = none) ∧
    (detect tableComment).map (fun d => (d.1, d.2.2)) = some (true, commentLines) ∧
    LoadTissuesReadable P16 exampleLibrary (some tableComment) noCalls 0 liveA = none := by
  have h : fscanfRow commentLines
      = some ⟨0, none, none, none, none, none, none, commentLines⟩ := by decide
  refine ⟨h, detect_stuck _ h, largestLabel_stuck P16 _ h, firstTissue_stuck _ h,
    nextTissue_stuck _ h, by decide, ?_⟩
  have hrow : fscanfRow tableComment = some (unknownRow.scan commentLines) := by decide
  have hdet : (chainedEq unknownRow.fields &&
      decide (cString unknownRow.name = strUnknown)) = true := by decide
  have hparse : parse P16 exampleLibrary tableComment = none := by
    rw [parse_table P16 exampleLibrary tableComment commentLines unknownRow hrow, if_pos hdet]
    unfold freeSurfer
    rw [largestLabel_stuck P16 _ h]
    rfl
  unfold LoadTissuesReadable
  simp only [hparse]

/-! ## Catalog store: renaming a tissue (C27) -/

/-- C27 fails on the code for a tissue whose old name another tissue has too.  In the
catalog [background, A, A] with the consistent index "a" to 1, `SetTissueName(2, "B")`
erases the key "a", which is the entry of tissue 1: afterwards `GetTissueType("A")` is 0
where it was 1, and the index is not the one `CreateTissueTypeMap` builds. -/
theorem SetTissueName_erases_shared_name :
    NameIndexConsistent P16 liveAA ∧ GetTissueType liveAA nameA = 1 ∧
    (∀ info ∈ liveAA.tissueInfosVector, str_tolower info.name ≠ str_tolower nameB) ∧
    ∃ st', SetTissueName liveAA 2 nameB = some st' ∧
      GetTissueType st' nameB = 2 ∧ GetTissueType st' nameA = 0 ∧
      st'.tissueInfosVector[1]? = liveAA.tissueInfosVector[1]? ∧
      (CreateTissueTypeMap P16 st').map (fun s => GetTissueType s nameA) = some 1 ∧
      ¬ NameIndexConsistent P16 st' := by
  refine ⟨⟨liveAA, by decide, fun _ => rfl⟩, by decide, by decide, ?_⟩
  obtain ⟨st', hst'⟩ : ∃ st', SetTissueName liveAA 2 nameB = some st' := ⟨_, rfl⟩
  refine ⟨st', hst', ?_⟩
  have hval : SetTissueName liveAA 2 nameB = some
      { tissueInfosVector := [bgInfo, mkInfo nameA false, mkInfo nameB true],
        tissueTypeMap := [(str_tolower nameB, 2)] } := by decide
  rw [hval] at hst'
  obtain rfl := Option.some.inj hst'
  refine ⟨by decide, by decide, by decide, by decide, ?_⟩
  rintro ⟨st'', hre, hall⟩
  have hre' : CreateTissueTypeMap P16
      { tissueInfosVector := [bgInfo, mkInfo nameA false, mkInfo nameB true],
        tissueTypeMap := [(str_tolower nameB, 2)] }
      = some { tissueInfosVector := [bgInfo, mkInfo nameA false, mkInfo nameB true],
               tissueTypeMap := [(str_tolower nameA, 1), (str_tolower nameB, 2)] } := by
    decide
  rw [hre'] at hre
  obtain rfl := Option.some.inj hre
  have := hall (str_tolower nameA)
  revert this
  decide

/-! ## Reconciliation: the remap table merges no ids (C26) -/

theorem nodup_getElem?_inj (l : List (List Byte)) (h : l.Nodup) (i j : Nat) (a : List Byte)
    (hi : l[i]? = some a) (hj : l[j]? = some a) : i = j := by
  obtain ⟨hi1, hi2⟩ := List.getElem?_eq_some.mp hi
  obtain ⟨hj1, hj2⟩ := List.getElem?_eq_some.mp hj
  exact (List.Nodup.getElem_inj_iff h).mp (hi2.trans hj2.symm)

/-- With pairwise distinct names in the live catalog, background included, every entry of
the remap table is a position of the new catalog, the entry of an id from 1 on is a
position whose record resolves to that id, and the entry of 0 is 0. -/
theorem idxMap_resolves (P : Platform) (st : TissueInfos) (cand : List TissueInfo)
    (h2 : st.tissueInfosVector.length ≤ TISSUES_SIZE_MAX P)
    (hsz : (unmatchedIds st cand).length + cand.length ≤ TISSUES_SIZE_MAX P)
    (hc : NameIndexConsistent P st)
    (hnd : (st.tissueInfosVector.map (fun t => str_tolower t.name)).Nodup) :
    ∃ l, locals P st cand = some l ∧ l.idxMap.length = st.tissueInfosVector.length ∧
      l.newTissueInfosVec[0]? = st.tissueInfosVector[0]? ∧
      ∀ i x, l.idxMap[i]? = some x →
        x < l.newTissueInfosVec.length ∧ (i = 0 → x = 0) ∧
        (1 ≤ i → ∃ info, l.newTissueInfosVec[x]? = some info ∧
          GetTissueType st info.name = i) := by
  have h1 := consistent_length_pos P st hc
  obtain ⟨l, hl, _, _, hnv, hlen, hmap, _⟩ := locals_spec P st cand h2 hsz hc
  have hndt : (st.tissueInfosVector.tail.map (fun t => str_tolower t.name)).Nodup := by
    rw [List.map_tail]
    exact hnd.tail
  have hpos : 1 ≤ l.newTissueInfosVec.length := by
    rw [hnv, List.length_append, filterMap_get_length _ _ (unmatchedIds_lt st cand)]
    have := List.length_pos_of_mem (unmatchedIds_zero_mem st cand h1)
    omega
  have hfirst : l.newTissueInfosVec[0]? = st.tissueInfosVector[0]? := by
    have hu : (unmatchedIds st cand)[0]? = some 0 := by
      rw [unmatchedIds_cons st cand h1]
      exact List.getElem?_cons_zero
    have hlt : 0 < ((unmatchedIds st cand).filterMap
        (fun i => st.tissueInfosVector[i]?)).length := by
      rw [filterMap_get_length _ _ (unmatchedIds_lt st cand)]
      exact List.length_pos_of_mem (unmatchedIds_zero_mem st cand h1)
    rw [hnv, List.getElem?_append_left hlt]
    exact filterMap_get_getElem? _ _ (unmatchedIds_lt st cand) 0 0 hu
  refine ⟨l, hl, hlen, hfirst, ?_⟩
  intro i x hx
  have hi : i < st.tissueInfosVector.length := by
    rw [← hlen]
    exact getElem?_lt_of_some _ _ _ hx
  by_cases hi0 : i = 0
  · subst hi0
    rcases hmap 0 x hx with ⟨rfl, _⟩ | ⟨_, _, _, hlt, _⟩
    · exact ⟨by omega, fun _ => rfl, fun h => by omega⟩
    · omega
  · obtain ⟨info, hinfo⟩ : ∃ info, st.tissueInfosVector[i]? = some info :=
      ⟨st.tissueInfosVector[i], List.getElem?_eq_getElem hi⟩
    have hself := resolves_self P st h2 hc hndt i info (by omega) hinfo
    have hres : ∃ info', l.newTissueInfosVec[x]? = some info' ∧
        GetTissueType st info'.name = i := by
      rcases hmap i x hx with ⟨rfl, hno⟩ | ⟨info', hget, hty, _, _⟩
      · obtain ⟨j, info', hj, hty⟩ := exists_resolving_position st cand x info hinfo hself
        rw [← hnv] at hj
        by_cases hjx : j = x
        · subst hjx
          exact ⟨info', hj, hty⟩
        · exact absurd ⟨info', hj, hty, by omega, fun h => hjx h.symm⟩ (hno j)
      · exact ⟨info', hget, hty⟩
    obtain ⟨info', hget, hty⟩ := hres
    exact ⟨getElem?_lt_of_some _ _ _ hget, fun h => absurd h hi0, fun _ => ⟨info', hget, hty⟩⟩

/-- C26 as stated fails when the background record has the name of a tissue.  In the live
catalog [background "A", tissue "A"] the non-background names are pairwise distinct, and so
are the names of the candidate ["A"]; the new catalog is [background, "A"], and the remap
table is [0, 0]: tissue 1 is merged into the background. -/
theorem remap_injective_counterexample :
    NameIndexConsistent P16 liveBgA ∧
    (liveBgA.tissueInfosVector.tail.map (fun t => str_tolower t.name)).Nodup ∧
    ([mkInfo nameA false].map (fun t => str_tolower t.name)).Nodup ∧
    (locals P16 liveBgA [mkInfo nameA false]).map (fun l => l.idxMap) = some [0, 0] :=
  ⟨⟨liveBgA, by decide, fun _ => rfl⟩, by decide, by decide, by decide⟩

/-- C26, amended. If the name index of the live catalog is consistent, the sizes fit the
tissue id type, and the names of the live catalog, background included, are pairwise
distinct case-insensitively, the remap table built by `LoadTissuesReadable` is injective
and every entry is a valid id of the new catalog: no two old tissue ids are merged into one
new id. -/
theorem remap_injective (P : Platform) (st : TissueInfos) (cand : List TissueInfo)
    (h2 : st.tissueInfosVector.length ≤ TISSUES_SIZE_MAX P)
    (hsz : (unmatchedIds st cand).length + cand.length ≤ TISSUES_SIZE_MAX P)
    (hc : NameIndexConsistent P st)
    (hnd : (st.tissueInfosVector.map (fun t => str_tolower t.name)).Nodup) :
    ∃ l, locals P st cand = some l ∧ l.idxMap.length = st.tissueInfosVector.length ∧
      (∀ i x : Nat, l.idxMap[i]? = some x → x < l.newTissueInfosVec.length) ∧
      (∀ i j x : Nat, l.idxMap[i]? = some x → l.idxMap[j]? = some x → i = j) := by
  obtain ⟨l, hl, hlen, hfirst, hres⟩ := idxMap_resolves P st cand h2 hsz hc hnd
  refine ⟨l, hl, hlen, fun i x hx => (hres i x hx).1, ?_⟩
  have hzero : ∀ j x, 1 ≤ j → l.idxMap[j]? = some x → x ≠ 0 := by
    intro j x hj hx hx0
    subst hx0
    obtain ⟨_, _, hinfo⟩ := hres j 0 hx
    obtain ⟨info, hget, hty⟩ := hinfo hj
    rw [hfirst] at hget
    obtain ⟨t, ht, hname⟩ := consistent_sound P st hc h2 info.name (by omega)
    rw [hty] at ht
    have e0 : (st.tissueInfosVector.map (fun t => str_tolower t.name))[0]?
        = some (str_tolower info.name) := by
      rw [List.getElem?_map, hget]
      rfl
    have ej : (st.tissueInfosVector.map (fun t => str_tolower t.name))[j]?
        = some (str_tolower info.name) := by
      rw [List.getElem?_map, ht, ← hname]
      rfl
    have := nodup_getElem?_inj _ hnd 0 j _ e0 ej
    omega
  intro i j x hi hj
  by_cases hi0 : i = 0
  · by_cases hj0 : j = 0
    · omega
    · have hx0 := (hres i x hi).2.1 hi0
      exact absurd hx0 (hzero j x (by omega) hj)
  · by_cases hj0 : j = 0
    · have hx0 := (hres j x hj).2.1 hj0
      exact absurd hx0 (hzero i x (by omega) hi)
    · obtain ⟨info, hget, hty⟩ := (hres i x hi).2.2 (by omega)
      obtain ⟨info', hget', hty'⟩ := (hres j x hj).2.2 (by omega)
      rw [hget] at hget'
      obtain rfl := Option.some.inj hget'
      omega

/-- Instance of the amended C26: the live catalog [background, A, B, C] against the
candidate [B, A, C]. -/
theorem remap_injective_witness :
    (liveABC.tissueInfosVector.map (fun t => str_tolower t.name)).Nodup ∧
    ∃ l, locals P16 liveABC [mkInfo nameB false, mkInfo nameA false, mkInfo nameC false]
        = some l ∧
      l.idxMap.length = liveABC.tissueInfosVector.length ∧
      (∀ i x : Nat, l.idxMap[i]? = some x → x < l.newTissueInfosVec.length) ∧
      (∀ i j x : Nat, l.idxMap[i]? = some x → l.idxMap[j]? = some x → i = j) :=
  ⟨by decide,
    remap_injective P16 liveABC [mkInfo nameB false, mkInfo nameA false, mkInfo nameC false]
      (by decide) (by decide) ⟨liveABC, by decide, fun _ => rfl⟩ (by decide)⟩

/-! ## Catalog store: the default list (C23) -/

set_option maxRecDepth 1000000 in
theorem table_names_nodup : (InitTissues.table.map (fun e => str_tolower e.1)).Nodup := by
  decide

set_option maxRecDepth 1000000 in
theorem table_colours_unit : InitTissues.table.all (fun e =>
    e.2.1.inUnitInterval && e.2.2.1.inUnitInterval && e.2.2.2.inUnitInterval) = true := by
  decide

theorem CreateTissueTypeMap_vector (P : Platform) (st st' : TissueInfos)
    (h : CreateTissueTypeMap P st = some st') :
    st'.tissueInfosVector = st.tissueInfosVector := by
  unfold CreateTissueTypeMap at h
  cases hc : countUpTo P 1 (GetTissueCount P st) with
  | none => rw [hc] at h; cases h
  | some types =>
    rw [hc] at h
    simp only [Option.pure_def, Option.bind_eq_bind, Option.some_bind] at h
    cases hm : types.foldlM (CreateTissueTypeMap.body st.tissueInfosVector) [] with
    | none => rw [hm] at h; cases h
    | some m =>
      rw [hm] at h
      simp only [Option.some_bind, Option.some.injEq] at h
      rw [← h]

/-- The index that `CreateTissueTypeMap` has built is consistent. -/
theorem CreateTissueTypeMap_consistent (P : Platform) (st st' : TissueInfos)
    (h : CreateTissueTypeMap P st = some st') : NameIndexConsistent P st' := by
  have hvec := CreateTissueTypeMap_vector P st st' h
  refine ⟨st', ?_, fun _ => rfl⟩
  rw [← h]
  have e1 : st' = { tissueInfosVector := st'.tissueInfosVector,
                    tissueTypeMap := st'.tissueTypeMap } := rfl
  have e2 : st = { tissueInfosVector := st.tissueInfosVector,
                   tissueTypeMap := st.tissueTypeMap } := rfl
  rw [e1, e2, hvec]
  exact CreateTissueTypeMap_vector_only P _ _ _

/-- C23. After `InitTissues`, on a platform whose tissue id type holds the 83 records, the
catalog has exactly 82 non-background tissues, their names are pairwise distinct
case-insensitively, `GetTissueType(GetTissueName(i)) = i` for every i in 1..82, and every
colour channel of every default tissue lies in [0,1]. -/
theorem InitTissues_defaults (P : Platform) (st : TissueInfos)
    (hP : 83 ≤ TISSUES_SIZE_MAX P) :
    ∃ st', InitTissues P st = some st' ∧ GetTissueCount P st' = 82 ∧
      (st'.tissueInfosVector.tail.map (fun t => str_tolower t.name)).Nodup ∧
      (∀ i, 1 ≤ i → i ≤ 82 →
        ∃ name, GetTissueName st' i = some name ∧ GetTissueType st' name = i) ∧
      (∀ i info, 1 ≤ i → st'.tissueInfosVector[i]? = some info →
        info.color.r.inUnitInterval = true ∧ info.color.g.inUnitInterval = true ∧
        info.color.b.inUnitInterval = true) := by
  obtain ⟨st', hinit, hlen⟩ := InitTissues_spec P st hP
  have hcons : NameIndexConsistent P st' := CreateTissueTypeMap_consistent P _ st' hinit
  have hvec : st'.tissueInfosVector = P.defaultInfo :: InitTissues.table.map (fun e =>
      { P.defaultInfo with name := e.1, color := ⟨e.2.1, e.2.2.1, e.2.2.2⟩ }) :=
    CreateTissueTypeMap_vector P _ st' hinit
  have h2 : st'.tissueInfosVector.length ≤ TISSUES_SIZE_MAX P := by omega
  have hnd : (st'.tissueInfosVector.tail.map (fun t => str_tolower t.name)).Nodup := by
    rw [hvec, List.tail_cons, List.map_map]
    exact table_names_nodup
  refine ⟨st', hinit, ?_, hnd, ?_, ?_⟩
  · rw [GetTissueCount_eq P st' (by omega) h2, hlen]
  · intro i hi1 hi2
    have hi : i < st'.tissueInfosVector.length := by omega
    refine ⟨st'.tissueInfosVector[i].name, ?_, ?_⟩
    · unfold GetTissueName
      rw [List.getElem?_eq_getElem hi]
      rfl
    · exact resolves_self P st' h2 hcons hnd i _ hi1 (List.getElem?_eq_getElem hi)
  · intro i info hi hinfo
    obtain ⟨k, rfl⟩ : ∃ k, i = k + 1 := ⟨i - 1, by omega⟩
    rw [hvec, List.getElem?_cons_succ, List.getElem?_map] at hinfo
    cases he : InitTissues.table[k]? with
    | none => rw [he] at hinfo; cases hinfo
    | some e =>
      rw [he] at hinfo
      simp only [Option.map_some', Option.some.injEq] at hinfo
      subst hinfo
      have hmem : e ∈ InitTissues.table := List.getElem?_mem he
      have := List.all_eq_true.mp table_colours_unit e hmem
      simp only [Bool.and_eq_true] at this
      exact ⟨this.1.1, this.1.2, this.2⟩

/-- Instance of C23 on the platform with a two-byte tissue id, starting from the catalog of
the background and "A". -/
theorem InitTissues_defaults_witness :
    83 ≤ TISSUES_SIZE_MAX P16 ∧
    ∃ st', InitTissues P16 liveA = some st' ∧ GetTissueCount P16 st' = 82 ∧
      (st'.tissueInfosVector.tail.map (fun t => str_tolower t.name)).Nodup ∧
      (∀ i, 1 ≤ i → i ≤ 82 →
        ∃ name, GetTissueName st' i = some name ∧ GetTissueType st' name = i) ∧
      (∀ i info, 1 ≤ i → st'.tissueInfosVector[i]? = some info →
        info.color.r.inUnitInterval = true ∧ info.color.g.inUnitInterval = true ∧
        info.color.b.inUnitInterval = true) :=
  ⟨by decide, InitTissues_defaults P16 liveA (by decide)⟩

/-! ## Legacy binary codec: streams without the sentinel (C24) -/

theorem recordHead_recordBytes_old (version : Nat) (hv : version < 5) (info : TissueInfo)
    (hlen : info.name.length ≤ 99) (rest : List Byte) :
    LoadTissues.recordHead 0 (SaveTissues.recordBytes version info ++ rest)
      = some (info.color, CFloat.half, (info.name.length : Int), info.name ++ rest) := by
  unfold LoadTissues.recordHead SaveTissues.recordBytes
  have hv' : ¬ 5 ≤ version := by omega
  have h0 : ¬ 5 ≤ 0 := by omega
  simp only [List.append_assoc, if_neg hv', if_neg h0, List.nil_append, freadFloat_bytes,
    freadUnsigned_encodeLE, Option.pure_def, Option.bind_eq_bind, Option.some_bind,
    toInt32_small _ hlen]

theorem loop_round_trip_old (P : Platform) (version : Nat) (hv : version < 5)
    (records : List TissueInfo)
    (hnames : ∀ t ∈ records, t.name.length ≤ 99 ∧ (0 : Byte) ∉ t.name) :
    ∃ bytes, SaveTissues.loop version records = some bytes ∧
      ∀ (done : List TissueInfo) (tail : List Byte) (events : List LoadEvent),
        ∃ events', LoadTissues.loop P 0 records.length done (bytes ++ tail) events
          = (.finished (done ++ records.map
              (fun t => { t with opac := CFloat.half, locked := false })) tail, events') := by
  induction records with
  | nil => exact ⟨[], rfl, fun done tail events => ⟨events, by simp [LoadTissues.loop]⟩⟩
  | cons info rest ih =>
    obtain ⟨hlen, hzero⟩ := hnames info (by simp)
    have hrec : SaveTissues.record version info
        = some (SaveTissues.recordBytes version info) := by
      unfold SaveTissues.record
      rw [if_pos (by norm_num; omega)]
    obtain ⟨more, hmore, hloop⟩ := ih (fun t ht => hnames t (by simp [ht]))
    refine ⟨SaveTissues.recordBytes version info ++ more, ?_, ?_⟩
    · simp only [SaveTissues.loop, hrec, hmore]
    · intro done tail events
      obtain ⟨events', hloop'⟩ := hloop
        (done ++ [{ info with opac := CFloat.half, locked := false }]) tail
        (events ++ [LoadEvent.readSize (info.name.length : Int),
          LoadEvent.storeName (min (toSizeT (info.name.length : Int))
            (info.name ++ (more ++ tail)).length)]
          ++ [LoadEvent.storeTerminator (info.name.length : Int)])
      refine ⟨events', ?_⟩
      have hhead := recordHead_recordBytes_old version hv info hlen (more ++ tail)
      simp only [List.length_cons, LoadTissues.loop, List.append_assoc, hhead]
      have h0 : ¬ 100 < min (toSizeT (info.name.length : Int))
          (info.name ++ (more ++ tail)).length := by
        have hle := Nat.min_le_left (toSizeT (info.name.length : Int))
          (info.name ++ (more ++ tail)).length
        have hsz : toSizeT (info.name.length : Int) = info.name.length := by
          unfold toSizeT
          rw [if_pos (by omega)]
          rfl
        omega
      have h1 : ¬ (99 : Int) < (info.name.length : Int) := by omega
      have h2 : ¬ ((info.name.length : Int) < 0 ∨
          (info.name ++ (more ++ tail)).length < (info.name.length : Int).toNat) := by
        simp only [Int.toNat_ofNat, List.length_append]
        omega
      rw [if_neg h0, if_neg h1, if_neg h2]
      simp only [Int.toNat_ofNat, List.take_left', List.drop_left',
        cString_of_no_zero _ hzero]
      simp only [List.append_assoc, List.map_cons, List.singleton_append] at hloop' ⊢
      exact hloop'

theorem header_round_trip_old (P : Platform) (st : TissueInfos) (bg : TissueInfo)
    (rest : List TissueInfo) (hvec : st.tissueInfosVector = bg :: rest)
    (h2 : st.tissueInfosVector.length ≤ TISSUES_SIZE_MAX P)
    (hid : bg.color.r.eqSentinel = false)
    (tissuesVersion : Int) (htv : 0 < tissuesVersion) (more : List Byte) :
    LoadTissues.header P
        (encodeLE P.sizeofTissuesSize (GetTissueCount P st) ++
          bg.color.r.bytes ++ bg.color.g.bytes ++ bg.color.b.bytes ++ more)
        tissuesVersion
      = some (rest.length, 0,
          { P.defaultInfo with color := bg.color, opac := CFloat.half }, more) := by
  have h1 : 1 ≤ st.tissueInfosVector.length := by rw [hvec]; simp
  have hc := GetTissueCount_eq P st h1 h2
  have hcount : GetTissueCount P st % 256 ^ P.sizeofTissuesSize = rest.length := by
    rw [hc]
    have : st.tissueInfosVector.length - 1 = rest.length := by rw [hvec]; simp
    rw [this]
    apply Nat.mod_eq_of_lt
    have : rest.length + 1 ≤ TISSUES_SIZE_MAX P := by rw [hvec] at h2; simpa using h2
    unfold TISSUES_SIZE_MAX Platform.modulus at this
    omega
  have h0 : ¬ 5 ≤ 0 := by omega
  unfold LoadTissues.header
  simp only [List.append_assoc, if_pos htv, freadUnsigned_encodeLE, freadFloat_bytes, hid,
    Option.pure_def, Option.bind_eq_bind, Option.some_bind, Bool.false_eq_true, if_false,
    hcount, if_neg h0]

/-- C24. Streams without the sentinel stay loadable.  For a catalog with a background
record whose size fits the tissue id type, whose non-background names are at most 99 bytes
long without a zero byte and whose background first colour channel is not bit-equal to
`1.2345f`, and a version below 5: `LoadTissues` (with `tissuesVersion ≥ 1`, from any prior
state) applied to the bytes of `SaveTissues` takes the branch without version (the version
behind the sentinel counts as 0), returns having consumed exactly the bytes written, and
the result has the same tissue count, at every id the same colour and the opacity 0.5, and
at every non-background id the same name. -/
theorem presentinel_round_trip (P : Platform) (st st0 : TissueInfos) (version : Nat)
    (tissuesVersion : Int) (tail : List Byte)
    (h1 : 1 ≤ st.tissueInfosVector.length)
    (h2 : st.tissueInfosVector.length ≤ TISSUES_SIZE_MAX P)
    (hnames : ∀ t ∈ st.tissueInfosVector.tail, t.name.length ≤ 99 ∧ (0 : Byte) ∉ t.name)
    (hid : ∀ bg, st.tissueInfosVector[0]? = some bg → bg.color.r ≠ CFloat.sentinel)
    (hv : version < 5) (htv : 1 ≤ tissuesVersion) :
    ∃ bytes st1 events,
      SaveTissues P st version = some bytes ∧
      (LoadTissues.header P (bytes ++ tail) tissuesVersion).map (fun h => h.2.1) = some 0 ∧
      LoadTissues P (bytes ++ tail) tissuesVersion st0 = (.returned st1 tail, events) ∧
      GetTissueCount P st1 = GetTissueCount P st ∧
      (∀ i info, st.tissueInfosVector[i]? = some info →
        ∃ info', st1.tissueInfosVector[i]? = some info' ∧ info'.color = info.color ∧
          info'.opac = CFloat.half ∧ (1 ≤ i → info'.name = info.name)) := by
  obtain ⟨bg, rest, hvec⟩ : ∃ bg rest, st.tissueInfosVector = bg :: rest := by
    cases h : st.tissueInfosVector with
    | nil => rw [h] at h1; simp at h1
    | cons bg rest => exact ⟨bg, rest, rfl⟩
  have hnames' : ∀ t ∈ rest, t.name.length ≤ 99 ∧ (0 : Byte) ∉ t.name := by
    intro t ht; apply hnames; rw [hvec]; simpa using ht
  have hid' : bg.color.r.eqSentinel = false := by
    have := hid bg (by rw [hvec]; exact List.getElem?_cons_zero)
    unfold CFloat.eqSentinel
    exact decide_eq_false this
  obtain ⟨recs, hrecs, hloop⟩ := loop_round_trip_old P version hv rest hnames'
  obtain ⟨events, hloop'⟩ := hloop
    [{ P.defaultInfo with color := bg.color, opac := CFloat.half }] tail []
  have hlen : ({ P.defaultInfo with color := bg.color, opac := CFloat.half } ::
      rest.map (fun t => { t with opac := CFloat.half, locked := false })).length
      = st.tissueInfosVector.length := by
    rw [hvec]; simp
  obtain ⟨m, hm, _⟩ := CreateTissueTypeMap_spec P
    { tissueInfosVector := { P.defaultInfo with color := bg.color, opac := CFloat.half } ::
        rest.map (fun t => { t with opac := CFloat.half, locked := false }),
      tissueTypeMap := st0.tissueTypeMap }
    (by simp) (by simp only; rw [hlen]; exact h2)
  have hv' : ¬ 5 ≤ version := by omega
  have hh := header_round_trip_old P st bg rest hvec h2 hid' tissuesVersion
    (by omega) (recs ++ tail)
  refine ⟨encodeLE P.sizeofTissuesSize (GetTissueCount P st) ++
      bg.color.r.bytes ++ bg.color.g.bytes ++ bg.color.b.bytes ++ recs,
    { tissueInfosVector := { P.defaultInfo with color := bg.color, opac := CFloat.half } ::
        rest.map (fun t => { t with opac := CFloat.half, locked := false }),
      tissueTypeMap := m },
    events, ?_, ?_, ?_, ?_, ?_⟩
  · unfold SaveTissues
    rw [hvec]
    simp only [List.getElem?_cons_zero, List.drop_succ_cons, List.drop_zero, hrecs,
      Option.pure_def, Option.bind_eq_bind, Option.some_bind, if_neg hv', List.append_nil]
  · simp only [List.append_assoc] at hh ⊢
    rw [hh]
    rfl
  · unfold LoadTissues
    simp only [List.append_assoc] at hh ⊢
    rw [hh]
    simp only [List.singleton_append] at hloop'
    simp only [hloop', hm]
  · unfold GetTissueCount
    rw [hvec]
    simp
  · intro i info hinfo
    rw [hvec] at hinfo
    cases i with
    | zero =>
      simp only [List.getElem?_cons_zero, Option.some.injEq] at hinfo
      subst hinfo
      exact ⟨{ P.defaultInfo with color := bg.color, opac := CFloat.half },
        List.getElem?_cons_zero, rfl, rfl, fun h => by omega⟩
    | succ k =>
      simp only [List.getElem?_cons_succ] at hinfo
      refine ⟨{ info with opac := CFloat.half, locked := false }, ?_, rfl, rfl, fun _ => rfl⟩
      simp only [List.getElem?_cons_succ, List.getElem?_map, hinfo, Option.map_some']

/-- Instance of C24: the catalog [background, A (locked), B, C] written at version 4 and
read back with `tissuesVersion = 1`, the stream continuing with another byte. -/
theorem presentinel_round_trip_witness :
    (1 ≤ liveABC.tissueInfosVector.length ∧
      liveABC.tissueInfosVector.length ≤ TISSUES_SIZE_MAX P16 ∧
      (∀ t ∈ liveABC.tissueInfosVector.tail, t.name.length ≤ 99 ∧ (0 : Byte) ∉ t.name) ∧
      ∀ bg, liveABC.tissueInfosVector[0]? = some bg → bg.color.r ≠ CFloat.sentinel) ∧
    ∃ bytes st1 events,
      SaveTissues P16 liveABC 4 = some bytes ∧
      (LoadTissues.header P16 (bytes ++ [7]) 1).map (fun h => h.2.1) = some 0 ∧
      LoadTissues P16 (bytes ++ [7]) 1 liveA = (.returned st1 [7], events) ∧
      GetTissueCount P16 st1 = GetTissueCount P16 liveABC ∧
      (∀ i info, liveABC.tissueInfosVector[i]? = some info →
        ∃ info', st1.tissueInfosVector[i]? = some info' ∧ info'.color = info.color ∧
          info'.opac = CFloat.half ∧ (1 ≤ i → info'.name = info.name)) := by
  have hid : ∀ bg, liveABC.tissueInfosVector[0]? = some bg → bg.color.r ≠ CFloat.sentinel := by
    intro bg hbg
    have h0 : liveABC.tissueInfosVector[0]? = some bgInfo := by decide
    rw [h0] at hbg
    obtain rfl := Option.some.inj hbg
    decide
  exact ⟨⟨by decide, by decide, by decide, hid⟩,
    presentinel_round_trip P16 liveABC liveA 4 1 [7] (by decide) (by decide) (by decide) hid
      (by decide) (by decide)⟩

/-! ## Hierarchical-store codec: the paths of the leaves (C25) -/

theorem GetLeaves_below_eq (ancestors : List TissueHierarchyItem)
    (item : TissueHierarchyItem) :
    GetLeaves.below ancestors item = GetLeaves.loop ancestors item.GetChildren := by
  cases item with
  | mk name isFolder children => rw [GetLeaves.below]; rfl

theorem mem_GetLeaves_loop (ancestors : List TissueHierarchyItem)
    (children : List TissueHierarchyItem) (item : TissueHierarchyItem)
    (hmem : item ∈ children) :
    (item.GetIsFolder = true → ∀ p ∈ GetLeaves.below (item :: ancestors) item,
      p ∈ GetLeaves.loop ancestors children) ∧
    (item.GetIsFolder = false →
      { item := item, ancestors := ancestors } ∈ GetLeaves.loop ancestors children) := by
  induction children with
  | nil => cases hmem
  | cons c rest ih =>
    rw [GetLeaves.loop]
    rcases List.mem_cons.mp hmem with rfl | hmem
    · constructor
      · intro hf p hp
        rw [if_pos hf]
        exact List.mem_append_left _ hp
      · intro hf
        rw [if_neg (by rw [hf]; decide)]
        exact List.mem_append_left _ (List.mem_singleton.mpr rfl)
    · obtain ⟨h1, h2⟩ := ih hmem
      exact ⟨fun hf p hp => List.mem_append_right _ (h1 hf p hp),
        fun hf => List.mem_append_right _ (h2 hf)⟩

/-- A leaf below the folders F1, ..., Fk is among the leaves, and the walk over its
parents collects the names Fk, ..., F1. -/
theorem LeafAt_pointer (root leaf : TissueHierarchyItem) (folders : List (List Byte))
    (h : LeafAt root folders leaf) :
    ∀ ancestors, ∃ p ∈ GetLeaves.below ancestors root, p.item = leaf ∧
      BuildHiearchyMap.parents p.ancestors
        = folders.reverse ++ BuildHiearchyMap.parents ancestors := by
  induction h with
  | here root leaf hmem hleaf =>
    intro ancestors
    refine ⟨{ item := leaf, ancestors := ancestors }, ?_, rfl, by simp⟩
    rw [GetLeaves_below_eq]
    exact (mem_GetLeaves_loop ancestors _ leaf hmem).2 hleaf
  | inside root folder leaf folders hmem hfolder _ ih =>
    intro ancestors
    obtain ⟨p, hp, hitem, hparents⟩ := ih (folder :: ancestors)
    refine ⟨p, ?_, hitem, ?_⟩
    · rw [GetLeaves_below_eq]
      exact (mem_GetLeaves_loop ancestors _ folder hmem).1 hfolder p hp
    · rw [hparents, BuildHiearchyMap.parents]
      simp

theorem hierarchy_find_append_single (m : HierarchyMap) (k v k' : List Byte) :
    HierarchyMap.find (m ++ [(k, v)]) k'
      = match m.find k' with
        | some x => some x
        | none => if k' = k then some v else none := by
  unfold HierarchyMap.find
  induction m with
  | nil =>
    by_cases h : k' = k
    · simp [List.lookup, h]
    · have hb : (k' == k) = false := by simpa using h
      simp [List.lookup, h, hb]
  | cons e m ih =>
    obtain ⟨a, b⟩ := e
    by_cases h : k' = a
    · subst h; simp [List.lookup]
    · have hb : (k' == a) = false := by simpa using h
      simp only [List.cons_append, List.lookup, hb]
      exact ih

theorem hierarchy_insert_find (m : HierarchyMap) (k v k' : List Byte) :
    (m.insert k v).find k'
      = match m.find k' with
        | some x => some x
        | none => if k' = k then some v else none := by
  unfold HierarchyMap.insert
  by_cases h : (m.lookup k).isSome = true
  · rw [if_pos h]
    cases hk : m.find k' with
    | some x => rfl
    | none =>
      have : k' ≠ k := by
        intro e; subst e
        unfold HierarchyMap.find at hk
        rw [hk] at h; simp at h
      simp [this]
  · rw [if_neg h]
    exact hierarchy_find_append_single m k v k'

/-- The map after the loop over the leaves answers with the path of the first leaf of the
name asked for. -/
theorem foldl_body_find (leaves : List ItemPointer) (m : HierarchyMap) (k : List Byte) :
    (leaves.foldl BuildHiearchyMap.body m).find k
      = match m.find k with
        | some x => some x
        | none => (leaves.find? (fun p => cString p.item.GetName == k)).map
            (fun p => List.intercalate [47] (BuildHiearchyMap.parents p.ancestors)) := by
  induction leaves generalizing m with
  | nil =>
    rw [List.foldl_nil]
    cases m.find k <;> rfl
  | cons p rest ih =>
    rw [List.foldl_cons, ih, BuildHiearchyMap.body, hierarchy_insert_find]
    cases hm : m.find k with
    | some x => rfl
    | none =>
      by_cases hk : k = cString p.item.GetName
      · subst hk
        simp
      · have hb : (cString p.item.GetName == k) = false := by
          simpa using fun e => hk e.symm
        simp [hk, List.find?_cons, hb]

theorem find?_of_nodup (leaves : List ItemPointer) (p : ItemPointer) (hp : p ∈ leaves)
    (hnd : (leaves.map (fun p => cString p.item.GetName)).Nodup) :
    ∃ q, leaves.find? (fun q => cString q.item.GetName == cString p.item.GetName) = some q ∧
      q.item = p.item ∧ q.ancestors = p.ancestors := by
  induction leaves with
  | nil => cases hp
  | cons a rest ih =>
    rw [List.map_cons, List.nodup_cons] at hnd
    by_cases ha : cString a.item.GetName = cString p.item.GetName
    · have hap : p = a := by
        rcases List.mem_cons.mp hp with h | h
        · exact h
        · exact absurd (List.mem_map.mpr ⟨p, h, ha.symm⟩) hnd.1
      subst hap
      exact ⟨p, by simp, rfl, rfl⟩
    · have hb : (cString a.item.GetName == cString p.item.GetName) = false := by
        simpa using ha
      have hp' : p ∈ rest := by
        rcases List.mem_cons.mp hp with h | h
        · subst h; exact absurd rfl ha
        · exact h
      obtain ⟨q, hq, h1, h2⟩ := ih hp' hnd.2
      exact ⟨q, by rw [List.find?_cons, hb]; exact hq, h1, h2⟩

/-- C25 as stated fails: the path runs from the parent of the leaf outwards, and the first
leaf of a name decides.  For the root "R" with the folder "F1", in it the folder "F2", in
it the leaf "L", the map sends "L" to "F2/F1", not to "F1/F2"; for the root "R" with the
folder "F1" that holds a leaf "L" and a second leaf "L" directly under the root, the map
sends "L" to "F1", also for the leaf that hangs directly under the root. -/
theorem BuildHiearchyMap_counterexample :
    LeafAt treeNested [[70, 49], [70, 50]] leafL ∧
    (BuildHiearchyMap (some treeNested)).find [76] = some [70, 50, 47, 70, 49] ∧
    LeafAt treeTwice [] leafL ∧
    (BuildHiearchyMap (some treeTwice)).find [76] = some [70, 49] := by
  refine ⟨?_, by decide, ?_, by decide⟩
  · exact LeafAt.inside treeNested (.mk [70, 49] true [.mk [70, 50] true [leafL]]) leafL _
      (by simp [treeNested, TissueHierarchyItem.GetChildren]) rfl
      (LeafAt.inside _ (.mk [70, 50] true [leafL]) leafL _
        (by simp [TissueHierarchyItem.GetChildren]) rfl
        (LeafAt.here _ leafL (by simp [TissueHierarchyItem.GetChildren]) rfl))
  · exact LeafAt.here treeTwice leafL (by simp [treeTwice, TissueHierarchyItem.GetChildren]) rfl

/-- C25, amended. For every hierarchy tree whose leaves have pairwise distinct names and
every leaf whose ancestor folders below the tree root are, from the outermost down to the
leaf's direct parent, F1, ..., Fk, `BuildHiearchyMap` maps the leaf's name to the path
"Fk/.../F1", from the direct parent outwards (the empty string when the leaf hangs directly
under the root); the root's own name never appears, and with no tree supplied the map is
empty so every tissue gets the empty path. -/
theorem BuildHiearchyMap_paths (root leaf : TissueHierarchyItem)
    (folders : List (List Byte)) (h : LeafAt root folders leaf)
    (hnd : ((GetLeaves root).map (fun p => cString p.item.GetName)).Nodup) :
    (BuildHiearchyMap (some root)).find (cString leaf.GetName)
      = some (List.intercalate [47] folders.reverse) ∧
    (folders = [] → (BuildHiearchyMap (some root)).get (cString leaf.GetName) = []) ∧
    BuildHiearchyMap none = [] ∧
    ∀ tissue, (BuildHiearchyMap none).get tissue = [] := by
  obtain ⟨p, hp, hitem, hparents⟩ := LeafAt_pointer root leaf folders h []
  have hfind : (BuildHiearchyMap (some root)).find (cString leaf.GetName)
      = some (List.intercalate [47] folders.reverse) := by
    unfold BuildHiearchyMap
    simp only
    rw [foldl_body_find]
    obtain ⟨q, hq, hq1, hq2⟩ := find?_of_nodup (GetLeaves root) p hp hnd
    rw [hitem] at hq
    have hnil : HierarchyMap.find [] (cString leaf.GetName) = none := rfl
    rw [hnil]
    simp only [hq, Option.map_some', hq2, hparents]
    simp [BuildHiearchyMap.parents]
  refine ⟨hfind, ?_, rfl, fun _ => rfl⟩
  intro hf
  subst hf
  unfold HierarchyMap.get
  rw [hfind]
  rfl

/-- Instance of the amended C25: the root "R" with the folder "F1", in it the folder "F2",
in it the leaf "L". -/
theorem BuildHiearchyMap_paths_witness :
    LeafAt treeNested [[70, 49], [70, 50]] leafL ∧
    ((GetLeaves treeNested).map (fun p => cString p.item.GetName)).Nodup ∧
    (BuildHiearchyMap (some treeNested)).find (cString leafL.GetName)
      = some (List.intercalate [47] [[70, 50], [70, 49]]) := by
  have hleaf : LeafAt treeNested [[70, 49], [70, 50]] leafL :=
    LeafAt.inside treeNested (.mk [70, 49] true [.mk [70, 50] true [leafL]]) leafL _
      (by simp [treeNested, TissueHierarchyItem.GetChildren]) rfl
      (LeafAt.inside _ (.mk [70, 50] true [leafL]) leafL _
        (by simp [TissueHierarchyItem.GetChildren]) rfl
        (LeafAt.here _ leafL (by simp [TissueHierarchyItem.GetChildren]) rfl))
  have hnd : ((GetLeaves treeNested).map (fun p => cString p.item.GetName)).Nodup := by
    decide
  exact ⟨hleaf, hnd, (BuildHiearchyMap_paths treeNested leafL _ hleaf hnd).1⟩

/-! ## Catalog store: the background record and the name index under the mutations
(C21, C22) -/

theorem loop_finished_length (P : Platform) (opacVersion : Nat) (n : Nat)
    (done : List TissueInfo) (fp : List Byte) (events : List LoadEvent)
    (vec : List TissueInfo) (fp' : List Byte)
    (h : (LoadTissues.loop P opacVersion n done fp events).1 = .finished vec fp') :
    vec.length = done.length + n := by
  induction n generalizing done fp events with
  | zero =>
    simp only [LoadTissues.loop, LoadTissues.Loop.finished.injEq] at h
    rw [← h.1]
    rfl
  | succ n ih =>
    unfold LoadTissues.loop at h
    cases hh : LoadTissues.recordHead opacVersion fp with
    | none => rw [hh] at h; simp at h
    | some head =>
      obtain ⟨color, opac, size, fp1⟩ := head
      rw [hh] at h
      simp only at h
      by_cases h0 : 100 < min (toSizeT size) fp1.length
      · rw [if_pos h0] at h; simp at h
      · rw [if_neg h0] at h
        by_cases h1 : 99 < size
        · rw [if_pos h1] at h
          simp at h
        · rw [if_neg h1] at h
          by_cases h2 : size < 0 ∨ fp1.length < size.toNat
          · rw [if_pos h2] at h; simp at h
          · rw [if_neg h2] at h
            rw [ih _ _ _ h]
            simp only [List.length_append, List.length_singleton]
            omega

/-- However a call of `LoadTissues` ends, by return or by the `throw`, the vector holds
the tissue count of the stream plus one records. -/
theorem LoadTissues_nonempty (P : Platform) (fp : List Byte) (tissuesVersion : Int)
    (st : TissueInfos) :
    (∀ st' rest, (LoadTissues P fp tissuesVersion st).1 = .returned st' rest →
      1 ≤ st'.tissueInfosVector.length) ∧
    (∀ st', (LoadTissues P fp tissuesVersion st).1 = .threw st' →
      1 ≤ st'.tissueInfosVector.length) := by
  unfold LoadTissues
  cases hh : LoadTissues.header P fp tissuesVersion with
  | none => exact ⟨fun _ _ h => by simp at h, fun _ h => by simp at h⟩
  | some head =>
    obtain ⟨tissuecount, opacVersion, bg, fp1⟩ := head
    simp only
    cases hl : LoadTissues.loop P opacVersion tissuecount [bg] fp1 [] with
    | mk outcome events =>
      have hl1 : (LoadTissues.loop P opacVersion tissuecount [bg] fp1 []).1 = outcome := by
        rw [hl]
      cases outcome with
      | finished vec fp2 =>
        have hlen := loop_finished_length P opacVersion tissuecount [bg] fp1 [] vec fp2 hl1
        simp only
        cases hc : CreateTissueTypeMap P { st with tissueInfosVector := vec } with
        | none => exact ⟨fun _ _ h => by simp at h, fun _ h => by simp at h⟩
        | some st1 =>
          refine ⟨?_, fun _ h => by simp at h⟩
          intro st' rest h
          simp only [LoadOutcome.returned.injEq] at h
          rw [← h.1, CreateTissueTypeMap_vector P _ st1 hc]
          simp only [hlen, List.length_singleton]
          omega
      | threw vec =>
        have hlen := (loop_threw_length P opacVersion tissuecount [bg] fp1 [] vec hl1).1
        refine ⟨fun _ _ h => by simp at h, ?_⟩
        intro st' h
        simp only [LoadOutcome.threw.injEq] at h
        rw [← h]
        simp only [hlen, List.length_singleton]
        omega
      | indeterminate => exact ⟨fun _ _ h => by simp at h, fun _ h => by simp at h⟩

theorem InitTissues_length (P : Platform) (st st' : TissueInfos)
    (h : InitTissues P st = some st') : st'.tissueInfosVector.length = 83 := by
  rw [CreateTissueTypeMap_vector P _ st' h]
  simp only [List.length_cons, List.length_map]
  rfl

/-- What `reconcile` leaves starts with the records that were not matched, the background
among them. -/
theorem reconcile_nonempty (P : Platform) (st : TissueInfos) (handler3D : SlicesHandler)
    (cand : List TissueInfo) (r : Result)
    (h1 : 1 ≤ st.tissueInfosVector.length)
    (h2 : st.tissueInfosVector.length ≤ TISSUES_SIZE_MAX P)
    (h : reconcile P st handler3D cand = some r) :
    1 ≤ r.infos.tissueInfosVector.length ∧ NameIndexConsistent P r.infos := by
  unfold reconcile at h
  cases hl : locals P st cand with
  | none => rw [hl] at h; simp at h
  | some l =>
    rw [hl] at h
    simp only [Option.pure_def, Option.bind_eq_bind, Option.some_bind] at h
    cases hc : CreateTissueTypeMap P { st with tissueInfosVector := l.newTissueInfosVec } with
    | none => rw [hc] at h; simp at h
    | some st2 =>
      rw [hc] at h
      simp only [Option.some_bind, Option.some.injEq] at h
      subst h
      refine ⟨?_, CreateTissueTypeMap_consistent P _ st2 hc⟩
      simp only
      rw [CreateTissueTypeMap_vector P _ st2 hc]
      simp only
      have hfold : cand.foldl (noteRecord st) ([], List.range st.tissueInfosVector.length)
          = (cand, unmatchedIds st cand) := by
        rw [foldl_noteRecord]; rfl
      unfold locals at hl
      rw [initMissing_eq P st h1 h2] at hl
      simp only [Option.pure_def, Option.bind_eq_bind, Option.some_bind, hfold] at hl
      rw [prependMissing_eq _ _ _ (unmatchedIds_lt st cand)] at hl
      simp only [Option.some_bind] at hl
      cases hp : permutation P st
          ((unmatchedIds st cand).filterMap (fun i => st.tissueInfosVector[i]?) ++ cand) with
      | none => rw [hp] at hl; simp at hl
      | some perm =>
        rw [hp] at hl
        simp only [Option.some_bind, Option.some.injEq] at hl
        rw [← hl]
        simp only [List.length_append,
          filterMap_get_length _ _ (unmatchedIds_lt st cand)]
        have := List.length_pos_of_mem (unmatchedIds_zero_mem st cand h1)
        omega

/-- A call of `LoadTissuesReadable` that returns has ended in `InitTissues` or in the
reconciliation of a candidate. -/
theorem LoadTissuesReadable_cases (P : Platform) (lib : CLibrary)
    (file : Option (List Byte)) (handler3D : SlicesHandler) (removeTissuesRange : Nat)
    (st : TissueInfos) (r : Result)
    (h : LoadTissuesReadable P lib file handler3D removeTissuesRange st = some r) :
    InitTissues P st = some r.infos ∨ ∃ cand, reconcile P st handler3D cand = some r := by
  have hinit : ∀ r : Result, (InitTissues P st).map (fun infos =>
      ({ returned := false, removeTissuesRange := removeTissuesRange, infos := infos,
         handler3D := handler3D } : Result)) = some r → InitTissues P st = some r.infos := by
    intro r hr
    cases hi : InitTissues P st with
    | none => rw [hi] at hr; simp at hr
    | some infos =>
      rw [hi] at hr
      simp only [Option.map_some', Option.some.injEq] at hr
      rw [← hr]
  unfold LoadTissuesReadable at h
  cases file with
  | none => exact Or.inl (hinit r h)
  | some content =>
    simp only at h
    cases hp : parse P lib content with
    | none => rw [hp] at h; simp at h
    | some parsed =>
      rw [hp] at h
      cases parsed with
      | unknownFormat => exact Or.inl (hinit r h)
      | badRecord =>
        simp only at h
        cases hm : initMissing P st with
        | none => rw [hm] at h; simp at h
        | some m =>
          rw [hm] at h
          exact Or.inl (hinit r h)
      | candidate cand => exact Or.inr ⟨cand, h⟩

theorem defaultLoop_length (lib : CLibrary) (fuel : Nat) :
    ∀ (fp : List Byte) (vec vec' : List TissueInfo),
      LoadDefaultTissueList.loop lib fuel fp vec = some vec' → vec.length ≤ vec'.length := by
  induction fuel with
  | zero => intro fp vec vec' h; simp [LoadDefaultTissueList.loop] at h
  | succ fuel ih =>
    intro fp vec vec' h
    rw [LoadDefaultTissueList.loop] at h
    cases hs : fscanfDefault lib fp with
    | none => rw [hs] at h; simp at h
    | some res =>
      rw [hs] at h
      cases res with
      | none =>
        simp only [Option.some.injEq] at h
        rw [h]
      | some rec =>
        obtain ⟨info, fp1⟩ := rec
        simp only at h
        have := ih fp1 _ vec' h
        simp only [List.length_append, List.length_singleton] at this
        omega

/-- A call of `LoadDefaultTissueList` that returns has ended in `CreateTissueTypeMap` on a
vector that starts with the background. -/
theorem LoadDefaultTissueList_cases (P : Platform) (lib : CLibrary)
    (file : Option (List Byte)) (st : TissueInfos) (r : Bool × TissueInfos)
    (h : LoadDefaultTissueList P lib file st = some r) :
    1 ≤ r.2.tissueInfosVector.length ∧ NameIndexConsistent P r.2 := by
  unfold LoadDefaultTissueList at h
  cases file with
  | none =>
    simp only at h
    cases hi : InitTissues P st with
    | none => rw [hi] at h; simp at h
    | some st1 =>
      rw [hi] at h
      simp only at h
      cases hc : CreateTissueTypeMap P st1 with
      | none => rw [hc] at h; simp at h
      | some st2 =>
        rw [hc] at h
        simp only [Option.map_some', Option.some.injEq] at h
        rw [← h]
        refine ⟨?_, CreateTissueTypeMap_consistent P _ st2 hc⟩
        simp only
        rw [CreateTissueTypeMap_vector P _ st2 hc, InitTissues_length P st st1 hi]
        omega
  | some content =>
    simp only at h
    cases hl : LoadDefaultTissueList.loop lib (content.length + 1) content [P.defaultInfo] with
    | none => rw [hl] at h; simp at h
    | some vec =>
      rw [hl] at h
      simp only at h
      cases hc : CreateTissueTypeMap P { st with tissueInfosVector := vec } with
      | none => rw [hc] at h; simp at h
      | some st2 =>
        rw [hc] at h
        simp only [Option.map_some', Option.some.injEq] at h
        rw [← h]
        refine ⟨?_, CreateTissueTypeMap_consistent P _ st2 hc⟩
        simp only
        rw [CreateTissueTypeMap_vector P _ st2 hc]
        have := defaultLoop_length lib _ _ _ _ hl
        simpa using this

theorem CreateTissueTypeMap_eq_fold (P : Platform) (st : TissueInfos)
    (h1 : 1 ≤ st.tissueInfosVector.length)
    (h2 : st.tissueInfosVector.length ≤ TISSUES_SIZE_MAX P) :
    CreateTissueTypeMap P st
      = ((List.range' 1 (st.tissueInfosVector.length - 1)).foldlM
          (CreateTissueTypeMap.body st.tissueInfosVector) []).map
          (fun m => { st with tissueTypeMap := m }) := by
  unfold CreateTissueTypeMap countUpTo
  rw [GetTissueCount_eq P st h1 h2, if_pos (by omega)]
  simp only [Option.pure_def, Option.bind_eq_bind, Option.some_bind]
  have e : st.tissueInfosVector.length - 1 + 1 - 1 = st.tissueInfosVector.length - 1 := by
    omega
  rw [e]
  cases (List.range' 1 (st.tissueInfosVector.length - 1)).foldlM
    (CreateTissueTypeMap.body st.tissueInfosVector) [] <;> rfl

theorem foldlM_body_push (v : List TissueInfo) (t : TissueInfo) (ts : List Nat)
    (hts : ∀ type ∈ ts, type < v.length) (m : TissueTypeMapType) :
    ts.foldlM (CreateTissueTypeMap.body (v ++ [t])) m
      = ts.foldlM (CreateTissueTypeMap.body v) m := by
  induction ts generalizing m with
  | nil => rfl
  | cons a ts ih =>
    have ha : a < v.length := hts a (List.mem_cons_self _ _)
    have hbody : CreateTissueTypeMap.body (v ++ [t]) m a = CreateTissueTypeMap.body v m a := by
      unfold CreateTissueTypeMap.body
      rw [List.getElem?_append_left ha]
    rw [List.foldlM_cons, List.foldlM_cons, hbody]
    cases CreateTissueTypeMap.body v m a with
    | none => rfl
    | some m' => exact ih (fun type h => hts type (List.mem_cons_of_mem _ h)) m'

/-- `AddTissue` keeps the name index consistent: the entry it inserts is the one the last
pass of `CreateTissueTypeMap` inserts. -/
theorem AddTissue_consistent (P : Platform) (st : TissueInfos) (t : TissueInfo)
    (hc : NameIndexConsistent P st)
    (h2 : st.tissueInfosVector.length + 1 ≤ TISSUES_SIZE_MAX P) :
    NameIndexConsistent P (AddTissue P st t) := by
  have h1 := consistent_length_pos P st hc
  obtain ⟨st0, hst0, hfind⟩ := hc
  rw [CreateTissueTypeMap_eq_fold P st h1 (by omega)] at hst0
  cases hm0 : (List.range' 1 (st.tissueInfosVector.length - 1)).foldlM
      (CreateTissueTypeMap.body st.tissueInfosVector) [] with
  | none => rw [hm0] at hst0; simp at hst0
  | some m0 =>
    rw [hm0] at hst0
    simp only [Option.map_some', Option.some.injEq] at hst0
    subst hst0
    simp only at hfind
    have hlen : (AddTissue P st t).tissueInfosVector.length
        = st.tissueInfosVector.length + 1 := by
      simp [AddTissue]
    have hvec : (AddTissue P st t).tissueInfosVector = st.tissueInfosVector ++ [t] := rfl
    have hcount : GetTissueCount P
        { st with tissueInfosVector := st.tissueInfosVector ++ [t] }
        = st.tissueInfosVector.length := by
      rw [GetTissueCount_eq P _ (by simp) (by simpa using h2)]
      simp
    have hrange : List.range' 1 (st.tissueInfosVector.length + 1 - 1)
        = List.range' 1 (st.tissueInfosVector.length - 1) ++ [st.tissueInfosVector.length] := by
      obtain ⟨n, hn⟩ : ∃ n, st.tissueInfosVector.length = n + 1 :=
        ⟨st.tissueInfosVector.length - 1, by omega⟩
      rw [hn]
      simp only [Nat.add_sub_cancel]
      rw [List.range'_concat]
      simp [Nat.add_comm]
    have hre : CreateTissueTypeMap P (AddTissue P st t)
        = some { tissueInfosVector := st.tissueInfosVector ++ [t],
                 tissueTypeMap := m0.insert (str_tolower t.name)
                   st.tissueInfosVector.length } := by
      rw [CreateTissueTypeMap_eq_fold P _ (by rw [hlen]; omega) (by rw [hlen]; exact h2),
        hlen, hvec, hrange, List.foldlM_append,
        foldlM_body_push _ _ _ (by
          intro type ht
          have := (List.mem_range'_1.mp ht).2
          omega), hm0]
      simp only [Option.bind_eq_bind, Option.some_bind, List.foldlM_cons, List.foldlM_nil,
        CreateTissueTypeMap.body, List.getElem?_concat_length, Option.pure_def,
        Option.map_some']
    refine ⟨_, hre, ?_⟩
    intro key
    show (TissueTypeMapType.insert st.tissueTypeMap (str_tolower t.name)
      (GetTissueCount P { st with tissueInfosVector := st.tissueInfosVector ++ [t] })).find key
      = (m0.insert (str_tolower t.name) st.tissueInfosVector.length).find key
    rw [hcount, insert_find, insert_find, hfind key]

theorem RemoveTissue_valid (P : Platform) (st : TissueInfos) (i : Nat)
    (h2 : st.tissueInfosVector.length ≤ TISSUES_SIZE_MAX P)
    (hi1 : 1 ≤ i) (hi : i < st.tissueInfosVector.length) :
    ∃ st', RemoveTissue P st i = some st' ∧
      st'.tissueInfosVector.length + 1 = st.tissueInfosVector.length ∧
      NameIndexConsistent P st' := by
  have hlen : (st.tissueInfosVector.eraseIdx i).length + 1 = st.tissueInfosVector.length := by
    exact List.length_eraseIdx_add_one hi
  obtain ⟨m, hm, _⟩ := CreateTissueTypeMap_spec P
    { st with tissueInfosVector := st.tissueInfosVector.eraseIdx i }
    (by simp only; omega) (by simp only; omega)
  refine ⟨_, ?_, hlen, CreateTissueTypeMap_consistent P _ _ hm⟩
  unfold RemoveTissue eraseAt
  rw [if_pos hi]
  exact hm

theorem RemoveTissues_valid (P : Platform) (st : TissueInfos) (S : TissueSet)
    (h2 : st.tissueInfosVector.length ≤ TISSUES_SIZE_MAX P)
    (hS : S.Sorted (· < ·))
    (hvalid : ∀ i ∈ S, 1 ≤ i ∧ i < st.tissueInfosVector.length)
    (h1 : 1 ≤ st.tissueInfosVector.length) :
    ∃ st', RemoveTissues P st S = some st' ∧ 1 ≤ st'.tissueInfosVector.length ∧
      NameIndexConsistent P st' := by
  obtain ⟨hfold, hlen⟩ := foldlM_eraseAt_sorted S st.tissueInfosVector hS
    (fun i hi => (hvalid i hi).2)
  have hpos : 1 ≤ (recordsNotIn S 0 st.tissueInfosVector).length := by
    cases hv : st.tissueInfosVector with
    | nil => rw [hv] at h1; simp at h1
    | cons a rest =>
      have h0 : 0 ∉ S := fun h => by have := (hvalid 0 h).1; omega
      rw [recordsNotIn, if_neg h0]
      simp
  obtain ⟨m, hm, _⟩ := CreateTissueTypeMap_spec P
    { st with tissueInfosVector := recordsNotIn S 0 st.tissueInfosVector }
    hpos (by simp only; omega)
  refine ⟨_, ?_, hpos, CreateTissueTypeMap_consistent P _ _ hm⟩
  unfold RemoveTissues
  rw [hfold]
  exact hm

theorem RemoveAllTissues_consistent (P : Platform) (st : TissueInfos)
    (hP : 1 ≤ TISSUES_SIZE_MAX P) : NameIndexConsistent P (RemoveAllTissues P st) := by
  refine ⟨RemoveAllTissues P st, ?_, fun _ => rfl⟩
  rw [CreateTissueTypeMap_eq_fold P _ (by simp [RemoveAllTissues])
    (by simpa [RemoveAllTissues] using hP)]
  rfl

/-- C21 as stated fails for the removal of id 0.  The catalog [background] has a record at
index 0; `RemoveTissue(0)` erases it and leaves an empty vector, on which the loop of
`CreateTissueTypeMap` runs up to the wrapped count and has no defined result, and so does
`RemoveTissues({0})`.  On [background, "A"], `RemoveTissue(0)` leaves the single record
"A": a record, but not the background. -/
theorem background_record_counterexample :
    1 ≤ liveBg.tissueInfosVector.length ∧
    liveBg.tissueInfosVector.length ≤ TISSUES_SIZE_MAX P16 ∧
    eraseAt liveBg.tissueInfosVector 0 = some [] ∧
    RemoveTissue P16 liveBg 0 = none ∧
    RemoveTissues P16 liveBg [0] = none ∧
    (RemoveTissue P16 liveA 0).map (fun st' => st'.tissueInfosVector)
      = some [mkInfo nameA true] :=
  ⟨by decide, by decide, by decide, by decide, by decide, by decide⟩

/-- C21, amended. Starting from a catalog that has a record at index 0 and fits the tissue
id type, every catalog operation leaves a catalog with at least one record, where
`RemoveTissue` and `RemoveTissues` are called with non-background ids of the catalog:
`InitTissues` returns with the defaults; `AddTissue` appends; `RemoveTissue(i)` and
`RemoveTissues(S)` return for ids from 1 to the tissue count; `RemoveAllTissues` leaves
exactly the single default record, count 0; and whenever `LoadDefaultTissueList`,
`LoadTissues` (by return or by the `throw`) or `LoadTissuesReadable` ends, the vector holds
at least one record. -/
theorem background_record_kept (P : Platform) (lib : CLibrary) (st : TissueInfos)
    (h1 : 1 ≤ st.tissueInfosVector.length)
    (h2 : st.tissueInfosVector.length ≤ TISSUES_SIZE_MAX P)
    (hP : 83 ≤ TISSUES_SIZE_MAX P) :
    (∃ st', InitTissues P st = some st' ∧ 1 ≤ st'.tissueInfosVector.length) ∧
    (∀ t, 1 ≤ (AddTissue P st t).tissueInfosVector.length) ∧
    (∀ i, 1 ≤ i → i ≤ GetTissueCount P st →
      ∃ st', RemoveTissue P st i = some st' ∧ 1 ≤ st'.tissueInfosVector.length) ∧
    (∀ S : TissueSet, S.Sorted (· < ·) → (∀ i ∈ S, 1 ≤ i ∧ i ≤ GetTissueCount P st) →
      ∃ st', RemoveTissues P st S = some st' ∧ 1 ≤ st'.tissueInfosVector.length) ∧
    ((RemoveAllTissues P st).tissueInfosVector = [P.defaultInfo] ∧
      GetTissueCount P (RemoveAllTissues P st) = 0) ∧
    (∀ file r, LoadDefaultTissueList P lib file st = some r →
      1 ≤ r.2.tissueInfosVector.length) ∧
    (∀ fp tissuesVersion,
      (∀ st' rest, (LoadTissues P fp tissuesVersion st).1 = .returned st' rest →
        1 ≤ st'.tissueInfosVector.length) ∧
      (∀ st', (LoadTissues P fp tissuesVersion st).1 = .threw st' →
        1 ≤ st'.tissueInfosVector.length)) ∧
    (∀ file handler3D removeTissuesRange r,
      LoadTissuesReadable P lib file handler3D removeTissuesRange st = some r →
      1 ≤ r.infos.tissueInfosVector.length) := by
  have hc := GetTissueCount_eq P st h1 h2
  refine ⟨?_, ?_, ?_, ?_, ⟨rfl, ?_⟩, ?_, ?_, ?_⟩
  · obtain ⟨st', hst', hlen⟩ := InitTissues_spec P st hP
    exact ⟨st', hst', by omega⟩
  · intro t
    simp [AddTissue]
  · intro i hi1 hi
    obtain ⟨st', hst', hlen, _⟩ := RemoveTissue_valid P st i h2 hi1 (by omega)
    exact ⟨st', hst', by omega⟩
  · intro S hS hvalid
    obtain ⟨st', hst', hlen, _⟩ := RemoveTissues_valid P st S h2 hS
      (fun i hi => ⟨(hvalid i hi).1, by have := (hvalid i hi).2; omega⟩) h1
    exact ⟨st', hst', hlen⟩
  · rw [GetTissueCount_eq P _ (by simp [RemoveAllTissues])
      (by simp only [RemoveAllTissues, List.length_singleton]; omega)]
    rfl
  · intro file r h
    exact (LoadDefaultTissueList_cases P lib file st r h).1
  · intro fp tissuesVersion
    exact LoadTissues_nonempty P fp tissuesVersion st
  · intro file handler3D removeTissuesRange r h
    rcases LoadTissuesReadable_cases P lib file handler3D removeTissuesRange st r h with
      hinit | ⟨cand, hrec⟩
    · rw [InitTissues_length P st r.infos hinit]
      omega
    · exact (reconcile_nonempty P st handler3D cand r h1 h2 hrec).1

set_option maxRecDepth 1000000 in
/-- Instance of C21 on the catalog [background, A]: removing tissue 1 returns with a record
left, `RemoveAllTissues` leaves the default record, and the default list with the lines
"Skin" and "Fat" is loaded into a catalog with at least one record. -/
theorem background_record_kept_witness :
    1 ≤ liveA.tissueInfosVector.length ∧
    liveA.tissueInfosVector.length ≤ TISSUES_SIZE_MAX P16 ∧
    83 ≤ TISSUES_SIZE_MAX P16 ∧
    (∃ st', RemoveTissue P16 liveA 1 = some st' ∧ 1 ≤ st'.tissueInfosVector.length) ∧
    (RemoveAllTissues P16 liveA).tissueInfosVector = [P16.defaultInfo] ∧
    (∃ r, LoadDefaultTissueList P16 exampleLibrary (some defaultListFile) liveA = some r ∧
      1 ≤ r.2.tissueInfosVector.length) := by
  obtain ⟨_, _, hrem, _, hall, hdef, _, _⟩ :=
    background_record_kept P16 exampleLibrary liveA (by decide) (by decide) (by decide)
  have hsome : (LoadDefaultTissueList P16 exampleLibrary (some defaultListFile)
      liveA).isSome = true := by decide
  obtain ⟨r, hr⟩ := Option.isSome_iff_exists.mp hsome
  exact ⟨by decide, by decide, by decide, hrem 1 (by decide) (by decide), hall.1,
    r, hr, hdef _ r hr⟩

/-- C22. If the name index of a catalog that fits the tissue id type is consistent (it
equals the index `CreateTissueTypeMap` computes from the catalog), it is consistent again
after each structural mutation: after `AddTissue` when the grown catalog fits the id type;
after `RemoveTissue` and `RemoveTissues`, which return for ids from 1 to the tissue count
and leave a consistent index whenever they return; after `RemoveAllTissues`; after
`InitTissues`, which returns; and after every call of `LoadDefaultTissueList` and of
`LoadTissuesReadable` that returns. -/
theorem name_index_preserved (P : Platform) (lib : CLibrary) (st : TissueInfos)
    (hc : NameIndexConsistent P st)
    (h2 : st.tissueInfosVector.length ≤ TISSUES_SIZE_MAX P)
    (hP : 83 ≤ TISSUES_SIZE_MAX P) :
    (∀ t, st.tissueInfosVector.length + 1 ≤ TISSUES_SIZE_MAX P →
      NameIndexConsistent P (AddTissue P st t)) ∧
    (∀ i, 1 ≤ i → i ≤ GetTissueCount P st →
      ∃ st', RemoveTissue P st i = some st' ∧ NameIndexConsistent P st') ∧
    (∀ i st', RemoveTissue P st i = some st' → NameIndexConsistent P st') ∧
    (∀ S : TissueSet, S.Sorted (· < ·) → (∀ i ∈ S, 1 ≤ i ∧ i ≤ GetTissueCount P st) →
      ∃ st', RemoveTissues P st S = some st' ∧ NameIndexConsistent P st') ∧
    (∀ (S : TissueSet) st', RemoveTissues P st S = some st' → NameIndexConsistent P st') ∧
    NameIndexConsistent P (RemoveAllTissues P st) ∧
    (∃ st', InitTissues P st = some st' ∧ NameIndexConsistent P st') ∧
    (∀ file r, LoadDefaultTissueList P lib file st = some r → NameIndexConsistent P r.2) ∧
    (∀ file handler3D removeTissuesRange r,
      LoadTissuesReadable P lib file handler3D removeTissuesRange st = some r →
      NameIndexConsistent P r.infos) := by
  have h1 := consistent_length_pos P st hc
  have hcount := GetTissueCount_eq P st h1 h2
  refine ⟨?_, ?_, ?_, ?_, ?_, ?_, ?_, ?_, ?_⟩
  · intro t ht
    exact AddTissue_consistent P st t hc ht
  · intro i hi1 hi
    obtain ⟨st', hst', _, hcons⟩ := RemoveTissue_valid P st i h2 hi1 (by omega)
    exact ⟨st', hst', hcons⟩
  · intro i st' h
    unfold RemoveTissue at h
    cases hv : eraseAt st.tissueInfosVector i with
    | none => rw [hv] at h; simp at h
    | some vec =>
      rw [hv] at h
      exact CreateTissueTypeMap_consistent P _ st' h
  · intro S hS hvalid
    obtain ⟨st', hst', _, hcons⟩ := RemoveTissues_valid P st S h2 hS
      (fun i hi => ⟨(hvalid i hi).1, by have := (hvalid i hi).2; omega⟩) h1
    exact ⟨st', hst', hcons⟩
  · intro S st' h
    unfold RemoveTissues at h
    cases hv : S.reverse.foldlM eraseAt st.tissueInfosVector with
    | none => rw [hv] at h; simp at h
    | some vec =>
      rw [hv] at h
      exact CreateTissueTypeMap_consistent P _ st' h
  · exact RemoveAllTissues_consistent P st (by omega)
  · obtain ⟨st', hst', _⟩ := InitTissues_spec P st hP
    exact ⟨st', hst', CreateTissueTypeMap_consistent P _ st' hst'⟩
  · intro file r h
    exact (LoadDefaultTissueList_cases P lib file st r h).2
  · intro file handler3D removeTissuesRange r h
    rcases LoadTissuesReadable_cases P lib file handler3D removeTissuesRange st r h with
      hinit | ⟨cand, hrec⟩
    · exact CreateTissueTypeMap_consistent P _ r.infos hinit
    · exact (reconcile_nonempty P st handler3D cand r h1 h2 hrec).2

set_option maxRecDepth 1000000 in
/-- Instance of C22 on the catalog [background, A]: the index stays consistent when "B" is
added, when tissue 1 is removed, when all tissues are removed, and when the table
[Unknown, 1 A, 2 B], in which no label is missing, is loaded. -/
theorem name_index_preserved_witness :
    NameIndexConsistent P16 liveA ∧
    liveA.tissueInfosVector.length ≤ TISSUES_SIZE_MAX P16 ∧
    83 ≤ TISSUES_SIZE_MAX P16 ∧
    NameIndexConsistent P16 (AddTissue P16 liveA (mkInfo nameB false)) ∧
    (∃ st', RemoveTissue P16 liveA 1 = some st' ∧ NameIndexConsistent P16 st') ∧
    NameIndexConsistent P16 (RemoveAllTissues P16 liveA) ∧
    (∃ r, LoadTissuesReadable P16 exampleLibrary (some tableAB) noCalls 0 liveA = some r ∧
      NameIndexConsistent P16 r.infos) := by
  have hA : NameIndexConsistent P16 liveA := ⟨liveA, by decide, fun _ => rfl⟩
  obtain ⟨hadd, hrem, _, _, _, hall, _, _, hload⟩ :=
    name_index_preserved P16 exampleLibrary liveA hA (by decide) (by decide)
  have hsome : (LoadTissuesReadable P16 exampleLibrary (some tableAB) noCalls 0
      liveA).isSome = true := by decide
  obtain ⟨r, hr⟩ := Option.isSome_iff_exists.mp hsome
  exact ⟨hA, by decide, by decide, hadd _ (by decide), hrem 1 (by decide) (by decide), hall,
    r, hr, hload _ _ _ r hr⟩

/-! ## Text export: the file of `SaveTissuesReadable` read by `LoadTissuesReadable` (C4, C5) -/

theorem isdigit_not_space (b : Byte) (h : isdigit b = true) :
    isspace b = false ∧ b.val ≠ 43 ∧ b.val ≠ 45 := by
  simp only [isdigit, Bool.and_eq_true, decide_eq_true_eq] at h
  refine ⟨?_, by omega, by omega⟩
  simp only [isspace, Bool.or_eq_false_iff, decide_eq_false_iff_not, Bool.and_eq_false_iff]
  omega

theorem digitsValue_concat (digits : List Byte) (d : Byte) :
    digitsValue (digits ++ [d]) = 10 * digitsValue digits + (d.val - 48) := by
  simp [digitsValue, List.foldl_append]

theorem fprintfUnsigned_digits_spec (fuel n : Nat) (h : n < fuel) :
    fprintfUnsigned.digits fuel n ≠ [] ∧
    (∀ b ∈ fprintfUnsigned.digits fuel n, isdigit b = true) ∧
    digitsValue (fprintfUnsigned.digits fuel n) = n := by
  induction fuel generalizing n with
  | zero => omega
  | succ fuel ih =>
    unfold fprintfUnsigned.digits
    by_cases h10 : n < 10
    · rw [if_pos h10]
      have hval : (Fin.ofNat (48 + n) : Byte).val = 48 + n := by
        show (48 + n) % 256 = 48 + n
        omega
      refine ⟨by simp, ?_, ?_⟩
      · intro b hb
        simp only [List.mem_singleton] at hb
        subst hb
        simp only [isdigit, hval, Bool.and_eq_true, decide_eq_true_eq]
        omega
      · simp only [digitsValue, List.foldl_cons, List.foldl_nil, hval]
        omega
    · rw [if_neg h10]
      have hval : (Fin.ofNat (48 + n % 10) : Byte).val = 48 + n % 10 := by
        show (48 + n % 10) % 256 = 48 + n % 10
        omega
      obtain ⟨_, hd, hv⟩ := ih (n / 10) (by omega)
      refine ⟨by simp, ?_, ?_⟩
      · intro b hb
        rcases List.mem_append.mp hb with hb | hb
        · exact hd b hb
        · simp only [List.mem_singleton] at hb
          subst hb
          simp only [isdigit, hval, Bool.and_eq_true, decide_eq_true_eq]
          omega
      · rw [digitsValue_concat, hv, hval]
        omega

theorem scanDecimal_digits (digits : List Byte) (c0 : Byte) (more : List Byte)
    (hne : digits ≠ []) (hd : ∀ b ∈ digits, isdigit b = true) (hc0 : isdigit c0 = false) :
    scanDecimal (digits ++ c0 :: more) = .assigned (false, digits) (c0 :: more) := by
  obtain ⟨c, d', rfl⟩ := List.exists_cons_of_ne_nil hne
  obtain ⟨hsp, h43, h45⟩ := isdigit_not_space c (hd c (List.mem_cons_self _ _))
  have htake : (c :: d' ++ c0 :: more).takeWhile isdigit = c :: d' := by
    rw [List.takeWhile_append_of_pos hd, List.takeWhile_cons_of_neg (by simp [hc0])]
    simp
  have hdrop : (c :: d' ++ c0 :: more).dropWhile isdigit = c0 :: more := by
    rw [List.dropWhile_append_of_pos hd, List.dropWhile_cons_of_neg (by simp [hc0])]
  unfold scanDecimal skipSpace
  rw [List.cons_append, List.dropWhile_cons_of_neg (by simp [hsp])]
  simp only [h43, h45, or_self, if_false]
  rw [← List.cons_append, htake, hdrop]
  simp

theorem scanUnsigned_fprintfUnsigned (n : Nat) (hn : n < 2 ^ 32) (c0 : Byte)
    (more : List Byte) (hc0 : isdigit c0 = false) :
    scanUnsigned (fprintfUnsigned n ++ c0 :: more) = some (.assigned n (c0 :: more)) := by
  obtain ⟨hne, hd, hv⟩ := fprintfUnsigned_digits_spec (n + 1) n (by omega)
  unfold scanUnsigned fprintfUnsigned
  rw [scanDecimal_digits _ c0 more hne hd hc0]
  simp only [hv, if_pos hn, Bool.false_eq_true, if_false]

theorem fscanfHeader_fprintfUnsigned (letter : Byte) (n : Nat) (hn : n < 2 ^ 32)
    (more : List Byte) :
    fscanfHeader letter (letter :: (fprintfUnsigned n ++ 10 :: more))
      = some (some (n, skipSpace more)) := by
  unfold fscanfHeader
  simp only [if_true]
  rw [scanUnsigned_fprintfUnsigned n hn 10 more (by decide)]
  simp only
  congr 3

theorem skipSpace_of_not_space (c : Byte) (rest : List Byte) (h : isspace c = false) :
    skipSpace (c :: rest) = c :: rest := by
  unfold skipSpace
  rw [List.dropWhile_cons_of_neg (by simp [h])]

theorem skipSpace_blank (c : Byte) (rest : List Byte) (h : isspace c = true) :
    skipSpace (c :: rest) = skipSpace rest := by
  unfold skipSpace
  rw [List.dropWhile_cons_of_pos h]

theorem skipSpace_lines (fprintfFloat : CFloat → List Byte) (withOpac : Bool)
    (records : List TissueInfo) :
    skipSpace (SaveTissuesReadable.lines fprintfFloat withOpac records)
      = SaveTissuesReadable.lines fprintfFloat withOpac records := by
  cases records with
  | nil => rfl
  | cons info rest =>
    simp only [SaveTissuesReadable.lines, SaveTissuesReadable.line, List.append_assoc,
      List.singleton_append, List.cons_append]
    exact skipSpace_of_not_space _ _ (by decide)

theorem plainName_spec (name : List Byte) (h : plainName name = true) :
    (∃ c s, name = c :: s ∧ isspace c = false) ∧ name.length < 100 ∧ (0 : Byte) ∉ name ∧
    ∀ b ∈ name, (!isspace b) = true := by
  simp only [plainName, Bool.and_eq_true, Bool.not_eq_true', List.isEmpty_eq_false,
    decide_eq_true_eq, List.all_eq_true, bne_iff_ne, ne_eq] at h
  obtain ⟨⟨hne, hlen⟩, hall⟩ := h
  refine ⟨?_, hlen, fun h0 => (hall 0 h0).1 rfl, fun b hb => by simp [(hall b hb).2]⟩
  obtain ⟨c, s, rfl⟩ := List.exists_cons_of_ne_nil hne
  exact ⟨c, s, rfl, (hall c (List.mem_cons_self _ _)).2⟩

theorem scanString_plainName (name : List Byte) (h : plainName name = true)
    (more : List Byte) :
    scanString (32 :: (name ++ 10 :: more)) = some (.assigned name (10 :: more)) := by
  obtain ⟨⟨c, s, rfl, hc⟩, hlen, _, hall⟩ := plainName_spec name h
  have htake : (c :: s ++ 10 :: more).takeWhile (fun b => !isspace b) = c :: s := by
    rw [List.takeWhile_append_of_pos hall, List.takeWhile_cons_of_neg (by decide)]
    simp
  have hdrop : (c :: s ++ 10 :: more).dropWhile (fun b => !isspace b) = 10 :: more := by
    rw [List.dropWhile_append_of_pos hall, List.dropWhile_cons_of_neg (by decide)]
  unfold scanString
  rw [skipSpace_blank 32 _ (by decide), List.cons_append, skipSpace_of_not_space c _ hc]
  simp only
  rw [← List.cons_append, htake, hdrop, if_pos hlen]

theorem scanFloat_readsBack (lib : CLibrary) (fprintfFloat : CFloat → List Byte)
    (x y : CFloat) (h : ReadsBack lib fprintfFloat x y) (rest : List Byte) :
    lib.scanFloat (skipSpace (fprintfFloat x ++ 32 :: rest)) = some (y, 32 :: rest) ∧
    lib.scanFloat (skipSpace (32 :: (fprintfFloat x ++ 32 :: rest))) = some (y, 32 :: rest) := by
  obtain ⟨⟨c, s, hcs, hc⟩, hscan⟩ := h
  have e : skipSpace (fprintfFloat x ++ 32 :: rest) = fprintfFloat x ++ 32 :: rest := by
    rw [hcs, List.cons_append]
    exact skipSpace_of_not_space c _ hc
  rw [skipSpace_blank 32 _ (by decide), e]
  exact ⟨hscan rest, hscan rest⟩

theorem fscanfColor_line (lib : CLibrary) (fprintfFloat : CFloat → List Byte)
    (back : CFloat → CFloat) (withOpac : Bool) (info : TissueInfo)
    (hname : plainName info.name = true)
    (hfloat : LineReadsBack lib fprintfFloat back withOpac info) (more : List Byte) :
    fscanfColor lib withOpac (SaveTissuesReadable.line fprintfFloat withOpac info ++ more)
      = some (some (readBackRecord back withOpac info, skipSpace more)) := by
  obtain ⟨hr, hg, hb, ho⟩ := hfloat
  obtain ⟨_, _, hzero, _⟩ := plainName_spec info.name hname
  have hcs : cString info.name = info.name := cString_of_no_zero _ hzero
  cases withOpac with
  | true =>
    have ho := ho rfl
    simp only [SaveTissuesReadable.line, if_true, List.append_assoc, List.singleton_append,
      List.cons_append, List.nil_append, hcs]
    unfold fscanfColor
    simp only [show ((67 : Byte).val = 67) from rfl, if_true]
    rw [(scanFloat_readsBack lib fprintfFloat _ _ hr _).1]
    simp only
    rw [(scanFloat_readsBack lib fprintfFloat _ _ hg _).2]
    simp only
    rw [(scanFloat_readsBack lib fprintfFloat _ _ hb _).2]
    simp only
    rw [(scanFloat_readsBack lib fprintfFloat _ _ ho _).2]
    simp only
    rw [scanString_plainName _ hname]
    simp only [hcs, readBackRecord, if_true, skipSpace_blank 10 more (by decide)]
  | false =>
    simp only [SaveTissuesReadable.line, Bool.false_eq_true, if_false, List.append_assoc,
      List.singleton_append, List.cons_append, List.nil_append, hcs]
    unfold fscanfColor
    simp only [show ((67 : Byte).val = 67) from rfl, if_true]
    rw [(scanFloat_readsBack lib fprintfFloat _ _ hr _).1]
    simp only
    rw [(scanFloat_readsBack lib fprintfFloat _ _ hg _).2]
    simp only
    rw [(scanFloat_readsBack lib fprintfFloat _ _ hb _).2]
    simp only [Bool.false_eq_true, if_false]
    rw [scanString_plainName _ hname]
    simp only [hcs, readBackRecord, Bool.false_eq_true, if_false,
      skipSpace_blank 10 more (by decide)]

theorem native_loop_lines (lib : CLibrary) (fprintfFloat : CFloat → List Byte)
    (back : CFloat → CFloat) (withOpac : Bool) (records : List TissueInfo)
    (hnames : ∀ t ∈ records, plainName t.name = true)
    (hfloat : ∀ t ∈ records, LineReadsBack lib fprintfFloat back withOpac t)
    (newTissueInfosVec : List TissueInfo) :
    native.loop lib withOpac records.length
        (SaveTissuesReadable.lines fprintfFloat withOpac records) newTissueInfosVec
      = some (some (newTissueInfosVec ++ records.map (readBackRecord back withOpac))) := by
  induction records generalizing newTissueInfosVec with
  | nil => simp [native.loop]
  | cons info rest ih =>
    simp only [List.length_cons, native.loop, SaveTissuesReadable.lines]
    rw [fscanfColor_line lib fprintfFloat back withOpac info
      (hnames info (List.mem_cons_self _ _)) (hfloat info (List.mem_cons_self _ _))]
    simp only [skipSpace_lines]
    rw [ih (fun t ht => hnames t (List.mem_cons_of_mem _ ht))
      (fun t ht => hfloat t (List.mem_cons_of_mem _ ht))]
    simp

/-- The file that `SaveTissuesReadable` writes is parsed into one record per tissue, in
order, with the names as they are and the numbers as they are read back. -/
theorem parse_export (P : Platform) (lib : CLibrary) (fprintfFloat : CFloat → List Byte)
    (back : CFloat → CFloat) (st : TissueInfos) (version : Nat)
    (h1 : 1 ≤ st.tissueInfosVector.length)
    (h2 : st.tissueInfosVector.length ≤ TISSUES_SIZE_MAX P)
    (h32 : TISSUES_SIZE_MAX P < 2 ^ 32) (hv : version < 65536)
    (hnames : ∀ t ∈ st.tissueInfosVector.tail, plainName t.name = true)
    (hfloat : ∀ t ∈ st.tissueInfosVector.tail,
      LineReadsBack lib fprintfFloat back (decide (5 ≤ version)) t) :
    ∃ content, SaveTissuesReadable P fprintfFloat st version = some content ∧
      parse P lib content = some (.candidate
        (st.tissueInfosVector.tail.map (readBackRecord back (decide (5 ≤ version))))) := by
  have hcount := GetTissueCount_eq P st h1 h2
  cases hvec : st.tissueInfosVector with
  | nil => rw [hvec] at h1; simp at h1
  | cons bg rest =>
    rw [hvec] at hnames hfloat hcount h2
    simp only [List.tail_cons, List.length_cons, Nat.add_sub_cancel] at hnames hfloat hcount h2
    have hloop := native_loop_lines lib fprintfFloat back (decide (5 ≤ version)) rest hnames
      hfloat []
    have hbound : recordBound P rest.length = rest.length :=
      recordBound_small P rest.length (by omega)
    refine ⟨(if 5 ≤ version then [86] ++ fprintfUnsigned version ++ [10] else []) ++
        ([78] ++ fprintfUnsigned (GetTissueCount P st) ++ [10]) ++
        SaveTissuesReadable.lines fprintfFloat (decide (5 ≤ version)) rest, ?_, ?_⟩
    · unfold SaveTissuesReadable
      rw [hvec]
    simp only [List.tail_cons, hcount]
    by_cases h5 : 5 ≤ version
    · simp only [if_pos h5, List.append_assoc, List.singleton_append, List.cons_append,
        List.nil_append]
      unfold parse
      rw [fscanfHeader_fprintfUnsigned 86 version (by omega)]
      simp only [Option.pure_def, Option.bind_eq_bind, Option.some_bind,
        skipSpace_of_not_space 78 _ (by decide), Nat.mod_eq_of_lt hv]
      rw [fscanfHeader_fprintfUnsigned 78 rest.length (by omega)]
      simp only [Option.some_bind, skipSpace_lines, hbound, hloop, List.nil_append]
    · simp only [if_neg h5, List.append_assoc, List.singleton_append, List.cons_append,
        List.nil_append]
      have hV : ∀ fp : List Byte, fscanfHeader 86 (78 :: fp) = some none := by
        intro fp
        unfold fscanfHeader
        simp only [show ¬ (78 : Byte) = 86 by decide, if_false]
      unfold parse
      rw [hV]
      simp only [Option.pure_def, Option.bind_eq_bind, Option.some_bind]
      rw [fscanfHeader_fprintfUnsigned 78 rest.length (by omega)]
      have hd : decide (5 ≤ version) = decide (5 ≤ 0) := by
        simp [h5]
      rw [hd] at hloop ⊢
      simp only [Nat.zero_mod, Option.some_bind, skipSpace_lines, hbound, hloop,
        List.nil_append]

theorem unmatchedIds_names (st : TissueInfos) (cand cand' : List TissueInfo)
    (h : cand.map (fun t => t.name) = cand'.map (fun t => t.name)) :
    unmatchedIds st cand = unmatchedIds st cand' := by
  have hall : ∀ (c : List TissueInfo) (i : Nat),
      c.all (fun c => GetTissueType st c.name != i)
        = (c.map (fun t => t.name)).all (fun n => GetTissueType st n != i) := by
    intro c i
    induction c with
    | nil => rfl
    | cons a c ih => simp only [List.all_cons, List.map_cons, ih]
  unfold unmatchedIds
  congr 1
  funext i
  rw [hall cand i, hall cand' i, h]

theorem readBackRecord_names (back : CFloat → CFloat) (withOpac : Bool)
    (records : List TissueInfo) :
    (records.map (readBackRecord back withOpac)).map (fun t => t.name)
      = records.map (fun t => t.name) := by
  rw [List.map_map]
  rfl

/-- A record of the new vector, made of the background and a candidate with the names of
the live tissues, has the name of the live record at its position. -/
theorem same_names_getElem (st : TissueInfos) (cand : List TissueInfo)
    (hn : cand.map (fun t => t.name) = st.tissueInfosVector.tail.map (fun t => t.name))
    (j : Nat) (info : TissueInfo)
    (h : (st.tissueInfosVector.take 1 ++ cand)[j]? = some info) :
    ∃ info', st.tissueInfosVector[j]? = some info' ∧ info'.name = info.name := by
  cases hvec : st.tissueInfosVector with
  | nil =>
    rw [hvec] at h hn
    simp only [List.tail_nil, List.map_nil, List.map_eq_nil_iff] at hn
    subst hn
    simp at h
  | cons bg rest =>
    rw [hvec] at h hn
    simp only [List.tail_cons] at hn
    cases j with
    | zero =>
      simp only [List.take_succ_cons, List.take_zero, List.singleton_append,
        List.getElem?_cons_zero, Option.some.injEq] at h
      subst h
      exact ⟨bg, List.getElem?_cons_zero, rfl⟩
    | succ k =>
      simp only [List.take_succ_cons, List.take_zero, List.singleton_append,
        List.getElem?_cons_succ] at h ⊢
      have e : (cand.map (fun t => t.name))[k]? = (rest.map (fun t => t.name))[k]? := by
        rw [hn]
      rw [List.getElem?_map, List.getElem?_map, h] at e
      cases hr : rest[k]? with
      | none => rw [hr] at e; simp at e
      | some info' =>
        rw [hr] at e
        simp only [Option.map_some', Option.some.injEq] at e
        exact ⟨info', rfl, e.symm⟩

/-- Reconciliation against a candidate that has the names of the live tissues in their
order. -/
theorem reconcile_same_names (P : Platform) (st : TissueInfos) (handler3D : SlicesHandler)
    (cand : List TissueInfo)
    (h2 : st.tissueInfosVector.length ≤ TISSUES_SIZE_MAX P)
    (hc : NameIndexConsistent P st)
    (hndt : (st.tissueInfosVector.tail.map (fun t => str_tolower t.name)).Nodup)
    (hn : cand.map (fun t => t.name) = st.tissueInfosVector.tail.map (fun t => t.name)) :
    ∃ l r, locals P st cand = some l ∧ reconcile P st handler3D cand = some r ∧
      r.returned = true ∧ l.missingTissues = [0] ∧ r.removeTissuesRange = 0 ∧
      r.infos.tissueInfosVector = st.tissueInfosVector.take 1 ++ cand ∧
      ((st.tissueInfosVector.map (fun t => str_tolower t.name)).Nodup →
        l.idxMap = List.range st.tissueInfosVector.length ∧ r.handler3D = handler3D) := by
  have h1 := consistent_length_pos P st hc
  have hu : unmatchedIds st cand = [0] := by
    rw [unmatchedIds_names st cand _ hn]
    exact unmatchedIds_self P st h2 hc hndt
  have hlen : cand.length = st.tissueInfosVector.length - 1 := by
    have := congrArg List.length hn
    simpa using this
  have hsz : (unmatchedIds st cand).length + cand.length ≤ TISSUES_SIZE_MAX P := by
    rw [hu, hlen]; simp only [List.length_singleton]; omega
  obtain ⟨l, r, hl, hr, hret, hrr, hvec, _, hh⟩ := reconcile_spec P st handler3D _ h2 hsz hc
  obtain ⟨l', hl', hmiss, hrange, hnv, _, _, hp⟩ := locals_spec P st _ h2 hsz hc
  rw [hl] at hl'
  obtain rfl : l = l' := by simpa using hl'
  rw [hu] at hmiss hrange hnv
  have htake : [0].filterMap (fun i => st.tissueInfosVector[i]?)
      = st.tissueInfosVector.take 1 := by
    cases hv : st.tissueInfosVector with
    | nil => rw [hv] at h1; simp at h1
    | cons bg rest => simp
  rw [htake] at hnv
  refine ⟨l, r, hl, hr, hret, hmiss, ?_, ?_, ?_⟩
  · rw [hrr]
    simpa using hrange
  · rw [hvec, hnv]
  · intro hnd
    have hno : ¬ ∃ j i, Assigns st l.newTissueInfosVec j i := by
      rintro ⟨j, i, info, hinfo, hg, hpos, hne⟩
      rw [hnv] at hinfo
      obtain ⟨info', hinfo', hname⟩ := same_names_getElem st cand hn j info hinfo
      rw [← hname] at hg
      by_cases hj : 1 ≤ j
      · have := resolves_self P st h2 hc hndt j info' hj hinfo'
        omega
      · have hj0 : j = 0 := by omega
        subst hj0
        obtain ⟨t, ht, htn⟩ := consistent_sound P st hc h2 info'.name (by omega)
        have e : (st.tissueInfosVector.map (fun t => str_tolower t.name))[0]?
            = (st.tissueInfosVector.map (fun t => str_tolower t.name))[
                GetTissueType st info'.name]? := by
          rw [List.getElem?_map, List.getElem?_map, hinfo', ht]
          simp [htn]
        have := List.getElem?_inj (by simp; omega) hnd e
        omega
    have hpf : ¬ l.permute = true := fun h => hno (hp.mp h)
    have hid : l.idxMap = List.range st.tissueInfosVector.length := by
      by_contra hne
      exact hpf ((permute_iff_not_identity P st _ h2 hsz hc l hl).mpr hne)
    exact ⟨hid, by rw [hh, if_neg hpf]⟩

/-- The self-export is the reconciliation against the records read back from the file. -/
theorem reloadExport_eq (P : Platform) (lib : CLibrary) (fprintfFloat : CFloat → List Byte)
    (back : CFloat → CFloat) (st : TissueInfos) (version : Nat) (handler3D : SlicesHandler)
    (removeTissuesRange : Nat)
    (h1 : 1 ≤ st.tissueInfosVector.length)
    (h2 : st.tissueInfosVector.length ≤ TISSUES_SIZE_MAX P)
    (h32 : TISSUES_SIZE_MAX P < 2 ^ 32) (hv : version < 65536)
    (hnames : ∀ t ∈ st.tissueInfosVector.tail, plainName t.name = true)
    (hfloat : ∀ t ∈ st.tissueInfosVector.tail,
      LineReadsBack lib fprintfFloat back (decide (5 ≤ version)) t) :
    ∃ content, SaveTissuesReadable P fprintfFloat st version = some content ∧
      parse P lib content = some (.candidate
        (st.tissueInfosVector.tail.map (readBackRecord back (decide (5 ≤ version))))) ∧
      reloadExport P lib fprintfFloat st version handler3D removeTissuesRange
        = reconcile P st handler3D
            (st.tissueInfosVector.tail.map (readBackRecord back (decide (5 ≤ version)))) := by
  obtain ⟨content, hsave, hparse⟩ := parse_export P lib fprintfFloat back st version h1 h2 h32
    hv hnames hfloat
  refine ⟨content, hsave, hparse, ?_⟩
  unfold reloadExport LoadTissuesReadable
  rw [hsave]
  simp only [Option.some_bind, hparse]

/-- The conversion `%f` of the examples on a text of digits, a point and digits that a blank
follows. -/
theorem exampleScanFloat_text (whole frac rest : List Byte) (hw : whole ≠ [])
    (hwd : ∀ b ∈ whole, isdigit b = true) (hfd : ∀ b ∈ frac, isdigit b = true) :
    exampleScanFloat (whole ++ 46 :: (frac ++ 32 :: rest))
      = some (CFloat.ofBits (nearestFloatBits (digitsValue (whole ++ frac))
          (10 ^ frac.length)), 32 :: rest) := by
  obtain ⟨c, w, rfl⟩ := List.exists_cons_of_ne_nil hw
  obtain ⟨_, h43, h45⟩ := isdigit_not_space c (hwd c (List.mem_cons_self _ _))
  have htake : (c :: w ++ 46 :: (frac ++ 32 :: rest)).takeWhile isdigit = c :: w := by
    rw [List.takeWhile_append_of_pos hwd, List.takeWhile_cons_of_neg (by decide)]
    simp
  have hdrop : (c :: w ++ 46 :: (frac ++ 32 :: rest)).dropWhile isdigit
      = 46 :: (frac ++ 32 :: rest) := by
    rw [List.dropWhile_append_of_pos hwd, List.dropWhile_cons_of_neg (by decide)]
  have htake2 : (frac ++ 32 :: rest).takeWhile isdigit = frac := by
    rw [List.takeWhile_append_of_pos hfd, List.takeWhile_cons_of_neg (by decide)]
    simp
  have hdrop2 : (frac ++ 32 :: rest).dropWhile isdigit = 32 :: rest := by
    rw [List.dropWhile_append_of_pos hfd, List.dropWhile_cons_of_neg (by decide)]
  unfold exampleScanFloat
  rw [List.cons_append]
  simp only [h43, h45, or_self, if_false]
  rw [← List.cons_append, htake, hdrop]
  simp only [List.head?_cons, if_true, List.drop_succ_cons, List.drop_zero, htake2, hdrop2]
  simp

theorem exampleLibrary_readsBack (x y : CFloat) (whole frac : List Byte)
    (hx : exampleFprintfFloat x = whole ++ 46 :: frac) (hw : whole ≠ [])
    (hwd : whole.all isdigit = true) (hfd : frac.all isdigit = true)
    (hy : CFloat.ofBits (nearestFloatBits (digitsValue (whole ++ frac)) (10 ^ frac.length))
      = y) :
    ReadsBack exampleLibrary exampleFprintfFloat x y := by
  rw [List.all_eq_true] at hwd hfd
  constructor
  · obtain ⟨c, w, rfl⟩ := List.exists_cons_of_ne_nil hw
    exact ⟨c, w ++ 46 :: frac, by rw [hx]; rfl,
      (isdigit_not_space c (hwd c (List.mem_cons_self _ _))).1⟩
  · intro rest
    show exampleScanFloat (exampleFprintfFloat x ++ 32 :: rest) = some (y, 32 :: rest)
    rw [hx, List.append_assoc, List.cons_append, exampleScanFloat_text whole frac rest hw hwd hfd,
      hy]

set_option maxRecDepth 100000 in
/-- The values 0, 0.5 and 1 are written as "0.000000", "0.500000" and "1.000000" and read
back unchanged. -/
theorem exampleLibrary_readsBack_mkInfo (name : List Byte) (locked withOpac : Bool) :
    LineReadsBack exampleLibrary exampleFprintfFloat id withOpac (mkInfo name locked) := by
  have h0 : ReadsBack exampleLibrary exampleFprintfFloat CFloat.zero CFloat.zero :=
    exampleLibrary_readsBack _ _ [48] [48, 48, 48, 48, 48, 48] (by decide) (by decide)
      (by decide) (by decide) (by decide)
  have h1 : ReadsBack exampleLibrary exampleFprintfFloat CFloat.one CFloat.one :=
    exampleLibrary_readsBack _ _ [49] [48, 48, 48, 48, 48, 48] (by decide) (by decide)
      (by decide) (by decide) (by decide)
  have h5 : ReadsBack exampleLibrary exampleFprintfFloat CFloat.half CFloat.half :=
    exampleLibrary_readsBack _ _ [48] [53, 48, 48, 48, 48, 48] (by decide) (by decide)
      (by decide) (by decide) (by decide)
  exact ⟨h1, h0, h0, fun _ => h5⟩

/-! ## Reconciliation against a self-export (C4, C5) -/

set_option maxRecDepth 1000000 in
/-- C4 as stated fails.  With duplicate names: the export of the live catalog
[background, A, A], read back, gives a catalog of four records, and the handler is told to
remap.  With a background record named like a tissue: for the catalog [A, A] (background
"A", tissue 1 "A") tissue 1 is remapped to the background id 0.  With a locked tissue: the
export of [background, A (locked)] gives "A" unlocked, a line has no lock flag.  With a name
that has a blank: the export of [background, "Brain stem"] gives the three records
background, "Brain stem" and "Brain"; with a name that has a zero byte, "A\0B", the three
records background, "A\0B" and "A"; with an empty name the export is rejected and the
catalog becomes the 83 default records; with a name of 100 bytes the name read overruns
`name` and there is no defined result.  With a value that six decimals do not hold: the
red value `1.0f / 255` is written as "0.003922" and read back as another value.  With
numbers that are not read back: written with a decimal comma and read with a decimal point,
the export is rejected and the catalog becomes the 83 default records. -/
theorem self_export_counterexample :
    ((reloadExport P16 exampleLibrary exampleFprintfFloat liveAA 5 noCalls 0).map
        (fun r => (r.infos.tissueInfosVector.length,
          r.handler3D.map_tissue_indices_calls.map (fun c => c.1)))
      = some (4, [[0, 3, 2]]) ∧
      liveAA.tissueInfosVector.length = 3) ∧
    (reloadExport P16 exampleLibrary exampleFprintfFloat liveBgA 5 noCalls 0).map
        (fun r => r.handler3D.map_tissue_indices_calls.map (fun c => c.1))
      = some [[0, 0]] ∧
    ((reloadExport P16 exampleLibrary exampleFprintfFloat liveA 5 noCalls 0).map
        (fun r => r.infos.tissueInfosVector) = some [bgInfo, mkInfo nameA false] ∧
      liveA.tissueInfosVector = [bgInfo, mkInfo nameA true]) ∧
    (reloadExport P16 exampleLibrary exampleFprintfFloat liveBrainStem 5 noCalls 0).map
        (fun r => r.infos.tissueInfosVector.map (fun t => t.name))
      = some [[], nameBrainStem, nameBrain] ∧
    (reloadExport P16 exampleLibrary exampleFprintfFloat liveZeroByte 5 noCalls 0).map
        (fun r => r.infos.tissueInfosVector.map (fun t => t.name))
      = some [[], [65, 0, 66], nameA] ∧
    (reloadExport P16 exampleLibrary exampleFprintfFloat liveUnnamed 5 noCalls 0).map
        (fun r => (r.returned, r.infos.tissueInfosVector.length)) = some (false, 83) ∧
    reloadExport P16 exampleLibrary exampleFprintfFloat liveLongName 5 noCalls 0 = none ∧
    ((reloadExport P16 exampleLibrary exampleFprintfFloat liveFaint 5 noCalls 0).map
        (fun r => r.infos.tissueInfosVector.map (fun t => t.color.r.bits))
      = some [0, 0x3B80841F] ∧
      liveFaint.tissueInfosVector.map (fun t => t.color.r.bits) = [0, 0x3B808081]) ∧
    (reloadExport P16 exampleLibrary commaFprintfFloat liveAB 5 noCalls 0).map
        (fun r => (r.returned, r.infos.tissueInfosVector.length)) = some (false, 83) := by
  refine ⟨⟨?_, ?_⟩, ?_, ⟨?_, ?_⟩, ?_, ?_, ?_, ?_, ⟨?_, ?_⟩, ?_⟩ <;> decide

/-- C4, amended. Take a live catalog with a consistent name index that fits the tissue id
type, whose records, background included, have pairwise distinct lower-cased names, whose
tissue names are read back by `%s` as written (not empty, no white space or zero byte,
shorter than 100 bytes), and whose colour and opacity texts are read back by `%f`.  Its
export by `SaveTissuesReadable`, read by `LoadTissuesReadable`, is parsed into one record
per tissue in the current order, the remap table is the identity, the handler is not
called, and the resulting catalog is the background followed by these records: each tissue
keeps its position and name, has the values read back from the text (the opacity 0.5 below
version 5) and is unlocked.  So the resulting catalog equals the original record for
record when every tissue is unlocked and has its values read back unchanged. -/
theorem self_export_identity (P : Platform) (lib : CLibrary)
    (fprintfFloat : CFloat → List Byte) (back : CFloat → CFloat) (st : TissueInfos)
    (handler3D : SlicesHandler) (removeTissuesRange version : Nat)
    (h2 : st.tissueInfosVector.length ≤ TISSUES_SIZE_MAX P)
    (h32 : TISSUES_SIZE_MAX P < 2 ^ 32) (hv : version < 65536)
    (hc : NameIndexConsistent P st)
    (hnd : (st.tissueInfosVector.map (fun t => str_tolower t.name)).Nodup)
    (hnames : ∀ t ∈ st.tissueInfosVector.tail, plainName t.name = true)
    (hfloat : ∀ t ∈ st.tissueInfosVector.tail,
      LineReadsBack lib fprintfFloat back (decide (5 ≤ version)) t) :
    ∃ content cand l r,
      SaveTissuesReadable P fprintfFloat st version = some content ∧
      parse P lib content = some (.candidate cand) ∧
      cand = st.tissueInfosVector.tail.map (readBackRecord back (decide (5 ≤ version))) ∧
      locals P st cand = some l ∧
      reloadExport P lib fprintfFloat st version handler3D removeTissuesRange = some r ∧
      r.returned = true ∧
      l.idxMap = List.range st.tissueInfosVector.length ∧
      r.handler3D = handler3D ∧
      r.infos.tissueInfosVector = st.tissueInfosVector.take 1 ++ cand ∧
      ((∀ t ∈ st.tissueInfosVector.tail,
          readBackRecord back (decide (5 ≤ version)) t = t) →
        r.infos.tissueInfosVector = st.tissueInfosVector) := by
  have h1 := consistent_length_pos P st hc
  have hndt : (st.tissueInfosVector.tail.map (fun t => str_tolower t.name)).Nodup :=
    List.Nodup.sublist ((List.tail_sublist _).map _) hnd
  obtain ⟨content, hsave, hparse, hre⟩ := reloadExport_eq P lib fprintfFloat back st version
    handler3D removeTissuesRange h1 h2 h32 hv hnames hfloat
  obtain ⟨l, r, hl, hr, hret, _, _, hvec, hid⟩ := reconcile_same_names P st handler3D
    (st.tissueInfosVector.tail.map (readBackRecord back (decide (5 ≤ version)))) h2 hc hndt
    (readBackRecord_names back _ _)
  obtain ⟨hidx, hhandler⟩ := hid hnd
  refine ⟨content, _, l, r, hsave, hparse, rfl, hl, by rw [hre, hr], hret, hidx, hhandler,
    hvec, ?_⟩
  intro hsame
  rw [hvec, List.map_congr_left hsame, List.map_id']
  cases hv : st.tissueInfosVector with
  | nil => rfl
  | cons bg rest => rfl

set_option maxRecDepth 1000000 in
/-- Instances of the amended C4 at version 5.  The export of the live catalog
[background, A (locked), B, C] is read back without a call of the handler as the catalog
[background, A, B, C] with "A" unlocked; the export of [background, A, B], where no tissue
is locked, is read back as the catalog itself. -/
theorem self_export_identity_witness :
    (liveABC.tissueInfosVector.length ≤ TISSUES_SIZE_MAX P16 ∧
      TISSUES_SIZE_MAX P16 < 2 ^ 32 ∧
      NameIndexConsistent P16 liveABC ∧
      (liveABC.tissueInfosVector.map (fun t => str_tolower t.name)).Nodup ∧
      (∀ t ∈ liveABC.tissueInfosVector.tail, plainName t.name = true) ∧
      ∃ r, reloadExport P16 exampleLibrary exampleFprintfFloat liveABC 5 noCalls 0 = some r ∧
        r.handler3D = noCalls ∧
        r.infos.tissueInfosVector
          = [bgInfo, mkInfo nameA false, mkInfo nameB false, mkInfo nameC false]) ∧
    (NameIndexConsistent P16 liveAB ∧
      ∃ r, reloadExport P16 exampleLibrary exampleFprintfFloat liveAB 5 noCalls 0 = some r ∧
        r.handler3D = noCalls ∧
        r.infos.tissueInfosVector = liveAB.tissueInfosVector) := by
  have hcons : NameIndexConsistent P16 liveABC := ⟨liveABC, by decide, fun _ => rfl⟩
  have hcons2 : NameIndexConsistent P16 liveAB := ⟨liveAB, by decide, fun _ => rfl⟩
  have hfloat : ∀ t ∈ liveABC.tissueInfosVector.tail,
      LineReadsBack exampleLibrary exampleFprintfFloat id (decide (5 ≤ 5)) t := by
    intro t ht
    have ht' : t = mkInfo nameA true ∨ t = mkInfo nameB false ∨ t = mkInfo nameC false := by
      have e : liveABC.tissueInfosVector.tail
          = [mkInfo nameA true, mkInfo nameB false, mkInfo nameC false] := by decide
      rw [e] at ht
      simpa using ht
    rcases ht' with rfl | rfl | rfl <;> exact exampleLibrary_readsBack_mkInfo _ _ _
  have hfloat2 : ∀ t ∈ liveAB.tissueInfosVector.tail,
      LineReadsBack exampleLibrary exampleFprintfFloat id (decide (5 ≤ 5)) t := by
    intro t ht
    have ht' : t = mkInfo nameA false ∨ t = mkInfo nameB false := by
      have e : liveAB.tissueInfosVector.tail = [mkInfo nameA false, mkInfo nameB false] := by
        decide
      rw [e] at ht
      simpa using ht
    rcases ht' with rfl | rfl <;> exact exampleLibrary_readsBack_mkInfo _ _ _
  obtain ⟨_, cand, _, r, _, _, hcand, _, hr, _, _, hh, hvec, _⟩ :=
    self_export_identity P16 exampleLibrary exampleFprintfFloat id liveABC noCalls 0 5
      (by decide) (by decide) (by decide) hcons (by decide) (by decide) hfloat
  obtain ⟨_, _, _, r2, _, _, _, _, hr2, _, _, hh2, _, hsame2⟩ :=
    self_export_identity P16 exampleLibrary exampleFprintfFloat id liveAB noCalls 0 5
      (by decide) (by decide) (by decide) hcons2 (by decide) (by decide) hfloat2
  refine ⟨⟨by decide, by decide, hcons, by decide, by decide, r, hr, hh, ?_⟩,
    hcons2, r2, hr2, hh2, hsame2 (by decide)⟩
  rw [hvec, hcand]
  decide

set_option maxRecDepth 1000000 in
/-- C5 as stated fails: for the export of the live catalog [background, A], read back, the
missing set is {0} (the background id is never erased), not empty, and `removeTissuesRange`
is 0, not -1 (which as a `tissues_size_t` is `TISSUES_SIZE_MAX`).  With duplicate names
(the catalog [background, A, A]), with a name that has a blank (the catalog
[background, "Brain stem"]) and with a name that has a zero byte ([background, "A\0B"]) it
is 1.  The export of [background, "Brain stem", "Fat"] is rejected after its first line:
the call returns false, leaves `removeTissuesRange` as the caller had it, and the catalog
is the 83 default records; so it is with an empty name, and with numbers written with a
decimal comma and read with a decimal point.  With a name of 100 bytes the name read
overruns `name` and there is no defined result. -/
theorem self_export_range_counterexample :
    ((reloadExport P16 exampleLibrary exampleFprintfFloat liveA 5 noCalls 7).map
        (fun r => (r.returned, r.removeTissuesRange)) = some (true, 0) ∧
      (locals P16 liveA [mkInfo nameA false]).map (fun l => l.missingTissues) = some [0] ∧
      (0 : Nat) ≠ TISSUES_SIZE_MAX P16) ∧
    (reloadExport P16 exampleLibrary exampleFprintfFloat liveAA 5 noCalls 7).map
        (fun r => (r.returned, r.removeTissuesRange)) = some (true, 1) ∧
    (reloadExport P16 exampleLibrary exampleFprintfFloat liveBrainStem 5 noCalls 7).map
        (fun r => (r.returned, r.removeTissuesRange)) = some (true, 1) ∧
    (reloadExport P16 exampleLibrary exampleFprintfFloat liveZeroByte 5 noCalls 7).map
        (fun r => (r.returned, r.removeTissuesRange)) = some (true, 1) ∧
    (reloadExport P16 exampleLibrary exampleFprintfFloat liveBrainStemFat 5 noCalls 7).map
        (fun r => (r.returned, r.removeTissuesRange, r.infos.tissueInfosVector.length))
      = some (false, 7, 83) ∧
    (reloadExport P16 exampleLibrary exampleFprintfFloat liveUnnamed 5 noCalls 7).map
        (fun r => (r.returned, r.removeTissuesRange)) = some (false, 7) ∧
    (reloadExport P16 exampleLibrary commaFprintfFloat liveAB 5 noCalls 7).map
        (fun r => (r.returned, r.removeTissuesRange)) = some (false, 7) ∧
    reloadExport P16 exampleLibrary exampleFprintfFloat liveLongName 5 noCalls 7 = none := by
  refine ⟨⟨?_, ?_, ?_⟩, ?_, ?_, ?_, ?_, ?_, ?_, ?_⟩ <;> decide

/-- C5, amended. Take a live catalog with a consistent name index that fits the tissue id
type, whose tissues have pairwise distinct lower-cased names that are read back by `%s` as
written (not empty, no white space or zero byte, shorter than 100 bytes), and whose colour
and opacity texts are read back by `%f`.  Reading its export by `SaveTissuesReadable` with
`LoadTissuesReadable` returns true with `removeTissuesRange = 0`: the missing set is
exactly {0}, the background id, so no tissue is carried over. -/
theorem self_export_range (P : Platform) (lib : CLibrary)
    (fprintfFloat : CFloat → List Byte) (back : CFloat → CFloat) (st : TissueInfos)
    (handler3D : SlicesHandler) (removeTissuesRange version : Nat)
    (h2 : st.tissueInfosVector.length ≤ TISSUES_SIZE_MAX P)
    (h32 : TISSUES_SIZE_MAX P < 2 ^ 32) (hv : version < 65536)
    (hc : NameIndexConsistent P st)
    (hnd : (st.tissueInfosVector.tail.map (fun t => str_tolower t.name)).Nodup)
    (hnames : ∀ t ∈ st.tissueInfosVector.tail, plainName t.name = true)
    (hfloat : ∀ t ∈ st.tissueInfosVector.tail,
      LineReadsBack lib fprintfFloat back (decide (5 ≤ version)) t) :
    ∃ content cand l r,
      SaveTissuesReadable P fprintfFloat st version = some content ∧
      parse P lib content = some (.candidate cand) ∧
      locals P st cand = some l ∧
      reloadExport P lib fprintfFloat st version handler3D removeTissuesRange = some r ∧
      r.returned = true ∧ l.missingTissues = [0] ∧ r.removeTissuesRange = 0 := by
  have h1 := consistent_length_pos P st hc
  obtain ⟨content, hsave, hparse, hre⟩ := reloadExport_eq P lib fprintfFloat back st version
    handler3D removeTissuesRange h1 h2 h32 hv hnames hfloat
  obtain ⟨l, r, hl, hr, hret, hmiss, hrange, _, _⟩ := reconcile_same_names P st handler3D
    (st.tissueInfosVector.tail.map (readBackRecord back (decide (5 ≤ version)))) h2 hc hnd
    (readBackRecord_names back _ _)
  exact ⟨content, _, l, r, hsave, hparse, hl, by rw [hre, hr], hret, hmiss, hrange⟩

set_option maxRecDepth 1000000 in
/-- Instances of the amended C5 at the live catalog [background, A (locked), B, C], for the
export at version 5 and for the export at version 4, whose lines have no opacity. -/
theorem self_export_range_witness :
    liveABC.tissueInfosVector.length ≤ TISSUES_SIZE_MAX P16 ∧
    TISSUES_SIZE_MAX P16 < 2 ^ 32 ∧
    NameIndexConsistent P16 liveABC ∧
    (liveABC.tissueInfosVector.tail.map (fun t => str_tolower t.name)).Nodup ∧
    (∀ t ∈ liveABC.tissueInfosVector.tail, plainName t.name = true) ∧
    (∃ r, reloadExport P16 exampleLibrary exampleFprintfFloat liveABC 5 noCalls 7 = some r ∧
      r.returned = true ∧ r.removeTissuesRange = 0) ∧
    (∃ r, reloadExport P16 exampleLibrary exampleFprintfFloat liveABC 4 noCalls 7 = some r ∧
      r.returned = true ∧ r.removeTissuesRange = 0) := by
  have hcons : NameIndexConsistent P16 liveABC := ⟨liveABC, by decide, fun _ => rfl⟩
  have hfloat : ∀ withOpac : Bool, ∀ t ∈ liveABC.tissueInfosVector.tail,
      LineReadsBack exampleLibrary exampleFprintfFloat id withOpac t := by
    intro withOpac t ht
    have ht' : t = mkInfo nameA true ∨ t = mkInfo nameB false ∨ t = mkInfo nameC false := by
      have e : liveABC.tissueInfosVector.tail
          = [mkInfo nameA true, mkInfo nameB false, mkInfo nameC false] := by decide
      rw [e] at ht
      simpa using ht
    rcases ht' with rfl | rfl | rfl <;> exact exampleLibrary_readsBack_mkInfo _ _ _
  obtain ⟨_, _, _, r, _, _, _, hr, hret, _, hrange⟩ :=
    self_export_range P16 exampleLibrary exampleFprintfFloat id liveABC noCalls 7 5
      (by decide) (by decide) (by decide) hcons (by decide) (by decide) (hfloat _)
  obtain ⟨_, _, _, r4, _, _, _, hr4, hret4, _, hrange4⟩ :=
    self_export_range P16 exampleLibrary exampleFprintfFloat id liveABC noCalls 7 4
      (by decide) (by decide) (by decide) hcons (by decide) (by decide) (hfloat _)
  exact ⟨by decide, by decide, hcons, by decide, by decide, ⟨r, hr, hret, hrange⟩,
    r4, hr4, hret4, hrange4⟩

end iseg
